import Mathlib

/-!
# BaikalDB: the fan-out executor (`FetcherNode`)

A shallow embedding of `src/exec/fetcher_node.cpp`.

* protobuf messages are structures, `repeated` fields are lists and `optional`
  scalars are `Option`s;
* `std::map` is a key-ordered association list, iterated from the head;
* C++ `int` / `int64_t` values are `Int`;
* the store is an oracle `net : Nat → Reply` asked once per attempt, and
  `butil::fast_rand` is an oracle `rand : Nat → Nat` asked once per draw; the
  world counts how often each has been asked;
* the objects a call reads and writes (`this`, `*state`, `*state->client_conn()`,
  the `SchemaFactory` singleton, the network) are threaded through as a `World`.
-/

namespace BaikalDB

/-! ## Messages -/

/-- The `pb::OpType` values a fetcher fragment can carry. -/
inductive OpType where
  | OP_SELECT
  | OP_INSERT
  | OP_UPDATE
  | OP_DELETE
  | OP_BEGIN
  | OP_PREPARE
  | OP_COMMIT
  | OP_ROLLBACK
  deriving DecidableEq, Repr

/-- The `pb::ErrCode` values of a `StoreRes`; `OTHER n` stands for every code
that `send_request` does not name. -/
inductive ErrCode where
  | SUCCESS
  | NOT_LEADER
  | TXN_FOLLOW_UP
  | VERSION_OLD
  | REGION_NOT_EXIST
  | INTERNAL_ERROR
  | OTHER (n : Nat)
  deriving DecidableEq, Repr

/-- The message `pb::RegionInfo`; keys are byte strings, endpoints are strings. -/
structure RegionInfo where
  region_id : Int
  table_id : Int
  version : Int
  start_key : List Nat
  end_key : List Nat
  leader : String
  peers : List String
  deriving DecidableEq, Repr

/-- The default instance of `pb::RegionInfo`, as created by `operator[]` on a
missing key of a `std::map<int64_t, pb::RegionInfo>`. -/
def RegionInfo.default : RegionInfo :=
  { region_id := 0, table_id := 0, version := 0, start_key := [], end_key := [],
    leader := "", peers := [] }

/-- The message `pb::TupleDescriptor`, reduced to the fields the executor reads. -/
structure TupleDescriptor where
  tuple_id : Int
  table_id : Int
  deriving DecidableEq, Repr

/-- The operator tree `_children[0]`: the encoded records of its INSERT node
(`none` when `get_node(pb::INSERT_NODE)` is `nullptr`) and the rest of the tree. -/
structure PlanTree where
  insert_records : Option (List String)
  shape : Nat
  deriving DecidableEq, Repr

/-- The result of `ExecNode::create_pb_plan`: the serialised operator tree. -/
def create_pb_plan (tree : PlanTree) : PlanTree := tree

/-- The message `pb::CachePlan`. -/
structure CachePlan where
  op_type : OpType
  seq_id : Int
  plan : PlanTree
  tuples : List TupleDescriptor
  deriving DecidableEq, Repr

/-- The message `pb::TransactionInfo`. -/
structure TransactionInfo where
  txn_id : Nat
  seq_id : Int
  autocommit : Bool
  need_rollback_seq : List Int
  start_seq_id : Int
  optimize_1pc : Bool
  cache_plans : List CachePlan
  deriving DecidableEq, Repr

/-- The message `pb::StoreReq`. -/
structure StoreReq where
  op_type : OpType
  region_id : Int
  region_version : Int
  log_id : Nat
  tuples : List TupleDescriptor
  txn_info : TransactionInfo
  plan : PlanTree
  select_without_leader : Bool
  deriving DecidableEq, Repr

/-- One row of a response: the encoded tuple values, by position. -/
abbrev RowValue := List String

/-- A decoded row: tuple id and encoded tuple bytes. -/
abbrev MemRow := List (Int × String)

/-- A batch of decoded rows, in order. -/
abbrev RowBatch := List MemRow

/-- The message `pb::StoreRes`. An absent `leader` reads as the empty string. -/
structure StoreRes where
  errcode : ErrCode
  leader : String
  last_seq_id : Option Int
  regions : List RegionInfo
  affected_rows : Int
  mysql_errcode : Option Int
  errmsg : String
  tuple_ids : List Int
  row_values : List RowValue
  deriving DecidableEq, Repr

/-- What one attempt meets: `channel.Init` fails, the call fails in transport
(`cntl.Failed()`), or the store answers. -/
inductive Reply where
  | init_failed
  | rpc_failed
  | response (res : StoreRes)
  deriving DecidableEq, Repr

/-! ## `std::map` and `std::set` -/

/-- Lookup, `m.find(k)`. -/
def map_find {κ α : Type} [DecidableEq κ] : List (κ × α) → κ → Option α
  | [], _ => none
  | (k1, v) :: rest, k => if k = k1 then some v else map_find rest k

/-- The keys of a map, in iteration order. -/
def map_keys {κ α : Type} (m : List (κ × α)) : List κ := m.map Prod.fst

/-- A new key is put at its place in the key order. -/
def map_put {κ α : Type} (lt : κ → κ → Bool) : List (κ × α) → κ → α → List (κ × α)
  | [], k, v => [(k, v)]
  | (k1, v1) :: rest, k, v =>
    if lt k k1 then (k, v) :: (k1, v1) :: rest
    else (k1, v1) :: map_put lt rest k v

/-- The value of an existing key is changed in place. -/
def map_modify {κ α : Type} [DecidableEq κ] (f : α → α) : List (κ × α) → κ → List (κ × α)
  | [], _ => []
  | (k1, v1) :: rest, k =>
    if k = k1 then (k1, f v1) :: rest
    else (k1, v1) :: map_modify f rest k

/-- Insertion `m.insert({k, v})`: an existing key keeps its value. -/
def map_insert {κ α : Type} [DecidableEq κ] (lt : κ → κ → Bool)
    (m : List (κ × α)) (k : κ) (v : α) : List (κ × α) :=
  if (map_find m k).isSome then m else map_put lt m k v

/-- In-place change `f(m[k])`: `operator[]` creates the entry from `dflt` when
the key is missing. -/
def map_update {κ α : Type} [DecidableEq κ] (lt : κ → κ → Bool) (dflt : α) (f : α → α)
    (m : List (κ × α)) (k : κ) : List (κ × α) :=
  if (map_find m k).isSome then map_modify f m k else map_put lt m k (f dflt)

/-- Assignment `m[k] = v`. -/
def map_assign {κ α : Type} [DecidableEq κ] (lt : κ → κ → Bool)
    (m : List (κ × α)) (k : κ) (v : α) : List (κ × α) :=
  map_update lt v (fun _ => v) m k

/-- Range insertion `m.insert(first, last)` of another map. -/
def map_insert_all {κ α : Type} [DecidableEq κ] (lt : κ → κ → Bool)
    (m : List (κ × α)) (src : List (κ × α)) : List (κ × α) :=
  src.foldl (fun acc kv => map_insert lt acc kv.1 kv.2) m

/-- Insertion into a `std::set`. -/
def set_insert {κ : Type} [DecidableEq κ] (lt : κ → κ → Bool) : List κ → κ → List κ
  | [], k => [k]
  | k1 :: rest, k =>
    if k = k1 then k1 :: rest
    else if lt k k1 then k :: k1 :: rest
    else k1 :: set_insert lt rest k

/-- The order of `int` / `int64_t` keys. -/
def int_lt (a b : Int) : Bool := decide (a < b)

/-- The order of `std::string` keys holding bytes. -/
def bytes_lt (a b : List Nat) : Bool := decide (a < b)

/-- The order of `std::string` keys holding endpoints. -/
def string_lt (a b : String) : Bool := bytes_lt (a.data.map Char.toNat) (b.data.map Char.toNat)

/-- Modelled from the spec: `end_key_compare` is declared outside this source
file; the spec fixes that an empty `end_key` is the sentinel for plus infinity
and that other keys compare as byte strings. -/
def end_key_compare (key1 key2 : List Nat) : Int :=
  if key1 = key2 then 0
  else if key1 = [] then 1
  else if key2 = [] then -1
  else if bytes_lt key1 key2 then -1
  else 1

/-! ## The objects a call works on -/

/-- The part of `NetworkSocket` (`state->client_conn()`) the executor uses.
`transaction_has_write` is the answer of the method of that name, whose body is
outside this source file. -/
structure NetworkSocket where
  cache_plans : List (Int × CachePlan)
  need_rollback_seq : List Int
  region_infos : List (Int × RegionInfo)
  transaction_has_write : Bool
  deriving DecidableEq, Repr

/-- The part of `RuntimeState` the executor uses. -/
structure RuntimeState where
  txn_id : Nat
  seq_id : Int
  log_id : Nat
  autocommit : Bool
  optimize_1pc : Bool
  error_code : Int
  error_msg : String
  tuple_descs : List TupleDescriptor
  deriving DecidableEq, Repr

/-- The members of `FetcherNode`. A `_region_batch` value is a
`std::shared_ptr<RowBatch>`, `none` being the null pointer. `expr_open` holds
the return values the `open()` of each `_slot_order_exprs` entry gives; `sorter`
holds the batches handed to `_sorter` by `add_batch`, in order. -/
structure FetcherNode where
  _op_type : OpType
  _error : Bool
  _affected_rows : Int
  _region_infos : List (Int × RegionInfo)
  _insert_region_ids : List (Int × List String)
  _start_key_sort : List (List Nat × Int)
  _region_batch : List (Int × Option RowBatch)
  child : PlanTree
  expr_open : List Int
  sorter : List RowBatch
  deriving DecidableEq, Repr

/-- One call of `StoreService_Stub::query`: where it went, what it carried and
the `retry_times` of the `send_request` call that issued it. -/
structure RpcRecord where
  addr : String
  req : StoreReq
  retry_times : Int
  deriving DecidableEq, Repr

/-- A call into the region directory (`SchemaFactory`). -/
inductive SchemaCall where
  | update_leader (info : RegionInfo)
  | update_regions (regions : List RegionInfo)
  deriving DecidableEq, Repr

/-- A region that has answered a SELECT with `SUCCESS`: the start key of the
region info the call was made with, the region id of the call and the rows of
the response, decoded in order (what lines 346-358 put into `_start_key_sort`
and `_region_batch`). -/
structure Answer where
  start_key : List Nat
  region_id : Int
  batch : RowBatch
  deriving DecidableEq, Repr

/-- Everything `send_request` and `open` read and write. `schema_calls`, `rpcs`
and `answered` record, in order, the calls made into the region directory, the
calls made to the stores and the answers deposited by lines 355-359; `net_calls`
and `rand_calls` count the attempts made and the random values drawn. -/
structure World where
  node : FetcherNode
  state : RuntimeState
  conn : NetworkSocket
  schema_calls : List SchemaCall
  rpcs : List RpcRecord
  answered : List Answer
  net_calls : Nat
  rand_calls : Nat
  deriving DecidableEq, Repr

/-- How a call ends: it returns an `int`, it divides by zero
(`fast_rand() % info.peers_size()` on an empty peer list), or the recursion
budget of the model is used up. -/
inductive Ret where
  | code (c : Int)
  | crash
  | out_of_fuel
  deriving DecidableEq, Repr

/-- The test `ret < 0` a caller makes; a call that does not return counts as
failed for the control flow of the caller. -/
def Ret.failed : Ret → Bool
  | Ret.code c => decide (c < 0)
  | Ret.crash => true
  | Ret.out_of_fuel => true

/-! ## `FetcherNode::send_request` -/

/-- One value has been taken from `butil::fast_rand`. -/
def count_draw (w : World) : World := { w with rand_calls := w.rand_calls + 1 }

/-- The lambda `rand_peer_func` (lines 73-76); `none` is the division by zero
of `fast_rand() % info.peers_size()` on an empty peer list. -/
def rand_peer_func (rand : Nat → Nat) (info : RegionInfo) (w : World) : Option (String × World) :=
  if info.peers.length = 0 then none
  else some (info.peers.getD (rand w.rand_calls % info.peers.length) "", count_draw w)

/-- The lambda `other_peer_to_leader_func` (lines 77-90). -/
def other_peer_to_leader_func (rand : Nat → Nat) (info : RegionInfo) (w : World) :
    Option (RegionInfo × World) :=
  match rand_peer_func rand info w with
  | none => none
  | some (peer, w1) =>
    if peer ≠ info.leader then some ({ info with leader := peer }, w1)
    else
      match info.peers.find? (fun p => decide (p ≠ info.leader)) with
      | some p => some ({ info with leader := p }, w1)
      | none => some (info, w1)

/-- Lines 98-101: an unknown leader is replaced by a random peer. -/
def choose_leader (rand : Nat → Nat) (info : RegionInfo) (w : World) :
    Option (RegionInfo × World) :=
  if info.leader = "0.0.0.0:0" ∨ info.leader = "" then
    match rand_peer_func rand info w with
    | none => none
    | some (peer, w1) => some ({ info with leader := peer }, w1)
  else some (info, w)

/-- Lines 117-124: the two assignments `start_seq_id = 1`. -/
def fix_start_seq_id (w : World) (start_seq_id : Int) : Int :=
  let s1 := if w.conn.cache_plans.length = 1 ∧ w.state.autocommit = false then 1 else start_seq_id
  if w.state.autocommit = true ∧ w.node._op_type = OpType.OP_PREPARE then 1 else s1

/-- Lines 134-143: whether the loop over `cache_plans` reaches `add_cache_plans`
for this entry (none of the three `continue`s is taken). -/
def replay_keeps (op : OpType) (seq_id table_id start_seq_id : Int) (pair : Int × CachePlan) : Bool :=
  if pair.1 < start_seq_id ∨ pair.1 ≥ seq_id then false
  else if op = OpType.OP_PREPARE ∧ pair.2.op_type = OpType.OP_PREPARE then false
  else
    match pair.2.tuples with
    | [] => true
    | t :: _ => if t.table_id ≠ table_id then false else true

/-- Lines 131-146: the cache plans appended to the request. -/
def replay_cache_plans (w : World) (info : RegionInfo) (start_seq_id : Int) : List CachePlan :=
  if start_seq_id ≥ 0 ∧ w.node._op_type ≠ OpType.OP_ROLLBACK ∧ w.node._op_type ≠ OpType.OP_COMMIT then
    (w.conn.cache_plans.filter
      (replay_keeps w.node._op_type w.state.seq_id info.table_id start_seq_id)).map Prod.snd
  else []

/-- Lines 110-146: the single `TransactionInfo` of the request; `start_seq_id`
is the value after the two assignments of lines 117-124. -/
def make_txn_info (w : World) (info : RegionInfo) (start_seq_id : Int) : TransactionInfo :=
  { txn_id := w.state.txn_id
    seq_id := w.state.seq_id
    autocommit := w.state.autocommit
    need_rollback_seq := w.conn.need_rollback_seq
    start_seq_id := start_seq_id
    optimize_1pc := w.state.optimize_1pc
    cache_plans := replay_cache_plans w info start_seq_id }

/-- Lines 147-153: save the region for a later commit or rollback. -/
def save_region_id (region_id : Int) (info : RegionInfo) (w : World) : World :=
  if (map_find w.conn.region_infos region_id).isSome then w
  else { w with conn := { w.conn with
           region_infos := map_put int_lt w.conn.region_infos region_id info } }

/-- The records of the INSERT node of `_children[0]` are replaced
(`clear_records` followed by `add_records` for each record). -/
def set_insert_records (recs : List String) (w : World) : World :=
  { w with node := { w.node with child := { w.node.child with insert_records := some recs } } }

/-- Lines 158-177: the INSERT node of the tree is made to carry the records of
this region; `none` is the `return -1` of line 168. -/
def rewrite_insert_records (records : Option (List String)) (w : World) : Option World :=
  if (w.node._op_type = OpType.OP_PREPARE ∧ w.state.autocommit = true)
      ∨ w.node._op_type = OpType.OP_INSERT then
    match w.node.child.insert_records with
    | none => if w.state.autocommit = false then none else some w
    | some _ =>
      match records with
      | none => some w
      | some recs => some (set_insert_records recs w)
  else some w

/-- Lines 102-116, 125-126, 178, 192: the request sent to the store. -/
def make_request (w : World) (info : RegionInfo) (region_id : Int) (log_id : Nat)
    (start_seq_id : Int) : StoreReq :=
  { op_type := w.node._op_type
    region_id := region_id
    region_version := info.version
    log_id := log_id
    tuples := w.state.tuple_descs
    txn_info := make_txn_info w info start_seq_id
    plan := create_pb_plan w.node.child
    select_without_leader := decide (w.node._op_type = OpType.OP_SELECT) }

/-- Lines 196-201: `channel.Init` has failed; the attempt is used up without a
call. -/
def count_attempt (w : World) : World := { w with net_calls := w.net_calls + 1 }

/-- Line 202: the call `query` is made; the world records it. -/
def issue_rpc (addr : String) (req : StoreReq) (retry_times : Int) (w : World) : World :=
  { w with rpcs := w.rpcs ++ [{ addr := addr, req := req, retry_times := retry_times }],
           net_calls := w.net_calls + 1 }

/-- The call `schema_factory->update_leader(info)`. -/
def schema_update_leader (info : RegionInfo) (w : World) : World :=
  { w with schema_calls := w.schema_calls ++ [SchemaCall.update_leader info] }

/-- The call `schema_factory->update_regions(regions)`. -/
def schema_update_regions (regions : List RegionInfo) (w : World) : World :=
  { w with schema_calls := w.schema_calls ++ [SchemaCall.update_regions regions] }

/-- The statement `client_conn->region_infos[region_id].set_leader(leader)`. -/
def conn_set_leader (region_id : Int) (leader : String) (w : World) : World :=
  { w with conn := { w.conn with
      region_infos := map_update int_lt RegionInfo.default
        (fun r => { r with leader := leader }) w.conn.region_infos region_id } }

/-- Lines 221-224 and 340-343: the leader now held by `info` is given to the
directory and written into the session entry of the region. -/
def adopt_leader (info : RegionInfo) (region_id : Int) (w : World) : World :=
  conn_set_leader region_id info.leader (schema_update_leader info w)

/-- The type of `send_request` after `this` and `state`: `info` is passed by
reference, so its final value is returned next to the result. -/
abbrev SendFn :=
  RegionInfo → Option (List String) → Int → Nat → Int → Int → World → Ret × RegionInfo × World

/-- Lines 216 and 232: `res.has_last_seq_id() ? res.last_seq_id() : 0`. -/
def last_seq_id_of (res : StoreRes) : Int :=
  match res.last_seq_id with
  | some l => l
  | none => 0

/-- Lines 215-230: the answer `NOT_LEADER`. The sum `last_seq_id + 1` of line
229 is the mathematical one; the source computes it in `int`, which gives the
same value unless `last_seq_id` is 2147483647, where the C++ sum overflows. -/
def on_not_leader (rand : Nat → Nat) (self : SendFn) (res : StoreRes) : SendFn :=
  fun info records region_id log_id retry_times _start_seq_id w =>
  let last_seq_id : Int := last_seq_id_of res
  if res.leader ≠ "0.0.0.0:0" then
    self { info with leader := res.leader } records region_id log_id (retry_times + 1)
      (last_seq_id + 1) (adopt_leader { info with leader := res.leader } region_id w)
  else
    match other_peer_to_leader_func rand info w with
    | none => (Ret.crash, info, w)
    | some (info1, w1) => self info1 records region_id log_id (retry_times + 1) (last_seq_id + 1) w1

/-- Lines 231-246: the answer `TXN_FOLLOW_UP`. The sum `last_seq_id + 1` of
line 245 is the mathematical one; the source computes it in `int`, which gives
the same value unless `last_seq_id` is 2147483647, where the C++ sum
overflows. -/
def on_txn_follow_up (self : SendFn) (res : StoreRes) : SendFn :=
  fun info records region_id log_id retry_times _start_seq_id w =>
  let last_seq_id : Int := last_seq_id_of res
  if w.node._op_type = OpType.OP_COMMIT then (Ret.code (-1), info, w)
  else if w.node._op_type = OpType.OP_ROLLBACK then (Ret.code 0, info, w)
  else self info records region_id log_id (retry_times + 1) (last_seq_id + 1) w

/-- Lines 254-264: the returned regions that are not beyond `info.end_key`. -/
def split_filter (info : RegionInfo) (regions : List RegionInfo) : List RegionInfo :=
  regions.filter (fun r => !decide (end_key_compare r.end_key info.end_key > 0))

/-- Lines 284-289: a new region of a split is stored in the session, unless
the fragment is a COMMIT. -/
def install_child (r : RegionInfo) (w : World) : World :=
  if w.node._op_type ≠ OpType.OP_COMMIT then
    { w with conn := { w.conn with
        region_infos := map_assign int_lt w.conn.region_infos r.region_id r } }
  else w

/-- Lines 297-306: the session entry of the split region takes the end key
and version of its narrowed copy, and its leader when that is known, unless the
fragment is a COMMIT. -/
def narrow_parent (region_id : Int) (r_copy : RegionInfo) (w : World) : World :=
  if w.node._op_type ≠ OpType.OP_COMMIT then
    { w with conn := { w.conn with
        region_infos := map_update int_lt RegionInfo.default
          (fun e =>
            let e1 := { e with end_key := r_copy.end_key, version := r_copy.version }
            if r_copy.leader ≠ "0.0.0.0:0" then { e1 with leader := r_copy.leader } else e1)
          w.conn.region_infos region_id } }
  else w

/-- Lines 265-275: the directory is told the kept regions, and a PREPARE of a
transaction that has written loses `optimize_1pc`. -/
def split_begin (regions : List RegionInfo) (w : World) : World :=
  let w1 := schema_update_regions regions w
  if w1.node._op_type = OpType.OP_PREPARE ∧ w1.conn.transaction_has_write = true then
    { w1 with state := { w1.state with optimize_1pc := false } }
  else w1

/-- Lines 278-308: the body of the loop over the kept regions, up to and
including the recursive call. -/
def split_step (self : SendFn) (res_leader : String) (records : Option (List String))
    (region_id : Int) (log_id : Nat) (retry_times start_seq_id : Int)
    (r : RegionInfo) (w : World) : Ret × World :=
  if r.region_id ≠ region_id then
    let out := self r records r.region_id log_id (retry_times + 1) 1 (install_child r w)
    (out.1, out.2.2)
  else
    let r_copy := if res_leader ≠ "0.0.0.0:0" then { r with leader := res_leader } else r
    let out := self r_copy records r_copy.region_id log_id (retry_times + 1) start_seq_id
      (narrow_parent region_id r_copy w)
    (out.1, out.2.2)

/-- Lines 277-315: the serial loop over the kept regions. -/
def split_loop (self : SendFn) (res_leader : String) (records : Option (List String))
    (region_id : Int) (log_id : Nat) (retry_times start_seq_id : Int) :
    List RegionInfo → World → Ret × World
  | [], w => (Ret.code 0, w)
  | r :: rest, w =>
    let out := split_step self res_leader records region_id log_id retry_times start_seq_id r w
    if out.1.failed then out
    else split_loop self res_leader records region_id log_id retry_times start_seq_id rest out.2

/-- Lines 248-318: the answer `VERSION_OLD`. -/
def on_version_old (self : SendFn) (res : StoreRes) : SendFn :=
  fun info records region_id log_id retry_times start_seq_id w =>
  if res.regions.length ≥ 2 then
    let regions := split_filter info res.regions
    let out := split_loop self res.leader records region_id log_id retry_times start_seq_id regions
      (split_begin regions w)
    (out.1, info, out.2)
  else (Ret.code (-1), info, w)

/-- Lines 319-325: the answers `REGION_NOT_EXIST` and `INTERNAL_ERROR`. -/
def on_region_not_exist (rand : Nat → Nat) (self : SendFn) : SendFn :=
  fun info records region_id log_id retry_times start_seq_id w =>
  match other_peer_to_leader_func rand info w with
  | none => (Ret.crash, info, w)
  | some (info1, w1) => self info1 records region_id log_id (retry_times + 1) start_seq_id w1

/-- Lines 330-331: the MySQL error of the store is copied onto the session
state. -/
def set_mysql_error (c : Int) (msg : String) (w : World) : World :=
  { w with state := { w.state with error_code := c, error_msg := msg } }

/-- Lines 326-334: every other answer that is not `SUCCESS`. -/
def on_other_error (res : StoreRes) (info : RegionInfo) (w : World) : Ret × RegionInfo × World :=
  match res.mysql_errcode with
  | some c => (Ret.code (-1), info, set_mysql_error c res.errmsg w)
  | none => (Ret.code (-1), info, w)

/-- Lines 346-354: the rows of the response, decoded in order. -/
def decode_rows (res : StoreRes) : RowBatch :=
  res.row_values.map (fun row => res.tuple_ids.zip row)

/-- Line 336: `_affected_rows += res.affected_rows()`. -/
def add_affected_rows (n : Int) (w : World) : World :=
  { w with node := { w.node with _affected_rows := w.node._affected_rows + n } }

/-- Lines 355-359: the batch of a region is deposited under its start key; the
world records the answer. -/
def deposit_batch (start_key : List Nat) (region_id : Int) (batch : RowBatch) (w : World) : World :=
  { w with
    node := { w.node with
      _start_key_sort := map_assign bytes_lt w.node._start_key_sort start_key region_id,
      _region_batch := map_assign int_lt w.node._region_batch region_id (some batch) },
    answered := w.answered ++
      [{ start_key := start_key, region_id := region_id, batch := batch }] }

/-- Lines 335-362: the answer `SUCCESS`. -/
def on_success (res : StoreRes) (info : RegionInfo) (region_id : Int) (w : World) :
    Ret × RegionInfo × World :=
  if w.node._op_type ≠ OpType.OP_SELECT then
    (Ret.code 0, info, add_affected_rows res.affected_rows w)
  else if res.leader ≠ "0.0.0.0:0" ∧ res.leader ≠ "" ∧ res.leader ≠ info.leader then
    (Ret.code 0, { info with leader := res.leader },
      deposit_batch info.start_key region_id (decode_rows res)
        (adopt_leader { info with leader := res.leader } region_id w))
  else
    (Ret.code 0, info, deposit_batch info.start_key region_id (decode_rows res) w)

/-- Lines 215-362: the response is dispatched on its `errcode`, in the order of
the source. -/
def handle_response (rand : Nat → Nat) (self : SendFn) (res : StoreRes) : SendFn :=
  fun info records region_id log_id retry_times start_seq_id w =>
  match res.errcode with
  | ErrCode.NOT_LEADER =>
    on_not_leader rand self res info records region_id log_id retry_times start_seq_id w
  | ErrCode.TXN_FOLLOW_UP =>
    on_txn_follow_up self res info records region_id log_id retry_times start_seq_id w
  | ErrCode.VERSION_OLD =>
    on_version_old self res info records region_id log_id retry_times start_seq_id w
  | ErrCode.REGION_NOT_EXIST =>
    on_region_not_exist rand self info records region_id log_id retry_times start_seq_id w
  | ErrCode.INTERNAL_ERROR =>
    on_region_not_exist rand self info records region_id log_id retry_times start_seq_id w
  | ErrCode.OTHER _ => on_other_error res info w
  | ErrCode.SUCCESS => on_success res info region_id w

/-- The body of `FetcherNode::send_request` (lines 60-363), with the recursive
calls going to `self`. -/
def send_request_body (net : Nat → Reply) (rand : Nat → Nat) (self : SendFn) : SendFn :=
  fun info records region_id log_id retry_times start_seq_id w =>
  if w.node._error = true then (Ret.code (-1), info, w)
  else if retry_times ≥ 5 then (Ret.code (-1), info, w)
  else
    match choose_leader rand info w with
    | none => (Ret.crash, info, w)
    | some (info1, w1) =>
      let s := fix_start_seq_id w1 start_seq_id
      let w2 := save_region_id region_id info1 w1
      match rewrite_insert_records records w2 with
      | none => (Ret.code (-1), info1, w2)
      | some w3 =>
        let req := make_request w3 info1 region_id log_id s
        let addr := info1.leader
        match net w3.net_calls with
        | Reply.init_failed => (Ret.code (-1), info1, count_attempt w3)
        | Reply.rpc_failed =>
          match other_peer_to_leader_func rand info1 (issue_rpc addr req retry_times w3) with
          | none => (Ret.crash, info1, issue_rpc addr req retry_times w3)
          | some (info2, w4) => self info2 records region_id log_id (retry_times + 1) s w4
        | Reply.response res =>
          handle_response rand self res info1 records region_id log_id retry_times s
            (issue_rpc addr req retry_times w3)

/-- The recursion of `send_request`, unfolded `fuel` levels deep. -/
def send_request_aux (net : Nat → Reply) (rand : Nat → Nat) : Nat → SendFn
  | 0 => fun info _ _ _ _ _ w => (Ret.out_of_fuel, info, w)
  | fuel + 1 => send_request_body net rand (send_request_aux net rand fuel)

/-- The function `FetcherNode::send_request`. Every recursive call raises
`retry_times` by one and a call with `retry_times >= 5` returns at once, so
`5 - retry_times` levels below the first are enough. -/
def send_request (net : Nat → Reply) (rand : Nat → Nat) : SendFn :=
  fun info records region_id log_id retry_times start_seq_id w =>
  send_request_aux net rand ((5 - retry_times).toNat + 1)
    info records region_id log_id retry_times start_seq_id w

/-! ## `FetcherNode::push_cmd_to_cache` and `FetcherNode::open` -/

/-- Lines 378-396 of `push_cmd_to_cache`: the INSERT node is made to carry the
records of every region; `none` is the `return -1` of line 385. -/
def cache_insert_records (w : World) : Option World :=
  if w.node._op_type = OpType.OP_INSERT then
    match w.node.child.insert_records with
    | none => if w.state.autocommit = false then none else some w
    | some _ =>
      some { w with node := { w.node with child := { w.node.child with
        insert_records := some ((w.node._insert_region_ids.map Prod.snd).flatten) } } }
  else some w

/-- The function `FetcherNode::push_cmd_to_cache` (lines 365-408). -/
def push_cmd_to_cache (w : World) : Int × World :=
  if w.state.txn_id = 0 then (0, w)
  else if w.node._op_type ≠ OpType.OP_INSERT ∧ w.node._op_type ≠ OpType.OP_DELETE
      ∧ w.node._op_type ≠ OpType.OP_UPDATE ∧ w.node._op_type ≠ OpType.OP_BEGIN then (0, w)
  else
    match cache_insert_records w with
    | none => (-1, w)
    | some w1 =>
      let plan_item : CachePlan :=
        { op_type := w1.node._op_type, seq_id := w1.state.seq_id,
          plan := create_pb_plan w1.node.child, tuples := w1.state.tuple_descs }
      (0, { w1 with conn := { w1.conn with
              cache_plans := map_insert int_lt w1.conn.cache_plans w1.state.seq_id plan_item } })

/-- Lines 452-455 of `open`: region ids grouped by leader endpoint. -/
def send_region_ids_map (region_infos : List (Int × RegionInfo)) : List (String × List Int) :=
  region_infos.foldl
    (fun m pair => map_update string_lt [] (fun ids => set_insert int_lt ids pair.1) m pair.2.leader)
    []

/-- Lines 488-512 of `open`: the request thread of one region. The reference
`info` points into `_region_infos`, so what `send_request` leaves in it is
stored back. A `send_request` that does not return ends `open` as well; a
negative result sets `_error`. The branch of lines 493-496 is never taken,
every dispatched id being a key of `_region_infos`; the model leaves the world
as it is there. -/
def dispatch_region (net : Nat → Reply) (rand : Nat → Nat) (region_id : Int) (w : World) :
    Option Ret × World :=
  match map_find w.node._region_infos region_id with
  | none => (none, w)
  | some info =>
    let records := map_find w.node._insert_region_ids region_id
    let out := send_request net rand info records region_id w.state.log_id 0 w.state.seq_id w
    let w1 := { out.2.2 with node := { out.2.2.node with
        _region_infos := map_assign int_lt out.2.2.node._region_infos region_id out.2.1 } }
    match out.1 with
    | Ret.code c =>
      if c < 0 then (none, { w1 with node := { w1.node with _error := true } }) else (none, w1)
    | Ret.crash => (some Ret.crash, w1)
    | Ret.out_of_fuel => (some Ret.out_of_fuel, w1)

/-- Lines 483-519 of `open`: the request threads, run one after the other in
the order of `send_region_ids_map` (by leader, then by region id). The result is
`some` when a `send_request` did not return. -/
def dispatch (net : Nat → Reply) (rand : Nat → Nat) : List Int → World → Option Ret × World
  | [], w => (none, w)
  | region_id :: rest, w =>
    match dispatch_region net rand region_id w with
    | (some r, w1) => (some r, w1)
    | (none, w1) => dispatch net rand rest w1

/-- Lines 533-536 of `open`: one round of the loop over `_start_key_sort`;
`operator[]` on `_region_batch` creates a null entry for a missing id, and a
batch that is neither null nor empty goes to the sorter. -/
def drain_step (acc : World) (pair : List Nat × Int) : World :=
  let acc1 := { acc with node := { acc.node with
    _region_batch := map_update int_lt none (fun b => b) acc.node._region_batch pair.2 } }
  match map_find acc1.node._region_batch pair.2 with
  | some (some batch) =>
    if batch.length ≠ 0 then
      { acc1 with node := { acc1.node with sorter := acc1.node.sorter ++ [batch] } }
    else acc1
  | _ => acc1

/-- Lines 531-540 of `open`: the batches are handed to the sorter in the order
of `_start_key_sort`. -/
def drain_batches (w : World) : World :=
  w.node._start_key_sort.foldl drain_step w

/-- A value of the C++ type `int` (32 bits, twos-complement): the result of
an `int` operation, or of a conversion to `int`, whose mathematical value is
`x`. -/
def wrap32 (x : Int) : Int := (x + 2147483648) % 4294967296 - 2147483648

/-- Lines 520-543 of `open`: what follows the barrier `store_cond.wait()`. The
function returns `int` (line 428), so the value of the atomic `_affected_rows`
(line 543) arrives reduced to 32 bits; the model keeps the exact sum in
`_affected_rows`, which the member holds modulo its own width. -/
def open_finish (w : World) : Ret × World :=
  if w.node._error = true then
    if w.node._op_type = OpType.OP_INSERT ∨ w.node._op_type = OpType.OP_DELETE
        ∨ w.node._op_type = OpType.OP_UPDATE then
      (Ret.code (-1), { w with conn := { w.conn with
        need_rollback_seq := set_insert int_lt w.conn.need_rollback_seq w.state.seq_id } })
    else (Ret.code (-1), w)
  else
    let w1 := if w.node._op_type = OpType.OP_SELECT then drain_batches w else w
    let w2 := (push_cmd_to_cache w1).2
    (Ret.code (wrap32 w2.node._affected_rows), w2)

/-- Lines 444-450 of `open`: a fresh sorter, and for a ROLLBACK, PREPARE or
COMMIT the regions of the session become the regions of the fragment. -/
def select_regions (w : World) : World :=
  let w1 := { w with node := { w.node with sorter := [] } }
  if w1.node._op_type = OpType.OP_ROLLBACK ∨ w1.node._op_type = OpType.OP_PREPARE
      ∨ w1.node._op_type = OpType.OP_COMMIT then
    { w1 with node := { w1.node with _region_infos := w1.conn.region_infos } }
  else w1

/-- The call `state->set_optimize_1pc(true)`. -/
def enable_optimize_1pc (w : World) : World :=
  { w with state := { w.state with optimize_1pc := true } }

/-- Lines 473-479 of `open`: a PREPARE for one region, or of a transaction that
has not written, degenerates to one phase. -/
def decide_1pc (w : World) : World :=
  if w.node._op_type = OpType.OP_PREPARE
      ∧ (((send_region_ids_map w.node._region_infos).length = 1
          ∧ ((send_region_ids_map w.node._region_infos).head?.map (fun g => g.2.length)) = some 1)
        ∨ w.conn.transaction_has_write = false) then
    enable_optimize_1pc w
  else w

/-- Line 482 of `open`: `_affected_rows = 0`. -/
def reset_affected_rows (w : World) : World :=
  { w with node := { w.node with _affected_rows := 0 } }

/-- Line 435 of `open`: `_error = false`. -/
def clear_error (w : World) : World := { w with node := { w.node with _error := false } }

/-- The function `FetcherNode::open` (lines 428-544). `client_conn_null` says
whether `state->client_conn()` is `nullptr`. -/
def FetcherNode.open (net : Nat → Reply) (rand : Nat → Nat) (client_conn_null : Bool) (w : World) :
    Ret × World :=
  if client_conn_null = true then (Ret.code (-1), w)
  else
    let w0 := clear_error w
    match w0.node.expr_open.find? (fun ret => decide (ret < 0)) with
    | some ret => (Ret.code ret, w0)
    | none =>
      let w2 := select_regions w0
      if (send_region_ids_map w2.node._region_infos).length = 0 then
        let w3 := (push_cmd_to_cache w2).2
        if w3.node._op_type = OpType.OP_PREPARE then (Ret.code 0, enable_optimize_1pc w3)
        else (Ret.code 0, w3)
      else if (w2.node._op_type = OpType.OP_INSERT ∨ w2.node._op_type = OpType.OP_UPDATE
          ∨ w2.node._op_type = OpType.OP_DELETE)
          ∧ w2.state.autocommit = true ∧ w2.state.txn_id ≠ 0 then
        let w3 := (push_cmd_to_cache w2).2
        (Ret.code 0, { w3 with conn := { w3.conn with
          region_infos := map_insert_all int_lt w3.conn.region_infos w3.node._region_infos } })
      else
        match dispatch net rand
            (((send_region_ids_map w2.node._region_infos).map Prod.snd).flatten)
            (reset_affected_rows (decide_1pc w2)) with
        | (some r, w5) => (r, w5)
        | (none, w5) => open_finish w5

/-! ## Proof vocabulary -/

/-- A reply that makes `send_request` enter the split branch: `VERSION_OLD`
with at least two regions. -/
def is_split : Reply → Bool
  | Reply.response res => decide (res.errcode = ErrCode.VERSION_OLD ∧ res.regions.length ≥ 2)
  | _ => false

/-- The elementary changes `send_request` makes to the world. The three
changes of the split branch are only available when `split_ok` holds. -/
inductive Step (split_ok : Bool) : World → World → Prop where
  | draw (w : World) : Step split_ok w (count_draw w)
  | save (region_id : Int) (info : RegionInfo) (w : World) :
      Step split_ok w (save_region_id region_id info w)
  | records (recs : List String) (w : World) : Step split_ok w (set_insert_records recs w)
  | attempt (w : World) : Step split_ok w (count_attempt w)
  | issue (addr : String) (req : StoreReq) (retry_times : Int) (w : World) :
      retry_times < 5 → Step split_ok w (issue_rpc addr req retry_times w)
  | adopt (info : RegionInfo) (region_id : Int) (w : World) :
      Step split_ok w (adopt_leader info region_id w)
  | begin_split (regions : List RegionInfo) (w : World) :
      split_ok = true → Step split_ok w (split_begin regions w)
  | child (r : RegionInfo) (w : World) :
      split_ok = true → Step split_ok w (install_child r w)
  | parent (region_id : Int) (r : RegionInfo) (w : World) :
      split_ok = true → Step split_ok w (narrow_parent region_id r w)
  | mysql (c : Int) (msg : String) (w : World) : Step split_ok w (set_mysql_error c msg w)
  | affected (n : Int) (w : World) :
      w.node._op_type ≠ OpType.OP_SELECT → Step split_ok w (add_affected_rows n w)
  | deposit (start_key : List Nat) (region_id : Int) (batch : RowBatch) (w : World) :
      w.node._op_type = OpType.OP_SELECT → Step split_ok w (deposit_batch start_key region_id batch w)

/-- A finite run of elementary changes. -/
abbrev Steps (split_ok : Bool) : World → World → Prop := Relation.ReflTransGen (Step split_ok)

/-- From the attempt numbered `n0` on, no reply is a split. -/
def no_split_from (net : Nat → Reply) (n0 : Nat) : Prop :=
  ∀ n, n0 ≤ n → is_split (net n) = false

/-- What the proofs ask of the function standing for the recursive call: its
effect on the world is a run of elementary changes, without those of the split
branch when no later reply is a split. -/
def SelfSteps (net : Nat → Reply) (split_ok : Bool) (self : SendFn) : Prop :=
  ∀ info records region_id log_id retry_times start_seq_id w,
    (split_ok = false → no_split_from net w.net_calls) →
    Steps split_ok w (self info records region_id log_id retry_times start_seq_id w).2.2

/-- The parts of the world that `send_request` only reads. -/
structure Static where
  op_type : OpType
  error : Bool
  node_region_infos : List (Int × RegionInfo)
  insert_region_ids : List (Int × List String)
  expr_open : List Int
  sorter : List RowBatch
  txn_id : Nat
  seq_id : Int
  log_id : Nat
  autocommit : Bool
  tuple_descs : List TupleDescriptor
  cache_plans : List (Int × CachePlan)
  need_rollback_seq : List Int
  transaction_has_write : Bool

/-- The read-only parts of a world. -/
def static_of (w : World) : Static :=
  { op_type := w.node._op_type
    error := w.node._error
    node_region_infos := w.node._region_infos
    insert_region_ids := w.node._insert_region_ids
    expr_open := w.node.expr_open
    sorter := w.node.sorter
    txn_id := w.state.txn_id
    seq_id := w.state.seq_id
    log_id := w.state.log_id
    autocommit := w.state.autocommit
    tuple_descs := w.state.tuple_descs
    cache_plans := w.conn.cache_plans
    need_rollback_seq := w.conn.need_rollback_seq
    transaction_has_write := w.conn.transaction_has_write }

/-! ## Concrete scenarios -/

/-- A region of table 1 with three peers. -/
def ex_region (id version : Int) (start_key end_key : List Nat) (leader : String) : RegionInfo :=
  { region_id := id, table_id := 1, version := version, start_key := start_key,
    end_key := end_key, leader := leader, peers := ["A", "B", "C"] }

/-- A response with the given code and nothing else. -/
def ex_res (errcode : ErrCode) : StoreRes :=
  { errcode := errcode, leader := "", last_seq_id := none, regions := [], affected_rows := 0,
    mysql_errcode := none, errmsg := "", tuple_ids := [], row_values := [] }

/-- A `VERSION_OLD` response carrying the regions of a split. -/
def ex_split_res (regions : List RegionInfo) : StoreRes :=
  { ex_res ErrCode.VERSION_OLD with leader := "0.0.0.0:0", regions := regions }

/-- The reply of a store that reports a split. -/
def ex_split (regions : List RegionInfo) : Reply := Reply.response (ex_split_res regions)

/-- A `SUCCESS` response with one affected row. -/
def ex_ok : Reply := Reply.response { ex_res ErrCode.SUCCESS with affected_rows := 1 }

/-- A cached statement of table 1. -/
def ex_plan (op : OpType) (seq_id : Int) : CachePlan :=
  { op_type := op, seq_id := seq_id, plan := { insert_records := none, shape := 0 },
    tuples := [{ tuple_id := 0, table_id := 1 }] }

/-- The session of transaction 1 at statement 3, after a BEGIN and an INSERT,
with the given op type for the fragment, autocommit flag and session regions. -/
def ex_world (op : OpType) (autocommit : Bool) (regions : List (Int × RegionInfo)) : World :=
  { node := { _op_type := op, _error := false, _affected_rows := 0, _region_infos := regions,
              _insert_region_ids := [], _start_key_sort := [], _region_batch := [],
              child := { insert_records := some [], shape := 0 }, expr_open := [], sorter := [] }
    state := { txn_id := 1, seq_id := 3, log_id := 0, autocommit := autocommit,
               optimize_1pc := false, error_code := 0, error_msg := "", tuple_descs := [] }
    conn := { cache_plans := [(1, ex_plan OpType.OP_BEGIN 1), (2, ex_plan OpType.OP_INSERT 2)],
              need_rollback_seq := [], region_infos := regions, transaction_has_write := true }
    schema_calls := [], rpcs := [], answered := [], net_calls := 0, rand_calls := 0 }

/-- Region 1 over the keys from 0 up to 9, led by A. -/
def ex_r1 : RegionInfo := ex_region 1 1 [0] [9] "A"

/-- A store that fails every call in transport. -/
def ex_net_failed : Nat → Reply := fun _ => Reply.rpc_failed

/-- A store where region 1 has split in two and each half has split again:
the first, second and fifth calls are told so, every other call succeeds. -/
def ex_net_splits : Nat → Reply := fun n =>
  if n = 0 then ex_split [ex_region 1 2 [0] [5] "A", ex_region 2 2 [5] [9] "B"]
  else if n = 1 then ex_split [ex_region 1 3 [0] [2] "A", ex_region 3 3 [2] [5] "C"]
  else if n = 4 then ex_split [ex_region 2 3 [5] [7] "B", ex_region 4 3 [7] [9] "C"]
  else ex_ok

/-! ## The cache-plan replay rule in the words of the specification -/

/-- A cached plan targets another table than `table_id`: it has a tuple
descriptor and the table of its first one differs. -/
def targets_other_table (table_id : Int) (plan : CachePlan) : Prop :=
  ∃ t, plan.tuples.head? = some t ∧ t.table_id ≠ table_id

instance (table_id : Int) (plan : CachePlan) : Decidable (targets_other_table table_id plan) := by
  unfold targets_other_table
  cases h : plan.tuples.head? with
  | none => exact isFalse (by simp)
  | some t =>
    by_cases ht : t.table_id = table_id
    · exact isFalse (by simp [ht])
    · exact isTrue ⟨t, rfl, ht⟩

/-- The entries the rule replays: those with `s <= sid < state.seq_id` that are
not a PREPARE while a PREPARE is issued and do not target another table. -/
def spec_replays (op : OpType) (seq_id table_id s : Int) (pair : Int × CachePlan) : Prop :=
  s ≤ pair.1 ∧ pair.1 < seq_id
    ∧ ¬ (pair.2.op_type = OpType.OP_PREPARE ∧ op = OpType.OP_PREPARE)
    ∧ ¬ targets_other_table table_id pair.2

instance (op : OpType) (seq_id table_id s : Int) (pair : Int × CachePlan) :
    Decidable (spec_replays op seq_id table_id s pair) := by
  unfold spec_replays; exact inferInstance

/-- The test of line 117, `cache_plans.size() == 1 && autocommit() == false`,
which the source comments as the next statement after begin. It reads the
number of cached plans only: it holds for the first statement after BEGIN and
for every later statement for which the BEGIN is still the only plan cached
(after statements that are not cached; see `follows_begin` for the statement
that comes first after BEGIN). -/
def first_statement_after_begin (w : World) : Prop :=
  w.conn.cache_plans.length = 1 ∧ w.state.autocommit = false

instance (w : World) : Decidable (first_statement_after_begin w) := by
  unfold first_statement_after_begin; exact inferInstance

/-- The test of line 121: a PREPARE issued for an autocommit statement. -/
def autocommit_prepare (w : World) : Prop :=
  w.state.autocommit = true ∧ w.node._op_type = OpType.OP_PREPARE

instance (w : World) : Decidable (autocommit_prepare w) := by
  unfold autocommit_prepare; exact inferInstance

/-- The effective `start_seq_id` in terms of the tests of lines 117 and 121: 1
when one of them holds, else the one passed in. -/
def spec_start_seq_id (w : World) (start_seq_id : Int) : Int :=
  if first_statement_after_begin w ∨ autocommit_prepare w then 1 else start_seq_id

/-- The list of the rule: empty when `s < 0` or the op is ROLLBACK or COMMIT,
else the replayed entries in the order of the map. -/
def spec_replay_list (w : World) (table_id s : Int) : List CachePlan :=
  if s < 0 ∨ w.node._op_type = OpType.OP_ROLLBACK ∨ w.node._op_type = OpType.OP_COMMIT then []
  else (w.conn.cache_plans.filter
    (fun pair => decide (spec_replays w.node._op_type w.state.seq_id table_id s pair))).map Prod.snd

/-- A store that answers every call with success. -/
def ex_net_ok : Nat → Reply := fun _ => ex_ok

/-- The call an UPDATE of statement 3 makes for region 1 when entered with
`start_seq_id = 2`: it replays the cached INSERT of statement 2. -/
def ex_update_call : RpcRecord :=
  { addr := "A"
    req := { op_type := OpType.OP_UPDATE, region_id := 1, region_version := 1, log_id := 0,
             tuples := [],
             txn_info := { txn_id := 1, seq_id := 3, autocommit := false, need_rollback_seq := [],
                           start_seq_id := 2, optimize_1pc := false,
                           cache_plans := [ex_plan OpType.OP_INSERT 2] },
             plan := { insert_records := some [], shape := 0 },
             select_without_leader := false }
    retry_times := 0 }

/-- A `NOT_LEADER` response naming a leader and the last statement seen. -/
def ex_not_leader (leader : String) (last_seq_id : Int) : Reply :=
  Reply.response { ex_res ErrCode.NOT_LEADER with leader := leader, last_seq_id := some last_seq_id }

/-- A store whose first answer is `NOT_LEADER` and which succeeds afterwards. -/
def ex_net_redirect (leader : String) (last_seq_id : Int) : Nat → Reply := fun n =>
  if n = 0 then ex_not_leader leader last_seq_id else ex_ok

/-- The second call of an UPDATE of statement 3 for region 1, after
`NOT_LEADER` with leader B and `last_seq_id = 1`. -/
def ex_update_resend : RpcRecord :=
  { addr := "B"
    req := { ex_update_call.req with
             txn_info := { ex_update_call.req.txn_info with start_seq_id := 2 } }
    retry_times := 1 }

/-- The fragment has the INSERT node it needs: the `return -1` of line 168
(an INSERT outside autocommit whose tree has no INSERT node) is not taken. -/
def has_needed_insert_node (w : World) : Prop :=
  w.node._op_type = OpType.OP_INSERT → w.state.autocommit = false →
    w.node.child.insert_records ≠ none

/-- An autocommit transaction at its PREPARE (statement 3), with one session
region. -/
def ex_world_prepare : World := ex_world OpType.OP_PREPARE true [(1, ex_r1)]

/-- A store where region 1 has split in two: the first call is told so, every
later call succeeds. -/
def ex_net_split_once : Nat → Reply := fun n =>
  if n = 0 then ex_split [ex_region 1 2 [0] [5] "A", ex_region 2 2 [5] [9] "B"]
  else ex_ok

/-- The session has an entry for region `k` with this end key and version. -/
def session_entry_has (w : World) (k : Int) (end_key : List Nat) (version : Int) : Prop :=
  ∃ e, map_find w.conn.region_infos k = some e ∧ e.end_key = end_key ∧ e.version = version

/-- A store where region 1 has split in two and the answer also names a region
beyond the range of region 1. -/
def ex_net_split_beyond : Nat → Reply := fun n =>
  if n = 0 then ex_split [ex_region 1 2 [0] [5] "A", ex_region 2 2 [5] [9] "B",
    ex_region 7 1 [9] [12] "C"]
  else ex_ok

/-- A store where region 1 has split in two and the narrowed region 1 then
answers with an error that is not retried. -/
def ex_net_split_then_error : Nat → Reply := fun n =>
  if n = 0 then ex_split [ex_region 1 2 [0] [5] "A", ex_region 2 2 [5] [9] "B"]
  else Reply.response (ex_res (ErrCode.OTHER 0))

/-- The number of splits handled so far: the calls of `update_regions`. -/
def splits_seen (w : World) : Nat :=
  (w.schema_calls.filter (fun c =>
    match c with
    | SchemaCall.update_regions _ => true
    | SchemaCall.update_leader _ => false)).length

/-- The parts of the session that neither `send_request` nor the dispatch of
`open` writes. -/
structure SessionStatic where
  op_type : OpType
  txn_id : Nat
  seq_id : Int
  autocommit : Bool
  cache_plans : List (Int × CachePlan)
  need_rollback_seq : List Int
  transaction_has_write : Bool

/-- The session parts of a world that a dispatch only reads. -/
def session_static_of (w : World) : SessionStatic :=
  { op_type := w.node._op_type
    txn_id := w.state.txn_id
    seq_id := w.state.seq_id
    autocommit := w.state.autocommit
    cache_plans := w.conn.cache_plans
    need_rollback_seq := w.conn.need_rollback_seq
    transaction_has_write := w.conn.transaction_has_write }

/-- How `optimize_1pc` moves between two worlds of one PREPARE: it is cleared
when a split was handled in between and the transaction has written, and is
kept otherwise. -/
def one_pc_follows (w w1 : World) : Prop :=
  splits_seen w ≤ splits_seen w1
  ∧ w1.state.optimize_1pc
      = (if w.node._op_type = OpType.OP_PREPARE ∧ w.conn.transaction_has_write = true
            ∧ splits_seen w < splits_seen w1 then false
         else w.state.optimize_1pc)

/-- The regions a fragment is sent to (lines 448-450): those of the session
for a ROLLBACK, PREPARE or COMMIT, else those of the planner. -/
def target_regions (w : World) : List (Int × RegionInfo) :=
  if w.node._op_type = OpType.OP_ROLLBACK ∨ w.node._op_type = OpType.OP_PREPARE
      ∨ w.node._op_type = OpType.OP_COMMIT then w.conn.region_infos
  else w.node._region_infos

/-- An autocommit-free transaction that has only read so far, at its PREPARE:
no plan but the BEGIN is cached and the session holds region 1. -/
def ex_world_read_only : World :=
  { ex_world OpType.OP_PREPARE false [(1, ex_r1)] with
    conn := { cache_plans := [(1, ex_plan OpType.OP_BEGIN 1)], need_rollback_seq := [],
              region_infos := [(1, ex_r1)], transaction_has_write := false } }

/-- A PREPARE over two session regions of a transaction that has written,
entered with `optimize_1pc` already set. -/
def ex_world_two_regions : World :=
  { ex_world OpType.OP_PREPARE false [(1, ex_region 1 1 [0] [5] "A"), (2, ex_region 2 1 [5] [9] "B")]
    with state := { txn_id := 1, seq_id := 3, log_id := 0, autocommit := false,
                    optimize_1pc := true, error_code := 0, error_msg := "", tuple_descs := [] } }

/-- A store that answers every call with an error that is not retried. -/
def ex_net_error : Nat → Reply := fun _ => Reply.response (ex_res (ErrCode.OTHER 0))

/-! ## Further scenarios for `send_request` -/

instance (w : World) : Decidable (has_needed_insert_node w) := by
  unfold has_needed_insert_node; exact inferInstance

/-- A store whose first answer is `VERSION_OLD` without regions but with a MySQL
error code and message. -/
def ex_net_version_old_bare : Nat → Reply := fun n =>
  if n = 0 then Reply.response
    { ex_res ErrCode.VERSION_OLD with mysql_errcode := some 1062, errmsg := "dup" }
  else ex_ok

/-- A store whose first answer is an error that `send_request` does not name,
with a MySQL error code and message. -/
def ex_net_mysql_error : Nat → Reply := fun n =>
  if n = 0 then Reply.response
    { ex_res (ErrCode.OTHER 9) with mysql_errcode := some 1062, errmsg := "dup" }
  else ex_ok

/-- A store whose first answer is `TXN_FOLLOW_UP` and which succeeds afterwards. -/
def ex_net_follow_up (last_seq_id : Option Int) : Nat → Reply := fun n =>
  if n = 0 then Reply.response { ex_res ErrCode.TXN_FOLLOW_UP with last_seq_id := last_seq_id }
  else ex_ok

/-! ## `FetcherNode::get_next` -/

/-- The members of `FetcherNode` that `get_next` reads and writes: the limit
and the running total of returned rows (both inherited from `ExecNode`) and the
sorter, whose class is outside this source file and whose state is of type `σ`. -/
structure Cursor (σ : Type) where
  _limit : Int
  _num_rows_returned : Int
  _sorter : σ

/-- What a call `_sorter->get_next(batch, eos)` leaves: its return value, the
batch and the flag `*eos` after the call, and the sorter. -/
structure SorterOut (σ : Type) where
  ret : Int
  batch : RowBatch
  eos : Bool
  sorter : σ

/-- What a call of `FetcherNode::get_next` leaves: its return value, the node,
the batch and the flag `*eos`. -/
structure GetNextOut (σ : Type) where
  ret : Int
  cursor : Cursor σ
  batch : RowBatch
  eos : Bool

/-- Modelled from the spec: `ExecNode::reached_limit` is declared outside this
source file; the spec fixes that the ceiling is met once the running total
reaches the limit. -/
def reached_limit {σ : Type} (c : Cursor σ) : Bool := decide (c._limit ≤ c._num_rows_returned)

/-- The function `FetcherNode::get_next` (lines 546-565). `sorter_get_next` is
`Sorter::get_next`; `batch` and `eos` are the values behind the two pointers
when the call is entered. -/
def FetcherNode.get_next {σ : Type} (sorter_get_next : σ → RowBatch → Bool → SorterOut σ)
    (c : Cursor σ) (batch : RowBatch) (eos : Bool) : GetNextOut σ :=
  if reached_limit c = true then { ret := 0, cursor := c, batch := batch, eos := true }
  else
    let s := sorter_get_next c._sorter batch eos
    let c1 : Cursor σ := { c with _sorter := s.sorter }
    if s.ret < 0 then { ret := s.ret, cursor := c1, batch := s.batch, eos := s.eos }
    else
      let c2 : Cursor σ := { c1 with _num_rows_returned := c1._num_rows_returned + s.batch.length }
      if reached_limit c2 = true then
        { ret := 0, cursor := { c2 with _num_rows_returned := c2._limit }, batch := s.batch,
          eos := true }
      else { ret := 0, cursor := c2, batch := s.batch, eos := s.eos }

/-- A sorter holding the rows still to come, which hands all of them over in
one batch. -/
def ex_sorter_all : List MemRow → RowBatch → Bool → SorterOut (List MemRow) :=
  fun rows batch _ => { ret := 0, batch := batch ++ rows, eos := true, sorter := [] }

/-- A sorter holding the rows still to come, which hands over two rows per
call. -/
def ex_sorter_two : List MemRow → RowBatch → Bool → SorterOut (List MemRow) :=
  fun rows batch _ =>
    { ret := 0, batch := batch ++ rows.take 2, eos := decide (rows.length ≤ 2),
      sorter := rows.drop 2 }

/-- Ten rows. -/
def ex_rows : List MemRow := List.replicate 10 [(0, "r")]

/-! ## `MetaStateMachine` (`src/meta_server/meta_state_machine.cpp`)

The manager singletons (`ClusterManager`, `PrivilegeManager`, `SchemaManager`,
`RegionManager`), `RocksWrapper`, the base class `CommonStateMachine` and the
braft node are outside this source file. The state of the managers is a value
of a type `μ`, the storage a value of a type `σ`, and their methods are taken as
functions; every call of a manager method is also recorded, in order. -/

/-- The request `pb::StoreHeartBeatRequest`. -/
structure StoreHeartBeatRequest where
  instance_info : String
  body : Nat
  deriving DecidableEq, Repr

/-- The request `pb::BaikalHeartBeatRequest`. -/
structure BaikalHeartBeatRequest where
  body : Nat
  deriving DecidableEq, Repr

/-- The fields the two heartbeat responses (`pb::StoreHeartBeatResponse`,
`pb::BaikalHeartBeatResponse`) share, and what the managers add. -/
structure HeartBeatResponse where
  errcode : ErrCode
  errmsg : String
  leader : String
  payload : List String
  deriving DecidableEq, Repr

/-- The manager methods called by the functions of this file. -/
inductive ManagerCall where
  | cluster_process_instance_heartbeat_for_store
  | cluster_process_peer_heartbeat_for_store
  | schema_process_schema_heartbeat_for_store
  | schema_process_peer_heartbeat_for_store
  | schema_process_leader_heartbeat_for_store
  | cluster_process_baikal_heartbeat
  | privilege_process_baikal_heartbeat
  | schema_process_baikal_heartbeat
  | cluster_reset_instance_status
  | region_reset_region_status
  | cluster_load_snapshot
  | privilege_load_snapshot
  | schema_load_snapshot
  deriving DecidableEq, Repr

/-- The heartbeat methods of the managers, as functions on the response they
are handed and on the state of the managers. -/
structure HeartBeatManagers (μ : Type) where
  cluster_process_instance_heartbeat_for_store : String → μ → μ
  cluster_process_peer_heartbeat_for_store :
    StoreHeartBeatRequest → HeartBeatResponse → μ → HeartBeatResponse × μ
  schema_process_schema_heartbeat_for_store :
    StoreHeartBeatRequest → HeartBeatResponse → μ → HeartBeatResponse × μ
  schema_process_peer_heartbeat_for_store :
    StoreHeartBeatRequest → HeartBeatResponse → Nat → μ → HeartBeatResponse × μ
  schema_process_leader_heartbeat_for_store :
    StoreHeartBeatRequest → HeartBeatResponse → Nat → μ → HeartBeatResponse × μ
  cluster_process_baikal_heartbeat :
    BaikalHeartBeatRequest → HeartBeatResponse → μ → HeartBeatResponse × μ
  privilege_process_baikal_heartbeat :
    BaikalHeartBeatRequest → HeartBeatResponse → μ → HeartBeatResponse × μ
  schema_process_baikal_heartbeat :
    BaikalHeartBeatRequest → HeartBeatResponse → Nat → μ → HeartBeatResponse × μ

/-- The members of `MetaStateMachine` and what it reads from its braft node:
`node_is_leader` is `_node.is_leader()`, `node_leader_id` is
`_node.leader_id().to_string()`. `managers` is the state of the manager
singletons and `calls` the manager methods called so far. -/
structure MetaStateMachine (μ : Type) where
  _is_leader : Bool
  node_is_leader : Bool
  node_leader_id : String
  _leader_start_timestmap : Int
  _healthy_check_start : Bool
  _load_balance : Bool
  _unsafe_decision : Bool
  managers : μ
  calls : List ManagerCall

/-- Lines 46-49 and 97-100: `cntl->has_log_id() ? cntl->log_id() : 0`. -/
def log_id_of (cntl_log_id : Option Nat) : Nat :=
  match cntl_log_id with
  | some l => l
  | none => 0

/-- Lines 50-56 and 101-107: the answer of a node that is not the leader. -/
def not_leader_response {μ : Type} (sm : MetaStateMachine μ) (response : HeartBeatResponse) :
    HeartBeatResponse :=
  { response with errcode := ErrCode.NOT_LEADER, errmsg := "not leader",
                  leader := sm.node_leader_id }

/-- The function `MetaStateMachine::store_heartbeat` (lines 38-87); `response`
is the message behind the pointer when the call is entered. -/
def MetaStateMachine.store_heartbeat {μ : Type} (M : HeartBeatManagers μ)
    (cntl_log_id : Option Nat) (request : StoreHeartBeatRequest) (response : HeartBeatResponse)
    (sm : MetaStateMachine μ) : HeartBeatResponse × MetaStateMachine μ :=
  let log_id := log_id_of cntl_log_id
  if sm._is_leader = false then (not_leader_response sm response, sm)
  else
    let r0 : HeartBeatResponse := { response with errcode := ErrCode.SUCCESS, errmsg := "success" }
    let m1 := M.cluster_process_instance_heartbeat_for_store request.instance_info sm.managers
    let o2 := M.cluster_process_peer_heartbeat_for_store request r0 m1
    let o3 := M.schema_process_schema_heartbeat_for_store request o2.1 o2.2
    let o4 := M.schema_process_peer_heartbeat_for_store request o3.1 log_id o3.2
    let o5 := M.schema_process_leader_heartbeat_for_store request o4.1 log_id o4.2
    (o5.1, { sm with
      managers := o5.2,
      calls := sm.calls ++
        [ManagerCall.cluster_process_instance_heartbeat_for_store,
         ManagerCall.cluster_process_peer_heartbeat_for_store,
         ManagerCall.schema_process_schema_heartbeat_for_store,
         ManagerCall.schema_process_peer_heartbeat_for_store,
         ManagerCall.schema_process_leader_heartbeat_for_store] })

/-- The function `MetaStateMachine::baikal_heartbeat` (lines 89-118). -/
def MetaStateMachine.baikal_heartbeat {μ : Type} (M : HeartBeatManagers μ)
    (cntl_log_id : Option Nat) (request : BaikalHeartBeatRequest) (response : HeartBeatResponse)
    (sm : MetaStateMachine μ) : HeartBeatResponse × MetaStateMachine μ :=
  let log_id := log_id_of cntl_log_id
  if sm._is_leader = false then (not_leader_response sm response, sm)
  else
    let r0 : HeartBeatResponse := { response with errcode := ErrCode.SUCCESS, errmsg := "success" }
    let o1 := M.cluster_process_baikal_heartbeat request r0 sm.managers
    let o2 := M.privilege_process_baikal_heartbeat request o1.1 o1.2
    let o3 := M.schema_process_baikal_heartbeat request o2.1 log_id o2.2
    (o3.1, { sm with
      managers := o3.2,
      calls := sm.calls ++
        [ManagerCall.cluster_process_baikal_heartbeat,
         ManagerCall.privilege_process_baikal_heartbeat,
         ManagerCall.schema_process_baikal_heartbeat] })

/-- The function `MetaStateMachine::on_leader_stop` (lines 442-453).
`common_on_leader_stop` is `CommonStateMachine::on_leader_stop`; joining the
health-check thread leaves no trace in the state. -/
def MetaStateMachine.on_leader_stop {μ : Type}
    (common_on_leader_stop : MetaStateMachine μ → MetaStateMachine μ) (sm : MetaStateMachine μ) :
    MetaStateMachine μ :=
  let sm1 := { sm with _is_leader := false, _load_balance := false, _unsafe_decision := false }
  let sm2 := if sm1._healthy_check_start = true then { sm1 with _healthy_check_start := false }
             else sm1
  common_on_leader_stop sm2

/-- The function `MetaStateMachine::on_leader_start` (lines 401-416). `now` is
the value of `butil::gettimeofday_us()`, `common_on_leader_start` is
`CommonStateMachine::on_leader_start`, and the two reset methods of the
managers are taken as functions; the health-check thread itself is not
modelled. -/
def MetaStateMachine.on_leader_start {μ : Type}
    (cluster_reset_instance_status region_reset_region_status : μ → μ)
    (common_on_leader_start : MetaStateMachine μ → MetaStateMachine μ) (now : Int)
    (sm : MetaStateMachine μ) : MetaStateMachine μ :=
  let sm1 := { sm with
    managers := region_reset_region_status (cluster_reset_instance_status sm.managers),
    calls := sm.calls ++ [ManagerCall.cluster_reset_instance_status,
                          ManagerCall.region_reset_region_status],
    _leader_start_timestmap := now }
  let sm2 := if sm1._healthy_check_start = false then { sm1 with _healthy_check_start := true }
             else sm1
  { common_on_leader_start sm2 with _is_leader := true }

/-- The function `MetaStateMachine::whether_can_decide` (lines 455-459). The two
flags are `int` (`DECLARE_int32`), so `2 * FLAGS_balance_periodicity *
FLAGS_store_heart_beat_interval_us` is computed in `int`, from left to right,
before it is compared with the `int64_t` difference of the timestamps; `now` is
the value of `butil::gettimeofday_us()`. -/
def MetaStateMachine.whether_can_decide {μ : Type}
    (FLAGS_balance_periodicity FLAGS_store_heart_beat_interval_us : Int) (now : Int)
    (sm : MetaStateMachine μ) : Bool :=
  sm.node_is_leader &&
    decide (now - sm._leader_start_timestmap >
      wrap32 (wrap32 (2 * FLAGS_balance_periodicity) * FLAGS_store_heart_beat_interval_us))

/-- What `on_snapshot_load` does to the world outside the state machine, in
order. -/
inductive SnapshotAction where
  | remove_range (start_key end_key : String)
  | ingest_external_file (path : String)
  | load_snapshot (m : ManagerCall)
  deriving DecidableEq, Repr

/-- The two `RocksWrapper` methods `on_snapshot_load` calls, as functions on
the storage; the flag is `status.ok()`. -/
structure RocksOps (σ : Type) where
  remove_range : String → String → σ → Bool × σ
  ingest_external_file : String → σ → Bool × σ

/-- The `load_snapshot` methods of the three managers: they rebuild the state
of the manager from the storage. -/
structure SnapshotManagers (σ μ : Type) where
  cluster_load_snapshot : σ → μ → μ
  privilege_load_snapshot : σ → μ → μ
  schema_load_snapshot : σ → μ → μ

/-- The storage, the state of the managers and the record of what has been
done. -/
structure SnapshotWorld (σ μ : Type) where
  storage : σ
  managers : μ
  actions : List SnapshotAction

/-- The part of `braft::SnapshotReader` that is used: `list_files` and
`get_path`. -/
structure SnapshotReader where
  files : List String
  path : String
  deriving DecidableEq, Repr

/-- Lines 374-397 of `on_snapshot_load`: the loop over the files of the
snapshot. -/
def load_snapshot_files {σ μ : Type} (R : RocksOps σ) (Mg : SnapshotManagers σ μ)
    (path : String) : List String → SnapshotWorld σ μ → Int × SnapshotWorld σ μ
  | [], w => (0, w)
  | file :: rest, w =>
    if file = "/meta_info.sst" then
      let snapshot_path := path ++ "/meta_info.sst"
      let res := R.ingest_external_file snapshot_path w.storage
      let w1 : SnapshotWorld σ μ :=
        { w with storage := res.2,
                 actions := w.actions ++ [SnapshotAction.ingest_external_file snapshot_path] }
      if res.1 = false then (-1, w1)
      else
        let w2 : SnapshotWorld σ μ :=
          { w1 with
            managers := Mg.schema_load_snapshot w1.storage
              (Mg.privilege_load_snapshot w1.storage
                (Mg.cluster_load_snapshot w1.storage w1.managers)),
            actions := w1.actions ++
              [SnapshotAction.load_snapshot ManagerCall.cluster_load_snapshot,
               SnapshotAction.load_snapshot ManagerCall.privilege_load_snapshot,
               SnapshotAction.load_snapshot ManagerCall.schema_load_snapshot] }
        load_snapshot_files R Mg path rest w2
    else load_snapshot_files R Mg path rest w

/-- The function `MetaStateMachine::on_snapshot_load` (lines 346-399).
`CLUSTER_IDENTIFY` and `MAX_IDENTIFY` are the constants of `MetaServer`,
declared outside this source file. The loop of lines 367-371 only writes to
the log. -/
def MetaStateMachine.on_snapshot_load {σ μ : Type} (R : RocksOps σ) (Mg : SnapshotManagers σ μ)
    (CLUSTER_IDENTIFY MAX_IDENTIFY : String) (reader : SnapshotReader)
    (w : SnapshotWorld σ μ) : Int × SnapshotWorld σ μ :=
  let status := R.remove_range CLUSTER_IDENTIFY MAX_IDENTIFY w.storage
  let w1 : SnapshotWorld σ μ :=
    { w with storage := status.2,
             actions := w.actions ++ [SnapshotAction.remove_range CLUSTER_IDENTIFY MAX_IDENTIFY] }
  if status.1 = false then (-1, w1)
  else load_snapshot_files R Mg reader.path reader.files w1

/-- No heartbeat method of the managers changes the `errcode` of the response
it is handed. -/
def keeps_errcode {μ : Type} (M : HeartBeatManagers μ) : Prop :=
  (∀ req r m, (M.cluster_process_peer_heartbeat_for_store req r m).1.errcode = r.errcode)
  ∧ (∀ req r m, (M.schema_process_schema_heartbeat_for_store req r m).1.errcode = r.errcode)
  ∧ (∀ req r l m, (M.schema_process_peer_heartbeat_for_store req r l m).1.errcode = r.errcode)
  ∧ (∀ req r l m, (M.schema_process_leader_heartbeat_for_store req r l m).1.errcode = r.errcode)
  ∧ (∀ req r m, (M.cluster_process_baikal_heartbeat req r m).1.errcode = r.errcode)
  ∧ (∀ req r m, (M.privilege_process_baikal_heartbeat req r m).1.errcode = r.errcode)
  ∧ (∀ req r l m, (M.schema_process_baikal_heartbeat req r l m).1.errcode = r.errcode)

/-- Managers that count the heartbeats they process and add a line to the
response. -/
def ex_managers : HeartBeatManagers Nat :=
  { cluster_process_instance_heartbeat_for_store := fun _ m => m + 1
    cluster_process_peer_heartbeat_for_store := fun _ r m =>
      ({ r with payload := r.payload ++ ["peer balance"] }, m + 1)
    schema_process_schema_heartbeat_for_store := fun _ r m =>
      ({ r with payload := r.payload ++ ["schema"] }, m + 1)
    schema_process_peer_heartbeat_for_store := fun _ r _ m =>
      ({ r with payload := r.payload ++ ["peer"] }, m + 1)
    schema_process_leader_heartbeat_for_store := fun _ r _ m =>
      ({ r with payload := r.payload ++ ["leader"] }, m + 1)
    cluster_process_baikal_heartbeat := fun _ r m =>
      ({ r with payload := r.payload ++ ["idc"] }, m + 1)
    privilege_process_baikal_heartbeat := fun _ r m =>
      ({ r with payload := r.payload ++ ["privilege"] }, m + 1)
    schema_process_baikal_heartbeat := fun _ r _ m =>
      ({ r with payload := r.payload ++ ["schema"] }, m + 1) }

/-- The node N1 while it is the leader, its leadership having started at time
`start`. -/
def ex_meta (leader : Bool) (start : Int) : MetaStateMachine Nat :=
  { _is_leader := leader, node_is_leader := leader, node_leader_id := if leader then "N1" else "N2",
    _leader_start_timestmap := start, _healthy_check_start := leader, _load_balance := true,
    _unsafe_decision := false, managers := 0, calls := [] }

/-- An empty response message. -/
def ex_response : HeartBeatResponse :=
  { errcode := ErrCode.OTHER 0, errmsg := "", leader := "", payload := [] }

/-- The node N1 after it has lost the leadership to N2: `on_leader_stop` has
run and the braft node names N2. -/
def ex_meta_stopped : MetaStateMachine Nat :=
  { MetaStateMachine.on_leader_stop (fun s => s) (ex_meta true 0) with
    node_is_leader := false, node_leader_id := "N2" }

/-- The node N1 right after `on_leader_start` has run at time 1000, the braft
node saying that N1 leads. -/
def ex_meta_started : MetaStateMachine Nat :=
  { MetaStateMachine.on_leader_start (fun m => m) (fun m => m) (fun s => s) 1000 (ex_meta false 0)
    with node_is_leader := true, node_leader_id := "N1" }

/-- A storage of keys on which both `RocksWrapper` methods succeed: the range
delete empties it and the ingest brings the keys of the snapshot. -/
def ex_rocks : RocksOps (List String) :=
  { remove_range := fun _ _ _ => (true, [])
    ingest_external_file := fun _ _ => (true, ["CLUSTER/a", "SCHEMA/b"]) }

/-- A storage on which the ingest fails. -/
def ex_rocks_bad_ingest : RocksOps (List String) :=
  { remove_range := fun _ _ _ => (true, [])
    ingest_external_file := fun _ st => (false, st) }

/-- Managers whose cache is a copy of the keys in the storage. -/
def ex_snapshot_managers : SnapshotManagers (List String) (List String) :=
  { cluster_load_snapshot := fun st _ => st
    privilege_load_snapshot := fun st _ => st
    schema_load_snapshot := fun st _ => st }

/-- A node whose storage and caches hold an old key. -/
def ex_snapshot_world : SnapshotWorld (List String) (List String) :=
  { storage := ["CLUSTER/old"], managers := ["CLUSTER/old"], actions := [] }

/-! ## Proof vocabulary: the attempts of a dispatch -/

/-- One attempt of a `send_request` call: the region info it is made with
(its leader chosen), the region id, the `retry_times` of the call, the request
built and what the attempt meets. -/
structure Attempt where
  info : RegionInfo
  region_id : Int
  retry_times : Int
  req : StoreReq
  reply : Reply

/-- What an attempt by itself leaves of the world. A channel that cannot be
initialised uses the attempt up; otherwise the call is recorded, and when the
store answers `SUCCESS` its affected rows are added (an op other than SELECT) or
its rows are deposited under the start key of the region (SELECT). -/
def attempt_effect (a : Attempt) (w : World) : World :=
  match a.reply with
  | Reply.init_failed => count_attempt w
  | Reply.rpc_failed => issue_rpc a.info.leader a.req a.retry_times w
  | Reply.response res =>
    if res.errcode = ErrCode.SUCCESS then
      if w.node._op_type ≠ OpType.OP_SELECT then
        add_affected_rows res.affected_rows (issue_rpc a.info.leader a.req a.retry_times w)
      else
        deposit_batch a.info.start_key a.region_id (decode_rows res)
          (issue_rpc a.info.leader a.req a.retry_times w)
    else issue_rpc a.info.leader a.req a.retry_times w

/-- A change of the world between two attempts: it makes no attempt and leaves
the op type, the affected rows and the deposited batches as they are. -/
def Quiet (w w1 : World) : Prop :=
  w1.net_calls = w.net_calls ∧ w1.rpcs = w.rpcs ∧ w1.node._op_type = w.node._op_type
  ∧ w1.node._affected_rows = w.node._affected_rows
  ∧ w1.node._start_key_sort = w.node._start_key_sort
  ∧ w1.node._region_batch = w.node._region_batch
  ∧ w1.answered = w.answered

/-- The world `w1` is reached from `w` through the attempts of `tr`, in that
order, each meeting the reply the store has for it, with quiet changes in
between. -/
inductive Run (net : Nat → Reply) : World → List Attempt → World → Prop where
  | refl (w : World) : Run net w [] w
  | quiet {w w1 w2 : World} {tr : List Attempt} : Run net w tr w1 → Quiet w1 w2 → Run net w tr w2
  | attempt {w w1 : World} {tr : List Attempt} (a : Attempt) :
      Run net w tr w1 → a.reply = net w1.net_calls → a.req.region_id = a.region_id →
      a.req.region_version = a.info.version →
      Run net w (tr ++ [a]) (attempt_effect a w1)

/-- Where the region of an attempt comes from, among the attempts `tr` of a
call made for the region `region_id` with the region info `info`: it is the
region of the call, under the start key of `info`, or a region named by a
`VERSION_OLD` response that one of the attempts has met (the split branch
recurses on those). -/
def Origin (info : RegionInfo) (region_id : Int) (tr : List Attempt) (a : Attempt) : Prop :=
  (a.region_id = region_id ∧ a.info.start_key = info.start_key)
  ∨ ∃ b ∈ tr, ∃ res r, b.reply = Reply.response res ∧ res.errcode = ErrCode.VERSION_OLD
      ∧ r ∈ res.regions ∧ a.region_id = r.region_id ∧ a.info.start_key = r.start_key

/-- A run of attempts whose regions all come from the call for `region_id` with
`info`. -/
def Traced (net : Nat → Reply) (info : RegionInfo) (region_id : Int) (w : World)
    (tr : List Attempt) (w1 : World) : Prop :=
  Run net w tr w1 ∧ ∀ a ∈ tr, Origin info region_id tr a

/-- A run of attempts of the split loop: every attempt is made for one of the
regions the loop goes over or for a region a further split has named. -/
def SplitTraced (net : Nat → Reply) (regions : List RegionInfo) (w : World)
    (tr : List Attempt) (w1 : World) : Prop :=
  Run net w tr w1 ∧ ∀ a ∈ tr, ∃ r ∈ regions, Origin r r.region_id tr a

/-- What the proofs ask of the function standing for the recursive call: the
world it leaves is reached through a sequence of attempts made for the region
of the call or for regions a split has named, and the region info it leaves
has the start key of the one it was given. -/
def SelfRun (net : Nat → Reply) (self : SendFn) : Prop :=
  ∀ info records region_id log_id retry_times start_seq_id w,
    (∃ tr, Traced net info region_id w tr
      (self info records region_id log_id retry_times start_seq_id w).2.2)
    ∧ (self info records region_id log_id retry_times start_seq_id w).2.1.start_key
        = info.start_key

/-- The affected rows a reply reports with `SUCCESS`; 0 for every other reply. -/
def success_rows (r : Reply) : Int :=
  match r with
  | Reply.response res => if res.errcode = ErrCode.SUCCESS then res.affected_rows else 0
  | _ => 0

/-- The sum of the affected rows of the `SUCCESS` responses among the replies
to the attempts numbered `a`, ..., `b - 1`. -/
def rows_between (net : Nat → Reply) (a b : Nat) : Int :=
  ((List.range' a (b - a)).map (fun n => success_rows (net n))).sum

/-- The answer an attempt brings, if the store answers it with `SUCCESS`. -/
def answer_of (a : Attempt) : Option Answer :=
  match a.reply with
  | Reply.response res =>
    if res.errcode = ErrCode.SUCCESS then
      some { start_key := a.info.start_key, region_id := a.region_id, batch := decode_rows res }
    else none
  | _ => none

/-- The regions that answered `SUCCESS` in a sequence of attempts, in order. -/
def answers (tr : List Attempt) : List Answer := tr.filterMap answer_of

/-- The results of the `send_request` calls of a dispatch, in the order in
which the request threads run; a call that does not return ends the list. -/
def dispatch_rets (net : Nat → Reply) (rand : Nat → Nat) : List Int → World → List Ret
  | [], _ => []
  | region_id :: rest, w =>
    match map_find w.node._region_infos region_id with
    | none => dispatch_rets net rand rest w
    | some info =>
      (send_request net rand info (map_find w.node._insert_region_ids region_id) region_id
          w.state.log_id 0 w.state.seq_id w).1 ::
        (match (dispatch_region net rand region_id w).1 with
         | some _ => []
         | none => dispatch_rets net rand rest (dispatch_region net rand region_id w).2)

/-- The world in which the dispatch of `open` starts (lines 435-482). -/
def dispatch_start (w : World) : World :=
  reset_affected_rows (decide_1pc (select_regions (clear_error w)))

/-- The results of the `send_request` calls `open` makes: none when `open`
returns before the dispatch. -/
def open_rets (net : Nat → Reply) (rand : Nat → Nat) (w : World) : List Ret :=
  if (send_region_ids_map (select_regions (clear_error w)).node._region_infos).length = 0 then []
  else if ((select_regions (clear_error w)).node._op_type = OpType.OP_INSERT
        ∨ (select_regions (clear_error w)).node._op_type = OpType.OP_UPDATE
        ∨ (select_regions (clear_error w)).node._op_type = OpType.OP_DELETE)
      ∧ (select_regions (clear_error w)).state.autocommit = true
      ∧ (select_regions (clear_error w)).state.txn_id ≠ 0 then []
  else dispatch_rets net rand
    (((send_region_ids_map (select_regions (clear_error w)).node._region_infos).map
      Prod.snd).flatten)
    (dispatch_start w)

/-- An INSERT of statement 3 for region 1, on a node whose `_affected_rows`
still holds 7. -/
def ex_world_stale_rows : World :=
  { ex_world OpType.OP_INSERT false [(1, ex_r1)] with
    node := { (ex_world OpType.OP_INSERT false [(1, ex_r1)]).node with _affected_rows := 7 } }

/-- The map `_start_key_sort` after the answers have been deposited, in order
(line 357). -/
def deposit_keys (m : List (List Nat × Int)) (l : List Answer) : List (List Nat × Int) :=
  l.foldl (fun m a => map_assign bytes_lt m a.start_key a.region_id) m

/-- The map `_region_batch` after the answers have been deposited, in order
(line 358). -/
def deposit_batches (m : List (Int × Option RowBatch)) (l : List Answer) :
    List (Int × Option RowBatch) :=
  l.foldl (fun m a => map_assign int_lt m a.region_id (some a.batch)) m

/-- The batch the loop of lines 532-537 hands to the sorter for a region id:
the one stored in `_region_batch`, unless it is null or empty. -/
def batch_of (m : List (Int × Option RowBatch)) (region_id : Int) : Option RowBatch :=
  match map_find m region_id with
  | some (some batch) => if batch.length ≠ 0 then some batch else none
  | _ => none

/-- A store that answers every call with `SUCCESS`: the first call gets the row
`x`, the second no row and every later call the row `z`. -/
def ex_net_rows : Nat → Reply := fun n =>
  Reply.response { ex_res ErrCode.SUCCESS with
    tuple_ids := [0], row_values := if n = 0 then [["x"]] else if n = 1 then [] else [["z"]] }

/-- A SELECT outside a transaction over three regions of table 1, the one with
the greatest keys led by A, the other two by B and C. -/
def ex_world_select : World :=
  { ex_world OpType.OP_SELECT true
      [(1, ex_region 1 1 [6] [] "A"), (2, ex_region 2 1 [3] [6] "B"),
       (3, ex_region 3 1 [] [3] "C")] with
    state := { txn_id := 0, seq_id := 0, log_id := 0, autocommit := true, optimize_1pc := false,
               error_code := 0, error_msg := "", tuple_descs := [] }
    conn := { cache_plans := [], need_rollback_seq := [], region_infos := [],
              transaction_has_write := false } }

/-! ## The recursive calls of the split loop -/

/-- One recursive call of the loop of lines 277-315: the kept region the pass
of the loop is for, the region info, `retry_times` and `start_seq_id` the call
is given (lines 290 and 307), the value it returns and the world it leaves. -/
structure SplitCall where
  region : RegionInfo
  info : RegionInfo
  retry_times : Int
  start_seq_id : Int
  ret : Ret
  exit : World
  deriving DecidableEq, Repr

/-- The recursive calls the loop of lines 277-315 makes over `regions`, in the
order in which it makes them: each pass makes one call, from the world the pass
before has left, and the pass whose call fails (`ret < 0`, line 309) is the
last. -/
def split_calls (self : SendFn) (res_leader : String) (records : Option (List String))
    (region_id : Int) (log_id : Nat) (retry_times start_seq_id : Int) :
    List RegionInfo → World → List SplitCall
  | [], _ => []
  | r :: rest, w =>
    if r.region_id ≠ region_id then
      let out := self r records r.region_id log_id (retry_times + 1) 1 (install_child r w)
      { region := r, info := r, retry_times := retry_times + 1, start_seq_id := 1,
        ret := out.1, exit := out.2.2 } ::
        (if out.1.failed then []
         else split_calls self res_leader records region_id log_id retry_times start_seq_id rest
           out.2.2)
    else
      let r_copy := if res_leader ≠ "0.0.0.0:0" then { r with leader := res_leader } else r
      let out := self r_copy records r_copy.region_id log_id (retry_times + 1) start_seq_id
        (narrow_parent region_id r_copy w)
      { region := r, info := r_copy, retry_times := retry_times + 1,
        start_seq_id := start_seq_id, ret := out.1, exit := out.2.2 } ::
        (if out.1.failed then []
         else split_calls self res_leader records region_id log_id retry_times start_seq_id rest
           out.2.2)

/-- A store whose first answer is `REGION_NOT_EXIST`; every later call
succeeds. -/
def ex_net_region_gone : Nat → Reply := fun n =>
  if n = 0 then Reply.response (ex_res ErrCode.REGION_NOT_EXIST) else ex_ok

/-- A store that fails the first call in transport; every later call
succeeds. -/
def ex_net_failed_once : Nat → Reply := fun n =>
  if n = 0 then Reply.rpc_failed else ex_ok

/-- Region 1 with the single peer A, which leads it. -/
def ex_r1_alone : RegionInfo := { ex_r1 with peers := ["A"] }

/-- A store that answers every call with `SUCCESS` and 1073741824 affected
rows. -/
def ex_net_many_rows : Nat → Reply := fun _ =>
  Reply.response { ex_res ErrCode.SUCCESS with affected_rows := 1073741824 }

/-- A store that answers every call with `SUCCESS` and the count -1. -/
def ex_net_negative_rows : Nat → Reply := fun _ =>
  Reply.response { ex_res ErrCode.SUCCESS with affected_rows := -1 }

/-- An UPDATE of statement 3 over region 1, led by A, and region 2, led by
B. -/
def ex_world_update_two : World :=
  ex_world OpType.OP_UPDATE false
    [(1, ex_region 1 1 [0] [5] "A"), (2, ex_region 2 1 [5] [9] "B")]

/-- Modelled from the spec: the statement being issued is the first statement
after the BEGIN of a transaction that is not autocommit. `seq_id` numbers the
statements of a transaction in order (TxnContext in the spec), so the BEGIN is
then the statement numbered just before: the plan cached under `seq_id - 1`. -/
def follows_begin (w : World) : Prop :=
  w.state.autocommit = false
    ∧ ∃ p ∈ w.conn.cache_plans, p.1 + 1 = w.state.seq_id ∧ p.2.op_type = OpType.OP_BEGIN

instance (w : World) : Decidable (follows_begin w) := by
  unfold follows_begin; exact inferInstance

/-- Modelled from the spec: the effective `start_seq_id` as the rule words it,
1 for the first statement after BEGIN of a transaction that is not autocommit
and for an autocommit PREPARE, else the one passed in. -/
def claimed_start_seq_id (w : World) (start_seq_id : Int) : Int :=
  if follows_begin w ∨ autocommit_prepare w then 1 else start_seq_id

/-- Transaction 1, not autocommit, at its statement 2, a SELECT over region 1:
the BEGIN is cached under 1. -/
def ex_world_select_second : World :=
  { ex_world OpType.OP_SELECT false [(1, ex_r1)] with
    state := { txn_id := 1, seq_id := 2, log_id := 0, autocommit := false, optimize_1pc := false,
               error_code := 0, error_msg := "", tuple_descs := [] }
    conn := { cache_plans := [(1, ex_plan OpType.OP_BEGIN 1)], need_rollback_seq := [],
              region_infos := [(1, ex_r1)], transaction_has_write := false } }

/-- The same transaction at its statement 3, an UPDATE over region 1: the
SELECT of statement 2 has not been cached, so the BEGIN is still the only plan
in the cache. -/
def ex_world_after_select : World :=
  { ex_world OpType.OP_UPDATE false [(1, ex_r1)] with
    conn := { cache_plans := [(1, ex_plan OpType.OP_BEGIN 1)], need_rollback_seq := [],
              region_infos := [(1, ex_r1)], transaction_has_write := false } }

/-- The rows a reply brings with `SUCCESS`, decoded in order. -/
def success_batch (r : Reply) : Option RowBatch :=
  match r with
  | Reply.response res => if res.errcode = ErrCode.SUCCESS then some (decode_rows res) else none
  | _ => none

/-- Where the region of an attempt of a dispatch comes from: it is one of the
regions `infos` of the fragment, under its start key, or a region named by a
`VERSION_OLD` response that one of the attempts has met. -/
def TargetOrigin (infos : List (Int × RegionInfo)) (tr : List Attempt) (a : Attempt) : Prop :=
  (∃ info, map_find infos a.region_id = some info ∧ a.info.start_key = info.start_key)
  ∨ ∃ b ∈ tr, ∃ res r, b.reply = Reply.response res ∧ res.errcode = ErrCode.VERSION_OLD
      ∧ r ∈ res.regions ∧ a.region_id = r.region_id ∧ a.info.start_key = r.start_key

/-- Two region maps name the same regions under the same start keys. -/
def KeysSame (m m1 : List (Int × RegionInfo)) : Prop :=
  ∀ rid, (map_find m1 rid).map RegionInfo.start_key = (map_find m rid).map RegionInfo.start_key

/-- A SELECT over region 1 alone, on a node whose maps still hold the entry of
region 2 and its batch from an earlier open. -/
def ex_world_select_stale : World :=
  { ex_world_select with
    node := { ex_world_select.node with
      _region_infos := [(1, ex_region 1 1 [6] [] "A")],
      _start_key_sort := [([3], 2)],
      _region_batch := [(2, some [[(0, "old")]])] } }

/-- A SELECT over regions 1 and 3, led by A and C, whose infos carry the same
start key. -/
def ex_world_select_same_key : World :=
  { ex_world_select with
    node := { ex_world_select.node with
      _region_infos := [(1, ex_region 1 1 [6] [] "A"), (3, ex_region 3 1 [6] [] "C")] } }

/-- A store whose first answer is told a split of region 1 into region 1 and
region 2; the later calls bring the rows `p`, `q` and then `r`. -/
def ex_net_split_rows : Nat → Reply := fun n =>
  if n = 0 then ex_split [ex_region 1 2 [0] [4] "A", ex_region 2 2 [4] [9] "B"]
  else Reply.response { ex_res ErrCode.SUCCESS with
    tuple_ids := [0], row_values := if n = 1 then [["p"]] else if n = 2 then [["q"]] else [["r"]] }

/-- A SELECT over region 1, led by A, and region 2, led by B, the fragment
holding region 2 under the start key 5. -/
def ex_world_select_two : World :=
  { ex_world_select with
    node := { ex_world_select.node with
      _region_infos := [(1, ex_region 1 1 [0] [9] "A"), (2, ex_region 2 1 [5] [9] "B")] } }

/-! ## The effect of `send_request` as a run of elementary changes -/

@[simp] theorem count_draw_net_calls (w : World) : (count_draw w).net_calls = w.net_calls := rfl

@[simp] theorem save_region_id_net_calls (region_id : Int) (info : RegionInfo) (w : World) :
    (save_region_id region_id info w).net_calls = w.net_calls := by
  unfold save_region_id; split <;> rfl

@[simp] theorem set_insert_records_net_calls (recs : List String) (w : World) :
    (set_insert_records recs w).net_calls = w.net_calls := rfl

@[simp] theorem issue_rpc_net_calls (addr : String) (req : StoreReq) (retry_times : Int) (w : World) :
    (issue_rpc addr req retry_times w).net_calls = w.net_calls + 1 := rfl

@[simp] theorem adopt_leader_net_calls (info : RegionInfo) (region_id : Int) (w : World) :
    (adopt_leader info region_id w).net_calls = w.net_calls := rfl

theorem no_split_from_mono {net : Nat → Reply} {a b : Nat} (hab : a ≤ b)
    (h : no_split_from net a) : no_split_from net b :=
  fun n hn => h n (le_trans hab hn)

theorem rand_peer_func_world {rand : Nat → Nat} {info : RegionInfo} {w w1 : World} {peer : String}
    (h : rand_peer_func rand info w = some (peer, w1)) : w1 = count_draw w := by
  unfold rand_peer_func at h
  split at h
  · cases h
  · cases h; rfl

theorem other_peer_world {rand : Nat → Nat} {info info1 : RegionInfo} {w w1 : World}
    (h : other_peer_to_leader_func rand info w = some (info1, w1)) : w1 = count_draw w := by
  unfold other_peer_to_leader_func at h
  cases hr : rand_peer_func rand info w with
  | none => simp [hr] at h
  | some p =>
    obtain ⟨peer, w2⟩ := p
    have hw := rand_peer_func_world hr
    simp only [hr] at h
    split at h
    · cases h; exact hw
    · split at h <;> (cases h; exact hw)

theorem choose_leader_world {rand : Nat → Nat} {info info1 : RegionInfo} {w w1 : World}
    (h : choose_leader rand info w = some (info1, w1)) : w1 = w ∨ w1 = count_draw w := by
  unfold choose_leader at h
  split at h
  · cases hr : rand_peer_func rand info w with
    | none => simp [hr] at h
    | some p =>
      obtain ⟨peer, w2⟩ := p
      simp only [hr] at h
      cases h
      exact Or.inr (rand_peer_func_world hr)
  · cases h; exact Or.inl rfl

theorem rewrite_insert_records_world {records : Option (List String)} {w w3 : World}
    (h : rewrite_insert_records records w = some w3) :
    w3 = w ∨ ∃ recs, w3 = set_insert_records recs w := by
  unfold rewrite_insert_records at h
  split at h
  · split at h
    · split at h
      · cases h
      · cases h; exact Or.inl rfl
    · split at h
      · cases h; exact Or.inl rfl
      · cases h; exact Or.inr ⟨_, rfl⟩
  · cases h; exact Or.inl rfl

theorem choose_leader_steps {b : Bool} {rand : Nat → Nat} {info info1 : RegionInfo} {w w1 : World}
    (h : choose_leader rand info w = some (info1, w1)) : Steps b w w1 := by
  rcases choose_leader_world h with h1 | h1
  · subst h1; exact Relation.ReflTransGen.refl
  · subst h1; exact Relation.ReflTransGen.single (Step.draw w)

theorem rewrite_insert_records_steps {b : Bool} {records : Option (List String)} {w w3 : World}
    (h : rewrite_insert_records records w = some w3) : Steps b w w3 := by
  rcases rewrite_insert_records_world h with h1 | ⟨recs, h1⟩
  · subst h1; exact Relation.ReflTransGen.refl
  · subst h1; exact Relation.ReflTransGen.single (Step.records recs w)

theorem choose_leader_net_calls {rand : Nat → Nat} {info info1 : RegionInfo} {w w1 : World}
    (h : choose_leader rand info w = some (info1, w1)) : w1.net_calls = w.net_calls := by
  rcases choose_leader_world h with h1 | h1 <;> subst h1 <;> rfl

theorem rewrite_insert_records_net_calls {records : Option (List String)} {w w3 : World}
    (h : rewrite_insert_records records w = some w3) : w3.net_calls = w.net_calls := by
  rcases rewrite_insert_records_world h with h1 | ⟨recs, h1⟩ <;> subst h1 <;> rfl

/-- The loop over the kept regions is a run of elementary changes. -/
theorem split_loop_steps {net : Nat → Reply} {self : SendFn} (hself : SelfSteps net true self)
    (res_leader : String) (records : Option (List String)) (region_id : Int) (log_id : Nat)
    (retry_times start_seq_id : Int) :
    ∀ (regions : List RegionInfo) (w : World),
      Steps true w
        (split_loop self res_leader records region_id log_id retry_times start_seq_id regions w).2 := by
  intro regions
  induction regions with
  | nil => intro w; exact Relation.ReflTransGen.refl
  | cons r rest ih =>
    intro w
    have hstep : Steps true w
        (split_step self res_leader records region_id log_id retry_times start_seq_id r w).2 := by
      unfold split_step
      split
      · exact Relation.ReflTransGen.head (Step.child r w rfl) (hself _ _ _ _ _ _ _ (by simp))
      · exact Relation.ReflTransGen.head (Step.parent region_id _ w rfl) (hself _ _ _ _ _ _ _ (by simp))
    unfold split_loop
    simp only []
    split
    · exact hstep
    · exact Relation.ReflTransGen.trans hstep (ih _)

theorem on_other_error_steps (b : Bool) (res : StoreRes) (info : RegionInfo) (w : World) :
    Steps b w (on_other_error res info w).2.2 := by
  unfold on_other_error
  split
  · exact Relation.ReflTransGen.single (Step.mysql _ _ w)
  · exact Relation.ReflTransGen.refl

theorem on_success_steps (b : Bool) (res : StoreRes) (info : RegionInfo) (region_id : Int)
    (w : World) : Steps b w (on_success res info region_id w).2.2 := by
  unfold on_success
  split
  · rename_i h
    exact Relation.ReflTransGen.single (Step.affected _ w h)
  · rename_i h
    have h1 : w.node._op_type = OpType.OP_SELECT := by simpa using h
    split
    · exact Relation.ReflTransGen.head (Step.adopt _ region_id w)
        (Relation.ReflTransGen.single (Step.deposit _ _ _ _ h1))
    · exact Relation.ReflTransGen.single (Step.deposit _ _ _ _ h1)

/-- The handling of a response is a run of elementary changes. -/
theorem handle_response_steps {net : Nat → Reply} {rand : Nat → Nat} {b : Bool} {self : SendFn}
    (hself : SelfSteps net b self) (res : StoreRes)
    (hres : b = false → is_split (Reply.response res) = false)
    (info : RegionInfo) (records : Option (List String)) (region_id : Int) (log_id : Nat)
    (retry_times start_seq_id : Int) (w : World)
    (hns : b = false → no_split_from net w.net_calls) :
    Steps b w
      (handle_response rand self res info records region_id log_id retry_times start_seq_id w).2.2 := by
  unfold handle_response
  split
  · -- NOT_LEADER
    unfold on_not_leader
    simp only []
    split
    · exact Relation.ReflTransGen.head (Step.adopt _ region_id w) (hself _ _ _ _ _ _ _ (by simpa using hns))
    · cases ho : other_peer_to_leader_func rand info w with
      | none => exact Relation.ReflTransGen.refl
      | some p =>
        obtain ⟨info1, w1⟩ := p
        have hw := other_peer_world ho
        subst hw
        exact Relation.ReflTransGen.head (Step.draw w) (hself _ _ _ _ _ _ _ (by simpa using hns))
  · -- TXN_FOLLOW_UP
    unfold on_txn_follow_up
    simp only []
    split
    · exact Relation.ReflTransGen.refl
    · split
      · exact Relation.ReflTransGen.refl
      · exact hself _ _ _ _ _ _ _ hns
  · -- VERSION_OLD
    rename_i hcode
    unfold on_version_old
    simp only []
    split
    · rename_i hlen
      cases b with
      | false =>
        have := hres rfl
        simp [is_split, hcode] at this
        omega
      | true =>
        exact Relation.ReflTransGen.head (Step.begin_split _ w rfl)
          (split_loop_steps hself _ _ _ _ _ _ _ _)
    · exact Relation.ReflTransGen.refl
  · -- REGION_NOT_EXIST
    unfold on_region_not_exist
    cases ho : other_peer_to_leader_func rand info w with
    | none => exact Relation.ReflTransGen.refl
    | some p =>
      obtain ⟨info1, w1⟩ := p
      have hw := other_peer_world ho
      subst hw
      exact Relation.ReflTransGen.head (Step.draw w) (hself _ _ _ _ _ _ _ (by simpa using hns))
  · -- INTERNAL_ERROR
    unfold on_region_not_exist
    cases ho : other_peer_to_leader_func rand info w with
    | none => exact Relation.ReflTransGen.refl
    | some p =>
      obtain ⟨info1, w1⟩ := p
      have hw := other_peer_world ho
      subst hw
      exact Relation.ReflTransGen.head (Step.draw w) (hself _ _ _ _ _ _ _ (by simpa using hns))
  · exact on_other_error_steps b res info w
  · exact on_success_steps b res info region_id w

/-- One level of `send_request` is a run of elementary changes when the
recursive calls are. -/
theorem send_request_body_steps {net : Nat → Reply} {rand : Nat → Nat} {b : Bool} {self : SendFn}
    (hself : SelfSteps net b self) : SelfSteps net b (send_request_body net rand self) := by
  intro info records region_id log_id retry_times start_seq_id w hns
  unfold send_request_body
  simp only []
  split
  · exact Relation.ReflTransGen.refl
  · split
    · exact Relation.ReflTransGen.refl
    · rename_i hretry
      have hlt : retry_times < 5 := by omega
      split
      · exact Relation.ReflTransGen.refl
      · rename_i info1 w1 hc
        have s1 : Steps b w w1 := choose_leader_steps hc
        have n1 : w1.net_calls = w.net_calls := choose_leader_net_calls hc
        have s2 : Steps b w (save_region_id region_id info1 w1) :=
          Relation.ReflTransGen.tail s1 (Step.save region_id info1 w1)
        split
        · exact s2
        · rename_i w3 hr
          have s3 : Steps b w w3 := Relation.ReflTransGen.trans s2 (rewrite_insert_records_steps hr)
          have n3 : w3.net_calls = w.net_calls := by
            rw [rewrite_insert_records_net_calls hr, save_region_id_net_calls, n1]
          split
          · exact Relation.ReflTransGen.tail s3 (Step.attempt w3)
          · have s4 := Relation.ReflTransGen.tail s3
              (Step.issue info1.leader
                (make_request w3 info1 region_id log_id (fix_start_seq_id w1 start_seq_id))
                retry_times w3 hlt)
            split
            · exact s4
            · rename_i info2 w4 ho
              have hw := other_peer_world ho
              subst hw
              refine Relation.ReflTransGen.trans
                (Relation.ReflTransGen.tail s4 (Step.draw _)) (hself _ _ _ _ _ _ _ ?_)
              intro hb
              exact no_split_from_mono (by simp [n3]) (hns hb)
          · rename_i res hnet
            have s4 := Relation.ReflTransGen.tail s3
              (Step.issue info1.leader
                (make_request w3 info1 region_id log_id (fix_start_seq_id w1 start_seq_id))
                retry_times w3 hlt)
            refine Relation.ReflTransGen.trans s4
              (handle_response_steps hself res ?_ _ _ _ _ _ _ _ ?_)
            · intro hb
              have := hns hb w3.net_calls (by omega)
              rwa [hnet] at this
            · intro hb
              exact no_split_from_mono (by simp [n3]) (hns hb)

/-- The effect of `send_request` on the world, at every depth of unfolding, is
a run of elementary changes. -/
theorem send_request_aux_steps (net : Nat → Reply) (rand : Nat → Nat) (b : Bool) :
    ∀ fuel : Nat, SelfSteps net b (send_request_aux net rand fuel) := by
  intro fuel
  induction fuel with
  | zero =>
    intro info records region_id log_id retry_times start_seq_id w _
    exact Relation.ReflTransGen.refl
  | succ n ih => exact send_request_body_steps ih

theorem send_request_steps (net : Nat → Reply) (rand : Nat → Nat) (b : Bool) :
    SelfSteps net b (send_request net rand) := by
  intro info records region_id log_id retry_times start_seq_id w hns
  exact send_request_aux_steps net rand b _ info records region_id log_id retry_times
    start_seq_id w hns

/-! ## The recursion budget -/

theorem split_loop_ret {self : SendFn} (P : Ret → Prop) (h0 : P (Ret.code 0))
    (res_leader : String) (records : Option (List String)) (region_id : Int) (log_id : Nat)
    (retry_times start_seq_id : Int)
    (hself : ∀ info records region_id log_id start_seq_id w,
      P (self info records region_id log_id (retry_times + 1) start_seq_id w).1) :
    ∀ (regions : List RegionInfo) (w : World),
      P (split_loop self res_leader records region_id log_id retry_times start_seq_id regions w).1 := by
  intro regions
  induction regions with
  | nil => intro w; exact h0
  | cons r rest ih =>
    intro w
    unfold split_loop
    simp only []
    split
    · unfold split_step
      split <;> exact hself _ _ _ _ _ _
    · exact ih _

/-- With more than `5 - retry_times` levels, the recursion budget of the model
is never used up. -/
theorem send_request_aux_fuel (net : Nat → Reply) (rand : Nat → Nat) :
    ∀ (fuel : Nat) info records region_id log_id (retry_times start_seq_id : Int) (w : World),
      (5 - retry_times).toNat < fuel →
      (send_request_aux net rand fuel info records region_id log_id retry_times start_seq_id w).1
        ≠ Ret.out_of_fuel := by
  intro fuel
  induction fuel with
  | zero => intro _ _ _ _ retry_times _ _ h; omega
  | succ n ih =>
    intro info records region_id log_id retry_times start_seq_id w hfuel
    show (send_request_body net rand (send_request_aux net rand n) info records region_id log_id
      retry_times start_seq_id w).1 ≠ Ret.out_of_fuel
    unfold send_request_body
    simp only []
    split
    · simp
    · split
      · simp
      · rename_i hretry
        have hn : (5 - (retry_times + 1)).toNat < n := by omega
        split
        · simp
        · split
          · simp
          · split
            · simp
            · split
              · simp
              · exact ih _ _ _ _ _ _ _ hn
            · unfold handle_response
              split
              · unfold on_not_leader
                simp only []
                split
                · exact ih _ _ _ _ _ _ _ hn
                · split
                  · simp
                  · exact ih _ _ _ _ _ _ _ hn
              · unfold on_txn_follow_up
                simp only []
                split
                · simp
                · split
                  · simp
                  · exact ih _ _ _ _ _ _ _ hn
              · unfold on_version_old
                simp only []
                split
                · exact split_loop_ret (fun r => r ≠ Ret.out_of_fuel) (by simp) _ _ _ _ _ _
                    (fun _ _ _ _ _ _ => ih _ _ _ _ _ _ _ hn) _ _
                · simp
              · unfold on_region_not_exist
                split
                · simp
                · exact ih _ _ _ _ _ _ _ hn
              · unfold on_region_not_exist
                split
                · simp
                · exact ih _ _ _ _ _ _ _ hn
              · unfold on_other_error
                split <;> simp
              · unfold on_success
                split
                · simp
                · split <;> simp

/-- The function `send_request` always ends by returning or by the division
by zero; the recursion budget of the model is never the reason. -/
theorem send_request_fuel (net : Nat → Reply) (rand : Nat → Nat)
    (info : RegionInfo) (records : Option (List String)) (region_id : Int) (log_id : Nat)
    (retry_times start_seq_id : Int) (w : World) :
    (send_request net rand info records region_id log_id retry_times start_seq_id w).1
      ≠ Ret.out_of_fuel :=
  send_request_aux_fuel net rand _ info records region_id log_id retry_times start_seq_id w
    (by omega)

/-! ## What a run of elementary changes keeps -/

theorem step_static {b : Bool} {w w1 : World} (h : Step b w w1) : static_of w1 = static_of w := by
  cases h with
  | draw => rfl
  | save region_id info => unfold save_region_id; split <;> rfl
  | records => rfl
  | attempt => rfl
  | issue => rfl
  | adopt => rfl
  | begin_split regions _ => unfold split_begin; simp only []; split <;> rfl
  | child r _ => unfold install_child; split <;> rfl
  | parent region_id r _ => unfold narrow_parent; split <;> rfl
  | mysql => rfl
  | affected => rfl
  | deposit => rfl

theorem steps_static {b : Bool} {w w1 : World} (h : Steps b w w1) : static_of w1 = static_of w := by
  induction h with
  | refl => rfl
  | tail _ hstep ih => rw [step_static hstep, ih]

theorem step_rpcs {b : Bool} {w w1 : World} (h : Step b w w1) :
    ∃ ext, w1.rpcs = w.rpcs ++ ext ∧ ∀ rec ∈ ext, rec.retry_times < 5 := by
  cases h with
  | issue addr req retry_times _ hlt =>
    exact ⟨[{ addr := addr, req := req, retry_times := retry_times }], rfl, by simpa using hlt⟩
  | save region_id info =>
    refine ⟨[], ?_, by simp⟩
    unfold save_region_id; split <;> simp
  | begin_split regions _ =>
    refine ⟨[], ?_, by simp⟩
    unfold split_begin; simp only []; split <;> simp [schema_update_regions]
  | child r _ =>
    refine ⟨[], ?_, by simp⟩
    unfold install_child; split <;> simp
  | parent region_id r _ =>
    refine ⟨[], ?_, by simp⟩
    unfold narrow_parent; split <;> simp
  | draw => exact ⟨[], by simp [count_draw], by simp⟩
  | records => exact ⟨[], by simp [set_insert_records], by simp⟩
  | attempt => exact ⟨[], by simp [count_attempt], by simp⟩
  | adopt => exact ⟨[], by simp [adopt_leader, conn_set_leader, schema_update_leader], by simp⟩
  | mysql => exact ⟨[], by simp [set_mysql_error], by simp⟩
  | affected => exact ⟨[], by simp [add_affected_rows], by simp⟩
  | deposit => exact ⟨[], by simp [deposit_batch], by simp⟩

/-- A run of elementary changes only appends calls to the record of calls, and
every appended call was issued with `retry_times < 5`. -/
theorem steps_rpcs {b : Bool} {w w1 : World} (h : Steps b w w1) :
    ∃ ext, w1.rpcs = w.rpcs ++ ext ∧ ∀ rec ∈ ext, rec.retry_times < 5 := by
  induction h with
  | refl => exact ⟨[], by simp, by simp⟩
  | tail _ hstep ih =>
    obtain ⟨e1, h1, h2⟩ := ih
    obtain ⟨e2, h3, h4⟩ := step_rpcs hstep
    refine ⟨e1 ++ e2, by rw [h3, h1, List.append_assoc], ?_⟩
    intro rec hrec
    rcases List.mem_append.mp hrec with hm | hm
    · exact h2 rec hm
    · exact h4 rec hm

/-! ## The number of calls when no reply is a split -/

@[simp] theorem count_draw_rpcs (w : World) : (count_draw w).rpcs = w.rpcs := rfl

@[simp] theorem save_region_id_rpcs (region_id : Int) (info : RegionInfo) (w : World) :
    (save_region_id region_id info w).rpcs = w.rpcs := by
  unfold save_region_id; split <;> rfl

@[simp] theorem set_insert_records_rpcs (recs : List String) (w : World) :
    (set_insert_records recs w).rpcs = w.rpcs := rfl

@[simp] theorem count_attempt_rpcs (w : World) : (count_attempt w).rpcs = w.rpcs := rfl

@[simp] theorem issue_rpc_rpcs (addr : String) (req : StoreReq) (retry_times : Int) (w : World) :
    (issue_rpc addr req retry_times w).rpcs
      = w.rpcs ++ [{ addr := addr, req := req, retry_times := retry_times }] := rfl

@[simp] theorem adopt_leader_rpcs (info : RegionInfo) (region_id : Int) (w : World) :
    (adopt_leader info region_id w).rpcs = w.rpcs := rfl

@[simp] theorem set_mysql_error_rpcs (c : Int) (msg : String) (w : World) :
    (set_mysql_error c msg w).rpcs = w.rpcs := rfl

@[simp] theorem add_affected_rows_rpcs (n : Int) (w : World) :
    (add_affected_rows n w).rpcs = w.rpcs := rfl

@[simp] theorem deposit_batch_rpcs (k : List Nat) (region_id : Int) (batch : RowBatch) (w : World) :
    (deposit_batch k region_id batch w).rpcs = w.rpcs := rfl

theorem choose_leader_rpcs {rand : Nat → Nat} {info info1 : RegionInfo} {w w1 : World}
    (h : choose_leader rand info w = some (info1, w1)) : w1.rpcs = w.rpcs := by
  rcases choose_leader_world h with h1 | h1 <;> subst h1 <;> rfl

theorem rewrite_insert_records_rpcs {records : Option (List String)} {w w3 : World}
    (h : rewrite_insert_records records w = some w3) : w3.rpcs = w.rpcs := by
  rcases rewrite_insert_records_world h with h1 | ⟨recs, h1⟩ <;> subst h1 <;> rfl

/-- When no reply from now on is a split, a call of `send_request` adds at most
`5 - retry_times` calls to the record. -/
theorem send_request_aux_count (net : Nat → Reply) (rand : Nat → Nat) :
    ∀ (fuel : Nat) info records region_id log_id (retry_times start_seq_id : Int) (w : World),
      no_split_from net w.net_calls →
      (send_request_aux net rand fuel info records region_id log_id retry_times start_seq_id
        w).2.2.rpcs.length ≤ w.rpcs.length + (5 - retry_times).toNat := by
  intro fuel
  induction fuel with
  | zero => intro _ _ _ _ _ _ w _; simp [send_request_aux]
  | succ n ih =>
    intro info records region_id log_id retry_times start_seq_id w hns
    show (send_request_body net rand (send_request_aux net rand n) info records region_id log_id
      retry_times start_seq_id w).2.2.rpcs.length ≤ _
    unfold send_request_body
    simp only []
    split
    · simp
    · split
      · simp
      · rename_i hretry
        have hlt : retry_times < 5 := by omega
        split
        · simp
        · rename_i info1 w1 hc
          have r1 := choose_leader_rpcs hc
          have n1 := choose_leader_net_calls hc
          split
          · simp [r1]
          · rename_i w3 hr
            have r3 : w3.rpcs = w.rpcs := by
              rw [rewrite_insert_records_rpcs hr, save_region_id_rpcs, r1]
            have n3 : w3.net_calls = w.net_calls := by
              rw [rewrite_insert_records_net_calls hr, save_region_id_net_calls, n1]
            -- the bound after one more call and one more level
            have key : ∀ (i : RegionInfo) (rs : Option (List String)) (rid : Int) (lid : Nat)
                (s : Int) (w4 : World), w4.rpcs.length = w.rpcs.length + 1 →
                w.net_calls ≤ w4.net_calls →
                (send_request_aux net rand n i rs rid lid (retry_times + 1) s w4).2.2.rpcs.length
                  ≤ w.rpcs.length + (5 - retry_times).toNat := by
              intro i rs rid lid s w4 hlen hnet
              have := ih i rs rid lid (retry_times + 1) s w4 (no_split_from_mono hnet hns)
              omega
            have one : w.rpcs.length + 1 ≤ w.rpcs.length + (5 - retry_times).toNat := by omega
            split
            · simp [r3]
            · split
              · simp [r3]; omega
              · rename_i info2 w4 ho
                have hw := other_peer_world ho
                subst hw
                exact key _ _ _ _ _ _ (by simp [r3]) (by simp [n3])
            · rename_i res hnet
              have hres : is_split (Reply.response res) = false := by
                have := hns w3.net_calls (by omega)
                rwa [hnet] at this
              unfold handle_response
              split
              · unfold on_not_leader
                simp only []
                split
                · exact key _ _ _ _ _ _ (by simp [r3]) (by simp [n3])
                · split
                  · simp [r3]; omega
                  · rename_i info2 w4 ho
                    have hw := other_peer_world ho
                    subst hw
                    exact key _ _ _ _ _ _ (by simp [r3]) (by simp [n3])
              · unfold on_txn_follow_up
                simp only []
                split
                · simp [r3]; omega
                · split
                  · simp [r3]; omega
                  · exact key _ _ _ _ _ _ (by simp [r3]) (by simp [n3])
              · rename_i hcode
                unfold on_version_old
                simp only []
                split
                · rename_i hlen
                  simp [is_split, hcode] at hres
                  omega
                · simp [r3]; omega
              · unfold on_region_not_exist
                split
                · simp [r3]; omega
                · rename_i info2 w4 ho
                  have hw := other_peer_world ho
                  subst hw
                  exact key _ _ _ _ _ _ (by simp [r3]) (by simp [n3])
              · unfold on_region_not_exist
                split
                · simp [r3]; omega
                · rename_i info2 w4 ho
                  have hw := other_peer_world ho
                  subst hw
                  exact key _ _ _ _ _ _ (by simp [r3]) (by simp [n3])
              · unfold on_other_error
                split <;> (simp [r3]; omega)
              · unfold on_success
                split
                · simp [r3]; omega
                · split <;> (simp [r3]; omega)

/-! ## Maps -/

theorem map_find_put_ne {κ α : Type} [DecidableEq κ] (lt : κ → κ → Bool) (m : List (κ × α))
    (k : κ) (v : α) {k1 : κ} (h : k1 ≠ k) : map_find (map_put lt m k v) k1 = map_find m k1 := by
  induction m with
  | nil => simp [map_put, map_find, h]
  | cons p rest ih =>
    obtain ⟨k2, v2⟩ := p
    unfold map_put
    split
    · simp [map_find, h]
    · simp [map_find, ih]

theorem map_find_put_self {κ α : Type} [DecidableEq κ] (lt : κ → κ → Bool) (m : List (κ × α))
    (k : κ) (v : α) (h : map_find m k = none) : map_find (map_put lt m k v) k = some v := by
  induction m with
  | nil => simp [map_put, map_find]
  | cons p rest ih =>
    obtain ⟨k2, v2⟩ := p
    unfold map_find at h
    split at h
    · cases h
    · rename_i hne
      unfold map_put
      split
      · simp [map_find]
      · simp [map_find, hne, ih h]

theorem map_find_modify {κ α : Type} [DecidableEq κ] (f : α → α) (m : List (κ × α)) (k k1 : κ) :
    map_find (map_modify f m k) k1
      = if k1 = k then (map_find m k).map f else map_find m k1 := by
  induction m with
  | nil => simp [map_modify, map_find]
  | cons p rest ih =>
    obtain ⟨k2, v2⟩ := p
    unfold map_modify
    by_cases h : k = k2
    · subst h
      by_cases h1 : k1 = k
      · subst h1; simp [map_find]
      · simp [map_find, h1]
    · by_cases h1 : k1 = k
      · subst h1
        simp [map_find, h, ih]
      · simp only [if_neg h, map_find, ih, if_neg h1]

/-- Lookup after `f(m[k])`. -/
theorem map_find_update {κ α : Type} [DecidableEq κ] (lt : κ → κ → Bool) (dflt : α) (f : α → α)
    (m : List (κ × α)) (k k1 : κ) :
    map_find (map_update lt dflt f m k) k1
      = if k1 = k then some (f ((map_find m k).getD dflt)) else map_find m k1 := by
  unfold map_update
  cases h : map_find m k with
  | none =>
    simp only [Option.isSome_none, Bool.false_eq_true, if_false, Option.getD_none]
    by_cases h1 : k1 = k
    · subst h1; simp [map_find_put_self lt m k1 (f dflt) h]
    · simp [h1, map_find_put_ne lt m k (f dflt) h1]
  | some v =>
    simp only [Option.isSome_some, if_true, Option.getD_some]
    rw [map_find_modify]
    by_cases h1 : k1 = k
    · subst h1; simp [h]
    · simp [h1]

/-- Lookup after `m[k] = v`. -/
theorem map_find_assign {κ α : Type} [DecidableEq κ] (lt : κ → κ → Bool)
    (m : List (κ × α)) (k k1 : κ) (v : α) :
    map_find (map_assign lt m k v) k1 = if k1 = k then some v else map_find m k1 := by
  unfold map_assign
  rw [map_find_update]

/-- Lookup after `m.insert({k, v})`. -/
theorem map_find_insert {κ α : Type} [DecidableEq κ] (lt : κ → κ → Bool)
    (m : List (κ × α)) (k k1 : κ) (v : α) :
    map_find (map_insert lt m k v) k1
      = if k1 = k then some ((map_find m k).getD v) else map_find m k1 := by
  unfold map_insert
  cases h : map_find m k with
  | none =>
    simp only [Option.isSome_none, Bool.false_eq_true, if_false, Option.getD_none]
    by_cases h1 : k1 = k
    · subst h1; simp [map_find_put_self lt m k1 v h]
    · simp [h1, map_find_put_ne lt m k v h1]
  | some v1 =>
    simp only [Option.isSome_some, if_true, Option.getD_some]
    by_cases h1 : k1 = k
    · subst h1; simp [h]
    · simp [h1]

theorem mem_map_keys_iff {κ α : Type} [DecidableEq κ] (m : List (κ × α)) (k : κ) :
    k ∈ map_keys m ↔ (map_find m k).isSome = true := by
  induction m with
  | nil => simp [map_keys, map_find]
  | cons p rest ih =>
    obtain ⟨k2, v2⟩ := p
    unfold map_keys at ih ⊢
    by_cases h : k = k2
    · simp [map_find, h]
    · simp [map_find, h, ih]

theorem mem_set_insert {κ : Type} [DecidableEq κ] (lt : κ → κ → Bool) (s : List κ) (k x : κ) :
    x ∈ set_insert lt s k ↔ x = k ∨ x ∈ s := by
  induction s with
  | nil => simp [set_insert]
  | cons k1 rest ih =>
    unfold set_insert
    split
    · rename_i h; subst h; simp
    · split
      · simp
      · simp [ih]; tauto

/-! ## The fields of the world after each elementary change -/

@[simp] theorem count_draw_node (w : World) : (count_draw w).node = w.node := rfl
@[simp] theorem count_draw_state (w : World) : (count_draw w).state = w.state := rfl
@[simp] theorem count_draw_conn (w : World) : (count_draw w).conn = w.conn := rfl
@[simp] theorem count_draw_schema_calls (w : World) :
    (count_draw w).schema_calls = w.schema_calls := rfl

@[simp] theorem save_region_id_node (region_id : Int) (info : RegionInfo) (w : World) :
    (save_region_id region_id info w).node = w.node := by
  unfold save_region_id; split <;> rfl
@[simp] theorem save_region_id_state (region_id : Int) (info : RegionInfo) (w : World) :
    (save_region_id region_id info w).state = w.state := by
  unfold save_region_id; split <;> rfl
@[simp] theorem save_region_id_schema_calls (region_id : Int) (info : RegionInfo) (w : World) :
    (save_region_id region_id info w).schema_calls = w.schema_calls := by
  unfold save_region_id; split <;> rfl

/-- Saving a region leaves every entry the session already has, and the saved
region has an entry afterwards. -/
theorem save_region_id_find (region_id : Int) (info : RegionInfo) (w : World) (k : Int) :
    map_find (save_region_id region_id info w).conn.region_infos k
      = if k = region_id then some ((map_find w.conn.region_infos region_id).getD info)
        else map_find w.conn.region_infos k := by
  unfold save_region_id
  cases h : map_find w.conn.region_infos region_id with
  | none =>
    simp only [Option.isSome_none, Bool.false_eq_true, if_false, Option.getD_none]
    by_cases h1 : k = region_id
    · subst h1; simp [map_find_put_self int_lt _ k info h]
    · simp [h1, map_find_put_ne int_lt _ region_id info h1]
  | some v =>
    simp only [Option.isSome_some, if_true, Option.getD_some]
    by_cases h1 : k = region_id
    · subst h1; simp [h]
    · simp [h1]

@[simp] theorem set_insert_records_state (recs : List String) (w : World) :
    (set_insert_records recs w).state = w.state := rfl
@[simp] theorem set_insert_records_conn (recs : List String) (w : World) :
    (set_insert_records recs w).conn = w.conn := rfl
@[simp] theorem set_insert_records_schema_calls (recs : List String) (w : World) :
    (set_insert_records recs w).schema_calls = w.schema_calls := rfl

@[simp] theorem issue_rpc_node (addr : String) (req : StoreReq) (retry_times : Int) (w : World) :
    (issue_rpc addr req retry_times w).node = w.node := rfl
@[simp] theorem issue_rpc_state (addr : String) (req : StoreReq) (retry_times : Int) (w : World) :
    (issue_rpc addr req retry_times w).state = w.state := rfl
@[simp] theorem issue_rpc_conn (addr : String) (req : StoreReq) (retry_times : Int) (w : World) :
    (issue_rpc addr req retry_times w).conn = w.conn := rfl
@[simp] theorem issue_rpc_schema_calls (addr : String) (req : StoreReq) (retry_times : Int)
    (w : World) : (issue_rpc addr req retry_times w).schema_calls = w.schema_calls := rfl

@[simp] theorem adopt_leader_node (info : RegionInfo) (region_id : Int) (w : World) :
    (adopt_leader info region_id w).node = w.node := rfl
@[simp] theorem adopt_leader_state (info : RegionInfo) (region_id : Int) (w : World) :
    (adopt_leader info region_id w).state = w.state := rfl
@[simp] theorem adopt_leader_schema_calls (info : RegionInfo) (region_id : Int) (w : World) :
    (adopt_leader info region_id w).schema_calls
      = w.schema_calls ++ [SchemaCall.update_leader info] := rfl

/-- After a leader is adopted, the session entry of the region names it, and
every other entry is as before. -/
theorem adopt_leader_find (info : RegionInfo) (region_id : Int) (w : World) (k : Int) :
    map_find (adopt_leader info region_id w).conn.region_infos k
      = if k = region_id then
          some { (map_find w.conn.region_infos region_id).getD RegionInfo.default with
                 leader := info.leader }
        else map_find w.conn.region_infos k := by
  unfold adopt_leader conn_set_leader schema_update_leader
  simp only []
  rw [map_find_update]

@[simp] theorem add_affected_rows_state (n : Int) (w : World) :
    (add_affected_rows n w).state = w.state := rfl
@[simp] theorem add_affected_rows_conn (n : Int) (w : World) :
    (add_affected_rows n w).conn = w.conn := rfl
@[simp] theorem add_affected_rows_schema_calls (n : Int) (w : World) :
    (add_affected_rows n w).schema_calls = w.schema_calls := rfl

@[simp] theorem deposit_batch_state (k : List Nat) (region_id : Int) (batch : RowBatch)
    (w : World) : (deposit_batch k region_id batch w).state = w.state := rfl
@[simp] theorem deposit_batch_conn (k : List Nat) (region_id : Int) (batch : RowBatch)
    (w : World) : (deposit_batch k region_id batch w).conn = w.conn := rfl
@[simp] theorem deposit_batch_schema_calls (k : List Nat) (region_id : Int) (batch : RowBatch)
    (w : World) : (deposit_batch k region_id batch w).schema_calls = w.schema_calls := rfl

theorem choose_leader_conn {rand : Nat → Nat} {info info1 : RegionInfo} {w w1 : World}
    (h : choose_leader rand info w = some (info1, w1)) :
    w1.conn = w.conn ∧ w1.schema_calls = w.schema_calls ∧ w1.node = w.node ∧ w1.state = w.state := by
  rcases choose_leader_world h with h1 | h1 <;> subst h1 <;> exact ⟨rfl, rfl, rfl, rfl⟩

theorem rewrite_insert_records_conn {records : Option (List String)} {w w3 : World}
    (h : rewrite_insert_records records w = some w3) :
    w3.conn = w.conn ∧ w3.schema_calls = w.schema_calls ∧ w3.state = w.state := by
  rcases rewrite_insert_records_world h with h1 | ⟨recs, h1⟩ <;> subst h1 <;> exact ⟨rfl, rfl, rfl⟩

theorem install_child_find (r : RegionInfo) (w : World) (k : Int) :
    map_find (install_child r w).conn.region_infos k
      = if w.node._op_type ≠ OpType.OP_COMMIT ∧ k = r.region_id then some r
        else map_find w.conn.region_infos k := by
  unfold install_child
  by_cases hop : w.node._op_type ≠ OpType.OP_COMMIT
  · rw [if_pos hop]
    simp only [map_find_assign]
    by_cases hk : k = r.region_id
    · rw [if_pos hk, if_pos ⟨hop, hk⟩]
    · rw [if_neg hk, if_neg (fun h => hk h.2)]
  · rw [if_neg hop, if_neg (fun h => hop h.1)]

theorem narrow_parent_find_ne (region_id : Int) (r : RegionInfo) (w : World) {k : Int}
    (hk : k ≠ region_id) :
    map_find (narrow_parent region_id r w).conn.region_infos k = map_find w.conn.region_infos k := by
  unfold narrow_parent
  split
  · simp only [map_find_update, if_neg hk]
  · rfl

theorem narrow_parent_find_self (region_id : Int) (r : RegionInfo) (w : World)
    (hop : w.node._op_type ≠ OpType.OP_COMMIT) :
    ∃ e, map_find (narrow_parent region_id r w).conn.region_infos region_id = some e
      ∧ e.end_key = r.end_key ∧ e.version = r.version := by
  unfold narrow_parent
  rw [if_pos hop]
  simp only [map_find_update, if_true]
  refine ⟨_, rfl, ?_, ?_⟩ <;> split <;> rfl

theorem narrow_parent_key (region_id : Int) (r : RegionInfo) (w : World) (k : Int)
    (hk : (map_find w.conn.region_infos k).isSome = true) :
    (map_find (narrow_parent region_id r w).conn.region_infos k).isSome = true := by
  unfold narrow_parent
  split
  · simp only [map_find_update]
    split
    · rfl
    · exact hk
  · exact hk

/-! ## C1: retry boundedness -/

/-- C1, as stated, fails: with retry_times = 0 and a store where region 1 has
split in two and each half has split again, one dispatch issues 7 calls, more
than 5, and returns success. -/
theorem retry_boundedness_counterexample :
    (send_request ex_net_splits (fun _ => 0) ex_r1 none 1 0 0 3
        (ex_world OpType.OP_INSERT false [])).1 = Ret.code 0
    ∧ (send_request ex_net_splits (fun _ => 0) ex_r1 none 1 0 0 3
        (ex_world OpType.OP_INSERT false [])).2.2.rpcs.length = 7
    ∧ ¬ ((send_request ex_net_splits (fun _ => 0) ex_r1 none 1 0 0 3
        (ex_world OpType.OP_INSERT false [])).2.2.rpcs.length
          ≤ (ex_world OpType.OP_INSERT false []).rpcs.length + 5) := by
  decide

/-- C1 (amended): for every sequence of store responses, a send_request call
returns or crashes within its recursion budget; every call to the store it adds
is issued with retry_times below 5, so no chain of retries is longer than 5;
when no response from now on is a split (VERSION_OLD with at least 2 regions)
it adds at most 5 - retry_times calls in total, that is at most 5 for a
dispatch started by open, all other reasons counted together; and a call
entered with retry_times >= 5 returns -1 and leaves the world as it was, so
issues no call and does not recurse. -/
theorem retry_boundedness (net : Nat → Reply) (rand : Nat → Nat) (info : RegionInfo)
    (records : Option (List String)) (region_id : Int) (log_id : Nat)
    (retry_times start_seq_id : Int) (w : World) :
    (send_request net rand info records region_id log_id retry_times start_seq_id w).1
        ≠ Ret.out_of_fuel
    ∧ (∃ ext,
        (send_request net rand info records region_id log_id retry_times start_seq_id w).2.2.rpcs
          = w.rpcs ++ ext ∧ ∀ rec ∈ ext, rec.retry_times < 5)
    ∧ (no_split_from net w.net_calls →
        (send_request net rand info records region_id log_id retry_times start_seq_id
          w).2.2.rpcs.length ≤ w.rpcs.length + (5 - retry_times).toNat)
    ∧ (5 ≤ retry_times →
        send_request net rand info records region_id log_id retry_times start_seq_id w
          = (Ret.code (-1), info, w)) := by
  refine ⟨send_request_fuel net rand info records region_id log_id retry_times start_seq_id w,
    steps_rpcs (send_request_steps net rand true info records region_id log_id retry_times
      start_seq_id w (by simp)), ?_, ?_⟩
  · intro hns
    exact send_request_aux_count net rand _ info records region_id log_id retry_times
      start_seq_id w hns
  · intro h5
    show send_request_body net rand _ info records region_id log_id retry_times start_seq_id w = _
    unfold send_request_body
    simp only []
    split <;> rfl

/-- The amended C1 at a concrete input: a store that fails every call in
transport is called at most 5 times by a dispatch started with retry_times = 0,
and not at all by a call entered with retry_times = 5. -/
theorem retry_boundedness_witness :
    no_split_from ex_net_failed (ex_world OpType.OP_INSERT false []).net_calls
    ∧ (send_request ex_net_failed (fun _ => 0) ex_r1 none 1 0 0 3
        (ex_world OpType.OP_INSERT false [])).2.2.rpcs.length
        ≤ (ex_world OpType.OP_INSERT false []).rpcs.length + (5 - (0 : Int)).toNat
    ∧ (5 : Int) ≤ 5
    ∧ send_request ex_net_failed (fun _ => 0) ex_r1 none 1 0 5 3
        (ex_world OpType.OP_INSERT false [])
        = (Ret.code (-1), ex_r1, ex_world OpType.OP_INSERT false []) :=
  ⟨fun _ _ => rfl,
   (retry_boundedness ex_net_failed (fun _ => 0) ex_r1 none 1 0 0 3
      (ex_world OpType.OP_INSERT false [])).2.2.1 (fun _ _ => rfl),
   by decide,
   (retry_boundedness ex_net_failed (fun _ => 0) ex_r1 none 1 0 5 3
      (ex_world OpType.OP_INSERT false [])).2.2.2 (by decide)⟩

/-! ## The first call of a `send_request` -/

theorem choose_leader_info {rand : Nat → Nat} {info info1 : RegionInfo} {w w1 : World}
    (h : choose_leader rand info w = some (info1, w1)) :
    info1 = { info with leader := info1.leader } := by
  unfold choose_leader at h
  split at h
  · cases hr : rand_peer_func rand info w with
    | none => simp [hr] at h
    | some p =>
      obtain ⟨peer, w2⟩ := p
      simp only [hr] at h
      cases h
      rfl
  · cases h; rfl

theorem choose_leader_static {rand : Nat → Nat} {info info1 : RegionInfo} {w w1 : World}
    (h : choose_leader rand info w = some (info1, w1)) : static_of w1 = static_of w :=
  steps_static (choose_leader_steps (b := true) h)

theorem save_region_id_static (region_id : Int) (info : RegionInfo) (w : World) :
    static_of (save_region_id region_id info w) = static_of w :=
  step_static (Step.save region_id info w : Step true _ _)

theorem rewrite_insert_records_static {records : Option (List String)} {w w3 : World}
    (h : rewrite_insert_records records w = some w3) : static_of w3 = static_of w :=
  steps_static (rewrite_insert_records_steps (b := true) h)

/-- Either a `send_request` adds no call to the record, or the first call it
adds is the one built from the world it was entered with. -/
theorem send_request_aux_first_rpc (net : Nat → Reply) (rand : Nat → Nat) (fuel : Nat)
    (info : RegionInfo) (records : Option (List String)) (region_id : Int) (log_id : Nat)
    (retry_times start_seq_id : Int) (w : World) :
    (send_request_aux net rand fuel info records region_id log_id retry_times start_seq_id
        w).2.2.rpcs = w.rpcs
    ∨ ∃ info1 w1 w3 ext,
        choose_leader rand info w = some (info1, w1)
        ∧ rewrite_insert_records records (save_region_id region_id info1 w1) = some w3
        ∧ (send_request_aux net rand fuel info records region_id log_id retry_times start_seq_id
            w).2.2.rpcs
          = w.rpcs ++ [{ addr := info1.leader,
                         req := make_request w3 info1 region_id log_id
                                  (fix_start_seq_id w1 start_seq_id),
                         retry_times := retry_times }] ++ ext := by
  cases fuel with
  | zero => exact Or.inl rfl
  | succ n =>
    rw [show send_request_aux net rand (n + 1)
      = send_request_body net rand (send_request_aux net rand n) from rfl]
    have hself := send_request_aux_steps net rand true n
    unfold send_request_body
    simp only []
    split
    · exact Or.inl rfl
    · split
      · exact Or.inl rfl
      · split
        · exact Or.inl rfl
        · rename_i info1 w1 hc
          have r1 := choose_leader_rpcs hc
          split
          · exact Or.inl (by simp [r1])
          · rename_i w3 hr
            have r3 : w3.rpcs = w.rpcs := by
              rw [rewrite_insert_records_rpcs hr, save_region_id_rpcs, r1]
            split
            · exact Or.inl (by simp [r3])
            · right
              refine ⟨info1, w1, w3, ?_⟩
              split
              · exact ⟨[], hc, hr, by simp [r3]⟩
              · rename_i info2 w4 ho
                have hw := other_peer_world ho
                subst hw
                obtain ⟨ext, he, _⟩ := steps_rpcs (hself info2 records region_id log_id
                  (retry_times + 1) (fix_start_seq_id w1 start_seq_id)
                  (count_draw (issue_rpc info1.leader
                    (make_request w3 info1 region_id log_id (fix_start_seq_id w1 start_seq_id))
                    retry_times w3)) (by simp))
                exact ⟨ext, hc, hr, by rw [he]; simp [r3]⟩
            · right
              rename_i res hnet
              obtain ⟨ext, he, _⟩ := steps_rpcs (@handle_response_steps net rand true _ hself res
                (by simp) info1 records region_id log_id retry_times
                (fix_start_seq_id w1 start_seq_id)
                (issue_rpc info1.leader
                  (make_request w3 info1 region_id log_id (fix_start_seq_id w1 start_seq_id))
                  retry_times w3) (by simp))
              exact ⟨info1, w1, w3, ext, hc, hr, by rw [he]; simp [r3]⟩

/-! ## C3: the cache-plan replay rule -/

theorem replay_keeps_iff (op : OpType) (seq_id table_id s : Int) (pair : Int × CachePlan) :
    replay_keeps op seq_id table_id s pair = true ↔ spec_replays op seq_id table_id s pair := by
  unfold replay_keeps spec_replays targets_other_table
  obtain ⟨sid, plan⟩ := pair
  show (if sid < s ∨ sid ≥ seq_id then false
      else if op = OpType.OP_PREPARE ∧ plan.op_type = OpType.OP_PREPARE then false
      else match plan.tuples with
        | [] => true
        | t :: _ => if t.table_id ≠ table_id then false else true) = true
    ↔ s ≤ sid ∧ sid < seq_id
      ∧ ¬ (plan.op_type = OpType.OP_PREPARE ∧ op = OpType.OP_PREPARE)
      ∧ ¬ ∃ t, plan.tuples.head? = some t ∧ t.table_id ≠ table_id
  by_cases h1 : sid < s ∨ sid ≥ seq_id
  · rw [if_pos h1]
    constructor
    · intro h; cases h
    · intro h
      rcases h1 with h1 | h1 <;> omega
  · have h1a : s ≤ sid := by omega
    have h1b : sid < seq_id := by omega
    rw [if_neg h1]
    by_cases h2 : op = OpType.OP_PREPARE ∧ plan.op_type = OpType.OP_PREPARE
    · rw [if_pos h2]
      constructor
      · intro h; cases h
      · intro h
        exact absurd ⟨h2.2, h2.1⟩ h.2.2.1
    · rw [if_neg h2]
      have h2c : ¬ (plan.op_type = OpType.OP_PREPARE ∧ op = OpType.OP_PREPARE) :=
        fun h => h2 ⟨h.2, h.1⟩
      cases plan.tuples with
      | nil => simp [h1a, h1b, h2c]
      | cons t rest =>
        by_cases h3 : t.table_id = table_id
        · simp [h1a, h1b, h2c, h3]
        · simp [h1a, h1b, h2c, h3]

theorem fix_start_seq_id_eq (w : World) (start_seq_id : Int) :
    fix_start_seq_id w start_seq_id = spec_start_seq_id w start_seq_id := by
  unfold fix_start_seq_id spec_start_seq_id first_statement_after_begin autocommit_prepare
  by_cases h1 : w.conn.cache_plans.length = 1 ∧ w.state.autocommit = false <;>
    by_cases h2 : w.state.autocommit = true ∧ w.node._op_type = OpType.OP_PREPARE <;>
    simp [h1, h2]

theorem replay_cache_plans_eq (w : World) (info : RegionInfo) (s : Int) :
    replay_cache_plans w info s = spec_replay_list w info.table_id s := by
  unfold replay_cache_plans spec_replay_list
  by_cases h : s < 0 ∨ w.node._op_type = OpType.OP_ROLLBACK ∨ w.node._op_type = OpType.OP_COMMIT
  · rw [if_pos h, if_neg]
    rintro ⟨ha, hb, hc⟩
    rcases h with h | h | h
    · omega
    · exact hb h
    · exact hc h
  · rw [if_neg h, if_pos]
    · congr 1
      apply List.filter_congr
      intro pair _
      rw [Bool.eq_iff_iff, replay_keeps_iff]
      simp
    · refine ⟨by omega, fun hb => h (Or.inr (Or.inl hb)), fun hc => h (Or.inr (Or.inr hc))⟩

theorem fix_start_seq_id_static {w w1 : World} (h : static_of w1 = static_of w)
    (start_seq_id : Int) : fix_start_seq_id w1 start_seq_id = fix_start_seq_id w start_seq_id := by
  have h1 : w1.conn.cache_plans = w.conn.cache_plans := congrArg Static.cache_plans h
  have h2 : w1.state.autocommit = w.state.autocommit := congrArg Static.autocommit h
  have h3 : w1.node._op_type = w.node._op_type := congrArg Static.op_type h
  unfold fix_start_seq_id
  rw [h1, h2, h3]

theorem replay_cache_plans_static {w w1 : World} (h : static_of w1 = static_of w)
    {info info1 : RegionInfo} (ht : info1.table_id = info.table_id) (s : Int) :
    replay_cache_plans w1 info1 s = replay_cache_plans w info s := by
  have h1 : w1.conn.cache_plans = w.conn.cache_plans := congrArg Static.cache_plans h
  have h2 : w1.state.seq_id = w.state.seq_id := congrArg Static.seq_id h
  have h3 : w1.node._op_type = w.node._op_type := congrArg Static.op_type h
  unfold replay_cache_plans
  rw [h1, h2, h3, ht]

theorem choose_leader_table_id {rand : Nat → Nat} {info info1 : RegionInfo} {w w1 : World}
    (h : choose_leader rand info w = some (info1, w1)) : info1.table_id = info.table_id := by
  rw [choose_leader_info h]

theorem get?_append_cons {α : Type} (l ext : List α) (a : α) :
    (l ++ [a] ++ ext).get? l.length = some a := by
  induction l with
  | nil => rfl
  | cons x xs ih => simpa using ih

/-- The call a `send_request` adds first goes to the leader chosen on entry and
carries the effective `start_seq_id` and the cache plans chosen by the replay
loop, both computed from the world the call was entered with. -/
theorem send_request_first_rpc_req (net : Nat → Reply) (rand : Nat → Nat) (fuel : Nat)
    (info : RegionInfo) (records : Option (List String)) (region_id : Int) (log_id : Nat)
    (retry_times start_seq_id : Int) (w : World) (rec : RpcRecord)
    (hrec : (send_request_aux net rand fuel info records region_id log_id retry_times
      start_seq_id w).2.2.rpcs.get? w.rpcs.length = some rec) :
    (∃ info1 w1, choose_leader rand info w = some (info1, w1) ∧ rec.addr = info1.leader)
    ∧ rec.retry_times = retry_times
    ∧ rec.req.txn_info.start_seq_id = fix_start_seq_id w start_seq_id
    ∧ rec.req.txn_info.cache_plans
        = replay_cache_plans w info (fix_start_seq_id w start_seq_id) := by
  rcases send_request_aux_first_rpc net rand fuel info records region_id log_id retry_times
    start_seq_id w with h | ⟨info1, w1, w3, ext, hc, hr, h⟩
  · rw [h] at hrec
    simp at hrec
  · rw [h, get?_append_cons] at hrec
    cases hrec
    have st1 := choose_leader_static hc
    have st3 : static_of w3 = static_of w := by
      rw [rewrite_insert_records_static hr, save_region_id_static, st1]
    refine ⟨⟨info1, w1, hc, rfl⟩, rfl, fix_start_seq_id_static st1 _, ?_⟩
    show replay_cache_plans w3 info1 (fix_start_seq_id w1 start_seq_id) = _
    rw [fix_start_seq_id_static st1, replay_cache_plans_static st3 (choose_leader_table_id hc)]

/-- C3, as stated, fails in case (a): the code forces 1 by the number of
cached plans, not by the place of the statement. In a transaction that is not
autocommit, statement 2 is a SELECT: it is opened with success and, a SELECT
not being cached, leaves the BEGIN as the only plan in the cache. Statement 3,
an UPDATE entered with start_seq_id = 3, is neither the first statement after
BEGIN nor an autocommit PREPARE, so the rule as stated gives s = 3 and no plan
to replay; the request carries start_seq_id = 1 and replays the BEGIN. -/
theorem cache_plan_replay_rule_counterexample :
    (FetcherNode.open ex_net_rows (fun _ => 0) false ex_world_select_second).1 = Ret.code 0
    ∧ (FetcherNode.open ex_net_rows (fun _ => 0) false ex_world_select_second).2.conn.cache_plans
        = ex_world_after_select.conn.cache_plans
    ∧ ex_world_after_select.state.seq_id = 3
    ∧ ¬ follows_begin ex_world_after_select
    ∧ ¬ autocommit_prepare ex_world_after_select
    ∧ claimed_start_seq_id ex_world_after_select 3 = 3
    ∧ spec_replay_list ex_world_after_select ex_r1.table_id
        (claimed_start_seq_id ex_world_after_select 3) = []
    ∧ (send_request ex_net_ok (fun _ => 0) ex_r1 none 1 0 0 3
        ex_world_after_select).2.2.rpcs.map
          (fun rec => (rec.req.txn_info.start_seq_id,
            rec.req.txn_info.cache_plans.map (fun plan => plan.op_type)))
        = [(1, [OpType.OP_BEGIN])] := by
  decide

/-- C3 (amended): the call to the store that a send_request makes carries as
TransactionInfo.start_seq_id the effective start_seq_id s, which is 1 exactly
in two cases, (a) cache_plans holds exactly one plan and the transaction is not
autocommit (the test of line 117; it covers the first statement after BEGIN and
every later statement as long as the BEGIN is the only plan cached) and (b) an
autocommit PREPARE, and is the start_seq_id passed in otherwise; its cache-plan
list is empty when s < 0 or the op is ROLLBACK or COMMIT, and else is exactly
the entries (sid, plan) of cache_plans with s <= sid < state.seq_id that are
not a PREPARE while a PREPARE is issued and do not target another table than
the one of the region, in the order of the map, which is ascending in sid. -/
theorem cache_plan_replay_rule (net : Nat → Reply) (rand : Nat → Nat)
    (info : RegionInfo) (records : Option (List String)) (region_id : Int) (log_id : Nat)
    (retry_times start_seq_id : Int) (w : World) (rec : RpcRecord)
    (hrec : (send_request net rand info records region_id log_id retry_times start_seq_id
      w).2.2.rpcs.get? w.rpcs.length = some rec) :
    ((w.conn.cache_plans.length = 1 ∧ w.state.autocommit = false)
        ∨ (w.state.autocommit = true ∧ w.node._op_type = OpType.OP_PREPARE) →
      rec.req.txn_info.start_seq_id = 1)
    ∧ (¬ ((w.conn.cache_plans.length = 1 ∧ w.state.autocommit = false)
        ∨ (w.state.autocommit = true ∧ w.node._op_type = OpType.OP_PREPARE)) →
      rec.req.txn_info.start_seq_id = start_seq_id)
    ∧ rec.req.txn_info.cache_plans
        = spec_replay_list w info.table_id rec.req.txn_info.start_seq_id
    ∧ (rec.req.txn_info.start_seq_id < 0 ∨ w.node._op_type = OpType.OP_ROLLBACK
        ∨ w.node._op_type = OpType.OP_COMMIT → rec.req.txn_info.cache_plans = [])
    ∧ (List.Pairwise (fun a b => a < b) (map_keys w.conn.cache_plans) →
        ∃ kept : List (Int × CachePlan),
          rec.req.txn_info.cache_plans = kept.map Prod.snd
          ∧ List.Sublist kept w.conn.cache_plans
          ∧ List.Pairwise (fun a b => a < b) (map_keys kept)) := by
  obtain ⟨_, _, h1, h2⟩ := send_request_first_rpc_req net rand _ info records region_id log_id
    retry_times start_seq_id w rec hrec
  rw [← h1, replay_cache_plans_eq] at h2
  rw [fix_start_seq_id_eq] at h1
  refine ⟨?_, ?_, h2, ?_, ?_⟩
  · intro h
    rw [h1]
    unfold spec_start_seq_id first_statement_after_begin autocommit_prepare
    rw [if_pos h]
  · intro h
    rw [h1]
    unfold spec_start_seq_id first_statement_after_begin autocommit_prepare
    rw [if_neg h]
  · intro h; rw [h2]; unfold spec_replay_list; rw [if_pos h]
  · intro hsorted
    rw [h2]
    unfold spec_replay_list
    split
    · exact ⟨[], rfl, List.nil_sublist _, List.Pairwise.nil⟩
    · refine ⟨_, rfl, List.filter_sublist _, ?_⟩
      unfold map_keys at hsorted ⊢
      exact List.Pairwise.sublist (List.Sublist.map _ (List.filter_sublist _)) hsorted

/-- The amended C3 at concrete inputs: an UPDATE of statement 3 entered with
start_seq_id = 2, after a BEGIN and an INSERT were cached, carries 2 and
replays the INSERT; the UPDATE of statement 3 that follows a BEGIN and a SELECT
carries 1. -/
theorem cache_plan_replay_rule_witness :
    (send_request ex_net_ok (fun _ => 0) ex_r1 none 1 0 0 2
        (ex_world OpType.OP_UPDATE false [])).2.2.rpcs.get?
          (ex_world OpType.OP_UPDATE false []).rpcs.length = some ex_update_call
    ∧ ex_update_call.req.txn_info.start_seq_id = 2
    ∧ ex_update_call.req.txn_info.cache_plans
        = spec_replay_list (ex_world OpType.OP_UPDATE false []) ex_r1.table_id
            ex_update_call.req.txn_info.start_seq_id
    ∧ ex_update_call.req.txn_info.cache_plans.map (fun plan => plan.op_type)
        = [OpType.OP_INSERT]
    ∧ ∀ rec, (send_request ex_net_ok (fun _ => 0) ex_r1 none 1 0 0 3
        ex_world_after_select).2.2.rpcs.get? ex_world_after_select.rpcs.length = some rec →
        rec.req.txn_info.start_seq_id = 1 :=
  ⟨by decide,
   (cache_plan_replay_rule ex_net_ok (fun _ => 0) ex_r1 none 1 0 0 2
      (ex_world OpType.OP_UPDATE false []) ex_update_call (by decide)).2.1 (by decide),
   (cache_plan_replay_rule ex_net_ok (fun _ => 0) ex_r1 none 1 0 0 2
      (ex_world OpType.OP_UPDATE false []) ex_update_call (by decide)).2.2.1,
   by decide,
   fun rec hrec =>
    (cache_plan_replay_rule ex_net_ok (fun _ => 0) ex_r1 none 1 0 0 3
      ex_world_after_select rec hrec).1 (by decide)⟩

/-! ## C2: what a resend replays -/

theorem adopt_leader_static (info : RegionInfo) (region_id : Int) (w : World) :
    static_of (adopt_leader info region_id w) = static_of w := rfl

theorem issue_rpc_static (addr : String) (req : StoreReq) (retry_times : Int) (w : World) :
    static_of (issue_rpc addr req retry_times w) = static_of w := rfl

theorem count_draw_static (w : World) : static_of (count_draw w) = static_of w := rfl

theorem other_peer_table_id {rand : Nat → Nat} {info info1 : RegionInfo} {w w1 : World}
    (h : other_peer_to_leader_func rand info w = some (info1, w1)) :
    info1.table_id = info.table_id := by
  unfold other_peer_to_leader_func at h
  cases hr : rand_peer_func rand info w with
  | none => simp [hr] at h
  | some p =>
    obtain ⟨peer, w2⟩ := p
    simp only [hr] at h
    split at h
    · cases h; rfl
    · split at h <;> (cases h; rfl)

theorem choose_leader_known {rand : Nat → Nat} {info : RegionInfo} {w : World}
    (h1 : info.leader ≠ "0.0.0.0:0") (h2 : info.leader ≠ "") :
    choose_leader rand info w = some (info, w) := by
  unfold choose_leader
  rw [if_neg]
  rintro (h | h)
  · exact h1 h
  · exact h2 h

theorem get?_beyond {α : Type} {l : List α} {k : Nat} {x : α} (hk : l.length ≤ k)
    (h : l.get? k = some x) : False := by
  rw [List.get?_eq_none.mpr hk] at h
  cases h

/-- After `NOT_LEADER` or `TXN_FOLLOW_UP`, the second call a `send_request`
adds is the first call of the recursive `send_request`, entered with
`last_seq_id + 1`. -/
theorem send_request_resend (net : Nat → Reply) (rand : Nat → Nat)
    (info : RegionInfo) (records : Option (List String)) (region_id : Int) (log_id : Nat)
    (retry_times start_seq_id : Int) (w : World) (res : StoreRes) (rec : RpcRecord)
    (hnet : net w.net_calls = Reply.response res)
    (hcode : res.errcode = ErrCode.NOT_LEADER ∨ res.errcode = ErrCode.TXN_FOLLOW_UP)
    (hrec : (send_request net rand info records region_id log_id retry_times start_seq_id
      w).2.2.rpcs.get? (w.rpcs.length + 1) = some rec) :
    rec.retry_times = retry_times + 1
    ∧ rec.req.txn_info.start_seq_id = fix_start_seq_id w (last_seq_id_of res + 1)
    ∧ rec.req.txn_info.cache_plans
        = replay_cache_plans w info (fix_start_seq_id w (last_seq_id_of res + 1))
    ∧ (res.errcode = ErrCode.NOT_LEADER → res.leader ≠ "0.0.0.0:0" → res.leader ≠ "" →
        rec.addr = res.leader) := by
  unfold send_request at hrec
  rw [show send_request_aux net rand ((5 - retry_times).toNat + 1)
      = send_request_body net rand (send_request_aux net rand (5 - retry_times).toNat)
      from rfl] at hrec
  unfold send_request_body at hrec
  simp only [] at hrec
  split at hrec
  · exact (get?_beyond (by simp) hrec).elim
  · split at hrec
    · exact (get?_beyond (by simp) hrec).elim
    · split at hrec
      · exact (get?_beyond (by simp) hrec).elim
      · rename_i info1 w1 hc
        have r1 := choose_leader_rpcs hc
        have n1 := choose_leader_net_calls hc
        have st1 := choose_leader_static hc
        have t1 := choose_leader_table_id hc
        split at hrec
        · exact (get?_beyond (by simp [r1]) hrec).elim
        · rename_i w3 hr
          have r3 : w3.rpcs = w.rpcs := by
            rw [rewrite_insert_records_rpcs hr, save_region_id_rpcs, r1]
          have n3 : w3.net_calls = w.net_calls := by
            rw [rewrite_insert_records_net_calls hr, save_region_id_net_calls, n1]
          have st3 : static_of w3 = static_of w := by
            rw [rewrite_insert_records_static hr, save_region_id_static, st1]
          rw [n3, hnet] at hrec
          simp only [] at hrec
          -- the recursive call, entered in a world with one more call on record
          have key : ∀ (i : RegionInfo) (w5 : World), static_of w5 = static_of w →
              i.table_id = info.table_id → w5.rpcs.length = w.rpcs.length + 1 →
              (send_request_aux net rand (5 - retry_times).toNat i records region_id log_id
                (retry_times + 1) (last_seq_id_of res + 1) w5).2.2.rpcs.get?
                  (w.rpcs.length + 1) = some rec →
              (∃ i1 w6, choose_leader rand i w5 = some (i1, w6) ∧ rec.addr = i1.leader)
              ∧ rec.retry_times = retry_times + 1
              ∧ rec.req.txn_info.start_seq_id = fix_start_seq_id w (last_seq_id_of res + 1)
              ∧ rec.req.txn_info.cache_plans
                  = replay_cache_plans w info (fix_start_seq_id w (last_seq_id_of res + 1)) := by
            intro i w5 hst ht hlen h
            rw [← hlen] at h
            obtain ⟨a, b, c, d⟩ := send_request_first_rpc_req net rand _ i records region_id
              log_id (retry_times + 1) (last_seq_id_of res + 1) w5 rec h
            refine ⟨a, b, ?_, ?_⟩
            · rw [c, fix_start_seq_id_static hst]
            · rw [d, fix_start_seq_id_static hst, replay_cache_plans_static hst ht]
          unfold handle_response at hrec
          rcases hcode with hcode | hcode
          · rw [hcode] at hrec
            simp only [] at hrec
            unfold on_not_leader at hrec
            simp only [] at hrec
            split at hrec
            · rename_i hlead
              obtain ⟨⟨i1, w6, hc2, haddr⟩, b, c, d⟩ := key { info1 with leader := res.leader } _
                (by rw [adopt_leader_static, issue_rpc_static, st3]) t1 (by simp [r3]) hrec
              refine ⟨b, c, d, ?_⟩
              intro _ _ hne
              rw [choose_leader_known (by simpa using hlead) (by simpa using hne)] at hc2
              cases hc2
              exact haddr
            · rename_i hlead
              split at hrec
              · exact (get?_beyond (by simp [r3]) hrec).elim
              · rename_i info2 w4 ho
                have hw := other_peer_world ho
                subst hw
                obtain ⟨_, b, c, d⟩ := key info2 _
                  (by rw [count_draw_static, issue_rpc_static, st3])
                  (by rw [other_peer_table_id ho, t1]) (by simp [r3]) hrec
                exact ⟨b, c, d, fun _ h => absurd h hlead⟩
          · rw [hcode] at hrec
            simp only [] at hrec
            unfold on_txn_follow_up at hrec
            simp only [] at hrec
            split at hrec
            · exact (get?_beyond (by simp [r3]) hrec).elim
            · split at hrec
              · exact (get?_beyond (by simp [r3]) hrec).elim
              · obtain ⟨_, b, c, d⟩ := key info1 _
                  (by rw [issue_rpc_static, st3]) t1 (by simp [r3]) hrec
                exact ⟨b, c, d, fun h => by rw [hcode] at h; cases h⟩

/-- C2, as stated, fails for two reasons. A COMMIT answered NOT_LEADER with
last_seq_id = 0 is resent with an empty cache-plan list although the cached
BEGIN of statement 1 has 0 < 1 < 3, is not a PREPARE and is of the table of the
region. An UPDATE answered NOT_LEADER with last_seq_id = -2 is resent with
start_seq_id = -1 and an empty list as well. -/
theorem cache_replay_completeness_counterexample :
    (((send_request (ex_net_redirect "B" 0) (fun _ => 0) ex_r1 none 1 0 0 3
        (ex_world OpType.OP_COMMIT false [])).2.2.rpcs.get? 1).map
          (fun rec => rec.req.txn_info.cache_plans) = some []
      ∧ (1, ex_plan OpType.OP_BEGIN 1) ∈ (ex_world OpType.OP_COMMIT false []).conn.cache_plans
      ∧ spec_replays OpType.OP_COMMIT (ex_world OpType.OP_COMMIT false []).state.seq_id
          ex_r1.table_id (0 + 1) (1, ex_plan OpType.OP_BEGIN 1))
    ∧ (((send_request (ex_net_redirect "B" (-2)) (fun _ => 0) ex_r1 none 1 0 0 3
        (ex_world OpType.OP_UPDATE false [])).2.2.rpcs.get? 1).map
          (fun rec => (rec.req.txn_info.start_seq_id, rec.req.txn_info.cache_plans))
            = some (-1, [])
      ∧ (1, ex_plan OpType.OP_BEGIN 1) ∈ (ex_world OpType.OP_UPDATE false []).conn.cache_plans
      ∧ spec_replays OpType.OP_UPDATE (ex_world OpType.OP_UPDATE false []).state.seq_id
          ex_r1.table_id (-2 + 1) (1, ex_plan OpType.OP_BEGIN 1)) := by
  decide

/-- C2 (amended): for every op type other than ROLLBACK and COMMIT and every
session state, when the store answers NOT_LEADER or TXN_FOLLOW_UP with
last_seq_id = L >= 0 (an absent last_seq_id counting as 0) and send_request
resends the request, the cache-plan list of the resent request contains every
entry (sid, plan) of cache_plans with L < sid < state.seq_id, except entries
that are a PREPARE while a PREPARE is issued and entries that target another
table than the one of the region. -/
theorem cache_replay_completeness (net : Nat → Reply) (rand : Nat → Nat)
    (info : RegionInfo) (records : Option (List String)) (region_id : Int) (log_id : Nat)
    (retry_times start_seq_id : Int) (w : World) (res : StoreRes) (L : Int) (rec : RpcRecord)
    (hnet : net w.net_calls = Reply.response res)
    (hcode : res.errcode = ErrCode.NOT_LEADER ∨ res.errcode = ErrCode.TXN_FOLLOW_UP)
    (hL : last_seq_id_of res = L) (hL0 : 0 ≤ L)
    (hop1 : w.node._op_type ≠ OpType.OP_ROLLBACK) (hop2 : w.node._op_type ≠ OpType.OP_COMMIT)
    (hrec : (send_request net rand info records region_id log_id retry_times start_seq_id
      w).2.2.rpcs.get? (w.rpcs.length + 1) = some rec) :
    ∀ pair ∈ w.conn.cache_plans, L < pair.1 → pair.1 < w.state.seq_id →
      ¬ (pair.2.op_type = OpType.OP_PREPARE ∧ w.node._op_type = OpType.OP_PREPARE) →
      ¬ targets_other_table info.table_id pair.2 →
      pair.2 ∈ rec.req.txn_info.cache_plans := by
  intro pair hmem h1 h2 h3 h4
  obtain ⟨_, _, hplans, _⟩ := send_request_resend net rand info records region_id log_id
    retry_times start_seq_id w res rec hnet hcode hrec
  rw [hplans, hL, fix_start_seq_id_eq, replay_cache_plans_eq]
  have hs : 0 ≤ spec_start_seq_id w (L + 1) ∧ spec_start_seq_id w (L + 1) ≤ L + 1 := by
    unfold spec_start_seq_id
    split <;> constructor <;> omega
  unfold spec_replay_list
  rw [if_neg]
  · refine List.mem_map.mpr ⟨pair, List.mem_filter.mpr ⟨hmem, ?_⟩, rfl⟩
    rw [decide_eq_true_iff]
    exact ⟨by omega, h2, h3, h4⟩
  · rintro (h | h | h)
    · omega
    · exact hop1 h
    · exact hop2 h

/-- The amended C2 at a concrete input: an UPDATE of statement 3 answered
NOT_LEADER with last_seq_id = 1 is resent with the cached INSERT of
statement 2. -/
theorem cache_replay_completeness_witness :
    ex_net_redirect "B" 1 (ex_world OpType.OP_UPDATE false []).net_calls
        = Reply.response { ex_res ErrCode.NOT_LEADER with leader := "B", last_seq_id := some 1 }
    ∧ (send_request (ex_net_redirect "B" 1) (fun _ => 0) ex_r1 none 1 0 0 3
        (ex_world OpType.OP_UPDATE false [])).2.2.rpcs.get?
          ((ex_world OpType.OP_UPDATE false []).rpcs.length + 1) = some ex_update_resend
    ∧ (ex_plan OpType.OP_INSERT 2) ∈ ex_update_resend.req.txn_info.cache_plans :=
  ⟨by decide, by decide,
   cache_replay_completeness (ex_net_redirect "B" 1) (fun _ => 0) ex_r1 none 1 0 0 3
     (ex_world OpType.OP_UPDATE false [])
     { ex_res ErrCode.NOT_LEADER with leader := "B", last_seq_id := some 1 } 1 ex_update_resend
     (by decide) (by decide) (by decide) (by decide) (by decide) (by decide) (by decide)
     (2, ex_plan OpType.OP_INSERT 2) (by decide) (by decide) (by decide) (by decide) (by decide)⟩

/-! ## C4: the redirect after `NOT_LEADER` -/

/-- A `send_request` that gets as far as the call and is answered hands the
response to `handle_response`. -/
theorem send_request_body_reach {net : Nat → Reply} {rand : Nat → Nat} {self : SendFn}
    {info info1 : RegionInfo} {records : Option (List String)} {region_id : Int} {log_id : Nat}
    {retry_times start_seq_id : Int} {w w1 w3 : World} {res : StoreRes}
    (herr : w.node._error = false) (hretry : retry_times < 5)
    (hc : choose_leader rand info w = some (info1, w1))
    (hr : rewrite_insert_records records (save_region_id region_id info1 w1) = some w3)
    (hnet : net w.net_calls = Reply.response res) :
    send_request_body net rand self info records region_id log_id retry_times start_seq_id w
      = handle_response rand self res info1 records region_id log_id retry_times
          (fix_start_seq_id w1 start_seq_id)
          (issue_rpc info1.leader
            (make_request w3 info1 region_id log_id (fix_start_seq_id w1 start_seq_id))
            retry_times w3) := by
  have n3 : w3.net_calls = w.net_calls := by
    rw [rewrite_insert_records_net_calls hr, save_region_id_net_calls, choose_leader_net_calls hc]
  unfold send_request_body
  simp only [herr, Bool.false_eq_true, if_false, ge_iff_le, not_le.mpr hretry, hc, hr, n3, hnet]

theorem choose_leader_some (rand : Nat → Nat) (info : RegionInfo) (w : World)
    (h : info.peers ≠ []) : ∃ info1 w1, choose_leader rand info w = some (info1, w1) := by
  unfold choose_leader rand_peer_func
  have hlen : ¬ info.peers.length = 0 := by
    intro h0; exact h (List.length_eq_zero.mp h0)
  split
  · simp [hlen]
  · exact ⟨_, _, rfl⟩

theorem rewrite_insert_records_some (records : Option (List String)) (w : World)
    (h : has_needed_insert_node w) :
    ∃ w3, rewrite_insert_records records w = some w3 ∧ has_needed_insert_node w3 := by
  unfold rewrite_insert_records
  split
  · rename_i hop
    cases hrec : w.node.child.insert_records with
    | none =>
      simp only []
      split
      · rename_i hauto
        rcases hop with hop | hop
        · rw [hop.2] at hauto; cases hauto
        · exact absurd hrec (h hop hauto)
      · exact ⟨w, rfl, h⟩
    | some old =>
      simp only []
      cases records with
      | none => exact ⟨w, rfl, h⟩
      | some recs =>
        refine ⟨_, rfl, ?_⟩
        intro _ _
        simp [set_insert_records]
  · exact ⟨w, rfl, h⟩

theorem has_needed_insert_node_congr {w w1 : World} (hn : w1.node = w.node)
    (hs : w1.state = w.state) (h : has_needed_insert_node w) : has_needed_insert_node w1 := by
  unfold has_needed_insert_node at h ⊢
  rw [hn, hs]
  exact h

/-- A `SUCCESS` that names no other leader returns 0 and leaves the session,
the directory and the record of calls as they are. -/
theorem on_success_same_leader (res : StoreRes) (info : RegionInfo) (region_id : Int) (w : World)
    (hsel : w.node._op_type = OpType.OP_SELECT →
      res.leader = "0.0.0.0:0" ∨ res.leader = "" ∨ res.leader = info.leader) :
    ∃ wf, on_success res info region_id w = (Ret.code 0, info, wf) ∧ wf.rpcs = w.rpcs
      ∧ wf.conn = w.conn ∧ wf.schema_calls = w.schema_calls ∧ wf.state = w.state := by
  unfold on_success
  split
  · exact ⟨_, rfl, rfl, rfl, rfl, rfl⟩
  · rename_i hop
    have hop1 : w.node._op_type = OpType.OP_SELECT := by simpa using hop
    rw [if_neg]
    · exact ⟨_, rfl, rfl, rfl, rfl, rfl⟩
    · rintro ⟨h1, h2, h3⟩
      rcases hsel hop1 with h | h | h
      · exact h1 h
      · exact h2 h
      · exact h3 h

theorem get?_append_pair {α : Type} (l : List α) (a b : α) :
    (l ++ [a, b]).get? (l.length + 1) = some b := by
  induction l with
  | nil => rfl
  | cons x xs ih => simpa using ih

/-- C5 fails on the code for the empty string: an UPDATE for region 1, led by
A, is answered NOT_LEADER with an empty leader field. Line 220 tests the field
against 0.0.0.0:0 only, so the empty string is adopted: update_leader is called
with leader empty and the session entry of region 1 ends with leader empty.
With 0.0.0.0:0 in the field nothing is adopted and the retry goes to another
peer. -/
theorem not_leader_empty_hint_is_adopted :
    (send_request (ex_net_redirect "" 0) (fun _ => 1) ex_r1 none 1 0 0 3
        (ex_world OpType.OP_UPDATE false [(1, ex_r1)])).2.2.schema_calls
      = [SchemaCall.update_leader { ex_r1 with leader := "" }]
    ∧ map_find (send_request (ex_net_redirect "" 0) (fun _ => 1) ex_r1 none 1 0 0 3
        (ex_world OpType.OP_UPDATE false [(1, ex_r1)])).2.2.conn.region_infos 1
      = some { ex_r1 with leader := "" }
    ∧ (send_request (ex_net_redirect "0.0.0.0:0" 0) (fun _ => 1) ex_r1 none 1 0 0 3
        (ex_world OpType.OP_UPDATE false [(1, ex_r1)])).2.2.schema_calls = []
    ∧ map_find (send_request (ex_net_redirect "0.0.0.0:0" 0) (fun _ => 1) ex_r1 none 1 0 0 3
        (ex_world OpType.OP_UPDATE false [(1, ex_r1)])).2.2.conn.region_infos 1
      = some ex_r1
    ∧ (send_request (ex_net_redirect "0.0.0.0:0" 0) (fun _ => 1) ex_r1 none 1 0 0 3
        (ex_world OpType.OP_UPDATE false [(1, ex_r1)])).2.2.rpcs.map (fun rec => rec.addr)
      = ["A", "B"] := by
  decide

/-! ## C7: a COMMIT that meets a split -/

/-- C7 fails on the code: a COMMIT for region 1 is answered VERSION_OLD with
the narrowed region 1 and the new region 2, and both recursive calls succeed.
The split loop leaves the session alone, as its comment says, but the
recursive send_request for region 2 saves the region (lines 147-153), so
region 2 becomes a key of the session region_infos; the entry of region 1 is
not changed. -/
theorem commit_split_adds_session_region :
    (send_request ex_net_split_once (fun _ => 0) ex_r1 none 1 0 0 3
        (ex_world OpType.OP_COMMIT false [(1, ex_r1)])).1 = Ret.code 0
    ∧ map_keys (ex_world OpType.OP_COMMIT false [(1, ex_r1)]).conn.region_infos = [1]
    ∧ map_keys (send_request ex_net_split_once (fun _ => 0) ex_r1 none 1 0 0 3
        (ex_world OpType.OP_COMMIT false [(1, ex_r1)])).2.2.conn.region_infos = [1, 2]
    ∧ map_find (send_request ex_net_split_once (fun _ => 0) ex_r1 none 1 0 0 3
        (ex_world OpType.OP_COMMIT false [(1, ex_r1)])).2.2.conn.region_infos 1 = some ex_r1 := by
  decide

/-! ## C6: what a split leaves in the session -/

theorem step_net_calls {b : Bool} {w w1 : World} (h : Step b w w1) :
    w.net_calls ≤ w1.net_calls := by
  cases h with
  | draw => exact le_refl _
  | save region_id info => rw [save_region_id_net_calls]
  | records => exact le_refl _
  | attempt => exact Nat.le_succ _
  | issue => exact Nat.le_succ _
  | adopt => exact le_refl _
  | begin_split regions _ =>
    unfold split_begin; simp only []; split <;> exact le_refl _
  | child r _ => unfold install_child; split <;> exact le_refl _
  | parent region_id r _ => unfold narrow_parent; split <;> exact le_refl _
  | mysql => exact le_refl _
  | affected => exact le_refl _
  | deposit => exact le_refl _

/-- A run of elementary changes never lowers the count of attempts. -/
theorem steps_net_calls {b : Bool} {w w1 : World} (h : Steps b w w1) :
    w.net_calls ≤ w1.net_calls := by
  induction h with
  | refl => exact le_refl _
  | tail _ hstep ih => exact le_trans ih (step_net_calls hstep)

theorem step_region_key {b : Bool} {w w1 : World} (h : Step b w w1) (k : Int)
    (hk : (map_find w.conn.region_infos k).isSome = true) :
    (map_find w1.conn.region_infos k).isSome = true := by
  cases h with
  | draw => exact hk
  | save region_id info =>
    rw [save_region_id_find]
    split
    · rfl
    · exact hk
  | records => exact hk
  | attempt => exact hk
  | issue => exact hk
  | adopt info region_id =>
    rw [adopt_leader_find]
    split
    · rfl
    · exact hk
  | begin_split regions _ =>
    unfold split_begin; simp only []; split <;> exact hk
  | child r _ =>
    rw [install_child_find]
    split
    · rfl
    · exact hk
  | parent region_id r _ => exact narrow_parent_key region_id r w k hk
  | mysql => exact hk
  | affected => exact hk
  | deposit => exact hk

/-- A run of elementary changes never removes a region from the session. -/
theorem steps_region_key {b : Bool} {w w1 : World} (h : Steps b w w1) (k : Int)
    (hk : (map_find w.conn.region_infos k).isSome = true) :
    (map_find w1.conn.region_infos k).isSome = true := by
  induction h with
  | refl => exact hk
  | tail _ hstep ih => exact step_region_key hstep k ih

theorem step_entry {w w1 : World} (h : Step false w w1) (k : Int) (ek : List Nat) (v : Int)
    (hk : session_entry_has w k ek v) : session_entry_has w1 k ek v := by
  obtain ⟨e, he, h1, h2⟩ := hk
  cases h with
  | draw => exact ⟨e, he, h1, h2⟩
  | save region_id info =>
    unfold session_entry_has
    rw [save_region_id_find]
    split
    · rename_i hkk
      subst hkk
      exact ⟨e, by simp [he], h1, h2⟩
    · exact ⟨e, he, h1, h2⟩
  | records => exact ⟨e, he, h1, h2⟩
  | attempt => exact ⟨e, he, h1, h2⟩
  | issue => exact ⟨e, he, h1, h2⟩
  | adopt info region_id =>
    unfold session_entry_has
    rw [adopt_leader_find]
    split
    · rename_i hkk
      subst hkk
      exact ⟨_, rfl, by simp [he, h1], by simp [he, h2]⟩
    · exact ⟨e, he, h1, h2⟩
  | begin_split regions _ hb => cases hb
  | child r _ hb => cases hb
  | parent region_id r _ hb => cases hb
  | mysql => exact ⟨e, he, h1, h2⟩
  | affected => exact ⟨e, he, h1, h2⟩
  | deposit => exact ⟨e, he, h1, h2⟩

/-- Outside the split branch, the end key and version of a session entry stay
as they are. -/
theorem steps_entry {w w1 : World} (h : Steps false w w1) (k : Int) (ek : List Nat) (v : Int)
    (hk : session_entry_has w k ek v) : session_entry_has w1 k ek v := by
  induction h with
  | refl => exact hk
  | tail _ hstep ih => exact step_entry hstep k ek v ih

theorem steps_op_type {b : Bool} {w w1 : World} (h : Steps b w w1) :
    w1.node._op_type = w.node._op_type :=
  congrArg Static.op_type (steps_static h)

@[simp] theorem install_child_net_calls (r : RegionInfo) (w : World) :
    (install_child r w).net_calls = w.net_calls := by
  unfold install_child; split <;> rfl

@[simp] theorem narrow_parent_net_calls (region_id : Int) (r : RegionInfo) (w : World) :
    (narrow_parent region_id r w).net_calls = w.net_calls := by
  unfold narrow_parent; split <;> rfl

@[simp] theorem split_begin_net_calls (regions : List RegionInfo) (w : World) :
    (split_begin regions w).net_calls = w.net_calls := by
  unfold split_begin; simp only []; split <;> rfl

/-- One round of the split loop, when no later reply is a split: what the
session holds after the recursive call. -/
theorem split_step_session (net : Nat → Reply) (rand : Nat → Nat) (n : Nat)
    (res_leader : String) (records : Option (List String)) (region_id : Int) (log_id : Nat)
    (retry_times start_seq_id : Int) (r : RegionInfo) (w : World)
    (hop : w.node._op_type ≠ OpType.OP_COMMIT) (hns : no_split_from net w.net_calls) :
    Steps true w (split_step (send_request_aux net rand n) res_leader records region_id log_id
        retry_times start_seq_id r w).2
    ∧ (r.region_id ≠ region_id →
        (map_find (split_step (send_request_aux net rand n) res_leader records region_id log_id
          retry_times start_seq_id r w).2.conn.region_infos r.region_id).isSome = true)
    ∧ (∀ ek v, session_entry_has w region_id ek v → r.region_id ≠ region_id →
        session_entry_has (split_step (send_request_aux net rand n) res_leader records region_id
          log_id retry_times start_seq_id r w).2 region_id ek v)
    ∧ (r.region_id = region_id →
        session_entry_has (split_step (send_request_aux net rand n) res_leader records region_id
          log_id retry_times start_seq_id r w).2 region_id r.end_key r.version) := by
  unfold split_step
  split
  · rename_i hne
    have hs := send_request_aux_steps net rand false n r records r.region_id log_id
      (retry_times + 1) 1 (install_child r w) (fun _ => by simpa using hns)
    have ht := send_request_aux_steps net rand true n r records r.region_id log_id
      (retry_times + 1) 1 (install_child r w) (by simp)
    refine ⟨Relation.ReflTransGen.head (Step.child r w rfl) ht, ?_, ?_, ?_⟩
    · intro _
      apply steps_region_key hs
      rw [install_child_find, if_pos ⟨hop, rfl⟩]
      rfl
    · intro ek v he _
      apply steps_entry hs
      obtain ⟨e, h1, h2, h3⟩ := he
      refine ⟨e, ?_, h2, h3⟩
      rw [install_child_find, if_neg (fun h => hne h.2.symm), h1]
    · intro h
      exact absurd h hne
  · rename_i heq
    have heq1 : r.region_id = region_id := by simpa using heq
    have hs := send_request_aux_steps net rand false n
      (if res_leader ≠ "0.0.0.0:0" then { r with leader := res_leader } else r) records
      (if res_leader ≠ "0.0.0.0:0" then { r with leader := res_leader } else r).region_id log_id
      (retry_times + 1) start_seq_id
      (narrow_parent region_id
        (if res_leader ≠ "0.0.0.0:0" then { r with leader := res_leader } else r) w)
      (fun _ => by simpa using hns)
    have ht := send_request_aux_steps net rand true n
      (if res_leader ≠ "0.0.0.0:0" then { r with leader := res_leader } else r) records
      (if res_leader ≠ "0.0.0.0:0" then { r with leader := res_leader } else r).region_id log_id
      (retry_times + 1) start_seq_id
      (narrow_parent region_id
        (if res_leader ≠ "0.0.0.0:0" then { r with leader := res_leader } else r) w)
      (by simp)
    refine ⟨Relation.ReflTransGen.head (Step.parent region_id _ w rfl) ht, ?_, ?_, ?_⟩
    · intro h
      exact absurd heq1 h
    · intro ek v _ h
      exact absurd heq1 h
    · intro _
      apply steps_entry hs
      obtain ⟨e, h1, h2, h3⟩ := narrow_parent_find_self region_id
        (if res_leader ≠ "0.0.0.0:0" then { r with leader := res_leader } else r) w hop
      refine ⟨e, h1, ?_, ?_⟩
      · rw [h2]; split <;> rfl
      · rw [h3]; split <;> rfl

/-- The split loop, when no later reply is a split and every recursive call
succeeds: every new region it was given is in the session afterwards, and the
entry of the split region has the end key and version of its narrowed copy. -/
theorem split_loop_session (net : Nat → Reply) (rand : Nat → Nat) (n : Nat)
    (res_leader : String) (records : Option (List String)) (region_id : Int) (log_id : Nat)
    (retry_times start_seq_id : Int) (ek : List Nat) (v : Int) :
    ∀ (regions : List RegionInfo) (w : World),
      w.node._op_type ≠ OpType.OP_COMMIT → no_split_from net w.net_calls →
      (split_loop (send_request_aux net rand n) res_leader records region_id log_id retry_times
        start_seq_id regions w).1 = Ret.code 0 →
      (∀ r ∈ regions, r.region_id ≠ region_id →
        (map_find (split_loop (send_request_aux net rand n) res_leader records region_id log_id
          retry_times start_seq_id regions w).2.conn.region_infos r.region_id).isSome = true)
      ∧ ((∀ r ∈ regions, r.region_id = region_id → r.end_key = ek ∧ r.version = v) →
          (session_entry_has w region_id ek v ∨ ∃ r ∈ regions, r.region_id = region_id) →
          session_entry_has (split_loop (send_request_aux net rand n) res_leader records
            region_id log_id retry_times start_seq_id regions w).2 region_id ek v) := by
  intro regions
  induction regions with
  | nil =>
    intro w _ _ _
    refine ⟨by simp, ?_⟩
    intro _ h
    rcases h with h | ⟨r, hr, _⟩
    · exact h
    · simp at hr
  | cons r rest ih =>
    intro w hop hns hret
    obtain ⟨hsteps, hkey, hkeep, hpar⟩ := split_step_session net rand n res_leader records
      region_id log_id retry_times start_seq_id r w hop hns
    unfold split_loop at hret ⊢
    simp only [] at hret ⊢
    by_cases hf : (split_step (send_request_aux net rand n) res_leader records region_id log_id
        retry_times start_seq_id r w).1.failed = true
    · rw [if_pos hf] at hret
      rw [hret] at hf
      simp [Ret.failed] at hf
    · rw [if_neg hf] at hret ⊢
      have hop2 : (split_step (send_request_aux net rand n) res_leader records region_id log_id
          retry_times start_seq_id r w).2.node._op_type ≠ OpType.OP_COMMIT := by
        rw [steps_op_type hsteps]; exact hop
      have hns2 := no_split_from_mono (steps_net_calls hsteps) hns
      obtain ⟨iha, ihb⟩ := ih _ hop2 hns2 hret
      have hrest := split_loop_steps (send_request_aux_steps net rand true n) res_leader records
        region_id log_id retry_times start_seq_id rest
        (split_step (send_request_aux net rand n) res_leader records region_id log_id
          retry_times start_seq_id r w).2
      refine ⟨?_, ?_⟩
      · intro r1 hr1 hne
        rcases List.mem_cons.mp hr1 with h | h
        · subst h
          exact steps_region_key hrest _ (hkey hne)
        · exact iha r1 h hne
      · intro hall hor
        apply ihb (fun r1 h1 => hall r1 (List.mem_cons_of_mem _ h1))
        by_cases hrp : r.region_id = region_id
        · left
          obtain ⟨h1, h2⟩ := hall r (List.mem_cons_self _ _) hrp
          rw [← h1, ← h2]
          exact hpar hrp
        · rcases hor with h | ⟨r1, hr1, hid⟩
          · exact Or.inl (hkeep ek v h hrp)
          · rcases List.mem_cons.mp hr1 with h | h
            · subst h; exact absurd hid hrp
            · exact Or.inr ⟨r1, h, hid⟩

/-- A `send_request` that returns 0 got as far as the call. -/
theorem send_request_zero_reach (net : Nat → Reply) (rand : Nat → Nat)
    (info : RegionInfo) (records : Option (List String)) (region_id : Int) (log_id : Nat)
    (retry_times start_seq_id : Int) (w : World)
    (hret : (send_request net rand info records region_id log_id retry_times start_seq_id w).1
      = Ret.code 0) :
    w.node._error = false ∧ retry_times < 5
    ∧ ∃ info1 w1 w3, choose_leader rand info w = some (info1, w1)
        ∧ rewrite_insert_records records (save_region_id region_id info1 w1) = some w3 := by
  unfold send_request at hret
  rw [show send_request_aux net rand ((5 - retry_times).toNat + 1)
      = send_request_body net rand (send_request_aux net rand (5 - retry_times).toNat)
      from rfl] at hret
  unfold send_request_body at hret
  simp only [] at hret
  split at hret
  · cases hret
  · rename_i herr
    split at hret
    · cases hret
    · rename_i hretry
      split at hret
      · cases hret
      · rename_i info1 w1 hc
        split at hret
        · cases hret
        · rename_i w3 hr
          exact ⟨by simpa using herr, by omega, info1, w1, w3, hc, hr⟩

theorem split_filter_end_key {info info1 : RegionInfo} (h : info1.end_key = info.end_key)
    (regions : List RegionInfo) : split_filter info1 regions = split_filter info regions := by
  unfold split_filter
  rw [h]

/-- C6, as stated, fails in three ways. A returned region beyond the end key
of the original region is filtered out and never enters the session, although
send_request returns 0 (region 7 below). The loop stops at the first recursive
call that fails, so the regions after it are not installed (region 2 after the
narrowed region 1 answered with an error). And a recursive call that meets a
further split narrows the entry again (region 1 ends with end key 2 and
version 3, not those of the first answer, 5 and 2). -/
theorem split_narrowing_counterexample :
    ((send_request ex_net_split_beyond (fun _ => 0) ex_r1 none 1 0 0 3
        (ex_world OpType.OP_INSERT false [(1, ex_r1)])).1 = Ret.code 0
      ∧ map_find (send_request ex_net_split_beyond (fun _ => 0) ex_r1 none 1 0 0 3
        (ex_world OpType.OP_INSERT false [(1, ex_r1)])).2.2.conn.region_infos 7 = none)
    ∧ ((send_request ex_net_split_then_error (fun _ => 0) ex_r1 none 1 0 0 3
        (ex_world OpType.OP_INSERT false [(1, ex_r1)])).1 = Ret.code (-1)
      ∧ map_find (send_request ex_net_split_then_error (fun _ => 0) ex_r1 none 1 0 0 3
        (ex_world OpType.OP_INSERT false [(1, ex_r1)])).2.2.conn.region_infos 2 = none)
    ∧ ((send_request ex_net_splits (fun _ => 0) ex_r1 none 1 0 0 3
        (ex_world OpType.OP_INSERT false [(1, ex_r1)])).1 = Ret.code 0
      ∧ (map_find (send_request ex_net_splits (fun _ => 0) ex_r1 none 1 0 0 3
        (ex_world OpType.OP_INSERT false [(1, ex_r1)])).2.2.conn.region_infos 1).map
          (fun e => (e.end_key, e.version)) = some ([2], 3)) := by
  decide

/-- C6 (amended): for every op other than COMMIT, when the first call of a
send_request is answered VERSION_OLD with at least 2 regions, no later answer
is a further split, and send_request returns 0 (every recursive call
succeeded), then every returned region that passes the end-key filter and has
a new id is a key of the session region_infos; and if a returned region P that
passes the filter carries the original region id (and any other such region
has the same end key and version), the session entry of the original id has
end_key = P.end_key and version = P.version. -/
theorem split_narrowing (net : Nat → Reply) (rand : Nat → Nat)
    (info : RegionInfo) (records : Option (List String)) (region_id : Int) (log_id : Nat)
    (retry_times start_seq_id : Int) (w : World) (res : StoreRes)
    (hop : w.node._op_type ≠ OpType.OP_COMMIT)
    (hnet : net w.net_calls = Reply.response res)
    (hcode : res.errcode = ErrCode.VERSION_OLD) (hlen : 2 ≤ res.regions.length)
    (hns : no_split_from net (w.net_calls + 1))
    (hret : (send_request net rand info records region_id log_id retry_times start_seq_id w).1
      = Ret.code 0) :
    (∀ r ∈ split_filter info res.regions, r.region_id ≠ region_id →
      (map_find (send_request net rand info records region_id log_id retry_times start_seq_id
        w).2.2.conn.region_infos r.region_id).isSome = true)
    ∧ (∀ P ∈ split_filter info res.regions, P.region_id = region_id →
        (∀ r ∈ split_filter info res.regions, r.region_id = region_id →
          r.end_key = P.end_key ∧ r.version = P.version) →
        ∃ e, map_find (send_request net rand info records region_id log_id retry_times
            start_seq_id w).2.2.conn.region_infos region_id = some e
          ∧ e.end_key = P.end_key ∧ e.version = P.version) := by
  obtain ⟨herr, hretry, info1, w1, w3, hc, hr⟩ := send_request_zero_reach net rand info records
    region_id log_id retry_times start_seq_id w hret
  have static3 : static_of w3 = static_of w := by
    rw [rewrite_insert_records_static hr, save_region_id_static, choose_leader_static hc]
  have n3 : w3.net_calls = w.net_calls := by
    rw [rewrite_insert_records_net_calls hr, save_region_id_net_calls, choose_leader_net_calls hc]
  have hek : info1.end_key = info.end_key := by rw [choose_leader_info hc]
  have hout : send_request net rand info records region_id log_id retry_times start_seq_id w
      = ((split_loop (send_request_aux net rand (5 - retry_times).toNat) res.leader records
            region_id log_id retry_times (fix_start_seq_id w1 start_seq_id)
            (split_filter info res.regions)
            (split_begin (split_filter info res.regions)
              (issue_rpc info1.leader
                (make_request w3 info1 region_id log_id (fix_start_seq_id w1 start_seq_id))
                retry_times w3))).1,
          info1,
          (split_loop (send_request_aux net rand (5 - retry_times).toNat) res.leader records
            region_id log_id retry_times (fix_start_seq_id w1 start_seq_id)
            (split_filter info res.regions)
            (split_begin (split_filter info res.regions)
              (issue_rpc info1.leader
                (make_request w3 info1 region_id log_id (fix_start_seq_id w1 start_seq_id))
                retry_times w3))).2) := by
    unfold send_request
    rw [show send_request_aux net rand ((5 - retry_times).toNat + 1)
      = send_request_body net rand (send_request_aux net rand (5 - retry_times).toNat) from rfl]
    rw [send_request_body_reach herr hretry hc hr hnet]
    unfold handle_response
    rw [hcode]
    simp only []
    unfold on_version_old
    simp only []
    rw [if_pos hlen, split_filter_end_key hek]
  rw [hout] at hret ⊢
  have hop5 : (split_begin (split_filter info res.regions)
      (issue_rpc info1.leader
        (make_request w3 info1 region_id log_id (fix_start_seq_id w1 start_seq_id))
        retry_times w3)).node._op_type ≠ OpType.OP_COMMIT := by
    have h1 := step_static (Step.begin_split (split_filter info res.regions)
      (issue_rpc info1.leader
        (make_request w3 info1 region_id log_id (fix_start_seq_id w1 start_seq_id))
        retry_times w3) rfl : Step true _ _)
    have h2 := congrArg Static.op_type h1
    have h3 := congrArg Static.op_type static3
    simp only [static_of] at h2 h3
    rw [h2, issue_rpc_node, h3]
    exact hop
  have hns5 : no_split_from net (split_begin (split_filter info res.regions)
      (issue_rpc info1.leader
        (make_request w3 info1 region_id log_id (fix_start_seq_id w1 start_seq_id))
        retry_times w3)).net_calls := by
    rw [split_begin_net_calls, issue_rpc_net_calls, n3]
    exact hns
  refine ⟨?_, ?_⟩
  · exact (split_loop_session net rand _ res.leader records region_id log_id retry_times
      (fix_start_seq_id w1 start_seq_id) [] 0 _ _ hop5 hns5 hret).1
  · intro P hP hid hall
    exact (split_loop_session net rand _ res.leader records region_id log_id retry_times
      (fix_start_seq_id w1 start_seq_id) P.end_key P.version _ _ hop5 hns5 hret).2 hall
      (Or.inr ⟨P, hP, hid⟩)

theorem ex_net_split_once_later : no_split_from ex_net_split_once 1 := by
  intro n hn
  have h0 : ¬ n = 0 := by omega
  simp [ex_net_split_once, h0, ex_ok, is_split, ex_res]

/-- The amended C6 at a concrete input: an INSERT for region 1 (keys 0 to 9)
is answered VERSION_OLD with region 1 narrowed to keys 0 to 5 at version 2 and
the new region 2; both recursive calls succeed. Region 2 is in the session
afterwards and the entry of region 1 has end key 5 and version 2. -/
theorem split_narrowing_witness :
    (ex_world OpType.OP_INSERT false [(1, ex_r1)]).node._op_type ≠ OpType.OP_COMMIT
    ∧ no_split_from ex_net_split_once ((ex_world OpType.OP_INSERT false [(1, ex_r1)]).net_calls + 1)
    ∧ (send_request ex_net_split_once (fun _ => 0) ex_r1 none 1 0 0 3
        (ex_world OpType.OP_INSERT false [(1, ex_r1)])).1 = Ret.code 0
    ∧ (map_find (send_request ex_net_split_once (fun _ => 0) ex_r1 none 1 0 0 3
        (ex_world OpType.OP_INSERT false [(1, ex_r1)])).2.2.conn.region_infos
          (ex_region 2 2 [5] [9] "B").region_id).isSome = true
    ∧ ∃ e, map_find (send_request ex_net_split_once (fun _ => 0) ex_r1 none 1 0 0 3
        (ex_world OpType.OP_INSERT false [(1, ex_r1)])).2.2.conn.region_infos 1 = some e
      ∧ e.end_key = (ex_region 1 2 [0] [5] "A").end_key
      ∧ e.version = (ex_region 1 2 [0] [5] "A").version :=
  ⟨by decide, ex_net_split_once_later, by decide,
   (split_narrowing ex_net_split_once (fun _ => 0) ex_r1 none 1 0 0 3
      (ex_world OpType.OP_INSERT false [(1, ex_r1)])
      (ex_split_res [ex_region 1 2 [0] [5] "A", ex_region 2 2 [5] [9] "B"])
      (by decide) (by decide) (by decide) (by decide) ex_net_split_once_later (by decide)).1
      (ex_region 2 2 [5] [9] "B") (by decide) (by decide),
   (split_narrowing ex_net_split_once (fun _ => 0) ex_r1 none 1 0 0 3
      (ex_world OpType.OP_INSERT false [(1, ex_r1)])
      (ex_split_res [ex_region 1 2 [0] [5] "A", ex_region 2 2 [5] [9] "B"])
      (by decide) (by decide) (by decide) (by decide) ex_net_split_once_later (by decide)).2
      (ex_region 1 2 [0] [5] "A") (by decide) (by decide) (by decide)⟩

/-! ## The dispatch of `open` -/

/-- A relation between worlds that holds across every run of elementary
changes and across the two writes of a request thread holds across the
dispatch of one region. -/
theorem dispatch_region_rel (net : Nat → Reply) (rand : Nat → Nat) (R : World → World → Prop)
    (hrefl : ∀ w, R w w) (htrans : ∀ a b c, R a b → R b c → R a c)
    (hsteps : ∀ a b, Steps true a b → R a b)
    (hinfo : ∀ (a : World) ri, R a { a with node := { a.node with _region_infos := ri } })
    (herror : ∀ (a : World), R a { a with node := { a.node with _error := true } })
    (region_id : Int) (w : World) : R w (dispatch_region net rand region_id w).2 := by
  unfold dispatch_region
  split
  · exact hrefl w
  · rename_i info _
    have h1 := hsteps _ _ (send_request_steps net rand true info
      (map_find w.node._insert_region_ids region_id) region_id w.state.log_id 0 w.state.seq_id w
      (by simp))
    have h2 := htrans _ _ _ h1 (hinfo _ (map_assign int_lt
      (send_request net rand info (map_find w.node._insert_region_ids region_id) region_id
        w.state.log_id 0 w.state.seq_id w).2.2.node._region_infos region_id
      (send_request net rand info (map_find w.node._insert_region_ids region_id) region_id
        w.state.log_id 0 w.state.seq_id w).2.1))
    simp only []
    split
    · split
      · exact htrans _ _ _ h2 (herror _)
      · exact h2
    · exact h2
    · exact h2

/-- The same across the whole dispatch. -/
theorem dispatch_rel (net : Nat → Reply) (rand : Nat → Nat) (R : World → World → Prop)
    (hrefl : ∀ w, R w w) (htrans : ∀ a b c, R a b → R b c → R a c)
    (hsteps : ∀ a b, Steps true a b → R a b)
    (hinfo : ∀ (a : World) ri, R a { a with node := { a.node with _region_infos := ri } })
    (herror : ∀ (a : World), R a { a with node := { a.node with _error := true } }) :
    ∀ (ids : List Int) (w : World), R w (dispatch net rand ids w).2 := by
  intro ids
  induction ids with
  | nil => intro w; exact hrefl w
  | cons region_id rest ih =>
    intro w
    have h1 := dispatch_region_rel net rand R hrefl htrans hsteps hinfo herror region_id w
    unfold dispatch
    split
    · rename_i r w1 heq
      rw [heq] at h1
      exact h1
    · rename_i w1 heq
      rw [heq] at h1
      exact htrans _ _ _ h1 (ih w1)

theorem step_session_static {b : Bool} {w w1 : World} (h : Step b w w1) :
    session_static_of w1 = session_static_of w := by
  have h1 := step_static h
  have e1 := congrArg Static.op_type h1
  have e2 := congrArg Static.txn_id h1
  have e3 := congrArg Static.seq_id h1
  have e4 := congrArg Static.autocommit h1
  have e5 := congrArg Static.cache_plans h1
  have e6 := congrArg Static.need_rollback_seq h1
  have e7 := congrArg Static.transaction_has_write h1
  simp only [static_of] at e1 e2 e3 e4 e5 e6 e7
  simp only [session_static_of, e1, e2, e3, e4, e5, e6, e7]

theorem steps_session_static {b : Bool} {w w1 : World} (h : Steps b w w1) :
    session_static_of w1 = session_static_of w := by
  induction h with
  | refl => rfl
  | tail _ hstep ih => rw [step_session_static hstep, ih]

/-- The dispatch leaves the op type, the transaction, the cached plans and the
rollback marks as they are. -/
theorem dispatch_session_static (net : Nat → Reply) (rand : Nat → Nat) (ids : List Int)
    (w : World) : session_static_of (dispatch net rand ids w).2 = session_static_of w :=
  dispatch_rel net rand (fun a b => session_static_of b = session_static_of a)
    (fun _ => rfl) (fun _ _ _ h1 h2 => h2.trans h1) (fun _ _ h => steps_session_static h)
    (fun _ _ => rfl) (fun _ => rfl) ids w

/-! ## C8: when `optimize_1pc` holds after a PREPARE -/

theorem one_pc_follows_refl (w : World) : one_pc_follows w w := by
  refine ⟨le_refl _, ?_⟩
  rw [if_neg]
  intro h
  exact absurd h.2.2 (lt_irrefl _)

theorem one_pc_follows_same {w w1 : World} (h1 : w1.schema_calls = w.schema_calls)
    (h2 : w1.state.optimize_1pc = w.state.optimize_1pc) : one_pc_follows w w1 := by
  unfold one_pc_follows splits_seen
  rw [h1, h2]
  refine ⟨le_refl _, ?_⟩
  rw [if_neg]
  intro h
  exact absurd h.2.2 (lt_irrefl _)

theorem one_pc_follows_trans {a b c : World}
    (hs : session_static_of b = session_static_of a)
    (h1 : one_pc_follows a b) (h2 : one_pc_follows b c) : one_pc_follows a c := by
  have e1 : b.node._op_type = a.node._op_type := congrArg SessionStatic.op_type hs
  have e2 : b.conn.transaction_has_write = a.conn.transaction_has_write :=
    congrArg SessionStatic.transaction_has_write hs
  obtain ⟨n1, o1⟩ := h1
  obtain ⟨n2, o2⟩ := h2
  refine ⟨le_trans n1 n2, ?_⟩
  rw [o2, o1, e1, e2]
  by_cases hp : a.node._op_type = OpType.OP_PREPARE ∧ a.conn.transaction_has_write = true
  · by_cases hb : splits_seen b < splits_seen c
    · rw [if_pos ⟨hp.1, hp.2, hb⟩, if_pos ⟨hp.1, hp.2, by omega⟩]
    · rw [if_neg (fun h => hb h.2.2)]
      by_cases ha : splits_seen a < splits_seen b
      · rw [if_pos ⟨hp.1, hp.2, ha⟩, if_pos ⟨hp.1, hp.2, by omega⟩]
      · rw [if_neg (fun h => ha h.2.2), if_neg (fun h => by have := h.2.2; omega)]
  · rw [if_neg (fun h => hp ⟨h.1, h.2.1⟩), if_neg (fun h => hp ⟨h.1, h.2.1⟩),
      if_neg (fun h => hp ⟨h.1, h.2.1⟩)]

theorem step_one_pc {b : Bool} {w w1 : World} (h : Step b w w1) : one_pc_follows w w1 := by
  cases h with
  | draw => exact one_pc_follows_same rfl rfl
  | save region_id info =>
    exact one_pc_follows_same (save_region_id_schema_calls _ _ _)
      (by rw [save_region_id_state])
  | records => exact one_pc_follows_same rfl rfl
  | attempt => exact one_pc_follows_same rfl rfl
  | issue => exact one_pc_follows_same rfl rfl
  | adopt info region_id =>
    unfold one_pc_follows splits_seen
    rw [adopt_leader_schema_calls, adopt_leader_state]
    simp
  | begin_split regions _ =>
    unfold one_pc_follows splits_seen split_begin schema_update_regions
    simp only []
    by_cases hp : w.node._op_type = OpType.OP_PREPARE ∧ w.conn.transaction_has_write = true
    · rw [if_pos hp]
      simp [hp.1, hp.2]
    · rw [if_neg hp]
      simp only [List.filter_append, List.length_append]
      refine ⟨by omega, ?_⟩
      rw [if_neg (fun h => hp ⟨h.1, h.2.1⟩)]
  | child r _ =>
    refine one_pc_follows_same ?_ ?_ <;> (unfold install_child; split <;> rfl)
  | parent region_id r _ =>
    refine one_pc_follows_same ?_ ?_ <;> (unfold narrow_parent; split <;> rfl)
  | mysql => exact one_pc_follows_same rfl rfl
  | affected => exact one_pc_follows_same rfl rfl
  | deposit => exact one_pc_follows_same rfl rfl

theorem steps_one_pc {b : Bool} {w w1 : World} (h : Steps b w w1) : one_pc_follows w w1 := by
  induction h with
  | refl => exact one_pc_follows_refl _
  | tail hsteps hstep ih =>
    exact one_pc_follows_trans (steps_session_static hsteps) ih (step_one_pc hstep)

/-- Across the dispatch, `optimize_1pc` is cleared exactly when a split was
handled for a PREPARE of a transaction that has written. -/
theorem dispatch_one_pc (net : Nat → Reply) (rand : Nat → Nat) (ids : List Int) (w : World) :
    one_pc_follows w (dispatch net rand ids w).2 :=
  (dispatch_rel net rand
    (fun a b => session_static_of b = session_static_of a ∧ one_pc_follows a b)
    (fun a => ⟨rfl, one_pc_follows_refl a⟩)
    (fun _ _ _ h1 h2 => ⟨h2.1.trans h1.1, one_pc_follows_trans h1.1 h1.2 h2.2⟩)
    (fun _ _ h => ⟨steps_session_static h, steps_one_pc h⟩)
    (fun _ _ => ⟨rfl, one_pc_follows_same rfl rfl⟩)
    (fun _ => ⟨rfl, one_pc_follows_same rfl rfl⟩) ids w).2

/-! ### The grouping of the target regions by leader -/

theorem map_update_ne_nil {κ α : Type} [DecidableEq κ] (lt : κ → κ → Bool) (dflt : α)
    (f : α → α) (m : List (κ × α)) (k : κ) : map_update lt dflt f m k ≠ [] := by
  unfold map_update
  split
  · rename_i h
    cases m with
    | nil => simp [map_find] at h
    | cons p rest =>
      unfold map_modify
      split <;> simp
  · cases m with
    | nil => simp [map_put]
    | cons p rest =>
      unfold map_put
      split <;> simp

theorem group_fold_ne_nil (ri : List (Int × RegionInfo)) :
    ∀ m : List (String × List Int), m ≠ [] →
      ri.foldl (fun m pair =>
        map_update string_lt [] (fun ids => set_insert int_lt ids pair.1) m pair.2.leader) m ≠ [] := by
  induction ri with
  | nil => intro m hm; exact hm
  | cons p rest ih =>
    intro m _
    exact ih _ (map_update_ne_nil _ _ _ _ _)

/-- No region, no group; and the other way round. -/
theorem send_region_ids_map_nil (ri : List (Int × RegionInfo)) :
    (send_region_ids_map ri).length = 0 ↔ ri = [] := by
  constructor
  · intro h
    cases ri with
    | nil => rfl
    | cons p rest =>
      exfalso
      exact group_fold_ne_nil rest _ (map_update_ne_nil _ _ _ _ _) (List.length_eq_zero.mp h)
  · intro h
    subst h
    rfl

theorem mem_groups_put (lt : String → String → Bool) (m : List (String × List Int))
    (k : String) (g : List Int) (x : Int) :
    x ∈ ((map_put lt m k g).map Prod.snd).flatten ↔ x ∈ g ∨ x ∈ (m.map Prod.snd).flatten := by
  induction m with
  | nil => simp [map_put]
  | cons p rest ih =>
    unfold map_put
    split
    · simp
    · simp only [List.map_cons, List.flatten_cons, List.mem_append, ih]
      tauto

theorem mem_groups_modify (f : List Int → List Int) (id : Int)
    (hf : ∀ g x, x ∈ f g ↔ x = id ∨ x ∈ g) (m : List (String × List Int)) (k : String)
    (hk : (map_find m k).isSome = true) (x : Int) :
    x ∈ ((map_modify f m k).map Prod.snd).flatten ↔ x = id ∨ x ∈ (m.map Prod.snd).flatten := by
  induction m with
  | nil => simp [map_find] at hk
  | cons p rest ih =>
    obtain ⟨k1, g⟩ := p
    unfold map_modify
    by_cases h : k = k1
    · rw [if_pos h]
      simp only [List.map_cons, List.flatten_cons, List.mem_append, hf]
      tauto
    · rw [if_neg h]
      have hk1 : (map_find rest k).isSome = true := by
        unfold map_find at hk
        rw [if_neg h] at hk
        exact hk
      simp only [List.map_cons, List.flatten_cons, List.mem_append, ih hk1]
      tauto

theorem mem_groups_update (m : List (String × List Int)) (k : String) (id x : Int) :
    x ∈ ((map_update string_lt [] (fun ids => set_insert int_lt ids id) m k).map
        Prod.snd).flatten ↔ x = id ∨ x ∈ (m.map Prod.snd).flatten := by
  unfold map_update
  split
  · rename_i hk
    exact mem_groups_modify _ id (fun g y => mem_set_insert int_lt g id y) m k hk x
  · rw [mem_groups_put]
    simp [set_insert]

theorem mem_group_fold (ri : List (Int × RegionInfo)) (x : Int) :
    ∀ m : List (String × List Int),
      x ∈ ((ri.foldl (fun m pair =>
        map_update string_lt [] (fun ids => set_insert int_lt ids pair.1) m pair.2.leader)
        m).map Prod.snd).flatten ↔ x ∈ (m.map Prod.snd).flatten ∨ x ∈ map_keys ri := by
  induction ri with
  | nil => intro m; simp [map_keys]
  | cons p rest ih =>
    intro m
    rw [List.foldl_cons, ih, mem_groups_update]
    unfold map_keys
    simp only [List.map_cons, List.mem_cons]
    tauto

/-- The region ids `open` dispatches are the keys of the target regions. -/
theorem mem_send_region_ids (ri : List (Int × RegionInfo)) (x : Int) :
    x ∈ ((send_region_ids_map ri).map Prod.snd).flatten ↔ x ∈ map_keys ri := by
  unfold send_region_ids_map
  rw [mem_group_fold]
  simp

theorem nodup_all_eq_length {l : List Int} {x : Int} (hn : l.Nodup) (h : ∀ k ∈ l, k = x) :
    l.length ≤ 1 := by
  cases l with
  | nil => simp
  | cons a rest =>
    cases rest with
    | nil => simp
    | cons b rest2 =>
      exfalso
      have ha := h a (by simp)
      have hb := h b (by simp)
      rw [List.nodup_cons] at hn
      apply hn.1
      rw [ha, ← hb]
      simp

/-- The test of line 474 (one leader group holding one region id) says that
exactly one region is targeted. -/
theorem send_region_ids_map_single (ri : List (Int × RegionInfo))
    (hn : (map_keys ri).Nodup) :
    ((send_region_ids_map ri).length = 1
        ∧ (send_region_ids_map ri).head?.map (fun g => g.2.length) = some 1)
      ↔ ri.length = 1 := by
  constructor
  · rintro ⟨h1, h2⟩
    have hne : ri ≠ [] := by
      intro h
      rw [(send_region_ids_map_nil ri).mpr h] at h1
      cases h1
    have hmem := mem_send_region_ids ri
    cases hm : send_region_ids_map ri with
    | nil => rw [hm] at h1; cases h1
    | cons g rest =>
      rw [hm] at h1 h2 hmem
      have hrest : rest = [] := by
        cases rest with
        | nil => rfl
        | cons _ _ => simp at h1
      subst hrest
      obtain ⟨l, ids⟩ := g
      simp only [List.head?_cons, Option.map_some', Option.some.injEq] at h2
      cases ids with
      | nil => simp at h2
      | cons x more =>
        have hmore : more = [] := by
          cases more with
          | nil => rfl
          | cons _ _ => simp at h2
        subst hmore
        have hall : ∀ k ∈ map_keys ri, k = x := by
          intro k hk
          have := (hmem k).mpr hk
          simpa using this
        have hlen := nodup_all_eq_length hn hall
        unfold map_keys at hlen
        rw [List.length_map] at hlen
        have hpos : 0 < ri.length := List.length_pos.mpr hne
        omega
  · intro h
    cases ri with
    | nil => cases h
    | cons p rest =>
      cases rest with
      | nil =>
        constructor <;> simp [send_region_ids_map, map_update, map_find, map_put, set_insert]
      | cons _ _ => simp at h

/-! ### `open` for a PREPARE -/

theorem expr_open_ok {l : List Int} (h : ∀ r ∈ l, 0 ≤ r) :
    l.find? (fun ret => decide (ret < 0)) = none := by
  rw [List.find?_eq_none]
  intro r hr
  have := h r hr
  simp
  omega

theorem push_cmd_to_cache_prepare (w : World) (hop : w.node._op_type = OpType.OP_PREPARE) :
    push_cmd_to_cache w = (0, w) := by
  unfold push_cmd_to_cache
  split
  · rfl
  · rw [if_pos]
    rw [hop]
    decide

theorem open_finish_prepare (w : World) (hop : w.node._op_type = OpType.OP_PREPARE) :
    (open_finish w).2 = w := by
  unfold open_finish
  split
  · rw [if_neg]
    rw [hop]
    decide
  · simp only []
    rw [if_neg (by rw [hop]; decide), push_cmd_to_cache_prepare w hop]

theorem select_regions_prepare (w : World) (hop : w.node._op_type = OpType.OP_PREPARE) :
    select_regions w
      = { w with node := { w.node with sorter := [], _region_infos := w.conn.region_infos } } := by
  unfold select_regions
  simp only []
  rw [if_pos (Or.inr (Or.inl hop))]

/-- The world in which the dispatch of a PREPARE starts. -/
theorem open_prepare (net : Nat → Reply) (rand : Nat → Nat) (w : World)
    (hop : w.node._op_type = OpType.OP_PREPARE) (hexpr : ∀ r ∈ w.node.expr_open, 0 ≤ r) :
    (w.conn.region_infos = [] →
      FetcherNode.open net rand false w
        = (Ret.code 0, enable_optimize_1pc
            (select_regions (clear_error w))))
    ∧ (w.conn.region_infos ≠ [] →
      (FetcherNode.open net rand false w).2
        = (dispatch net rand
            (((send_region_ids_map w.conn.region_infos).map Prod.snd).flatten)
            (reset_affected_rows (decide_1pc
              (select_regions (clear_error w))))).2) := by
  have hsel := select_regions_prepare (clear_error w) hop
  have hri : (select_regions (clear_error w)).node._region_infos
      = w.conn.region_infos := by rw [hsel]; rfl
  have hop2 : (select_regions (clear_error w)).node._op_type
      = OpType.OP_PREPARE := by rw [hsel]; exact hop
  constructor
  · intro hempty
    unfold FetcherNode.open
    simp only [Bool.false_eq_true, if_false, show (clear_error w).node.expr_open
      = w.node.expr_open from rfl, expr_open_ok hexpr]
    rw [hri, if_pos ((send_region_ids_map_nil _).mpr hempty),
      push_cmd_to_cache_prepare _ hop2]
    simp only []
    rw [if_pos hop2]
  · intro hne
    unfold FetcherNode.open
    simp only [Bool.false_eq_true, if_false, show (clear_error w).node.expr_open
      = w.node.expr_open from rfl, expr_open_ok hexpr]
    rw [hri, if_neg (fun h => hne ((send_region_ids_map_nil _).mp h)), if_neg]
    · cases hd : dispatch net rand
          (((send_region_ids_map w.conn.region_infos).map Prod.snd).flatten)
          (reset_affected_rows (decide_1pc
            (select_regions (clear_error w)))) with
      | mk r w5 =>
        cases r with
        | some r1 => rfl
        | none =>
          simp only []
          apply open_finish_prepare
          have := congrArg SessionStatic.op_type (dispatch_session_static net rand
            (((send_region_ids_map w.conn.region_infos).map Prod.snd).flatten)
            (reset_affected_rows (decide_1pc
              (select_regions (clear_error w)))))
          rw [hd] at this
          simp only [session_static_of] at this
          rw [this]
          unfold reset_affected_rows decide_1pc enable_optimize_1pc
          simp only []
          split <;> exact hop2
    · rw [hop2]
      rintro ⟨h, _⟩
      rcases h with h | h | h <;> cases h

/-- The world in which the dispatch of a PREPARE starts: `optimize_1pc` is set
when one region is targeted or the transaction has not written, and is what it
was otherwise; no split has been seen yet. -/
theorem prepare_start_world (w : World) (hop : w.node._op_type = OpType.OP_PREPARE)
    (hn : (map_keys w.conn.region_infos).Nodup) :
    (reset_affected_rows (decide_1pc
        (select_regions (clear_error w)))).node._op_type
      = OpType.OP_PREPARE
    ∧ (reset_affected_rows (decide_1pc
        (select_regions (clear_error w)))).conn
      = w.conn
    ∧ splits_seen (reset_affected_rows (decide_1pc
        (select_regions (clear_error w))))
      = splits_seen w
    ∧ (reset_affected_rows (decide_1pc
        (select_regions (clear_error w)))).rpcs = w.rpcs
    ∧ (reset_affected_rows (decide_1pc
        (select_regions (clear_error w)))).state.optimize_1pc
      = (if w.conn.region_infos.length = 1 ∨ w.conn.transaction_has_write = false then true
         else w.state.optimize_1pc) := by
  rw [select_regions_prepare (clear_error w) hop]
  unfold reset_affected_rows decide_1pc enable_optimize_1pc clear_error
  simp only []
  have hiff := send_region_ids_map_single w.conn.region_infos hn
  by_cases hc : w.conn.region_infos.length = 1 ∨ w.conn.transaction_has_write = false
  · rw [if_pos ⟨hop, hc.imp hiff.mpr id⟩, if_pos hc]
    exact ⟨hop, rfl, rfl, rfl, rfl⟩
  · rw [if_neg (fun h => hc (h.2.imp hiff.mp id)), if_neg hc]
    exact ⟨hop, rfl, rfl, rfl, rfl⟩

/-- C8, as stated, fails in both directions. A PREPARE that targets exactly
one region, of a transaction that has written, meets a split: optimize_1pc is
false after open. A PREPARE over two regions of a transaction that has
written, entered with optimize_1pc already true and meeting no split, leaves
it true although none of the three conditions holds. -/
theorem one_pc_gating_counterexample :
    ((ex_world OpType.OP_PREPARE false [(1, ex_r1)]).conn.region_infos.length = 1
      ∧ (FetcherNode.open ex_net_split_once (fun _ => 0) false
          (ex_world OpType.OP_PREPARE false [(1, ex_r1)])).2.state.optimize_1pc = false)
    ∧ (ex_world_two_regions.conn.region_infos.length = 2
      ∧ ex_world_two_regions.conn.transaction_has_write = true
      ∧ (FetcherNode.open ex_net_ok (fun _ => 0) false
          ex_world_two_regions).2.state.optimize_1pc = true) := by
  decide

/-- C8 (amended): after open of a PREPARE fragment (connection present, sort
expressions opened), optimize_1pc is true if and only if the target region set
is empty, or (exactly one region is targeted at prepare time, or the
transaction has performed no writes, or optimize_1pc was already true when
open was entered) and no split was handled during the dispatch of a
transaction with prior writes; and whenever a split (VERSION_OLD with at least
2 regions, seen as a call of update_regions) is handled during a PREPARE of a
transaction with prior writes, optimize_1pc is false after open. -/
theorem one_pc_gating (net : Nat → Reply) (rand : Nat → Nat) (w : World)
    (hop : w.node._op_type = OpType.OP_PREPARE) (hexpr : ∀ r ∈ w.node.expr_open, 0 ≤ r)
    (hn : (map_keys w.conn.region_infos).Nodup) :
    ((FetcherNode.open net rand false w).2.state.optimize_1pc = true ↔
      (w.conn.region_infos = []
        ∨ ((w.conn.region_infos.length = 1 ∨ w.conn.transaction_has_write = false
              ∨ w.state.optimize_1pc = true)
            ∧ ¬ (w.conn.transaction_has_write = true
                  ∧ splits_seen w < splits_seen (FetcherNode.open net rand false w).2))))
    ∧ (w.conn.transaction_has_write = true →
        splits_seen w < splits_seen (FetcherNode.open net rand false w).2 →
        (FetcherNode.open net rand false w).2.state.optimize_1pc = false) := by
  obtain ⟨hE, hD⟩ := open_prepare net rand w hop hexpr
  by_cases hempty : w.conn.region_infos = []
  · rw [hE hempty]
    have h1 : (enable_optimize_1pc
        (select_regions (clear_error w))).state.optimize_1pc
        = true := rfl
    have h2 : splits_seen (enable_optimize_1pc
        (select_regions (clear_error w))) = splits_seen w := by
      rw [select_regions_prepare (clear_error w) hop]
      rfl
    rw [h1, h2]
    exact ⟨⟨fun _ => Or.inl hempty, fun _ => rfl⟩, fun _ h => absurd h (lt_irrefl _)⟩
  · rw [hD hempty]
    obtain ⟨sop, sconn, ssplits, _, sopt⟩ := prepare_start_world w hop hn
    obtain ⟨_, hfollow⟩ := dispatch_one_pc net rand
      (((send_region_ids_map w.conn.region_infos).map Prod.snd).flatten)
      (reset_affected_rows (decide_1pc
        (select_regions (clear_error w))))
    rw [sop, sconn, ssplits, sopt] at hfollow
    rw [hfollow]
    by_cases hs : w.conn.transaction_has_write = true
        ∧ splits_seen w < splits_seen (dispatch net rand
            (((send_region_ids_map w.conn.region_infos).map Prod.snd).flatten)
            (reset_affected_rows (decide_1pc
              (select_regions (clear_error w))))).2
    · rw [if_pos ⟨rfl, hs.1, hs.2⟩]
      refine ⟨⟨fun h => Bool.noConfusion h, ?_⟩, fun _ _ => rfl⟩
      rintro (h | ⟨_, h⟩)
      · exact absurd h hempty
      · exact absurd hs h
    · rw [if_neg (fun h => hs ⟨h.2.1, h.2.2⟩)]
      refine ⟨⟨?_, ?_⟩, fun h1 h2 => absurd ⟨h1, h2⟩ hs⟩
      · intro h
        right
        refine ⟨?_, hs⟩
        by_cases hc : w.conn.region_infos.length = 1 ∨ w.conn.transaction_has_write = false
        · rcases hc with hc | hc
          · exact Or.inl hc
          · exact Or.inr (Or.inl hc)
        · rw [if_neg hc] at h
          exact Or.inr (Or.inr h)
      · rintro (h | ⟨h, _⟩)
        · exact absurd h hempty
        · by_cases hc : w.conn.region_infos.length = 1 ∨ w.conn.transaction_has_write = false
          · rw [if_pos hc]
          · rw [if_neg hc]
            rcases h with h | h | h
            · exact absurd (Or.inl h) hc
            · exact absurd (Or.inr h) hc
            · exact h

/-- The amended C8 at concrete inputs: the PREPARE of one region that meets a
split ends with optimize_1pc false, and the same PREPARE without a split ends
with optimize_1pc true. -/
theorem one_pc_gating_witness :
    (ex_world OpType.OP_PREPARE false [(1, ex_r1)]).node._op_type = OpType.OP_PREPARE
    ∧ (ex_world OpType.OP_PREPARE false [(1, ex_r1)]).conn.transaction_has_write = true
    ∧ splits_seen (ex_world OpType.OP_PREPARE false [(1, ex_r1)])
        < splits_seen (FetcherNode.open ex_net_split_once (fun _ => 0) false
            (ex_world OpType.OP_PREPARE false [(1, ex_r1)])).2
    ∧ (FetcherNode.open ex_net_split_once (fun _ => 0) false
        (ex_world OpType.OP_PREPARE false [(1, ex_r1)])).2.state.optimize_1pc = false
    ∧ (FetcherNode.open ex_net_ok (fun _ => 0) false
        (ex_world OpType.OP_PREPARE false [(1, ex_r1)])).2.state.optimize_1pc = true :=
  ⟨by decide, by decide, by decide,
   (one_pc_gating ex_net_split_once (fun _ => 0) (ex_world OpType.OP_PREPARE false [(1, ex_r1)])
      (by decide) (by decide) (by decide)).2 (by decide) (by decide),
   (one_pc_gating ex_net_ok (fun _ => 0) (ex_world OpType.OP_PREPARE false [(1, ex_r1)])
      (by decide) (by decide) (by decide)).1.mpr
      (Or.inr ⟨Or.inl (by decide), by decide⟩)⟩

/-! ## C9 and C10: `open` without a dispatch, and the rollback marks -/

theorem cache_insert_records_frame {w w1 : World} (h : cache_insert_records w = some w1) :
    w1.conn = w.conn ∧ w1.state = w.state ∧ w1.rpcs = w.rpcs ∧ w1.net_calls = w.net_calls
      ∧ w1.schema_calls = w.schema_calls ∧ w1.node._op_type = w.node._op_type := by
  unfold cache_insert_records at h
  split at h
  · split at h
    · split at h
      · cases h
      · cases h; exact ⟨rfl, rfl, rfl, rfl, rfl, rfl⟩
    · cases h; exact ⟨rfl, rfl, rfl, rfl, rfl, rfl⟩
  · cases h; exact ⟨rfl, rfl, rfl, rfl, rfl, rfl⟩

theorem mem_map_keys_insert {κ α : Type} [DecidableEq κ] (lt : κ → κ → Bool)
    (m : List (κ × α)) (k : κ) (v : α) (x : κ) (hx : x ∈ map_keys m) :
    x ∈ map_keys (map_insert lt m k v) := by
  rw [mem_map_keys_iff] at hx ⊢
  rw [map_find_insert]
  split
  · rfl
  · exact hx

/-- Caching the command leaves the state, the rollback marks and the network
as they are, and only adds to the cached plans. -/
theorem push_cmd_to_cache_frame (w : World) :
    (push_cmd_to_cache w).2.state = w.state
    ∧ (push_cmd_to_cache w).2.rpcs = w.rpcs
    ∧ (push_cmd_to_cache w).2.net_calls = w.net_calls
    ∧ (push_cmd_to_cache w).2.node._op_type = w.node._op_type
    ∧ (push_cmd_to_cache w).2.conn.need_rollback_seq = w.conn.need_rollback_seq
    ∧ (∀ x ∈ map_keys w.conn.cache_plans, x ∈ map_keys (push_cmd_to_cache w).2.conn.cache_plans) := by
  unfold push_cmd_to_cache
  split
  · exact ⟨rfl, rfl, rfl, rfl, rfl, fun _ h => h⟩
  · split
    · exact ⟨rfl, rfl, rfl, rfl, rfl, fun _ h => h⟩
    · split
      · exact ⟨rfl, rfl, rfl, rfl, rfl, fun _ h => h⟩
      · rename_i w1 hc
        obtain ⟨c, s, r, n, _, o⟩ := cache_insert_records_frame hc
        refine ⟨s, r, n, o, ?_, ?_⟩
        · show w1.conn.need_rollback_seq = _
          rw [c]
        · intro x hx
          show x ∈ map_keys (map_insert int_lt w1.conn.cache_plans _ _)
          rw [c]
          exact mem_map_keys_insert _ _ _ _ _ hx

theorem select_regions_frame (w : World) :
    (select_regions w).conn = w.conn ∧ (select_regions w).state = w.state
    ∧ (select_regions w).rpcs = w.rpcs ∧ (select_regions w).net_calls = w.net_calls
    ∧ (select_regions w).node._op_type = w.node._op_type
    ∧ (select_regions w).node._region_infos = target_regions w := by
  unfold select_regions target_regions
  simp only []
  split <;> exact ⟨rfl, rfl, rfl, rfl, rfl, rfl⟩

theorem decide_1pc_frame (w : World) :
    (decide_1pc w).conn = w.conn ∧ (decide_1pc w).node = w.node
    ∧ (decide_1pc w).state.seq_id = w.state.seq_id
    ∧ (decide_1pc w).schema_calls = w.schema_calls := by
  unfold decide_1pc enable_optimize_1pc
  split <;> exact ⟨rfl, rfl, rfl, rfl⟩

theorem decide_1pc_no_write (w : World) (hop : w.node._op_type = OpType.OP_PREPARE)
    (hw : w.conn.transaction_has_write = false) : decide_1pc w = enable_optimize_1pc w := by
  unfold decide_1pc
  rw [if_pos ⟨hop, Or.inr hw⟩]

/-- C9, as stated, fails: the PREPARE of a transaction that has only read, and
so has performed no writes but holds region 1 in its session, is dispatched:
open issues one call to the store. -/
theorem empty_prepare_counterexample :
    ex_world_read_only.node._op_type = OpType.OP_PREPARE
    ∧ ex_world_read_only.conn.transaction_has_write = false
    ∧ (FetcherNode.open ex_net_ok (fun _ => 0) false ex_world_read_only).2.rpcs.length = 1
    ∧ ex_world_read_only.rpcs.length = 0 := by
  decide

/-- C9 (amended): once the connection is present and the sort expressions are
opened, whenever the target region set is empty open returns 0 without any
call to the store, and for a PREPARE it sets optimize_1pc = true; and for a
PREPARE fragment in a transaction that has performed no writes, optimize_1pc
is true when open returns, whether or not regions were dispatched. -/
theorem empty_prepare (net : Nat → Reply) (rand : Nat → Nat) (w : World)
    (hexpr : ∀ r ∈ w.node.expr_open, 0 ≤ r) :
    (target_regions w = [] →
      (FetcherNode.open net rand false w).1 = Ret.code 0
      ∧ (FetcherNode.open net rand false w).2.rpcs = w.rpcs
      ∧ (FetcherNode.open net rand false w).2.net_calls = w.net_calls
      ∧ (w.node._op_type = OpType.OP_PREPARE →
          (FetcherNode.open net rand false w).2.state.optimize_1pc = true))
    ∧ (w.node._op_type = OpType.OP_PREPARE → w.conn.transaction_has_write = false →
        (FetcherNode.open net rand false w).2.state.optimize_1pc = true) := by
  constructor
  · intro hempty
    obtain ⟨_, _, sr, sn, so, sri⟩ := select_regions_frame (clear_error w)
    obtain ⟨_, pr, pn, po, _, _⟩ := push_cmd_to_cache_frame (select_regions (clear_error w))
    have htarget : target_regions (clear_error w) = target_regions w := rfl
    unfold FetcherNode.open
    simp only [Bool.false_eq_true, if_false, show (clear_error w).node.expr_open
      = w.node.expr_open from rfl, expr_open_ok hexpr]
    rw [sri, htarget, if_pos ((send_region_ids_map_nil _).mpr hempty)]
    split
    · refine ⟨rfl, ?_, ?_, fun _ => rfl⟩
      · show (push_cmd_to_cache (select_regions (clear_error w))).2.rpcs = _
        rw [pr, sr]; rfl
      · show (push_cmd_to_cache (select_regions (clear_error w))).2.net_calls = _
        rw [pn, sn]; rfl
    · rename_i hnp
      refine ⟨rfl, ?_, ?_, ?_⟩
      · rw [pr, sr]; rfl
      · rw [pn, sn]; rfl
      · intro hop
        exfalso
        apply hnp
        rw [po, so]
        exact hop
  · intro hop hw
    obtain ⟨hE, hD⟩ := open_prepare net rand w hop hexpr
    by_cases hempty : w.conn.region_infos = []
    · rw [hE hempty]
      rfl
    · rw [hD hempty]
      have hsel := select_regions_prepare (clear_error w) hop
      have hstart : decide_1pc (select_regions (clear_error w))
          = enable_optimize_1pc (select_regions (clear_error w)) := by
        apply decide_1pc_no_write
        · rw [hsel]; exact hop
        · rw [hsel]; exact hw
      obtain ⟨_, hfollow⟩ := dispatch_one_pc net rand
        (((send_region_ids_map w.conn.region_infos).map Prod.snd).flatten)
        (reset_affected_rows (decide_1pc (select_regions (clear_error w))))
      rw [hfollow, if_neg]
      · rw [hstart]; rfl
      · rintro ⟨_, h, _⟩
        rw [hstart, hsel] at h
        have h2 : w.conn.transaction_has_write = true := h
        rw [hw] at h2
        cases h2

/-- The amended C9 at concrete inputs: a PREPARE with no session region
returns 0 with no call and optimize_1pc = true, and the PREPARE of the
transaction that has only read ends with optimize_1pc = true. -/
theorem empty_prepare_witness :
    target_regions (ex_world OpType.OP_PREPARE false []) = []
    ∧ (FetcherNode.open ex_net_ok (fun _ => 0) false (ex_world OpType.OP_PREPARE false [])).1
        = Ret.code 0
    ∧ (FetcherNode.open ex_net_ok (fun _ => 0) false (ex_world OpType.OP_PREPARE false [])).2.rpcs
        = (ex_world OpType.OP_PREPARE false []).rpcs
    ∧ ex_world_read_only.conn.transaction_has_write = false
    ∧ (FetcherNode.open ex_net_ok (fun _ => 0) false ex_world_read_only).2.state.optimize_1pc
        = true :=
  ⟨by decide,
   ((empty_prepare ex_net_ok (fun _ => 0) (ex_world OpType.OP_PREPARE false [])
      (by decide)).1 (by decide)).1,
   ((empty_prepare ex_net_ok (fun _ => 0) (ex_world OpType.OP_PREPARE false [])
      (by decide)).1 (by decide)).2.1,
   by decide,
   (empty_prepare ex_net_ok (fun _ => 0) ex_world_read_only (by decide)).2
      (by decide) (by decide)⟩

theorem drain_step_frame (acc : World) (pair : List Nat × Int) :
    (drain_step acc pair).conn = acc.conn ∧ (drain_step acc pair).state = acc.state := by
  unfold drain_step
  simp only []
  split
  · split <;> exact ⟨rfl, rfl⟩
  · exact ⟨rfl, rfl⟩

theorem drain_fold_frame (l : List (List Nat × Int)) :
    ∀ acc : World, (l.foldl drain_step acc).conn = acc.conn
      ∧ (l.foldl drain_step acc).state = acc.state := by
  induction l with
  | nil => intro acc; exact ⟨rfl, rfl⟩
  | cons p rest ih =>
    intro acc
    rw [List.foldl_cons]
    obtain ⟨h1, h2⟩ := ih (drain_step acc p)
    obtain ⟨h3, h4⟩ := drain_step_frame acc p
    exact ⟨h1.trans h3, h2.trans h4⟩

/-- Handing the batches to the sorter touches neither the session nor the
state. -/
theorem drain_batches_frame (w : World) :
    (drain_batches w).conn = w.conn ∧ (drain_batches w).state = w.state :=
  drain_fold_frame w.node._start_key_sort w

/-- C10, as stated, fails: an INSERT of statement 3 outside autocommit whose
only region answers with an error makes open return -1 and mark statement 3
for rollback without caching its plan, so need_rollback_seq, empty before, is
no longer within the keys 1 and 2 of cache_plans. -/
theorem rollback_marks_cached_counterexample :
    (ex_world OpType.OP_INSERT false [(1, ex_r1)]).conn.need_rollback_seq = []
    ∧ (FetcherNode.open ex_net_error (fun _ => 0) false
        (ex_world OpType.OP_INSERT false [(1, ex_r1)])).1 = Ret.code (-1)
    ∧ (FetcherNode.open ex_net_error (fun _ => 0) false
        (ex_world OpType.OP_INSERT false [(1, ex_r1)])).2.conn.need_rollback_seq = [3]
    ∧ map_keys (FetcherNode.open ex_net_error (fun _ => 0) false
        (ex_world OpType.OP_INSERT false [(1, ex_r1)])).2.conn.cache_plans = [1, 2]
    ∧ ¬ (∀ x ∈ (FetcherNode.open ex_net_error (fun _ => 0) false
          (ex_world OpType.OP_INSERT false [(1, ex_r1)])).2.conn.need_rollback_seq,
        x ∈ map_keys (FetcherNode.open ex_net_error (fun _ => 0) false
          (ex_world OpType.OP_INSERT false [(1, ex_r1)])).2.conn.cache_plans) := by
  decide

/-- C10 (amended): if need_rollback_seq is a subset of the keys of cache_plans
before FetcherNode::open, then after open, for every op type and every outcome
of the dispatch, every member of need_rollback_seq is a key of cache_plans or
is state.seq_id, and the latter only when the op is INSERT, DELETE or UPDATE
and open returned -1 (a region failed): the failed statement is marked for
rollback without its plan being cached. In every other case the subset
relation is preserved. -/
theorem rollback_marks_cached (net : Nat → Reply) (rand : Nat → Nat) (client_conn_null : Bool)
    (w : World)
    (hsub : ∀ x ∈ w.conn.need_rollback_seq, x ∈ map_keys w.conn.cache_plans) :
    ∀ x ∈ (FetcherNode.open net rand client_conn_null w).2.conn.need_rollback_seq,
      x ∈ map_keys (FetcherNode.open net rand client_conn_null w).2.conn.cache_plans
      ∨ (x = w.state.seq_id
          ∧ (w.node._op_type = OpType.OP_INSERT ∨ w.node._op_type = OpType.OP_DELETE
              ∨ w.node._op_type = OpType.OP_UPDATE)
          ∧ (FetcherNode.open net rand client_conn_null w).1 = Ret.code (-1)) := by
  obtain ⟨sc, ss, _, _, so, _⟩ := select_regions_frame (clear_error w)
  have sc' : (select_regions (clear_error w)).conn = w.conn := sc
  obtain ⟨_, _, _, _, pn, pk⟩ := push_cmd_to_cache_frame (select_regions (clear_error w))
  rw [sc'] at pn pk
  unfold FetcherNode.open
  split
  · intro x hx
    exact Or.inl (hsub x hx)
  · simp only []
    split
    · intro x hx
      exact Or.inl (hsub x hx)
    · split
      · split
        · intro x hx
          left
          have hx1 : x ∈ w.conn.need_rollback_seq := by rw [← pn]; exact hx
          exact pk x (hsub x hx1)
        · intro x hx
          left
          have hx1 : x ∈ w.conn.need_rollback_seq := by rw [← pn]; exact hx
          exact pk x (hsub x hx1)
      · split
        · intro x hx
          left
          have hx1 : x ∈ w.conn.need_rollback_seq := by rw [← pn]; exact hx
          exact pk x (hsub x hx1)
        · -- the dispatch
          have hst := dispatch_session_static net rand
            (((send_region_ids_map (select_regions (clear_error w)).node._region_infos).map
              Prod.snd).flatten)
            (reset_affected_rows (decide_1pc (select_regions (clear_error w))))
          obtain ⟨dc, dn, dseq, _⟩ := decide_1pc_frame (select_regions (clear_error w))
          have e_plans := congrArg SessionStatic.cache_plans hst
          have e_marks := congrArg SessionStatic.need_rollback_seq hst
          have e_seq := congrArg SessionStatic.seq_id hst
          have e_op := congrArg SessionStatic.op_type hst
          simp only [session_static_of] at e_plans e_marks e_seq e_op
          have f_plans : (reset_affected_rows (decide_1pc
              (select_regions (clear_error w)))).conn.cache_plans = w.conn.cache_plans := by
            show (decide_1pc (select_regions (clear_error w))).conn.cache_plans = _
            rw [dc, sc']
          have f_marks : (reset_affected_rows (decide_1pc
              (select_regions (clear_error w)))).conn.need_rollback_seq
              = w.conn.need_rollback_seq := by
            show (decide_1pc (select_regions (clear_error w))).conn.need_rollback_seq = _
            rw [dc, sc']
          have f_seq : (reset_affected_rows (decide_1pc
              (select_regions (clear_error w)))).state.seq_id = w.state.seq_id := by
            show (decide_1pc (select_regions (clear_error w))).state.seq_id = _
            rw [dseq, ss]; rfl
          have f_op : (reset_affected_rows (decide_1pc
              (select_regions (clear_error w)))).node._op_type = w.node._op_type := by
            show (decide_1pc (select_regions (clear_error w))).node._op_type = _
            rw [dn, so]; rfl
          rw [f_plans] at e_plans
          rw [f_marks] at e_marks
          rw [f_seq] at e_seq
          rw [f_op] at e_op
          cases hd : dispatch net rand
            (((send_region_ids_map (select_regions (clear_error w)).node._region_infos).map
              Prod.snd).flatten)
            (reset_affected_rows (decide_1pc (select_regions (clear_error w)))) with
          | mk r w5 =>
            rw [hd] at e_plans e_marks e_seq e_op
            simp only [] at e_plans e_marks e_seq e_op
            cases r with
            | some r1 =>
              intro x hx
              left
              show x ∈ map_keys w5.conn.cache_plans
              rw [e_plans]
              apply hsub
              rw [← e_marks]
              exact hx
            | none =>
              simp only []
              unfold open_finish
              split
              · split
                · rename_i hdml
                  intro x hx
                  have hx1 : x ∈ set_insert int_lt w5.conn.need_rollback_seq w5.state.seq_id := hx
                  rw [mem_set_insert] at hx1
                  rcases hx1 with h | h
                  · right
                    refine ⟨by rw [h, e_seq], ?_, rfl⟩
                    rw [e_op] at hdml
                    exact hdml
                  · left
                    show x ∈ map_keys w5.conn.cache_plans
                    rw [e_plans]
                    apply hsub
                    rw [← e_marks]
                    exact h
                · intro x hx
                  left
                  show x ∈ map_keys w5.conn.cache_plans
                  rw [e_plans]
                  apply hsub
                  rw [← e_marks]
                  exact hx
              · simp only []
                intro x hx
                left
                have hdrain : (if w5.node._op_type = OpType.OP_SELECT then drain_batches w5
                    else w5).conn = w5.conn := by
                  split
                  · exact (drain_batches_frame w5).1
                  · rfl
                obtain ⟨_, _, _, _, qn, qk⟩ := push_cmd_to_cache_frame
                  (if w5.node._op_type = OpType.OP_SELECT then drain_batches w5 else w5)
                rw [hdrain] at qn qk
                apply qk
                rw [e_plans]
                apply hsub
                rw [← e_marks, ← qn]
                exact hx

/-- The amended C10 at a concrete input: after the INSERT that fails, the only
rollback mark, 3, is state.seq_id. -/
theorem rollback_marks_cached_witness :
    (∀ x ∈ (ex_world OpType.OP_INSERT false [(1, ex_r1)]).conn.need_rollback_seq,
      x ∈ map_keys (ex_world OpType.OP_INSERT false [(1, ex_r1)]).conn.cache_plans)
    ∧ (3 : Int) ∈ (FetcherNode.open ex_net_error (fun _ => 0) false
        (ex_world OpType.OP_INSERT false [(1, ex_r1)])).2.conn.need_rollback_seq
    ∧ ((3 : Int) ∈ map_keys (FetcherNode.open ex_net_error (fun _ => 0) false
          (ex_world OpType.OP_INSERT false [(1, ex_r1)])).2.conn.cache_plans
      ∨ ((3 : Int) = (ex_world OpType.OP_INSERT false [(1, ex_r1)]).state.seq_id
          ∧ ((ex_world OpType.OP_INSERT false [(1, ex_r1)]).node._op_type = OpType.OP_INSERT
              ∨ (ex_world OpType.OP_INSERT false [(1, ex_r1)]).node._op_type = OpType.OP_DELETE
              ∨ (ex_world OpType.OP_INSERT false [(1, ex_r1)]).node._op_type = OpType.OP_UPDATE)
          ∧ (FetcherNode.open ex_net_error (fun _ => 0) false
              (ex_world OpType.OP_INSERT false [(1, ex_r1)])).1 = Ret.code (-1))) :=
  ⟨by decide, by decide,
   rollback_marks_cached ex_net_error (fun _ => 0) false
     (ex_world OpType.OP_INSERT false [(1, ex_r1)]) (by decide) 3 (by decide)⟩

/-! ## The first attempt of a `send_request` -/

@[simp] theorem count_draw_affected_rows (w : World) :
    (count_draw w).node._affected_rows = w.node._affected_rows := rfl

theorem last_seq_id_of_eq (res : StoreRes) : last_seq_id_of res = res.last_seq_id.getD 0 := by
  unfold last_seq_id_of
  cases res.last_seq_id <;> rfl

/-- With budget left, `send_request` is one level of its body over the
recursion of the remaining depth. -/
theorem send_request_unfold (net : Nat → Reply) (rand : Nat → Nat)
    (info : RegionInfo) (records : Option (List String)) (region_id : Int) (log_id : Nat)
    (retry_times start_seq_id : Int) (w : World) :
    send_request net rand info records region_id log_id retry_times start_seq_id w
      = send_request_body net rand (send_request_aux net rand (5 - retry_times).toNat)
          info records region_id log_id retry_times start_seq_id w := rfl

/-- The recursive call one level down is `send_request` with one more retry. -/
theorem send_request_aux_next (net : Nat → Reply) (rand : Nat → Nat)
    (info : RegionInfo) (records : Option (List String)) (region_id : Int) (log_id : Nat)
    (retry_times start_seq_id : Int) (w : World) (hretry : retry_times < 5) :
    send_request_aux net rand (5 - retry_times).toNat info records region_id log_id
        (retry_times + 1) start_seq_id w
      = send_request net rand info records region_id log_id (retry_times + 1) start_seq_id w := by
  unfold send_request
  have h : (5 - retry_times).toNat = (5 - (retry_times + 1)).toNat + 1 := by omega
  rw [h]

/-- A `send_request` that is entered without error, with budget, for a region
with peers and with the INSERT node it needs, makes its first call; when the
store answers, the response is handled in a world that differs from the one
entered by that call, a saved region and the rewritten records. -/
theorem send_request_first_attempt (net : Nat → Reply) (rand : Nat → Nat)
    (info : RegionInfo) (records : Option (List String)) (region_id : Int) (log_id : Nat)
    (retry_times start_seq_id : Int) (w : World) (res : StoreRes)
    (herr : w.node._error = false) (hretry : retry_times < 5) (hpeers : info.peers ≠ [])
    (hnode : has_needed_insert_node w)
    (hnet : net w.net_calls = Reply.response res) :
    ∃ (info1 : RegionInfo) (w4 : World) (rec : RpcRecord),
      send_request net rand info records region_id log_id retry_times start_seq_id w
        = handle_response rand (send_request_aux net rand (5 - retry_times).toNat) res info1
            records region_id log_id retry_times (fix_start_seq_id w start_seq_id) w4
      ∧ (∃ w1, choose_leader rand info w = some (info1, w1))
      ∧ w4.rpcs = w.rpcs ++ [rec] ∧ w4.net_calls = w.net_calls + 1
      ∧ static_of w4 = static_of w ∧ w4.state = w.state ∧ w4.schema_calls = w.schema_calls
      ∧ w4.node._affected_rows = w.node._affected_rows
      ∧ has_needed_insert_node w4
      ∧ rec.req.region_id = region_id ∧ rec.retry_times = retry_times
      ∧ rec.addr = info1.leader
      ∧ rec.req.txn_info.start_seq_id = fix_start_seq_id w start_seq_id
      ∧ rec.req.region_version = info.version := by
  obtain ⟨info1, w1, hc⟩ := choose_leader_some rand info w hpeers
  obtain ⟨c1, sc1, nd1, st1⟩ := choose_leader_conn hc
  obtain ⟨w3, hr, hok3⟩ := rewrite_insert_records_some records (save_region_id region_id info1 w1)
    (has_needed_insert_node_congr (by simp [nd1]) (by simp [st1]) hnode)
  obtain ⟨c3, sc3, st3⟩ := rewrite_insert_records_conn hr
  have static1 : static_of w1 = static_of w := choose_leader_static hc
  have static3 : static_of w3 = static_of w := by
    rw [rewrite_insert_records_static hr, save_region_id_static, static1]
  have r3 : w3.rpcs = w.rpcs := by
    rw [rewrite_insert_records_rpcs hr, save_region_id_rpcs, choose_leader_rpcs hc]
  have n3 : w3.net_calls = w.net_calls := by
    rw [rewrite_insert_records_net_calls hr, save_region_id_net_calls, choose_leader_net_calls hc]
  have a3 : w3.node._affected_rows = w.node._affected_rows := by
    rcases rewrite_insert_records_world hr with h | ⟨recs, h⟩
    · rw [h, save_region_id_node, nd1]
    · rw [h]
      show (save_region_id region_id info1 w1).node._affected_rows = _
      rw [save_region_id_node, nd1]
  refine ⟨info1, issue_rpc info1.leader
      (make_request w3 info1 region_id log_id (fix_start_seq_id w1 start_seq_id)) retry_times w3,
    ⟨info1.leader, make_request w3 info1 region_id log_id (fix_start_seq_id w1 start_seq_id),
      retry_times⟩, ?_, ⟨w1, hc⟩, ?_, ?_, ?_, ?_, ?_, ?_, ?_, rfl, rfl, rfl, ?_, ?_⟩
  · rw [send_request_unfold, send_request_body_reach herr hretry hc hr hnet,
      fix_start_seq_id_static static1]
  · simp [r3]
  · simp [n3]
  · rw [issue_rpc_static, static3]
  · rw [issue_rpc_state, st3, save_region_id_state, st1]
  · rw [issue_rpc_schema_calls, sc3, save_region_id_schema_calls, sc1]
  · rw [issue_rpc_node, a3]
  · exact has_needed_insert_node_congr (issue_rpc_node _ _ _ _) (issue_rpc_state _ _ _ _) hok3
  · show fix_start_seq_id w1 start_seq_id = _
    rw [fix_start_seq_id_static static1]
  · show info1.version = info.version
    rw [choose_leader_info hc]

@[simp] theorem install_child_node (r : RegionInfo) (w : World) :
    (install_child r w).node = w.node := by
  unfold install_child; split <;> rfl

@[simp] theorem install_child_state (r : RegionInfo) (w : World) :
    (install_child r w).state = w.state := by
  unfold install_child; split <;> rfl

@[simp] theorem install_child_rpcs (r : RegionInfo) (w : World) :
    (install_child r w).rpcs = w.rpcs := by
  unfold install_child; split <;> rfl

@[simp] theorem narrow_parent_node (region_id : Int) (r : RegionInfo) (w : World) :
    (narrow_parent region_id r w).node = w.node := by
  unfold narrow_parent; split <;> rfl

@[simp] theorem narrow_parent_state (region_id : Int) (r : RegionInfo) (w : World) :
    (narrow_parent region_id r w).state = w.state := by
  unfold narrow_parent; split <;> rfl

@[simp] theorem narrow_parent_rpcs (region_id : Int) (r : RegionInfo) (w : World) :
    (narrow_parent region_id r w).rpcs = w.rpcs := by
  unfold narrow_parent; split <;> rfl

@[simp] theorem split_begin_node (regions : List RegionInfo) (w : World) :
    (split_begin regions w).node = w.node := by
  unfold split_begin schema_update_regions; simp only []; split <;> rfl

@[simp] theorem split_begin_rpcs (regions : List RegionInfo) (w : World) :
    (split_begin regions w).rpcs = w.rpcs := by
  unfold split_begin schema_update_regions; simp only []; split <;> rfl

@[simp] theorem split_begin_autocommit (regions : List RegionInfo) (w : World) :
    (split_begin regions w).state.autocommit = w.state.autocommit := by
  unfold split_begin schema_update_regions; simp only []; split <;> rfl

theorem install_child_static (r : RegionInfo) (w : World) :
    static_of (install_child r w) = static_of w := by
  unfold install_child; split <;> rfl

theorem narrow_parent_static (region_id : Int) (r : RegionInfo) (w : World) :
    static_of (narrow_parent region_id r w) = static_of w := by
  unfold narrow_parent; split <;> rfl

theorem split_begin_static (regions : List RegionInfo) (w : World) :
    static_of (split_begin regions w) = static_of w := by
  unfold split_begin schema_update_regions; simp only []; split <;> rfl

theorem has_needed_insert_node_of {w w1 : World} (hn : w1.node = w.node)
    (hs : w1.state.autocommit = w.state.autocommit) (h : has_needed_insert_node w) :
    has_needed_insert_node w1 := by
  unfold has_needed_insert_node at h ⊢
  rw [hn, hs]
  exact h

/-- A call that is answered `SUCCESS` at once, for an op other than SELECT:
it returns 0 after that one call, with the affected rows of the response added. -/
theorem send_request_success_write (net : Nat → Reply) (rand : Nat → Nat)
    (info : RegionInfo) (records : Option (List String)) (region_id : Int) (log_id : Nat)
    (retry_times start_seq_id : Int) (w : World) (res : StoreRes)
    (herr : w.node._error = false) (hretry : retry_times < 5) (hpeers : info.peers ≠ [])
    (hnode : has_needed_insert_node w) (hop : w.node._op_type ≠ OpType.OP_SELECT)
    (hnet : net w.net_calls = Reply.response res) (hcode : res.errcode = ErrCode.SUCCESS) :
    ∃ (info1 : RegionInfo) (wf : World) (rec : RpcRecord),
      send_request net rand info records region_id log_id retry_times start_seq_id w
        = (Ret.code 0, info1, wf)
      ∧ wf.rpcs = w.rpcs ++ [rec] ∧ wf.net_calls = w.net_calls + 1
      ∧ static_of wf = static_of w ∧ wf.state = w.state
      ∧ has_needed_insert_node wf
      ∧ wf.node._affected_rows = w.node._affected_rows + res.affected_rows
      ∧ rec.req.region_id = region_id ∧ rec.retry_times = retry_times
      ∧ rec.req.txn_info.start_seq_id = fix_start_seq_id w start_seq_id
      ∧ rec.req.region_version = info.version := by
  obtain ⟨info1, w4, rec, hout, _, hrpcs, hcalls, hstatic, hstate, _, haff, hok, h1, h2, _, h3,
    h4⟩ := send_request_first_attempt net rand info records region_id log_id retry_times
      start_seq_id w res herr hretry hpeers hnode hnet
  have hop4 : w4.node._op_type ≠ OpType.OP_SELECT := by
    have := congrArg Static.op_type hstatic
    simp only [static_of] at this
    rw [this]; exact hop
  refine ⟨info1, add_affected_rows res.affected_rows w4, rec, ?_, hrpcs, hcalls, hstatic, hstate,
    ?_, ?_, h1, h2, h3, h4⟩
  · rw [hout]
    unfold handle_response
    rw [hcode]
    simp only []
    unfold on_success
    rw [if_pos hop4]
  · exact has_needed_insert_node_of rfl rfl hok
  · show w4.node._affected_rows + res.affected_rows = _
    rw [haff]

theorem split_filter_keep_two (info : RegionInfo) (r1 r2 : RegionInfo)
    (h1 : end_key_compare r1.end_key info.end_key ≤ 0)
    (h2 : end_key_compare r2.end_key info.end_key ≤ 0) :
    split_filter info [r1, r2] = [r1, r2] := by
  unfold split_filter
  have e1 : (!decide (end_key_compare r1.end_key info.end_key > 0)) = true := by
    simp only [Bool.not_eq_true', decide_eq_false_iff_not]; omega
  have e2 : (!decide (end_key_compare r2.end_key info.end_key > 0)) = true := by
    simp only [Bool.not_eq_true', decide_eq_false_iff_not]; omega
  simp only [List.filter, e1, e2]

theorem fix_start_seq_id_one (w : World) : fix_start_seq_id w 1 = 1 := by
  unfold fix_start_seq_id
  simp only []
  split_ifs <;> rfl

theorem fix_start_seq_id_idem (w : World) (s : Int) :
    fix_start_seq_id w (fix_start_seq_id w s) = fix_start_seq_id w s := by
  unfold fix_start_seq_id
  simp only []
  split_ifs <;> rfl

theorem split_step_parent (self : SendFn) (res_leader : String) (records : Option (List String))
    (region_id : Int) (log_id : Nat) (retry_times start_seq_id : Int) (r : RegionInfo) (w : World)
    (h : r.region_id = region_id) :
    split_step self res_leader records region_id log_id retry_times start_seq_id r w
      = ((self (if res_leader ≠ "0.0.0.0:0" then { r with leader := res_leader } else r) records
            (if res_leader ≠ "0.0.0.0:0" then { r with leader := res_leader } else r).region_id
            log_id (retry_times + 1) start_seq_id
            (narrow_parent region_id
              (if res_leader ≠ "0.0.0.0:0" then { r with leader := res_leader } else r) w)).1,
         (self (if res_leader ≠ "0.0.0.0:0" then { r with leader := res_leader } else r) records
            (if res_leader ≠ "0.0.0.0:0" then { r with leader := res_leader } else r).region_id
            log_id (retry_times + 1) start_seq_id
            (narrow_parent region_id
              (if res_leader ≠ "0.0.0.0:0" then { r with leader := res_leader } else r) w)).2.2) := by
  unfold split_step
  rw [if_neg (not_not.mpr h)]

theorem split_step_child (self : SendFn) (res_leader : String) (records : Option (List String))
    (region_id : Int) (log_id : Nat) (retry_times start_seq_id : Int) (r : RegionInfo) (w : World)
    (h : r.region_id ≠ region_id) :
    split_step self res_leader records region_id log_id retry_times start_seq_id r w
      = ((self r records r.region_id log_id (retry_times + 1) 1 (install_child r w)).1,
         (self r records r.region_id log_id (retry_times + 1) 1 (install_child r w)).2.2) := by
  unfold split_step
  rw [if_pos h]

theorem split_loop_cons (self : SendFn) (res_leader : String) (records : Option (List String))
    (region_id : Int) (log_id : Nat) (retry_times start_seq_id : Int) (r : RegionInfo)
    (rest : List RegionInfo) (w : World) :
    split_loop self res_leader records region_id log_id retry_times start_seq_id (r :: rest) w
      = if (split_step self res_leader records region_id log_id retry_times start_seq_id r
            w).1.failed
        then split_step self res_leader records region_id log_id retry_times start_seq_id r w
        else split_loop self res_leader records region_id log_id retry_times start_seq_id rest
          (split_step self res_leader records region_id log_id retry_times start_seq_id r w).2 :=
  rfl

/-! ## C13: answers that are neither `SUCCESS` nor retried -/

/-- C13, as stated, fails for `VERSION_OLD` with fewer than 2 regions: such a
response is none of the earlier rows, and `send_request` returns -1 after one
call without retrying, but the MySQL error code 1062 and the message it carries
are not copied: the error code and message of the session state stay 0 and
empty. -/
theorem other_error_passthrough_counterexample :
    ex_net_version_old_bare 0 = Reply.response
        { ex_res ErrCode.VERSION_OLD with mysql_errcode := some 1062, errmsg := "dup" }
    ∧ (send_request ex_net_version_old_bare (fun _ => 0) ex_r1 none 1 0 0 3
        (ex_world OpType.OP_UPDATE false [(1, ex_r1)])).1 = Ret.code (-1)
    ∧ (send_request ex_net_version_old_bare (fun _ => 0) ex_r1 none 1 0 0 3
        (ex_world OpType.OP_UPDATE false [(1, ex_r1)])).2.2.rpcs.length = 1
    ∧ (send_request ex_net_version_old_bare (fun _ => 0) ex_r1 none 1 0 0 3
        (ex_world OpType.OP_UPDATE false [(1, ex_r1)])).2.2.state.error_code = 0
    ∧ (send_request ex_net_version_old_bare (fun _ => 0) ex_r1 none 1 0 0 3
        (ex_world OpType.OP_UPDATE false [(1, ex_r1)])).2.2.state.error_msg = ""
    ∧ ¬ ((send_request ex_net_version_old_bare (fun _ => 0) ex_r1 none 1 0 0 3
        (ex_world OpType.OP_UPDATE false [(1, ex_r1)])).2.2.state.error_code = 1062) := by
  decide

/-- C13 (amended): for every response whose errcode is not SUCCESS and that
matches none of the earlier rows of the response table (not NOT_LEADER, not
TXN_FOLLOW_UP, not VERSION_OLD with at least 2 regions, not REGION_NOT_EXIST,
not INTERNAL_ERROR), send_request returns -1 after that one call, without
retrying; if the errcode is not VERSION_OLD and the response carries a
mysql_errcode, the error code of the session state equals that mysql_errcode
and its error message equals the errmsg of the response; for VERSION_OLD with
fewer than 2 regions, and for a response without mysql_errcode, the session
state is left as it was. -/
theorem other_error_passthrough (net : Nat → Reply) (rand : Nat → Nat)
    (info : RegionInfo) (records : Option (List String)) (region_id : Int) (log_id : Nat)
    (retry_times start_seq_id : Int) (w : World) (res : StoreRes)
    (herr : w.node._error = false) (hretry : retry_times < 5) (hpeers : info.peers ≠ [])
    (hnode : has_needed_insert_node w)
    (hnet : net w.net_calls = Reply.response res)
    (h1 : res.errcode ≠ ErrCode.SUCCESS) (h2 : res.errcode ≠ ErrCode.NOT_LEADER)
    (h3 : res.errcode ≠ ErrCode.TXN_FOLLOW_UP)
    (h4 : ¬ (res.errcode = ErrCode.VERSION_OLD ∧ 2 ≤ res.regions.length))
    (h5 : res.errcode ≠ ErrCode.REGION_NOT_EXIST) (h6 : res.errcode ≠ ErrCode.INTERNAL_ERROR) :
    (send_request net rand info records region_id log_id retry_times start_seq_id w).1
        = Ret.code (-1)
    ∧ (∃ rec, (send_request net rand info records region_id log_id retry_times start_seq_id
          w).2.2.rpcs = w.rpcs ++ [rec] ∧ rec.retry_times = retry_times)
    ∧ (send_request net rand info records region_id log_id retry_times start_seq_id
          w).2.2.net_calls = w.net_calls + 1
    ∧ (res.errcode ≠ ErrCode.VERSION_OLD → ∀ c, res.mysql_errcode = some c →
        (send_request net rand info records region_id log_id retry_times start_seq_id
          w).2.2.state.error_code = c
        ∧ (send_request net rand info records region_id log_id retry_times start_seq_id
          w).2.2.state.error_msg = res.errmsg)
    ∧ (res.errcode = ErrCode.VERSION_OLD ∨ res.mysql_errcode = none →
        (send_request net rand info records region_id log_id retry_times start_seq_id
          w).2.2.state = w.state) := by
  obtain ⟨info1, w4, rec, hout, _, hrpcs, hcalls, _, hstate, _, _, _, _, hrt, _, _⟩ :=
    send_request_first_attempt net rand info records region_id log_id retry_times start_seq_id
      w res herr hretry hpeers hnode hnet
  rw [hout]
  unfold handle_response
  cases hcode : res.errcode with
  | SUCCESS => exact absurd hcode h1
  | NOT_LEADER => exact absurd hcode h2
  | TXN_FOLLOW_UP => exact absurd hcode h3
  | REGION_NOT_EXIST => exact absurd hcode h5
  | INTERNAL_ERROR => exact absurd hcode h6
  | VERSION_OLD =>
    have hlen : ¬ res.regions.length ≥ 2 := fun h => h4 ⟨hcode, h⟩
    simp only []
    unfold on_version_old
    simp only [if_neg hlen]
    exact ⟨trivial, ⟨rec, hrpcs, hrt⟩, hcalls, fun h => absurd rfl h, fun _ => hstate⟩
  | OTHER n =>
    simp only []
    unfold on_other_error
    cases hm : res.mysql_errcode with
    | none =>
      simp only []
      refine ⟨trivial, ⟨rec, hrpcs, hrt⟩, hcalls, ?_, fun _ => hstate⟩
      intro _ c hc
      cases hc
    | some c0 =>
      simp only []
      refine ⟨trivial, ⟨rec, hrpcs, hrt⟩, hcalls, ?_, ?_⟩
      · intro _ c hc
        cases hc
        exact ⟨rfl, rfl⟩
      · rintro (h | h)
        · cases h
        · cases h

/-- The amended C13 at a concrete input: an UPDATE answered with an unnamed
error carrying MySQL code 1062 returns -1 after one call with the code and the
message on the session state. -/
theorem other_error_passthrough_witness :
    (send_request ex_net_mysql_error (fun _ => 0) ex_r1 none 1 0 0 3
        (ex_world OpType.OP_UPDATE false [(1, ex_r1)])).1 = Ret.code (-1)
    ∧ (send_request ex_net_mysql_error (fun _ => 0) ex_r1 none 1 0 0 3
        (ex_world OpType.OP_UPDATE false [(1, ex_r1)])).2.2.state.error_code = 1062
    ∧ (send_request ex_net_mysql_error (fun _ => 0) ex_r1 none 1 0 0 3
        (ex_world OpType.OP_UPDATE false [(1, ex_r1)])).2.2.state.error_msg = "dup" :=
  have h := other_error_passthrough ex_net_mysql_error (fun _ => 0) ex_r1 none 1 0 0 3
    (ex_world OpType.OP_UPDATE false [(1, ex_r1)])
    { ex_res (ErrCode.OTHER 9) with mysql_errcode := some 1062, errmsg := "dup" }
    (by decide) (by decide) (by decide) (by decide) (by decide) (by decide) (by decide)
    (by decide) (by decide) (by decide) (by decide)
  ⟨h.1, (h.2.2.2.1 (by decide) 1062 rfl).1, (h.2.2.2.1 (by decide) 1062 rfl).2⟩

/-! ## C15: `TXN_FOLLOW_UP` -/

/-- C15: when the store answers TXN_FOLLOW_UP, send_request makes no further
call for the region and returns -1 if the op is COMMIT, and returns 0 if the op
is ROLLBACK, whatever retry_times below the budget and last_seq_id are; for
every other op it recurses, with retry_times + 1 and with start_seq_id =
last_seq_id + 1, where a response without last_seq_id counts as last_seq_id =
0: the result of the call is the result of that recursive call. -/
theorem txn_follow_up_control_ops (net : Nat → Reply) (rand : Nat → Nat)
    (info : RegionInfo) (records : Option (List String)) (region_id : Int) (log_id : Nat)
    (retry_times start_seq_id : Int) (w : World) (res : StoreRes)
    (herr : w.node._error = false) (hretry : retry_times < 5) (hpeers : info.peers ≠ [])
    (hnode : has_needed_insert_node w)
    (hnet : net w.net_calls = Reply.response res)
    (hcode : res.errcode = ErrCode.TXN_FOLLOW_UP) :
    (w.node._op_type = OpType.OP_COMMIT →
      (send_request net rand info records region_id log_id retry_times start_seq_id w).1
          = Ret.code (-1)
      ∧ (send_request net rand info records region_id log_id retry_times start_seq_id
          w).2.2.net_calls = w.net_calls + 1
      ∧ ∃ rec, (send_request net rand info records region_id log_id retry_times start_seq_id
          w).2.2.rpcs = w.rpcs ++ [rec])
    ∧ (w.node._op_type = OpType.OP_ROLLBACK →
      (send_request net rand info records region_id log_id retry_times start_seq_id w).1
          = Ret.code 0
      ∧ (send_request net rand info records region_id log_id retry_times start_seq_id
          w).2.2.net_calls = w.net_calls + 1
      ∧ ∃ rec, (send_request net rand info records region_id log_id retry_times start_seq_id
          w).2.2.rpcs = w.rpcs ++ [rec])
    ∧ (w.node._op_type ≠ OpType.OP_COMMIT → w.node._op_type ≠ OpType.OP_ROLLBACK →
      res.last_seq_id.getD 0 + 1 ≤ 2147483647 →
      ∃ (info1 : RegionInfo) (w4 : World) (rec : RpcRecord),
        w4.rpcs = w.rpcs ++ [rec] ∧ w4.net_calls = w.net_calls + 1
        ∧ static_of w4 = static_of w
        ∧ send_request net rand info records region_id log_id retry_times start_seq_id w
            = send_request net rand info1 records region_id log_id (retry_times + 1)
                (res.last_seq_id.getD 0 + 1) w4) := by
  obtain ⟨info1, w4, rec, hout, _, hrpcs, hcalls, hstatic, _, _, _, _, _, _, _, _⟩ :=
    send_request_first_attempt net rand info records region_id log_id retry_times start_seq_id
      w res herr hretry hpeers hnode hnet
  have hop4 : w4.node._op_type = w.node._op_type := congrArg Static.op_type hstatic
  have hh : handle_response rand (send_request_aux net rand (5 - retry_times).toNat) res info1
      records region_id log_id retry_times (fix_start_seq_id w start_seq_id) w4
      = on_txn_follow_up (send_request_aux net rand (5 - retry_times).toNat) res info1
          records region_id log_id retry_times (fix_start_seq_id w start_seq_id) w4 := by
    unfold handle_response
    rw [hcode]
  rw [hout, hh]
  unfold on_txn_follow_up
  refine ⟨?_, ?_, ?_⟩
  · intro hop
    rw [if_pos (hop4.trans hop)]
    exact ⟨rfl, hcalls, rec, hrpcs⟩
  · intro hop
    have hne : ¬ w4.node._op_type = OpType.OP_COMMIT := by
      rw [hop4, hop]; decide
    rw [if_neg hne, if_pos (hop4.trans hop)]
    exact ⟨rfl, hcalls, rec, hrpcs⟩
  · intro hop1 hop2 _
    rw [if_neg (by rw [hop4]; exact hop1), if_neg (by rw [hop4]; exact hop2)]
    refine ⟨info1, w4, rec, hrpcs, hcalls, hstatic, ?_⟩
    rw [send_request_aux_next net rand info1 records region_id log_id retry_times _ w4 hretry,
      last_seq_id_of_eq]

/-- C15 at concrete inputs: a COMMIT answered TXN_FOLLOW_UP returns -1 after
one call, a ROLLBACK returns 0 after one call, and an UPDATE answered
TXN_FOLLOW_UP without last_seq_id is sent again. -/
theorem txn_follow_up_control_ops_witness :
    ((send_request (ex_net_follow_up (some 7)) (fun _ => 0) ex_r1 none 1 0 0 3
        (ex_world OpType.OP_COMMIT false [(1, ex_r1)])).1 = Ret.code (-1)
      ∧ (send_request (ex_net_follow_up (some 7)) (fun _ => 0) ex_r1 none 1 0 0 3
        (ex_world OpType.OP_COMMIT false [(1, ex_r1)])).2.2.net_calls = 0 + 1)
    ∧ ((send_request (ex_net_follow_up (some 7)) (fun _ => 0) ex_r1 none 1 0 0 3
        (ex_world OpType.OP_ROLLBACK false [(1, ex_r1)])).1 = Ret.code 0
      ∧ (send_request (ex_net_follow_up (some 7)) (fun _ => 0) ex_r1 none 1 0 0 3
        (ex_world OpType.OP_ROLLBACK false [(1, ex_r1)])).2.2.net_calls = 0 + 1)
    ∧ (send_request (ex_net_follow_up none) (fun _ => 0) ex_r1 none 1 0 0 3
        (ex_world OpType.OP_UPDATE false [(1, ex_r1)])).2.2.rpcs.map
          (fun rec => (rec.retry_times, rec.req.txn_info.start_seq_id)) = [(0, 3), (1, 1)] :=
  ⟨⟨((txn_follow_up_control_ops (ex_net_follow_up (some 7)) (fun _ => 0) ex_r1 none 1 0 0 3
        (ex_world OpType.OP_COMMIT false [(1, ex_r1)])
        { ex_res ErrCode.TXN_FOLLOW_UP with last_seq_id := some 7 }
        (by decide) (by decide) (by decide) (by decide) (by decide) (by decide)).1
        (by decide)).1,
     ((txn_follow_up_control_ops (ex_net_follow_up (some 7)) (fun _ => 0) ex_r1 none 1 0 0 3
        (ex_world OpType.OP_COMMIT false [(1, ex_r1)])
        { ex_res ErrCode.TXN_FOLLOW_UP with last_seq_id := some 7 }
        (by decide) (by decide) (by decide) (by decide) (by decide) (by decide)).1
        (by decide)).2.1⟩,
   ⟨((txn_follow_up_control_ops (ex_net_follow_up (some 7)) (fun _ => 0) ex_r1 none 1 0 0 3
        (ex_world OpType.OP_ROLLBACK false [(1, ex_r1)])
        { ex_res ErrCode.TXN_FOLLOW_UP with last_seq_id := some 7 }
        (by decide) (by decide) (by decide) (by decide) (by decide) (by decide)).2.1
        (by decide)).1,
     ((txn_follow_up_control_ops (ex_net_follow_up (some 7)) (fun _ => 0) ex_r1 none 1 0 0 3
        (ex_world OpType.OP_ROLLBACK false [(1, ex_r1)])
        { ex_res ErrCode.TXN_FOLLOW_UP with last_seq_id := some 7 }
        (by decide) (by decide) (by decide) (by decide) (by decide) (by decide)).2.1
        (by decide)).2.1⟩,
   by decide⟩

/-! ## C14: the recursion after a split of an INSERT -/

/-- C14, as stated, fails: an INSERT of statement 3 (two plans cached, no
autocommit) entered with start_seq_id = 3 and answered VERSION_OLD with the
narrowed region 1 and the new region 2 sends the narrowed region 1 its request
with start_seq_id = 3, not 1; only the new region 2 gets start_seq_id = 1. -/
theorem split_insert_recursion_counterexample :
    (send_request ex_net_split_once (fun _ => 0) ex_r1 none 1 0 0 3
        (ex_world OpType.OP_INSERT false [(1, ex_r1)])).2.2.rpcs.map
          (fun rec => (rec.req.region_id, rec.req.region_version, rec.retry_times,
            rec.req.txn_info.start_seq_id))
      = [(1, 1, 0, 3), (1, 2, 1, 3), (2, 2, 1, 1)]
    ∧ (3 : Int) ≠ 1 := by
  decide

/-- The call a `send_request` adds first to the record, if it adds one, is for
the region and with the `retry_times` it was entered with, and carries the
`start_seq_id` it was entered with, after the assignments of lines 117-124. -/
theorem send_request_first_record (net : Nat → Reply) (rand : Nat → Nat)
    (info : RegionInfo) (records : Option (List String)) (region_id : Int) (log_id : Nat)
    (retry_times start_seq_id : Int) (w : World) (rec : RpcRecord)
    (hrec : (send_request net rand info records region_id log_id retry_times start_seq_id
      w).2.2.rpcs.get? w.rpcs.length = some rec) :
    rec.req.region_id = region_id ∧ rec.retry_times = retry_times
      ∧ rec.req.txn_info.start_seq_id = fix_start_seq_id w start_seq_id := by
  rcases send_request_aux_first_rpc net rand _ info records region_id log_id retry_times
    start_seq_id w with h | ⟨info1, w1, w3, ext, hc, hr, h⟩
  · rw [show send_request net rand info records region_id log_id retry_times start_seq_id w
      = send_request_aux net rand ((5 - retry_times).toNat + 1) info records region_id log_id
          retry_times start_seq_id w from rfl, h] at hrec
    simp at hrec
  · rw [show send_request net rand info records region_id log_id retry_times start_seq_id w
      = send_request_aux net rand ((5 - retry_times).toNat + 1) info records region_id log_id
          retry_times start_seq_id w from rfl, h, get?_append_cons] at hrec
    cases hrec
    exact ⟨rfl, rfl, fix_start_seq_id_static (choose_leader_static hc) _⟩

/-- For an INSERT the assignment of line 122 does not apply: the effective
`start_seq_id` is 1 when the cache holds exactly one plan outside autocommit,
and the one passed in otherwise. -/
theorem fix_start_seq_id_insert (w : World) (start_seq_id : Int)
    (hop : w.node._op_type = OpType.OP_INSERT) :
    (w.conn.cache_plans.length = 1 ∧ w.state.autocommit = false →
      fix_start_seq_id w start_seq_id = 1)
    ∧ (¬ (w.conn.cache_plans.length = 1 ∧ w.state.autocommit = false) →
      fix_start_seq_id w start_seq_id = start_seq_id) := by
  have hp : ¬ (w.state.autocommit = true ∧ w.node._op_type = OpType.OP_PREPARE) := by
    rw [hop]
    rintro ⟨_, h⟩
    cases h
  unfold fix_start_seq_id
  simp only [if_neg hp]
  exact ⟨fun h => if_pos h, fun h => if_neg h⟩

/-- C14 (amended): for an INSERT whose region answers VERSION_OLD with regions
R1 (same id, narrowed) and R2 (new id), both within the end key of the region,
send_request makes a recursive dispatch to R1 and, unless that one fails, a
recursive dispatch to R2, each with retry_times + 1 and from the world the step
before has left; it returns what the dispatch that fails returned, and 0 when
neither fails. The dispatch to R2 is entered with start_seq_id = 1, whatever
start_seq_id the original call was entered with. The dispatch to R1 is entered
with the start_seq_id s in effect in the original call after the assignments of
lines 117-124, which the request of the original call carried: 1 when
cache_plans holds exactly one plan and the transaction is not autocommit, and
the start_seq_id the original call was entered with otherwise. The first
request a dispatch sends, if it sends one, carries the start_seq_id the
dispatch was entered with as TransactionInfo.start_seq_id. -/
theorem split_insert_recursion (net : Nat → Reply) (rand : Nat → Nat)
    (info : RegionInfo) (records : Option (List String)) (region_id : Int) (log_id : Nat)
    (retry_times start_seq_id : Int) (w : World) (res : StoreRes)
    (R1 R2 : RegionInfo)
    (hop : w.node._op_type = OpType.OP_INSERT)
    (herr : w.node._error = false) (hretry : retry_times < 5) (hpeers : info.peers ≠ [])
    (hnode : has_needed_insert_node w)
    (hnet : net w.net_calls = Reply.response res)
    (hcode : res.errcode = ErrCode.VERSION_OLD) (hregs : res.regions = [R1, R2])
    (hR1 : R1.region_id = region_id) (hR2 : R2.region_id ≠ region_id)
    (hk1 : end_key_compare R1.end_key info.end_key ≤ 0)
    (hk2 : end_key_compare R2.end_key info.end_key ≤ 0) :
    ∃ (s : Int) (w0 : World),
      (w.conn.cache_plans.length = 1 ∧ w.state.autocommit = false → s = 1)
      ∧ (¬ (w.conn.cache_plans.length = 1 ∧ w.state.autocommit = false) → s = start_seq_id)
      ∧ (∃ rec0, w0.rpcs = w.rpcs ++ [rec0] ∧ rec0.req.region_id = region_id
          ∧ rec0.retry_times = retry_times ∧ rec0.req.txn_info.start_seq_id = s)
      ∧ (∀ (R1c : RegionInfo) (out1 out2 : Ret × RegionInfo × World),
          R1c = (if res.leader ≠ "0.0.0.0:0" then { R1 with leader := res.leader } else R1) →
          out1 = send_request net rand R1c records region_id log_id (retry_times + 1) s
            (narrow_parent region_id R1c w0) →
          out2 = send_request net rand R2 records R2.region_id log_id (retry_times + 1) 1
            (install_child R2 out1.2.2) →
          (out1.1.failed = true →
            (send_request net rand info records region_id log_id retry_times start_seq_id w).1
                = out1.1
              ∧ (send_request net rand info records region_id log_id retry_times start_seq_id
                  w).2.2 = out1.2.2)
          ∧ (out1.1.failed = false →
            (send_request net rand info records region_id log_id retry_times start_seq_id w).1
                = (if out2.1.failed then out2.1 else Ret.code 0)
              ∧ (send_request net rand info records region_id log_id retry_times start_seq_id
                  w).2.2 = out2.2.2)
          ∧ (∀ rec, out1.2.2.rpcs.get? w0.rpcs.length = some rec →
              rec.req.region_id = region_id ∧ rec.retry_times = retry_times + 1
                ∧ rec.req.txn_info.start_seq_id = s)
          ∧ (∀ rec, out2.2.2.rpcs.get? out1.2.2.rpcs.length = some rec →
              rec.req.region_id = R2.region_id ∧ rec.retry_times = retry_times + 1
                ∧ rec.req.txn_info.start_seq_id = 1)) := by
  -- the first call
  obtain ⟨info1, w4, rec0, hout, ⟨w1, hc⟩, hrpcs4, _, hstatic4, _, _, _, _, a1, a2, _, a4, _⟩ :=
    send_request_first_attempt net rand info records region_id log_id retry_times
      start_seq_id w res herr hretry hpeers hnode hnet
  have hek : info1.end_key = info.end_key := by rw [choose_leader_info hc]
  obtain ⟨hs1, hs2⟩ := fix_start_seq_id_insert w start_seq_id hop
  have hb_static : static_of (split_begin [R1, R2] w4) = static_of w := by
    rw [split_begin_static, hstatic4]
  refine ⟨fix_start_seq_id w start_seq_id, split_begin [R1, R2] w4, hs1, hs2,
    ⟨rec0, by rw [split_begin_rpcs, hrpcs4], a1, a2, a4⟩, ?_⟩
  intro R1c out1 out2 hR1c hout1 hout2
  have hfinal : send_request net rand info records region_id log_id retry_times start_seq_id w
      = if out1.1.failed then (out1.1, info1, out1.2.2)
        else if out2.1.failed then (out2.1, info1, out2.2.2)
        else (Ret.code 0, info1, out2.2.2) := by
    rw [hout]
    unfold handle_response
    rw [hcode]
    simp only []
    unfold on_version_old
    simp only []
    rw [if_pos (by rw [hregs]; simp), split_filter_end_key hek, hregs,
      split_filter_keep_two info R1 R2 hk1 hk2]
    have hid : (if res.leader ≠ "0.0.0.0:0" then { R1 with leader := res.leader }
        else R1).region_id = region_id := by
      split <;> exact hR1
    rw [split_loop_cons, split_step_parent _ _ _ _ _ _ _ _ _ hR1,
      send_request_aux_next net rand _ records _ log_id retry_times _ _ hretry, hid, ← hR1c,
      ← hout1]
    simp only []
    by_cases hf1 : out1.1.failed = true
    · rw [if_pos hf1, if_pos hf1]
    · rw [if_neg hf1, if_neg hf1, split_loop_cons, split_step_child _ _ _ _ _ _ _ _ _ hR2,
        send_request_aux_next net rand _ records _ log_id retry_times _ _ hretry, ← hout2]
      simp only []
      by_cases hf2 : out2.1.failed = true
      · rw [if_pos hf2, if_pos hf2]
      · rw [if_neg hf2, if_neg hf2]
        rfl
  refine ⟨?_, ?_, ?_, ?_⟩
  · intro hf
    rw [hfinal, if_pos hf]
    exact ⟨rfl, rfl⟩
  · intro hf
    have hf1 : ¬ out1.1.failed = true := by rw [hf]; decide
    rw [hfinal, if_neg hf1]
    by_cases hf2 : out2.1.failed = true
    · rw [if_pos hf2, if_pos hf2]
      exact ⟨rfl, rfl⟩
    · rw [if_neg hf2, if_neg hf2]
      exact ⟨rfl, rfl⟩
  · intro rec hrec
    have hlen : (narrow_parent region_id R1c (split_begin [R1, R2] w4)).rpcs.length
        = (split_begin [R1, R2] w4).rpcs.length := by rw [narrow_parent_rpcs]
    rw [hout1, ← hlen] at hrec
    obtain ⟨b1, b2, b3⟩ := send_request_first_record net rand R1c records region_id log_id
      (retry_times + 1) (fix_start_seq_id w start_seq_id) _ rec hrec
    refine ⟨b1, b2, ?_⟩
    rw [b3, fix_start_seq_id_static (show static_of (narrow_parent region_id R1c
      (split_begin [R1, R2] w4)) = static_of w by rw [narrow_parent_static, hb_static]),
      fix_start_seq_id_idem]
  · intro rec hrec
    have hlen : (install_child R2 out1.2.2).rpcs.length = out1.2.2.rpcs.length := by
      rw [install_child_rpcs]
    rw [hout2, ← hlen] at hrec
    obtain ⟨b1, b2, b3⟩ := send_request_first_record net rand R2 records R2.region_id log_id
      (retry_times + 1) 1 _ rec hrec
    exact ⟨b1, b2, by rw [b3, fix_start_seq_id_one]⟩

/-- The amended C14 at a concrete input: the INSERT of statement 3 whose region
1 has split into the narrowed region 1 and the new region 2 is entered with
start_seq_id = 3, two plans being cached, so s = 3: it returns 0 after three
calls, the first and the one to the narrowed region 1 carrying 3 and the one to
region 2 carrying 1. -/
theorem split_insert_recursion_witness :
    (ex_world OpType.OP_INSERT false [(1, ex_r1)]).node._op_type = OpType.OP_INSERT
    ∧ ex_net_split_once (ex_world OpType.OP_INSERT false [(1, ex_r1)]).net_calls
        = Reply.response (ex_split_res [ex_region 1 2 [0] [5] "A", ex_region 2 2 [5] [9] "B"])
    ∧ (send_request ex_net_split_once (fun _ => 0) ex_r1 none 1 0 0 3
        (ex_world OpType.OP_INSERT false [(1, ex_r1)])).1 = Ret.code 0
    ∧ (send_request ex_net_split_once (fun _ => 0) ex_r1 none 1 0 0 3
        (ex_world OpType.OP_INSERT false [(1, ex_r1)])).2.2.rpcs.map
          (fun rec => (rec.req.region_id, rec.retry_times, rec.req.txn_info.start_seq_id))
        = [(1, 0, 3), (1, 1, 3), (2, 1, 1)]
    ∧ ∃ (s : Int) (w0 : World), s = 3
        ∧ ∃ rec0, w0.rpcs = (ex_world OpType.OP_INSERT false [(1, ex_r1)]).rpcs ++ [rec0]
          ∧ rec0.req.txn_info.start_seq_id = s := by
  refine ⟨by decide, by decide, by decide, by decide, ?_⟩
  obtain ⟨s, w0, _, hs, ⟨rec0, h1, _, _, h4⟩, _⟩ :=
    split_insert_recursion ex_net_split_once (fun _ => 0) ex_r1 none 1 0 0 3
      (ex_world OpType.OP_INSERT false [(1, ex_r1)])
      (ex_split_res [ex_region 1 2 [0] [5] "A", ex_region 2 2 [5] [9] "B"])
      (ex_region 1 2 [0] [5] "A") (ex_region 2 2 [5] [9] "B")
      (by decide) (by decide) (by decide) (by decide) (by decide) (by decide) (by decide)
      (by decide) (by decide) (by decide) (by decide) (by decide)
  exact ⟨s, w0, hs (by decide), rec0, h1, h4⟩

/-! ## C17: the LIMIT ceiling of `get_next` -/

/-- C17, as stated, fails in one part: with the limit 5 set and no row
returned so far, a get_next call to which the sorter hands a batch of 10 rows
signals end-of-stream and clamps the running total to 5, but passes all 10
rows on in the output batch: the rows emitted exceed the ceiling. -/
theorem limit_ceiling_counterexample :
    (FetcherNode.get_next ex_sorter_all
        { _limit := 5, _num_rows_returned := 0, _sorter := ex_rows } [] false).ret = 0
    ∧ (FetcherNode.get_next ex_sorter_all
        { _limit := 5, _num_rows_returned := 0, _sorter := ex_rows } [] false).eos = true
    ∧ (FetcherNode.get_next ex_sorter_all
        { _limit := 5, _num_rows_returned := 0, _sorter := ex_rows } [] false).cursor._num_rows_returned
          = 5
    ∧ (FetcherNode.get_next ex_sorter_all
        { _limit := 5, _num_rows_returned := 0, _sorter := ex_rows } [] false).batch.length = 10
    ∧ ¬ (((FetcherNode.get_next ex_sorter_all
        { _limit := 5, _num_rows_returned := 0, _sorter := ex_rows } [] false).batch.length : Int)
          ≤ 5) := by
  decide

/-- C17 (amended): with a limit L set, a get_next call that is entered below
the limit, whose sorter call succeeds and whose output batch brings the running
total of returned rows to L or more, returns 0, signals end-of-stream and
leaves the running total clamped to exactly L; a running total that does not
exceed L before a call does not exceed it after the call; while a call leaves
the total below L, the total grows by exactly the size of the output batch;
and every get_next call made once the limit is reached sets eos = true,
returns 0, adds no rows to the output batch and leaves the node, the running
total included, unchanged. The batch of the call that reaches the limit is
passed on whole. -/
theorem limit_ceiling {σ : Type} (sorter_get_next : σ → RowBatch → Bool → SorterOut σ)
    (c : Cursor σ) (batch : RowBatch) (eos : Bool) (L : Int) (hL : c._limit = L) :
    (c._num_rows_returned < L → 0 ≤ (sorter_get_next c._sorter batch eos).ret →
      L ≤ c._num_rows_returned + (sorter_get_next c._sorter batch eos).batch.length →
      (FetcherNode.get_next sorter_get_next c batch eos).ret = 0
      ∧ (FetcherNode.get_next sorter_get_next c batch eos).eos = true
      ∧ (FetcherNode.get_next sorter_get_next c batch eos).cursor._num_rows_returned = L
      ∧ (FetcherNode.get_next sorter_get_next c batch eos).batch
          = (sorter_get_next c._sorter batch eos).batch)
    ∧ (c._num_rows_returned ≤ L →
      (FetcherNode.get_next sorter_get_next c batch eos).cursor._num_rows_returned ≤ L)
    ∧ ((FetcherNode.get_next sorter_get_next c batch eos).cursor._num_rows_returned < L →
      0 ≤ (FetcherNode.get_next sorter_get_next c batch eos).ret →
      (FetcherNode.get_next sorter_get_next c batch eos).cursor._num_rows_returned
        = c._num_rows_returned
          + (FetcherNode.get_next sorter_get_next c batch eos).batch.length)
    ∧ (L ≤ c._num_rows_returned →
      (FetcherNode.get_next sorter_get_next c batch eos).ret = 0
      ∧ (FetcherNode.get_next sorter_get_next c batch eos).eos = true
      ∧ (FetcherNode.get_next sorter_get_next c batch eos).batch = batch
      ∧ (FetcherNode.get_next sorter_get_next c batch eos).cursor = c)
    ∧ (FetcherNode.get_next sorter_get_next c batch eos).cursor._limit = L := by
  subst hL
  unfold FetcherNode.get_next reached_limit
  simp only [decide_eq_true_eq]
  refine ⟨?_, ?_, ?_, ?_, ?_⟩
  · intro h1 h2 h3
    rw [if_neg (by omega), if_neg (by omega), if_pos h3]
    exact ⟨rfl, rfl, rfl, rfl⟩
  · intro h1
    split
    · exact h1
    · split
      · exact h1
      · split
        · exact le_refl _
        · rename_i h
          exact le_of_lt (not_le.mp h)
  · split
    · rename_i h
      intro h1
      exact absurd h (not_le.mpr h1)
    · split
      · rename_i h
        intro _ h2
        exact absurd h2 (not_le.mpr h)
      · split
        · intro h1
          exact absurd h1 (lt_irrefl _)
        · intro _ _
          rfl
  · intro h1
    rw [if_pos h1]
    exact ⟨rfl, rfl, rfl, rfl⟩
  · split
    · rfl
    · split
      · rfl
      · split <;> rfl

/-- The amended C17 at concrete inputs: with the limit 5 and a sorter that
hands over two rows per call, the third call reaches the limit with a total of
6, which is clamped to 5, and a fourth call changes nothing. -/
theorem limit_ceiling_witness :
    ((FetcherNode.get_next ex_sorter_two
        { _limit := 5, _num_rows_returned := 4, _sorter := ex_rows.drop 4 } [] false).eos = true
      ∧ (FetcherNode.get_next ex_sorter_two
        { _limit := 5, _num_rows_returned := 4, _sorter := ex_rows.drop 4 } [] false).cursor._num_rows_returned
          = 5)
    ∧ (FetcherNode.get_next ex_sorter_two
        { _limit := 5, _num_rows_returned := 5, _sorter := ex_rows.drop 6 } [] false).batch = [] :=
  ⟨⟨((limit_ceiling ex_sorter_two
        { _limit := 5, _num_rows_returned := 4, _sorter := ex_rows.drop 4 } [] false 5 rfl).1
        (by decide) (by decide) (by decide)).2.1,
    ((limit_ceiling ex_sorter_two
        { _limit := 5, _num_rows_returned := 4, _sorter := ex_rows.drop 4 } [] false 5 rfl).1
        (by decide) (by decide) (by decide)).2.2.1⟩,
   ((limit_ceiling ex_sorter_two
        { _limit := 5, _num_rows_returned := 5, _sorter := ex_rows.drop 6 } [] false 5 rfl).2.2.2.1
        (by decide)).2.2.1⟩

/-! ## C18: heartbeats are served by the leader only -/

/-- C18: for both store_heartbeat and baikal_heartbeat, when the node is not
the local leader (_is_leader false, as after on_leader_stop) the response has
errcode NOT_LEADER and leader set to the current raft leader id, no manager is
called, and the state machine with the state of the managers is as before; when
the node is the local leader the errcode is set to SUCCESS and the managers
process the heartbeat: each manager method of the source is applied, in the
order of the source, to the request, to the response as the method before has
left it and to the state of the managers as the method before has left it; the
response returned and the state of the managers are those the last method
leaves, nothing else of the state machine changes, and the errcode of the
response is SUCCESS at the end, the managers leaving the errcode they are
handed as it is. -/
theorem heartbeat_leader_gating {μ : Type} (M : HeartBeatManagers μ) (cntl_log_id : Option Nat)
    (store_request : StoreHeartBeatRequest) (baikal_request : BaikalHeartBeatRequest)
    (response : HeartBeatResponse) (sm : MetaStateMachine μ) :
    (sm._is_leader = false →
      ((MetaStateMachine.store_heartbeat M cntl_log_id store_request response sm).1.errcode
          = ErrCode.NOT_LEADER
        ∧ (MetaStateMachine.store_heartbeat M cntl_log_id store_request response sm).1.leader
          = sm.node_leader_id
        ∧ (MetaStateMachine.store_heartbeat M cntl_log_id store_request response sm).2.calls
          = sm.calls
        ∧ (MetaStateMachine.store_heartbeat M cntl_log_id store_request response sm).2.managers
          = sm.managers
        ∧ MetaStateMachine.store_heartbeat M cntl_log_id store_request response sm
          = ({ response with errcode := ErrCode.NOT_LEADER, errmsg := "not leader",
                             leader := sm.node_leader_id }, sm))
      ∧ ((MetaStateMachine.baikal_heartbeat M cntl_log_id baikal_request response sm).1.errcode
          = ErrCode.NOT_LEADER
        ∧ (MetaStateMachine.baikal_heartbeat M cntl_log_id baikal_request response sm).1.leader
          = sm.node_leader_id
        ∧ (MetaStateMachine.baikal_heartbeat M cntl_log_id baikal_request response sm).2.calls
          = sm.calls
        ∧ (MetaStateMachine.baikal_heartbeat M cntl_log_id baikal_request response sm).2.managers
          = sm.managers
        ∧ MetaStateMachine.baikal_heartbeat M cntl_log_id baikal_request response sm
          = ({ response with errcode := ErrCode.NOT_LEADER, errmsg := "not leader",
                             leader := sm.node_leader_id }, sm)))
    ∧ (sm._is_leader = true →
      ((MetaStateMachine.store_heartbeat M cntl_log_id store_request response sm).2.calls
          = sm.calls ++
            [ManagerCall.cluster_process_instance_heartbeat_for_store,
             ManagerCall.cluster_process_peer_heartbeat_for_store,
             ManagerCall.schema_process_schema_heartbeat_for_store,
             ManagerCall.schema_process_peer_heartbeat_for_store,
             ManagerCall.schema_process_leader_heartbeat_for_store]
        ∧ (keeps_errcode M →
            (MetaStateMachine.store_heartbeat M cntl_log_id store_request response sm).1.errcode
              = ErrCode.SUCCESS)
        ∧ (∀ (m1 : μ) (o2 o3 o4 o5 : HeartBeatResponse × μ),
            m1 = M.cluster_process_instance_heartbeat_for_store store_request.instance_info
              sm.managers →
            o2 = M.cluster_process_peer_heartbeat_for_store store_request
              { response with errcode := ErrCode.SUCCESS, errmsg := "success" } m1 →
            o3 = M.schema_process_schema_heartbeat_for_store store_request o2.1 o2.2 →
            o4 = M.schema_process_peer_heartbeat_for_store store_request o3.1
              (log_id_of cntl_log_id) o3.2 →
            o5 = M.schema_process_leader_heartbeat_for_store store_request o4.1
              (log_id_of cntl_log_id) o4.2 →
            MetaStateMachine.store_heartbeat M cntl_log_id store_request response sm
              = (o5.1, { sm with
                  managers := o5.2,
                  calls := sm.calls ++
                    [ManagerCall.cluster_process_instance_heartbeat_for_store,
                     ManagerCall.cluster_process_peer_heartbeat_for_store,
                     ManagerCall.schema_process_schema_heartbeat_for_store,
                     ManagerCall.schema_process_peer_heartbeat_for_store,
                     ManagerCall.schema_process_leader_heartbeat_for_store] })))
      ∧ ((MetaStateMachine.baikal_heartbeat M cntl_log_id baikal_request response sm).2.calls
          = sm.calls ++
            [ManagerCall.cluster_process_baikal_heartbeat,
             ManagerCall.privilege_process_baikal_heartbeat,
             ManagerCall.schema_process_baikal_heartbeat]
        ∧ (keeps_errcode M →
            (MetaStateMachine.baikal_heartbeat M cntl_log_id baikal_request response sm).1.errcode
              = ErrCode.SUCCESS)
        ∧ (∀ (o1 o2 o3 : HeartBeatResponse × μ),
            o1 = M.cluster_process_baikal_heartbeat baikal_request
              { response with errcode := ErrCode.SUCCESS, errmsg := "success" } sm.managers →
            o2 = M.privilege_process_baikal_heartbeat baikal_request o1.1 o1.2 →
            o3 = M.schema_process_baikal_heartbeat baikal_request o2.1 (log_id_of cntl_log_id)
              o2.2 →
            MetaStateMachine.baikal_heartbeat M cntl_log_id baikal_request response sm
              = (o3.1, { sm with
                  managers := o3.2,
                  calls := sm.calls ++
                    [ManagerCall.cluster_process_baikal_heartbeat,
                     ManagerCall.privilege_process_baikal_heartbeat,
                     ManagerCall.schema_process_baikal_heartbeat] }))))
    ∧ (∀ common_on_leader_stop : MetaStateMachine μ → MetaStateMachine μ,
        (∀ s, (common_on_leader_stop s)._is_leader = s._is_leader) →
        (MetaStateMachine.on_leader_stop common_on_leader_stop sm)._is_leader = false) := by
  refine ⟨?_, ?_, ?_⟩
  · intro h
    refine ⟨⟨?_, ?_, ?_, ?_, ?_⟩, ⟨?_, ?_, ?_, ?_, ?_⟩⟩ <;>
      simp [MetaStateMachine.store_heartbeat, MetaStateMachine.baikal_heartbeat, h,
        not_leader_response]
  · intro h
    have hne : ¬ sm._is_leader = false := by rw [h]; decide
    refine ⟨⟨?_, ?_, ?_⟩, ⟨?_, ?_, ?_⟩⟩
    · simp only [MetaStateMachine.store_heartbeat, if_neg hne]
    · intro hk
      obtain ⟨k1, k2, k3, k4, _, _, _⟩ := hk
      simp only [MetaStateMachine.store_heartbeat, if_neg hne]
      rw [k4, k3, k2, k1]
    · intro m1 o2 o3 o4 o5 e1 e2 e3 e4 e5
      subst e1 e2 e3 e4 e5
      simp only [MetaStateMachine.store_heartbeat, if_neg hne]
    · simp only [MetaStateMachine.baikal_heartbeat, if_neg hne]
    · intro hk
      obtain ⟨_, _, _, _, k5, k6, k7⟩ := hk
      simp only [MetaStateMachine.baikal_heartbeat, if_neg hne]
      rw [k7, k6, k5]
    · intro o1 o2 o3 e1 e2 e3
      subst e1 e2 e3
      simp only [MetaStateMachine.baikal_heartbeat, if_neg hne]
  · intro common hcommon
    unfold MetaStateMachine.on_leader_stop
    simp only []
    rw [hcommon]
    split <;> rfl

/-- C18 at a concrete input, the handoff of the leadership: while N1 leads, a
store heartbeat is answered SUCCESS, each of the five manager methods has
counted it and the four that are handed the response have added their line, in
order; a baikal heartbeat is answered SUCCESS by the three methods of its own.
After on_leader_stop the next heartbeat is answered NOT_LEADER with leader N2,
and neither the managers nor the rest of the state machine change. -/
theorem heartbeat_leader_gating_witness :
    keeps_errcode ex_managers
    ∧ (MetaStateMachine.store_heartbeat ex_managers none { instance_info := "s1", body := 0 }
        ex_response (ex_meta true 0)).1.errcode = ErrCode.SUCCESS
    ∧ (MetaStateMachine.store_heartbeat ex_managers none { instance_info := "s1", body := 0 }
        ex_response (ex_meta true 0)).1.payload = ["peer balance", "schema", "peer", "leader"]
    ∧ (MetaStateMachine.store_heartbeat ex_managers none { instance_info := "s1", body := 0 }
        ex_response (ex_meta true 0)).2.managers = 5
    ∧ (MetaStateMachine.baikal_heartbeat ex_managers none { body := 0 }
        ex_response (ex_meta true 0)).1.payload = ["idc", "privilege", "schema"]
    ∧ (MetaStateMachine.baikal_heartbeat ex_managers none { body := 0 }
        ex_response (ex_meta true 0)).2.managers = 3
    ∧ ex_meta_stopped._is_leader = false
    ∧ (MetaStateMachine.store_heartbeat ex_managers none { instance_info := "s1", body := 0 }
        ex_response ex_meta_stopped).1.errcode = ErrCode.NOT_LEADER
    ∧ (MetaStateMachine.store_heartbeat ex_managers none { instance_info := "s1", body := 0 }
        ex_response ex_meta_stopped).1.leader = "N2"
    ∧ (MetaStateMachine.store_heartbeat ex_managers none { instance_info := "s1", body := 0 }
        ex_response ex_meta_stopped).2.calls = []
    ∧ (MetaStateMachine.store_heartbeat ex_managers none { instance_info := "s1", body := 0 }
        ex_response ex_meta_stopped).2.managers = 0 :=
  have hk : keeps_errcode ex_managers :=
    ⟨fun _ _ _ => rfl, fun _ _ _ => rfl, fun _ _ _ _ => rfl, fun _ _ _ _ => rfl,
     fun _ _ _ => rfl, fun _ _ _ => rfl, fun _ _ _ _ => rfl⟩
  ⟨hk,
   ((heartbeat_leader_gating ex_managers none { instance_info := "s1", body := 0 } { body := 0 }
      ex_response (ex_meta true 0)).2.1 rfl).1.2.1 hk,
   by decide, by decide, by decide, by decide, by decide,
   ((heartbeat_leader_gating ex_managers none { instance_info := "s1", body := 0 } { body := 0 }
      ex_response ex_meta_stopped).1 (by decide)).1.1,
   ((heartbeat_leader_gating ex_managers none { instance_info := "s1", body := 0 } { body := 0 }
      ex_response ex_meta_stopped).1 (by decide)).1.2.1,
   ((heartbeat_leader_gating ex_managers none { instance_info := "s1", body := 0 } { body := 0 }
      ex_response ex_meta_stopped).1 (by decide)).1.2.2.1,
   ((heartbeat_leader_gating ex_managers none { instance_info := "s1", body := 0 } { body := 0 }
      ex_response ex_meta_stopped).1 (by decide)).1.2.2.2.1⟩

/-! ## C19: the stabilization window of `whether_can_decide` -/

theorem wrap32_of_fits {x : Int} (h1 : -2147483648 ≤ x) (h2 : x ≤ 2147483647) : wrap32 x = x := by
  unfold wrap32
  omega

/-- As long as the product `2 * balance_periodicity * store_heart_beat_interval_us`
of two non-negative flags fits in an `int`, `whether_can_decide` is true only for
a leader whose leadership is older than that product. -/
theorem whether_can_decide_in_range {μ : Type} (bp hb now : Int) (sm : MetaStateMachine μ)
    (hbp : 0 ≤ bp) (hhb : 0 ≤ hb) (hfit : 2 * bp * hb ≤ 2147483647) (hfit1 : 2 * bp ≤ 2147483647)
    (h : MetaStateMachine.whether_can_decide bp hb now sm = true) :
    sm.node_is_leader = true ∧ 2 * bp * hb < now - sm._leader_start_timestmap := by
  unfold MetaStateMachine.whether_can_decide at h
  rw [Bool.and_eq_true, decide_eq_true_iff] at h
  have h0 : 0 ≤ 2 * bp * hb := mul_nonneg (by omega) hhb
  rw [wrap32_of_fits (by omega) hfit1, wrap32_of_fits (by omega) hfit] at h
  exact ⟨h.1, h.2⟩

/-- C19 fails on the code: with balance_periodicity = 60 and
store_heart_beat_interval_us = 30000000 the product 2 x 60 x 30000000 =
3600000000 does not fit in the 32-bit int the code computes it in and comes out
as -694967296, so whether_can_decide is true for a leader at the very time
on_leader_start recorded its timestamp, with 0 microseconds elapsed, far less
than the 3600000000 of the window. -/
theorem stabilization_window_overflow :
    ex_meta_started._leader_start_timestmap = 1000
    ∧ ex_meta_started.node_is_leader = true
    ∧ wrap32 (wrap32 (2 * 60) * 30000000) = -694967296
    ∧ MetaStateMachine.whether_can_decide 60 30000000 1000 ex_meta_started = true
    ∧ (1000 : Int) - ex_meta_started._leader_start_timestmap = 0
    ∧ ¬ ((2 : Int) * 60 * 30000000 ≤ 1000 - ex_meta_started._leader_start_timestmap) := by
  decide

/-! ## C20: loading a snapshot -/

/-- Files other than `/meta_info.sst` are passed over. -/
theorem load_snapshot_files_skip {σ μ : Type} (R : RocksOps σ) (Mg : SnapshotManagers σ μ)
    (path : String) :
    ∀ (files : List String) (w : SnapshotWorld σ μ), "/meta_info.sst" ∉ files →
      load_snapshot_files R Mg path files w = (0, w) := by
  intro files
  induction files with
  | nil => intro w _; rfl
  | cons f rest ih =>
    intro w h
    have hf : f ≠ "/meta_info.sst" := fun e => h (by rw [e]; exact List.mem_cons_self _ _)
    have hrest : "/meta_info.sst" ∉ rest := fun e => h (List.mem_cons_of_mem _ e)
    unfold load_snapshot_files
    rw [if_neg hf]
    exact ih w hrest

/-- When the snapshot names `/meta_info.sst` once, the loop ingests it and, the
ingest succeeding, has the three managers load their snapshot. -/
theorem load_snapshot_files_once {σ μ : Type} (R : RocksOps σ) (Mg : SnapshotManagers σ μ)
    (path : String) :
    ∀ (files : List String) (w : SnapshotWorld σ μ), files.count "/meta_info.sst" = 1 →
      load_snapshot_files R Mg path files w
        = if (R.ingest_external_file (path ++ "/meta_info.sst") w.storage).1 = false then
            (-1, { w with
              storage := (R.ingest_external_file (path ++ "/meta_info.sst") w.storage).2,
              actions := w.actions
                ++ [SnapshotAction.ingest_external_file (path ++ "/meta_info.sst")] })
          else
            (0, { storage := (R.ingest_external_file (path ++ "/meta_info.sst") w.storage).2,
                  managers := Mg.schema_load_snapshot
                    (R.ingest_external_file (path ++ "/meta_info.sst") w.storage).2
                    (Mg.privilege_load_snapshot
                      (R.ingest_external_file (path ++ "/meta_info.sst") w.storage).2
                      (Mg.cluster_load_snapshot
                        (R.ingest_external_file (path ++ "/meta_info.sst") w.storage).2
                        w.managers)),
                  actions := w.actions
                    ++ [SnapshotAction.ingest_external_file (path ++ "/meta_info.sst")]
                    ++ [SnapshotAction.load_snapshot ManagerCall.cluster_load_snapshot,
                        SnapshotAction.load_snapshot ManagerCall.privilege_load_snapshot,
                        SnapshotAction.load_snapshot ManagerCall.schema_load_snapshot] }) := by
  intro files
  induction files with
  | nil => intro w h; simp at h
  | cons f rest ih =>
    intro w h
    by_cases hf : f = "/meta_info.sst"
    · subst hf
      have hrest : "/meta_info.sst" ∉ rest := by
        rw [List.count_cons_self] at h
        exact List.count_eq_zero.mp (by omega)
      unfold load_snapshot_files
      rw [if_pos rfl]
      simp only []
      split
      · rfl
      · rw [load_snapshot_files_skip R Mg path rest _ hrest]
    · have hrest : rest.count "/meta_info.sst" = 1 := by
        rw [List.count_cons_of_ne (fun e => hf e.symm)] at h
        exact h
      unfold load_snapshot_files
      rw [if_neg hf]
      exact ih w hrest

/-- C20, as stated, fails for a snapshot reader that lists no file
`/meta_info.sst`: on_snapshot_load returns 0 after the range delete alone, with
no file ingested and no load_snapshot called; the storage is empty and the
cache of the managers still holds the old key. -/
theorem snapshot_load_protocol_counterexample :
    (MetaStateMachine.on_snapshot_load ex_rocks ex_snapshot_managers "CLUSTER" "MAX"
        { files := ["/other.sst"], path := "/snap" } ex_snapshot_world).1 = 0
    ∧ (MetaStateMachine.on_snapshot_load ex_rocks ex_snapshot_managers "CLUSTER" "MAX"
        { files := ["/other.sst"], path := "/snap" } ex_snapshot_world).2.actions
          = [SnapshotAction.remove_range "CLUSTER" "MAX"]
    ∧ (MetaStateMachine.on_snapshot_load ex_rocks ex_snapshot_managers "CLUSTER" "MAX"
        { files := ["/other.sst"], path := "/snap" } ex_snapshot_world).2.storage = []
    ∧ (MetaStateMachine.on_snapshot_load ex_rocks ex_snapshot_managers "CLUSTER" "MAX"
        { files := ["/other.sst"], path := "/snap" } ex_snapshot_world).2.managers
          = ["CLUSTER/old"] := by
  decide

/-- C20 (amended): for every snapshot reader that lists the file
/meta_info.sst once, whenever on_snapshot_load returns 0 it has, in this order
and nothing else, deleted the meta key-space range [CLUSTER, MAX), ingested the
received meta_info.sst file, and then called load_snapshot on the cluster,
privilege and schema managers, which are handed the storage as the ingest left
it; it returns -1 when the range delete fails and when the ingest fails, it
returns nothing but 0 and -1, and when it returns -1 no load_snapshot has been
called and the state of the managers is as before. -/
theorem snapshot_load_protocol {σ μ : Type} (R : RocksOps σ) (Mg : SnapshotManagers σ μ)
    (CLUSTER_IDENTIFY MAX_IDENTIFY : String) (reader : SnapshotReader) (w : SnapshotWorld σ μ)
    (hfile : reader.files.count "/meta_info.sst" = 1) :
    ((MetaStateMachine.on_snapshot_load R Mg CLUSTER_IDENTIFY MAX_IDENTIFY reader w).1 = 0 →
      (MetaStateMachine.on_snapshot_load R Mg CLUSTER_IDENTIFY MAX_IDENTIFY reader w).2.actions
        = w.actions ++
          [SnapshotAction.remove_range CLUSTER_IDENTIFY MAX_IDENTIFY,
           SnapshotAction.ingest_external_file (reader.path ++ "/meta_info.sst"),
           SnapshotAction.load_snapshot ManagerCall.cluster_load_snapshot,
           SnapshotAction.load_snapshot ManagerCall.privilege_load_snapshot,
           SnapshotAction.load_snapshot ManagerCall.schema_load_snapshot]
      ∧ (MetaStateMachine.on_snapshot_load R Mg CLUSTER_IDENTIFY MAX_IDENTIFY reader w).2.storage
        = (R.ingest_external_file (reader.path ++ "/meta_info.sst")
            (R.remove_range CLUSTER_IDENTIFY MAX_IDENTIFY w.storage).2).2
      ∧ (MetaStateMachine.on_snapshot_load R Mg CLUSTER_IDENTIFY MAX_IDENTIFY reader w).2.managers
        = Mg.schema_load_snapshot
            (R.ingest_external_file (reader.path ++ "/meta_info.sst")
              (R.remove_range CLUSTER_IDENTIFY MAX_IDENTIFY w.storage).2).2
            (Mg.privilege_load_snapshot
              (R.ingest_external_file (reader.path ++ "/meta_info.sst")
                (R.remove_range CLUSTER_IDENTIFY MAX_IDENTIFY w.storage).2).2
              (Mg.cluster_load_snapshot
                (R.ingest_external_file (reader.path ++ "/meta_info.sst")
                  (R.remove_range CLUSTER_IDENTIFY MAX_IDENTIFY w.storage).2).2
                w.managers)))
    ∧ ((R.remove_range CLUSTER_IDENTIFY MAX_IDENTIFY w.storage).1 = false →
      (MetaStateMachine.on_snapshot_load R Mg CLUSTER_IDENTIFY MAX_IDENTIFY reader w).1 = -1)
    ∧ ((R.remove_range CLUSTER_IDENTIFY MAX_IDENTIFY w.storage).1 = true →
      (R.ingest_external_file (reader.path ++ "/meta_info.sst")
        (R.remove_range CLUSTER_IDENTIFY MAX_IDENTIFY w.storage).2).1 = false →
      (MetaStateMachine.on_snapshot_load R Mg CLUSTER_IDENTIFY MAX_IDENTIFY reader w).1 = -1)
    ∧ ((MetaStateMachine.on_snapshot_load R Mg CLUSTER_IDENTIFY MAX_IDENTIFY reader w).1 = -1 →
      (MetaStateMachine.on_snapshot_load R Mg CLUSTER_IDENTIFY MAX_IDENTIFY reader w).2.managers
        = w.managers
      ∧ ((MetaStateMachine.on_snapshot_load R Mg CLUSTER_IDENTIFY MAX_IDENTIFY reader w).2.actions
          = w.actions ++ [SnapshotAction.remove_range CLUSTER_IDENTIFY MAX_IDENTIFY]
        ∨ (MetaStateMachine.on_snapshot_load R Mg CLUSTER_IDENTIFY MAX_IDENTIFY reader
            w).2.actions
          = w.actions ++
            [SnapshotAction.remove_range CLUSTER_IDENTIFY MAX_IDENTIFY,
             SnapshotAction.ingest_external_file (reader.path ++ "/meta_info.sst")]))
    ∧ ((MetaStateMachine.on_snapshot_load R Mg CLUSTER_IDENTIFY MAX_IDENTIFY reader w).1 = 0
      ∨ (MetaStateMachine.on_snapshot_load R Mg CLUSTER_IDENTIFY MAX_IDENTIFY reader w).1
          = -1) := by
  unfold MetaStateMachine.on_snapshot_load
  simp only []
  cases hrem : (R.remove_range CLUSTER_IDENTIFY MAX_IDENTIFY w.storage).1 with
  | false =>
    rw [if_pos rfl]
    refine ⟨?_, fun _ => rfl, fun h => Bool.noConfusion h, fun _ => ⟨rfl, Or.inl rfl⟩, Or.inr rfl⟩
    intro h
    exact absurd h (show (-1 : Int) ≠ 0 by decide)
  | true =>
    rw [if_neg (by decide), load_snapshot_files_once R Mg reader.path reader.files _ hfile]
    simp only []
    cases hing : (R.ingest_external_file (reader.path ++ "/meta_info.sst")
        (R.remove_range CLUSTER_IDENTIFY MAX_IDENTIFY w.storage).2).1 with
    | false =>
      rw [if_pos rfl]
      refine ⟨?_, fun h => Bool.noConfusion h, fun _ _ => rfl, fun _ => ⟨rfl, Or.inr ?_⟩, Or.inr rfl⟩
      · intro h
        exact absurd h (show (-1 : Int) ≠ 0 by decide)
      · show _ ++ _ ++ _ = _
        rw [List.append_assoc]
        rfl
    | true =>
      rw [if_neg (by decide)]
      refine ⟨fun _ => ⟨?_, rfl, rfl⟩, fun h => Bool.noConfusion h, fun _ h => Bool.noConfusion h, ?_,
        Or.inl rfl⟩
      · show _ ++ _ ++ _ ++ _ = _
        rw [List.append_assoc, List.append_assoc]
        rfl
      · intro h
        exact absurd h (show (0 : Int) ≠ -1 by decide)

/-- The amended C20 at concrete inputs: a reader that holds /meta_info.sst next
to another file makes on_snapshot_load return 0 with the caches of the managers
rebuilt from the ingested keys, and when the ingest fails it returns -1 with
the caches untouched. -/
theorem snapshot_load_protocol_witness :
    ((MetaStateMachine.on_snapshot_load ex_rocks ex_snapshot_managers "CLUSTER" "MAX"
        { files := ["/other.sst", "/meta_info.sst"], path := "/snap" } ex_snapshot_world).1 = 0
      ∧ (MetaStateMachine.on_snapshot_load ex_rocks ex_snapshot_managers "CLUSTER" "MAX"
        { files := ["/other.sst", "/meta_info.sst"], path := "/snap" }
        ex_snapshot_world).2.managers = ["CLUSTER/a", "SCHEMA/b"])
    ∧ ((MetaStateMachine.on_snapshot_load ex_rocks_bad_ingest ex_snapshot_managers "CLUSTER" "MAX"
        { files := ["/other.sst", "/meta_info.sst"], path := "/snap" } ex_snapshot_world).1 = -1
      ∧ (MetaStateMachine.on_snapshot_load ex_rocks_bad_ingest ex_snapshot_managers "CLUSTER"
        "MAX" { files := ["/other.sst", "/meta_info.sst"], path := "/snap" }
        ex_snapshot_world).2.managers = ["CLUSTER/old"]) :=
  ⟨⟨by decide,
    ((snapshot_load_protocol ex_rocks ex_snapshot_managers "CLUSTER" "MAX"
        { files := ["/other.sst", "/meta_info.sst"], path := "/snap" } ex_snapshot_world
        (by decide)).1 (by decide)).2.2⟩,
   ⟨(snapshot_load_protocol ex_rocks_bad_ingest ex_snapshot_managers "CLUSTER" "MAX"
        { files := ["/other.sst", "/meta_info.sst"], path := "/snap" } ex_snapshot_world
        (by decide)).2.2.1 (by decide) (by decide),
    ((snapshot_load_protocol ex_rocks_bad_ingest ex_snapshot_managers "CLUSTER" "MAX"
        { files := ["/other.sst", "/meta_info.sst"], path := "/snap" } ex_snapshot_world
        (by decide)).2.2.2.1 (by decide)).1⟩⟩

/-! ## The attempts of a `send_request` -/

theorem quiet_refl (w : World) : Quiet w w := ⟨rfl, rfl, rfl, rfl, rfl, rfl, rfl⟩

theorem quiet_trans {a b c : World} (h1 : Quiet a b) (h2 : Quiet b c) : Quiet a c := by
  unfold Quiet at h1 h2 ⊢
  refine ⟨?_, ?_, ?_, ?_, ?_, ?_, ?_⟩
  · rw [h2.1, h1.1]
  · rw [h2.2.1, h1.2.1]
  · rw [h2.2.2.1, h1.2.2.1]
  · rw [h2.2.2.2.1, h1.2.2.2.1]
  · rw [h2.2.2.2.2.1, h1.2.2.2.2.1]
  · rw [h2.2.2.2.2.2.1, h1.2.2.2.2.2.1]
  · rw [h2.2.2.2.2.2.2, h1.2.2.2.2.2.2]

theorem quiet_count_draw (w : World) : Quiet w (count_draw w) := ⟨rfl, rfl, rfl, rfl, rfl, rfl, rfl⟩

theorem quiet_save_region_id (region_id : Int) (info : RegionInfo) (w : World) :
    Quiet w (save_region_id region_id info w) := by
  unfold save_region_id
  split
  · exact quiet_refl w
  · exact ⟨rfl, rfl, rfl, rfl, rfl, rfl, rfl⟩

theorem quiet_set_insert_records (recs : List String) (w : World) :
    Quiet w (set_insert_records recs w) := ⟨rfl, rfl, rfl, rfl, rfl, rfl, rfl⟩

theorem quiet_adopt_leader (info : RegionInfo) (region_id : Int) (w : World) :
    Quiet w (adopt_leader info region_id w) := ⟨rfl, rfl, rfl, rfl, rfl, rfl, rfl⟩

theorem quiet_split_begin (regions : List RegionInfo) (w : World) :
    Quiet w (split_begin regions w) := by
  unfold split_begin schema_update_regions
  simp only []
  split <;> exact ⟨rfl, rfl, rfl, rfl, rfl, rfl, rfl⟩

theorem quiet_install_child (r : RegionInfo) (w : World) : Quiet w (install_child r w) := by
  unfold install_child
  split
  · exact ⟨rfl, rfl, rfl, rfl, rfl, rfl, rfl⟩
  · exact quiet_refl w

theorem quiet_narrow_parent (region_id : Int) (r : RegionInfo) (w : World) :
    Quiet w (narrow_parent region_id r w) := by
  unfold narrow_parent
  split
  · exact ⟨rfl, rfl, rfl, rfl, rfl, rfl, rfl⟩
  · exact quiet_refl w

theorem quiet_set_mysql_error (c : Int) (msg : String) (w : World) :
    Quiet w (set_mysql_error c msg w) := ⟨rfl, rfl, rfl, rfl, rfl, rfl, rfl⟩

theorem choose_leader_quiet {rand : Nat → Nat} {info info1 : RegionInfo} {w w1 : World}
    (h : choose_leader rand info w = some (info1, w1)) : Quiet w w1 := by
  rcases choose_leader_world h with h1 | h1 <;> subst h1
  · exact quiet_refl _
  · exact quiet_count_draw _

theorem rewrite_insert_records_quiet {records : Option (List String)} {w w3 : World}
    (h : rewrite_insert_records records w = some w3) : Quiet w w3 := by
  rcases rewrite_insert_records_world h with h1 | ⟨recs, h1⟩ <;> subst h1
  · exact quiet_refl _
  · exact quiet_set_insert_records _ _

theorem run_of_quiet (net : Nat → Reply) {w w1 : World} (h : Quiet w w1) : Run net w [] w1 :=
  Run.quiet (Run.refl w) h

/-- Runs compose. -/
theorem run_trans {net : Nat → Reply} {a b c : World} {t1 t2 : List Attempt}
    (h1 : Run net a t1 b) (h2 : Run net b t2 c) : Run net a (t1 ++ t2) c := by
  induction h2 with
  | refl => rw [List.append_nil]; exact h1
  | quiet _ hq ih => exact Run.quiet ih hq
  | attempt x _ hx h3 h4 ih =>
    rw [← List.append_assoc]
    exact Run.attempt x ih hx h3 h4

/-- A quiet change followed by a run is a run. -/
theorem run_after_quiet {net : Nat → Reply} {a b c : World} {tr : List Attempt}
    (h1 : Quiet a b) (h2 : Run net b tr c) : Run net a tr c := by
  have := run_trans (run_of_quiet net h1) h2
  rwa [List.nil_append] at this

/-- One attempt, from any world. -/
theorem run_one (net : Nat → Reply) (a : Attempt) (w : World) (h1 : a.reply = net w.net_calls)
    (h2 : a.req.region_id = a.region_id) (h3 : a.req.region_version = a.info.version) :
    Run net w [a] (attempt_effect a w) := by
  have := Run.attempt a (Run.refl w) h1 h2 h3
  rwa [List.nil_append] at this

/-! ### Runs whose regions are accounted for -/

theorem origin_mono {info : RegionInfo} {region_id : Int} {t t1 : List Attempt} {a : Attempt}
    (hsub : ∀ b ∈ t, b ∈ t1) (h : Origin info region_id t a) : Origin info region_id t1 a := by
  rcases h with h | ⟨b, hb, res, r, h1, h2, h3, h4, h5⟩
  · exact Or.inl h
  · exact Or.inr ⟨b, hsub b hb, res, r, h1, h2, h3, h4, h5⟩

theorem origin_key {info info1 : RegionInfo} {region_id : Int} {t : List Attempt} {a : Attempt}
    (hk : info1.start_key = info.start_key) (h : Origin info1 region_id t a) :
    Origin info region_id t a := by
  rcases h with ⟨h1, h2⟩ | h
  · exact Or.inl ⟨h1, h2.trans hk⟩
  · exact Or.inr h

theorem traced_refl (net : Nat → Reply) (info : RegionInfo) (region_id : Int) (w : World) :
    Traced net info region_id w [] w :=
  ⟨Run.refl w, fun _ h => absurd h (List.not_mem_nil _)⟩

theorem traced_of_quiet (net : Nat → Reply) (info : RegionInfo) (region_id : Int) {w w1 : World}
    (h : Quiet w w1) : Traced net info region_id w [] w1 :=
  ⟨run_of_quiet net h, fun _ h => absurd h (List.not_mem_nil _)⟩

theorem traced_trans {net : Nat → Reply} {info : RegionInfo} {region_id : Int} {a b c : World}
    {t1 t2 : List Attempt} (h1 : Traced net info region_id a t1 b)
    (h2 : Traced net info region_id b t2 c) : Traced net info region_id a (t1 ++ t2) c := by
  refine ⟨run_trans h1.1 h2.1, ?_⟩
  intro x hx
  rcases List.mem_append.mp hx with h | h
  · exact origin_mono (fun b hb => List.mem_append_left _ hb) (h1.2 x h)
  · exact origin_mono (fun b hb => List.mem_append_right _ hb) (h2.2 x h)

theorem traced_after_quiet {net : Nat → Reply} {info : RegionInfo} {region_id : Int}
    {a b c : World} {tr : List Attempt} (h1 : Quiet a b)
    (h2 : Traced net info region_id b tr c) : Traced net info region_id a tr c :=
  ⟨run_after_quiet h1 h2.1, h2.2⟩

theorem traced_then_quiet {net : Nat → Reply} {info : RegionInfo} {region_id : Int}
    {a b c : World} {tr : List Attempt} (h1 : Traced net info region_id a tr b)
    (h2 : Quiet b c) : Traced net info region_id a tr c :=
  ⟨Run.quiet h1.1 h2, h1.2⟩

theorem traced_key {net : Nat → Reply} {info info1 : RegionInfo} {region_id : Int}
    {a b : World} {tr : List Attempt} (hk : info1.start_key = info.start_key)
    (h : Traced net info1 region_id a tr b) : Traced net info region_id a tr b :=
  ⟨h.1, fun x hx => origin_key hk (h.2 x hx)⟩

theorem traced_id {net : Nat → Reply} {info : RegionInfo} {rid1 rid : Int}
    {a b : World} {tr : List Attempt} (h : rid1 = rid)
    (ht : Traced net info rid1 a tr b) : Traced net info rid a tr b := by
  subst h
  exact ht

/-- One attempt made for the region of the call, from any world. -/
theorem traced_one (net : Nat → Reply) (info : RegionInfo) (region_id : Int) (a : Attempt)
    (w : World) (h1 : a.reply = net w.net_calls)
    (h2 : a.req.region_id = a.region_id) (h3 : a.req.region_version = a.info.version)
    (h4 : a.region_id = region_id) (h5 : a.info.start_key = info.start_key) :
    Traced net info region_id w [a] (attempt_effect a w) := by
  refine ⟨run_one net a w h1 h2 h3, ?_⟩
  intro x hx
  have : x = a := by simpa using hx
  subst this
  exact Or.inl ⟨h4, h5⟩

theorem other_peer_key {rand : Nat → Nat} {info info1 : RegionInfo} {w w1 : World}
    (h : other_peer_to_leader_func rand info w = some (info1, w1)) :
    info1.start_key = info.start_key := by
  unfold other_peer_to_leader_func at h
  cases hr : rand_peer_func rand info w with
  | none => simp [hr] at h
  | some p =>
    obtain ⟨peer, w2⟩ := p
    simp only [hr] at h
    split at h
    · cases h; rfl
    · split at h <;> (cases h; rfl)

theorem split_step_run {net : Nat → Reply} {self : SendFn} (hself : SelfRun net self)
    (res_leader : String) (records : Option (List String)) (region_id : Int) (log_id : Nat)
    (retry_times start_seq_id : Int) (r : RegionInfo) (w : World) :
    ∃ tr, Traced net r r.region_id w tr
      (split_step self res_leader records region_id log_id retry_times start_seq_id r w).2 := by
  by_cases h : r.region_id = region_id
  · rw [split_step_parent _ _ _ _ _ _ _ _ _ h]
    have hid : (if res_leader ≠ "0.0.0.0:0" then { r with leader := res_leader } else r).region_id
        = r.region_id := by split <;> rfl
    have hkey : (if res_leader ≠ "0.0.0.0:0" then { r with leader := res_leader }
        else r).start_key = r.start_key := by split <;> rfl
    obtain ⟨⟨tr, htr⟩, _⟩ := hself
      (if res_leader ≠ "0.0.0.0:0" then { r with leader := res_leader } else r) records
      (if res_leader ≠ "0.0.0.0:0" then { r with leader := res_leader } else r).region_id
      log_id (retry_times + 1) start_seq_id
      (narrow_parent region_id
        (if res_leader ≠ "0.0.0.0:0" then { r with leader := res_leader } else r) w)
    exact ⟨tr, traced_after_quiet (quiet_narrow_parent _ _ _)
      (traced_key hkey (traced_id hid htr))⟩
  · rw [split_step_child _ _ _ _ _ _ _ _ _ h]
    obtain ⟨⟨tr, htr⟩, _⟩ := hself r records r.region_id log_id (retry_times + 1) 1
      (install_child r w)
    exact ⟨tr, traced_after_quiet (quiet_install_child _ _) htr⟩

theorem split_loop_run {net : Nat → Reply} {self : SendFn} (hself : SelfRun net self)
    (res_leader : String) (records : Option (List String)) (region_id : Int) (log_id : Nat)
    (retry_times start_seq_id : Int) :
    ∀ (regions : List RegionInfo) (w : World), ∃ tr, SplitTraced net regions w tr
      (split_loop self res_leader records region_id log_id retry_times start_seq_id regions w).2 := by
  intro regions
  induction regions with
  | nil => intro w; exact ⟨[], Run.refl w, fun _ h => absurd h (List.not_mem_nil _)⟩
  | cons r rest ih =>
    intro w
    obtain ⟨t1, h1, o1⟩ := split_step_run hself res_leader records region_id log_id retry_times
      start_seq_id r w
    rw [split_loop_cons]
    split
    · exact ⟨t1, h1, fun a ha => ⟨r, List.mem_cons_self _ _, o1 a ha⟩⟩
    · obtain ⟨t2, h2, o2⟩ := ih (split_step self res_leader records region_id log_id retry_times
        start_seq_id r w).2
      refine ⟨t1 ++ t2, run_trans h1 h2, ?_⟩
      intro a ha
      rcases List.mem_append.mp ha with h | h
      · exact ⟨r, List.mem_cons_self _ _,
          origin_mono (fun b hb => List.mem_append_left _ hb) (o1 a h)⟩
      · obtain ⟨r2, hr2, ho⟩ := o2 a h
        exact ⟨r2, List.mem_cons_of_mem _ hr2,
          origin_mono (fun b hb => List.mem_append_right _ hb) ho⟩

theorem attempt_effect_not_success (a : Attempt) (w : World) (res : StoreRes)
    (hr : a.reply = Reply.response res) (hcode : res.errcode ≠ ErrCode.SUCCESS) :
    attempt_effect a w = issue_rpc a.info.leader a.req a.retry_times w := by
  unfold attempt_effect
  rw [hr]
  simp only [if_neg hcode]

/-- After the call of a `send_request` has been answered, the handling of the
response completes the attempt and goes on with quiet changes and recursive
calls. -/
theorem handle_response_run {net : Nat → Reply} {rand : Nat → Nat} {self : SendFn}
    (hself : SelfRun net self) (res : StoreRes) (info : RegionInfo)
    (records : Option (List String)) (region_id : Int) (log_id : Nat)
    (retry_times start_seq_id : Int) (w3 : World) (req : StoreReq)
    (hnet : net w3.net_calls = Reply.response res)
    (h1 : req.region_id = region_id) (h2 : req.region_version = info.version) :
    (∃ tr, Traced net info region_id w3 tr
      (handle_response rand self res info records region_id log_id retry_times start_seq_id
        (issue_rpc info.leader req retry_times w3)).2.2)
    ∧ (handle_response rand self res info records region_id log_id retry_times start_seq_id
        (issue_rpc info.leader req retry_times w3)).2.1.start_key = info.start_key := by
  have ha := traced_one net info region_id
    { info := info, region_id := region_id, retry_times := retry_times, req := req,
      reply := Reply.response res } w3 hnet.symm h1 h2 rfl rfl
  -- the world after an answer that is not a success
  have hw : res.errcode ≠ ErrCode.SUCCESS →
      Traced net info region_id w3
        [(⟨info, region_id, retry_times, req, Reply.response res⟩ : Attempt)]
        (issue_rpc info.leader req retry_times w3) := by
    intro hcode
    rw [attempt_effect_not_success _ w3 res rfl hcode] at ha
    exact ha
  -- a rotation of the leader followed by the recursive call
  have hrot : res.errcode ≠ ErrCode.SUCCESS → ∀ s : Int,
      (∃ tr, Traced net info region_id w3 tr
        (match other_peer_to_leader_func rand info (issue_rpc info.leader req retry_times w3) with
          | none => (Ret.crash, info, issue_rpc info.leader req retry_times w3)
          | some (info1, w1) => self info1 records region_id log_id (retry_times + 1) s w1).2.2)
      ∧ (match other_peer_to_leader_func rand info (issue_rpc info.leader req retry_times w3) with
          | none => (Ret.crash, info, issue_rpc info.leader req retry_times w3)
          | some (info1, w1) => self info1 records region_id log_id (retry_times + 1) s
              w1).2.1.start_key = info.start_key := by
    intro hcode s
    split
    · exact ⟨⟨_, hw hcode⟩, rfl⟩
    · rename_i info1 w1 ho
      have e := other_peer_world ho
      have hk := other_peer_key ho
      subst e
      obtain ⟨⟨t, ht⟩, k⟩ := hself info1 records region_id log_id (retry_times + 1) s
        (count_draw (issue_rpc info.leader req retry_times w3))
      exact ⟨⟨_, traced_trans (hw hcode)
        (traced_after_quiet (quiet_count_draw _) (traced_key hk ht))⟩, k.trans hk⟩
  unfold handle_response
  cases hcode : res.errcode with
  | NOT_LEADER =>
    have hne : res.errcode ≠ ErrCode.SUCCESS := by rw [hcode]; decide
    simp only []
    unfold on_not_leader
    simp only []
    split
    · obtain ⟨⟨t, ht⟩, k⟩ := hself { info with leader := res.leader } records region_id log_id
        (retry_times + 1) (last_seq_id_of res + 1)
        (adopt_leader { info with leader := res.leader } region_id
          (issue_rpc info.leader req retry_times w3))
      exact ⟨⟨_, traced_trans (hw hne)
        (traced_after_quiet (quiet_adopt_leader _ _ _)
          (traced_key (show ({ info with leader := res.leader } : RegionInfo).start_key
            = info.start_key from rfl) ht))⟩, k⟩
    · exact hrot hne _
  | TXN_FOLLOW_UP =>
    have hne : res.errcode ≠ ErrCode.SUCCESS := by rw [hcode]; decide
    simp only []
    unfold on_txn_follow_up
    simp only []
    split
    · exact ⟨⟨_, hw hne⟩, rfl⟩
    · split
      · exact ⟨⟨_, hw hne⟩, rfl⟩
      · obtain ⟨⟨t, ht⟩, k⟩ := hself info records region_id log_id (retry_times + 1)
          (last_seq_id_of res + 1) (issue_rpc info.leader req retry_times w3)
        exact ⟨⟨_, traced_trans (hw hne) ht⟩, k⟩
  | VERSION_OLD =>
    have hne : res.errcode ≠ ErrCode.SUCCESS := by rw [hcode]; decide
    simp only []
    unfold on_version_old
    simp only []
    split
    · obtain ⟨t, ht, ho⟩ := split_loop_run hself res.leader records region_id log_id retry_times
        start_seq_id (split_filter info res.regions)
        (split_begin (split_filter info res.regions) (issue_rpc info.leader req retry_times w3))
      refine ⟨⟨_, run_trans (hw hne).1 (run_after_quiet (quiet_split_begin _ _) ht), ?_⟩, rfl⟩
      intro a hmem
      rcases List.mem_append.mp hmem with h | h
      · exact origin_mono (fun b hb => List.mem_append_left _ hb) ((hw hne).2 a h)
      · obtain ⟨r, hr, hor⟩ := ho a h
        have hr2 : r ∈ res.regions := by
          unfold split_filter at hr
          exact List.mem_of_mem_filter hr
        rcases hor with ⟨o1, o2⟩ | ⟨b, hb, res2, r2, o1, o2, o3, o4, o5⟩
        · exact Or.inr ⟨⟨info, region_id, retry_times, req, Reply.response res⟩,
            List.mem_append_left _ (List.mem_singleton_self _), res, r, rfl, hcode, hr2, o1, o2⟩
        · exact Or.inr ⟨b, List.mem_append_right _ hb, res2, r2, o1, o2, o3, o4, o5⟩
    · exact ⟨⟨_, hw hne⟩, rfl⟩
  | REGION_NOT_EXIST =>
    have hne : res.errcode ≠ ErrCode.SUCCESS := by rw [hcode]; decide
    simp only []
    unfold on_region_not_exist
    exact hrot hne _
  | INTERNAL_ERROR =>
    have hne : res.errcode ≠ ErrCode.SUCCESS := by rw [hcode]; decide
    simp only []
    unfold on_region_not_exist
    exact hrot hne _
  | OTHER n =>
    have hne : res.errcode ≠ ErrCode.SUCCESS := by rw [hcode]; intro h; cases h
    simp only []
    unfold on_other_error
    split
    · exact ⟨⟨_, traced_then_quiet (hw hne) (quiet_set_mysql_error _ _ _)⟩, rfl⟩
    · exact ⟨⟨_, hw hne⟩, rfl⟩
  | SUCCESS =>
    simp only []
    unfold on_success
    unfold attempt_effect at ha
    simp only [hcode, if_true] at ha
    split
    · rename_i hop
      rw [if_pos (show w3.node._op_type ≠ OpType.OP_SELECT from hop)] at ha
      exact ⟨⟨_, ha⟩, rfl⟩
    · rename_i hop
      rw [if_neg (show ¬ w3.node._op_type ≠ OpType.OP_SELECT from hop)] at ha
      split
      · refine ⟨⟨_, traced_then_quiet ha ?_⟩, rfl⟩
        exact ⟨rfl, rfl, rfl, rfl, rfl, rfl, rfl⟩
      · exact ⟨⟨_, ha⟩, rfl⟩

/-- One level of `send_request` is a run of attempts when the recursive calls
are. -/
theorem send_request_body_run {net : Nat → Reply} {rand : Nat → Nat} {self : SendFn}
    (hself : SelfRun net self) : SelfRun net (send_request_body net rand self) := by
  intro info records region_id log_id retry_times start_seq_id w
  unfold send_request_body
  simp only []
  split
  · exact ⟨⟨[], traced_refl net info region_id w⟩, rfl⟩
  · split
    · exact ⟨⟨[], traced_refl net info region_id w⟩, rfl⟩
    · split
      · exact ⟨⟨[], traced_refl net info region_id w⟩, rfl⟩
      · rename_i info1 w1 hc
        have hk1 : info1.start_key = info.start_key := by rw [choose_leader_info hc]
        have q2 : Quiet w (save_region_id region_id info1 w1) :=
          quiet_trans (choose_leader_quiet hc) (quiet_save_region_id _ _ _)
        split
        · exact ⟨⟨[], traced_of_quiet net info region_id q2⟩, hk1⟩
        · rename_i w3 hr
          have q3 : Quiet w w3 := quiet_trans q2 (rewrite_insert_records_quiet hr)
          split
          · rename_i hnet
            have ha := traced_one net info region_id
              { info := info1, region_id := region_id, retry_times := retry_times,
                req := make_request w3 info1 region_id log_id (fix_start_seq_id w1 start_seq_id),
                reply := Reply.init_failed } w3 hnet.symm rfl rfl rfl hk1
            exact ⟨⟨_, traced_after_quiet q3 ha⟩, hk1⟩
          · rename_i hnet
            have ha := traced_one net info region_id
              { info := info1, region_id := region_id, retry_times := retry_times,
                req := make_request w3 info1 region_id log_id (fix_start_seq_id w1 start_seq_id),
                reply := Reply.rpc_failed } w3 hnet.symm rfl rfl rfl hk1
            split
            · exact ⟨⟨_, traced_after_quiet q3 ha⟩, hk1⟩
            · rename_i info2 w4 ho
              have e := other_peer_world ho
              have hk2 := other_peer_key ho
              subst e
              obtain ⟨⟨t, ht⟩, k⟩ := hself info2 records region_id log_id (retry_times + 1)
                (fix_start_seq_id w1 start_seq_id)
                (count_draw (issue_rpc info1.leader
                  (make_request w3 info1 region_id log_id (fix_start_seq_id w1 start_seq_id))
                  retry_times w3))
              exact ⟨⟨_, traced_after_quiet q3
                (traced_trans ha (traced_after_quiet (quiet_count_draw _)
                  (traced_key (hk2.trans hk1) ht)))⟩, k.trans (hk2.trans hk1)⟩
          · rename_i res hnet
            obtain ⟨⟨t, ht⟩, k⟩ := @handle_response_run net rand self hself res info1 records
              region_id log_id retry_times (fix_start_seq_id w1 start_seq_id) w3
              (make_request w3 info1 region_id log_id (fix_start_seq_id w1 start_seq_id))
              hnet rfl rfl
            exact ⟨⟨_, traced_after_quiet q3 (traced_key hk1 ht)⟩, k.trans hk1⟩

/-- The world a `send_request` leaves is reached through a sequence of
attempts, at every depth of unfolding. -/
theorem send_request_aux_run (net : Nat → Reply) (rand : Nat → Nat) :
    ∀ fuel : Nat, SelfRun net (send_request_aux net rand fuel) := by
  intro fuel
  induction fuel with
  | zero =>
    intro info records region_id log_id retry_times start_seq_id w
    exact ⟨⟨[], traced_refl net info region_id w⟩, rfl⟩
  | succ n ih => exact send_request_body_run ih

theorem send_request_run (net : Nat → Reply) (rand : Nat → Nat) :
    SelfRun net (send_request net rand) := by
  intro info records region_id log_id retry_times start_seq_id w
  exact send_request_aux_run net rand _ info records region_id log_id retry_times start_seq_id w

/-! ## What a run of attempts leaves -/

theorem attempt_effect_net_calls (a : Attempt) (w : World) :
    (attempt_effect a w).net_calls = w.net_calls + 1 := by
  unfold attempt_effect
  split
  · rfl
  · rfl
  · split
    · split <;> rfl
    · rfl

theorem attempt_effect_op_type (a : Attempt) (w : World) :
    (attempt_effect a w).node._op_type = w.node._op_type := by
  unfold attempt_effect
  split
  · rfl
  · rfl
  · split
    · split <;> rfl
    · rfl

theorem attempt_effect_affected_rows (a : Attempt) (w : World)
    (hop : w.node._op_type ≠ OpType.OP_SELECT) :
    (attempt_effect a w).node._affected_rows = w.node._affected_rows + success_rows a.reply := by
  obtain ⟨info, rid, rt, req, reply⟩ := a
  cases reply with
  | init_failed => simp [attempt_effect, success_rows, count_attempt]
  | rpc_failed => simp [attempt_effect, success_rows, issue_rpc]
  | response res =>
    by_cases hc : res.errcode = ErrCode.SUCCESS
    · simp [attempt_effect, success_rows, hc, hop, add_affected_rows, issue_rpc]
    · simp [attempt_effect, success_rows, hc, issue_rpc]

theorem attempt_effect_select_rows (a : Attempt) (w : World)
    (hop : w.node._op_type = OpType.OP_SELECT) :
    (attempt_effect a w).node._affected_rows = w.node._affected_rows := by
  unfold attempt_effect
  split
  · rfl
  · rfl
  · split
    · rw [if_neg (not_not.mpr hop)]
      rfl
    · rfl

/-- A run of attempts uses one reply per attempt. -/
theorem run_net_calls {net : Nat → Reply} {w w1 : World} {tr : List Attempt}
    (h : Run net w tr w1) : w1.net_calls = w.net_calls + tr.length := by
  induction h with
  | refl => simp
  | quiet _ hq ih => rw [hq.1, ih]
  | attempt a _ _ _ _ ih =>
    rw [attempt_effect_net_calls, ih, List.length_append, List.length_singleton]
    omega

/-- The replies the attempts of a run meet are those of the store, in order. -/
theorem run_replies {net : Nat → Reply} {w w1 : World} {tr : List Attempt}
    (h : Run net w tr w1) :
    tr.map Attempt.reply = (List.range' w.net_calls tr.length).map net := by
  induction h with
  | refl => rfl
  | quiet _ _ ih => exact ih
  | attempt a hrun ha _ _ ih =>
    rw [List.map_append, ih, List.length_append, List.length_singleton, List.range'_concat,
      List.map_append]
    simp [ha, run_net_calls hrun]

theorem run_op_type {net : Nat → Reply} {w w1 : World} {tr : List Attempt}
    (h : Run net w tr w1) : w1.node._op_type = w.node._op_type := by
  induction h with
  | refl => rfl
  | quiet _ hq ih => rw [hq.2.2.1, ih]
  | attempt a _ _ _ _ ih => rw [attempt_effect_op_type, ih]

/-- For an op other than SELECT, a run adds to `_affected_rows` the affected
rows of the `SUCCESS` responses its attempts meet. -/
theorem run_affected_rows {net : Nat → Reply} {w w1 : World} {tr : List Attempt}
    (h : Run net w tr w1) (hop : w.node._op_type ≠ OpType.OP_SELECT) :
    w1.node._affected_rows
      = w.node._affected_rows + (tr.map (fun a => success_rows a.reply)).sum := by
  induction h with
  | refl => simp
  | quiet _ hq ih => rw [hq.2.2.2.1, ih]
  | attempt a hrun _ _ _ ih =>
    rw [attempt_effect_affected_rows a _ (by rw [run_op_type hrun]; exact hop), ih,
      List.map_append, List.sum_append]
    simp
    omega

/-- A SELECT leaves `_affected_rows` as it is. -/
theorem run_select_rows {net : Nat → Reply} {w w1 : World} {tr : List Attempt}
    (h : Run net w tr w1) (hop : w.node._op_type = OpType.OP_SELECT) :
    w1.node._affected_rows = w.node._affected_rows := by
  induction h with
  | refl => rfl
  | quiet _ hq ih => rw [hq.2.2.2.1, ih]
  | attempt a hrun _ _ _ ih =>
    rw [attempt_effect_select_rows a _ (by rw [run_op_type hrun]; exact hop), ih]

/-- The affected rows a run accounts for are those of the replies between the
attempt it starts with and the attempt it ends before. -/
theorem run_rows_between {net : Nat → Reply} {w w1 : World} {tr : List Attempt}
    (h : Run net w tr w1) :
    (tr.map (fun a => success_rows a.reply)).sum = rows_between net w.net_calls w1.net_calls := by
  have h1 := run_replies h
  have h2 := run_net_calls h
  unfold rows_between
  rw [h2, Nat.add_sub_cancel_left]
  have : tr.map (fun a => success_rows a.reply) = (tr.map Attempt.reply).map success_rows := by
    rw [List.map_map]; rfl
  rw [this, h1, List.map_map]
  rfl

/-! ## The dispatch of `open`, attempt by attempt -/

theorem send_request_error (net : Nat → Reply) (rand : Nat → Nat)
    (info : RegionInfo) (records : Option (List String)) (region_id : Int) (log_id : Nat)
    (retry_times start_seq_id : Int) (w : World) (h : w.node._error = true) :
    send_request net rand info records region_id log_id retry_times start_seq_id w
      = (Ret.code (-1), info, w) := by
  rw [send_request_unfold]
  unfold send_request_body
  simp only [h, if_true]

/-- A `send_request` leaves the flag `_error` as it is. -/
theorem send_request_keeps_error (net : Nat → Reply) (rand : Nat → Nat)
    (info : RegionInfo) (records : Option (List String)) (region_id : Int) (log_id : Nat)
    (retry_times start_seq_id : Int) (w : World) :
    (send_request net rand info records region_id log_id retry_times start_seq_id
      w).2.2.node._error = w.node._error :=
  congrArg Static.error (steps_static (send_request_steps net rand true info records region_id
    log_id retry_times start_seq_id w (by simp)))

theorem dispatch_cons (net : Nat → Reply) (rand : Nat → Nat) (region_id : Int)
    (rest : List Int) (w : World) :
    dispatch net rand (region_id :: rest) w
      = match (dispatch_region net rand region_id w).1 with
        | some r => (some r, (dispatch_region net rand region_id w).2)
        | none => dispatch net rand rest (dispatch_region net rand region_id w).2 := by
  rw [dispatch]
  cases h : dispatch_region net rand region_id w with
  | mk tag w1 =>
    cases tag <;> rfl

theorem dispatch_region_missing (net : Nat → Reply) (rand : Nat → Nat) (region_id : Int)
    (w : World) (h : map_find w.node._region_infos region_id = none) :
    dispatch_region net rand region_id w = (none, w) := by
  unfold dispatch_region
  rw [h]

/-- The request thread of a region: `_error` is set when the `send_request`
returns a negative value, and `open` does not return when it does not. -/
theorem dispatch_region_found (net : Nat → Reply) (rand : Nat → Nat) (region_id : Int)
    (w : World) (info : RegionInfo) (h : map_find w.node._region_infos region_id = some info) :
    ((dispatch_region net rand region_id w).1 = none ↔
      ∃ c, (send_request net rand info (map_find w.node._insert_region_ids region_id) region_id
        w.state.log_id 0 w.state.seq_id w).1 = Ret.code c)
    ∧ ((dispatch_region net rand region_id w).2.node._error = true ↔
      w.node._error = true ∨ ∃ c, (send_request net rand info
        (map_find w.node._insert_region_ids region_id) region_id
        w.state.log_id 0 w.state.seq_id w).1 = Ret.code c ∧ c < 0) := by
  have hkeep := send_request_keeps_error net rand info
    (map_find w.node._insert_region_ids region_id) region_id w.state.log_id 0 w.state.seq_id w
  unfold dispatch_region
  rw [h]
  simp only []
  cases hout : (send_request net rand info (map_find w.node._insert_region_ids region_id)
      region_id w.state.log_id 0 w.state.seq_id w).1 with
  | code c =>
    simp only []
    by_cases hc : c < 0
    · rw [if_pos hc]
      exact ⟨⟨fun _ => ⟨c, rfl⟩, fun _ => rfl⟩, ⟨fun _ => Or.inr ⟨c, rfl, hc⟩, fun _ => rfl⟩⟩
    · rw [if_neg hc]
      refine ⟨⟨fun _ => ⟨c, rfl⟩, fun _ => rfl⟩, ⟨fun he => Or.inl (hkeep ▸ he), ?_⟩⟩
      rintro (he | ⟨c1, h1, h2⟩)
      · exact hkeep.trans he
      · cases h1
        exact absurd h2 hc
  | crash =>
    simp only []
    refine ⟨⟨fun he => Option.noConfusion he, fun ⟨c, hc⟩ => Ret.noConfusion hc⟩,
      ⟨fun he => Or.inl (hkeep ▸ he), ?_⟩⟩
    rintro (he | ⟨c1, h1, _⟩)
    · exact hkeep.trans he
    · cases h1
  | out_of_fuel =>
    simp only []
    refine ⟨⟨fun he => Option.noConfusion he, fun ⟨c, hc⟩ => Ret.noConfusion hc⟩,
      ⟨fun he => Or.inl (hkeep ▸ he), ?_⟩⟩
    rintro (he | ⟨c1, h1, _⟩)
    · exact hkeep.trans he
    · cases h1

theorem dispatch_rets_cons_found (net : Nat → Reply) (rand : Nat → Nat) (region_id : Int)
    (rest : List Int) (w : World) (info : RegionInfo)
    (h : map_find w.node._region_infos region_id = some info) :
    dispatch_rets net rand (region_id :: rest) w
      = (send_request net rand info (map_find w.node._insert_region_ids region_id) region_id
          w.state.log_id 0 w.state.seq_id w).1 ::
        (match (dispatch_region net rand region_id w).1 with
         | some _ => []
         | none => dispatch_rets net rand rest (dispatch_region net rand region_id w).2) := by
  simp only [dispatch_rets, h]

theorem dispatch_rets_cons_missing (net : Nat → Reply) (rand : Nat → Nat) (region_id : Int)
    (rest : List Int) (w : World) (h : map_find w.node._region_infos region_id = none) :
    dispatch_rets net rand (region_id :: rest) w = dispatch_rets net rand rest w := by
  rw [dispatch_rets, h]

/-- Once `_error` is set, every request thread returns at once and the dispatch
ends with `_error` set. -/
theorem dispatch_latched (net : Nat → Reply) (rand : Nat → Nat) :
    ∀ (ids : List Int) (w : World), w.node._error = true →
      (dispatch net rand ids w).1 = none ∧ (dispatch net rand ids w).2.node._error = true := by
  intro ids
  induction ids with
  | nil => intro w h; exact ⟨rfl, h⟩
  | cons region_id rest ih =>
    intro w h
    rw [dispatch_cons]
    cases hfind : map_find w.node._region_infos region_id with
    | none =>
      rw [dispatch_region_missing net rand region_id w hfind]
      exact ih w h
    | some info =>
      obtain ⟨h1, h2⟩ := dispatch_region_found net rand region_id w info hfind
      have e1 : (dispatch_region net rand region_id w).1 = none :=
        h1.mpr ⟨-1, by rw [send_request_error _ _ _ _ _ _ _ _ _ h]⟩
      have e2 : (dispatch_region net rand region_id w).2.node._error = true := h2.mpr (Or.inl h)
      rw [e1]
      exact ih _ e2

/-- When a `send_request` of the dispatch returns a negative value, the
dispatch ends with `_error` set. -/
theorem dispatch_failed (net : Nat → Reply) (rand : Nat → Nat) :
    ∀ (ids : List Int) (w : World),
      (∃ r ∈ dispatch_rets net rand ids w, ∃ c, r = Ret.code c ∧ c < 0) →
      (dispatch net rand ids w).1 = none ∧ (dispatch net rand ids w).2.node._error = true := by
  intro ids
  induction ids with
  | nil =>
    intro w h
    obtain ⟨r, hr, _⟩ := h
    simp [dispatch_rets] at hr
  | cons region_id rest ih =>
    intro w h
    rw [dispatch_cons]
    cases hfind : map_find w.node._region_infos region_id with
    | none =>
      rw [dispatch_region_missing net rand region_id w hfind]
      rw [dispatch_rets_cons_missing net rand region_id rest w hfind] at h
      exact ih w h
    | some info =>
      obtain ⟨h1, h2⟩ := dispatch_region_found net rand region_id w info hfind
      rw [dispatch_rets_cons_found net rand region_id rest w info hfind] at h
      obtain ⟨r, hr, c, hc, hneg⟩ := h
      rcases List.mem_cons.mp hr with hr1 | hr1
      · have e1 : (dispatch_region net rand region_id w).1 = none := h1.mpr ⟨c, by rw [← hr1, hc]⟩
        have e2 : (dispatch_region net rand region_id w).2.node._error = true :=
          h2.mpr (Or.inr ⟨c, by rw [← hr1, hc], hneg⟩)
        rw [e1]
        exact dispatch_latched net rand rest _ e2
      · cases e1 : (dispatch_region net rand region_id w).1 with
        | some r1 =>
          rw [e1] at hr1
          simp at hr1
        | none =>
          rw [e1] at hr1
          exact ih _ ⟨r, hr1, c, hc, hneg⟩

/-- When every `send_request` of the dispatch returns a value that is not
negative, the dispatch ends with `_error` not set. -/
theorem dispatch_succeeded (net : Nat → Reply) (rand : Nat → Nat) :
    ∀ (ids : List Int) (w : World), w.node._error = false →
      (∀ r ∈ dispatch_rets net rand ids w, ∃ c, r = Ret.code c ∧ 0 ≤ c) →
      (dispatch net rand ids w).1 = none ∧ (dispatch net rand ids w).2.node._error = false := by
  intro ids
  induction ids with
  | nil => intro w h _; exact ⟨rfl, h⟩
  | cons region_id rest ih =>
    intro w herr h
    rw [dispatch_cons]
    cases hfind : map_find w.node._region_infos region_id with
    | none =>
      rw [dispatch_region_missing net rand region_id w hfind]
      rw [dispatch_rets_cons_missing net rand region_id rest w hfind] at h
      exact ih w herr h
    | some info =>
      obtain ⟨h1, h2⟩ := dispatch_region_found net rand region_id w info hfind
      rw [dispatch_rets_cons_found net rand region_id rest w info hfind] at h
      obtain ⟨c, hc, hpos⟩ := h _ (List.mem_cons_self _ _)
      have e1 : (dispatch_region net rand region_id w).1 = none := h1.mpr ⟨c, hc⟩
      have e2 : (dispatch_region net rand region_id w).2.node._error = false := by
        cases he : (dispatch_region net rand region_id w).2.node._error with
        | false => rfl
        | true =>
          rcases h2.mp he with h3 | ⟨c1, h3, h4⟩
          · rw [herr] at h3; cases h3
          · rw [hc] at h3
            cases h3
            omega
      rw [e1]
      refine ih _ e2 ?_
      intro r hr
      refine h r (List.mem_cons_of_mem _ ?_)
      rw [e1]
      exact hr

theorem dispatch_region_run (net : Nat → Reply) (rand : Nat → Nat) (region_id : Int)
    (w : World) : ∃ tr, Run net w tr (dispatch_region net rand region_id w).2 := by
  unfold dispatch_region
  split
  · exact ⟨[], Run.refl w⟩
  · rename_i info _
    obtain ⟨⟨tr, htr, _⟩, _⟩ := send_request_run net rand info
      (map_find w.node._insert_region_ids region_id) region_id w.state.log_id 0 w.state.seq_id w
    refine ⟨tr, ?_⟩
    simp only []
    split
    · split
      · exact Run.quiet htr ⟨rfl, rfl, rfl, rfl, rfl, rfl, rfl⟩
      · exact Run.quiet htr ⟨rfl, rfl, rfl, rfl, rfl, rfl, rfl⟩
    · exact Run.quiet htr ⟨rfl, rfl, rfl, rfl, rfl, rfl, rfl⟩
    · exact Run.quiet htr ⟨rfl, rfl, rfl, rfl, rfl, rfl, rfl⟩

/-- The world the dispatch leaves is reached through the attempts of its
`send_request` calls. -/
theorem dispatch_run (net : Nat → Reply) (rand : Nat → Nat) :
    ∀ (ids : List Int) (w : World), ∃ tr, Run net w tr (dispatch net rand ids w).2 := by
  intro ids
  induction ids with
  | nil => intro w; exact ⟨[], Run.refl w⟩
  | cons region_id rest ih =>
    intro w
    obtain ⟨t1, h1⟩ := dispatch_region_run net rand region_id w
    rw [dispatch_cons]
    cases e : (dispatch_region net rand region_id w).1 with
    | some r => exact ⟨t1, h1⟩
    | none =>
      obtain ⟨t2, h2⟩ := ih (dispatch_region net rand region_id w).2
      exact ⟨t1 ++ t2, run_trans h1 h2⟩

/-! ## `open`, from the dispatch to the result -/

theorem dispatch_start_frame (w : World) :
    (dispatch_start w).node._error = false
    ∧ (dispatch_start w).net_calls = w.net_calls
    ∧ (dispatch_start w).node._op_type = w.node._op_type
    ∧ (dispatch_start w).node._affected_rows = 0
    ∧ (dispatch_start w).conn = w.conn
    ∧ (dispatch_start w).state.seq_id = w.state.seq_id
    ∧ (dispatch_start w).node._start_key_sort = w.node._start_key_sort
    ∧ (dispatch_start w).node._region_batch = w.node._region_batch
    ∧ (dispatch_start w).node.sorter = [] := by
  obtain ⟨sc, ss, _, sn, so, _⟩ := select_regions_frame (clear_error w)
  obtain ⟨dc, dn, dseq, _⟩ := decide_1pc_frame (select_regions (clear_error w))
  have hsel : (select_regions (clear_error w)).node._error = false
      ∧ (select_regions (clear_error w)).node._start_key_sort = w.node._start_key_sort
      ∧ (select_regions (clear_error w)).node._region_batch = w.node._region_batch
      ∧ (select_regions (clear_error w)).node.sorter = [] := by
    unfold select_regions
    simp only []
    split <;> exact ⟨rfl, rfl, rfl, rfl⟩
  unfold dispatch_start
  refine ⟨?_, ?_, ?_, rfl, ?_, ?_, ?_, ?_, ?_⟩
  · show (decide_1pc (select_regions (clear_error w))).node._error = false
    rw [dn]; exact hsel.1
  · show (decide_1pc (select_regions (clear_error w))).net_calls = _
    unfold decide_1pc enable_optimize_1pc
    split
    · exact sn
    · exact sn
  · show (decide_1pc (select_regions (clear_error w))).node._op_type = _
    rw [dn, so]; rfl
  · show (decide_1pc (select_regions (clear_error w))).conn = _
    rw [dc, sc]; rfl
  · show (decide_1pc (select_regions (clear_error w))).state.seq_id = _
    rw [dseq, ss]; rfl
  · show (decide_1pc (select_regions (clear_error w))).node._start_key_sort = _
    rw [dn]; exact hsel.2.1
  · show (decide_1pc (select_regions (clear_error w))).node._region_batch = _
    rw [dn]; exact hsel.2.2.1
  · show (decide_1pc (select_regions (clear_error w))).node.sorter = _
    rw [dn]; exact hsel.2.2.2

theorem push_cmd_to_cache_node (w : World) :
    (push_cmd_to_cache w).2.node._affected_rows = w.node._affected_rows
    ∧ (push_cmd_to_cache w).2.node.sorter = w.node.sorter := by
  unfold push_cmd_to_cache
  split
  · exact ⟨rfl, rfl⟩
  · split
    · exact ⟨rfl, rfl⟩
    · cases h : cache_insert_records w with
      | none => exact ⟨rfl, rfl⟩
      | some w1 =>
        simp only []
        unfold cache_insert_records at h
        split at h
        · split at h
          · split at h
            · cases h
            · cases h; exact ⟨rfl, rfl⟩
          · cases h; exact ⟨rfl, rfl⟩
        · cases h; exact ⟨rfl, rfl⟩

theorem drain_step_node (acc : World) (pair : List Nat × Int) :
    (drain_step acc pair).node._affected_rows = acc.node._affected_rows
    ∧ (drain_step acc pair).net_calls = acc.net_calls
    ∧ (drain_step acc pair).node._op_type = acc.node._op_type := by
  unfold drain_step
  simp only []
  split
  · split <;> exact ⟨rfl, rfl, rfl⟩
  · exact ⟨rfl, rfl, rfl⟩

theorem drain_batches_node (w : World) :
    (drain_batches w).node._affected_rows = w.node._affected_rows
    ∧ (drain_batches w).net_calls = w.net_calls
    ∧ (drain_batches w).node._op_type = w.node._op_type := by
  unfold drain_batches
  generalize w.node._start_key_sort = l
  induction l generalizing w with
  | nil => exact ⟨rfl, rfl, rfl⟩
  | cons p rest ih =>
    rw [List.foldl_cons]
    obtain ⟨a1, a2, a3⟩ := ih (drain_step w p)
    obtain ⟨b1, b2, b3⟩ := drain_step_node w p
    exact ⟨a1.trans b1, a2.trans b2, a3.trans b3⟩

/-- With the connection present and the sort expressions opened, `open`
returns 0 before the dispatch when no region is targeted and for an autocommit
DML inside a transaction. -/
theorem open_early (net : Nat → Reply) (rand : Nat → Nat) (w : World)
    (hexpr : ∀ r ∈ w.node.expr_open, 0 ≤ r)
    (h : (send_region_ids_map (select_regions (clear_error w)).node._region_infos).length = 0
      ∨ (((select_regions (clear_error w)).node._op_type = OpType.OP_INSERT
            ∨ (select_regions (clear_error w)).node._op_type = OpType.OP_UPDATE
            ∨ (select_regions (clear_error w)).node._op_type = OpType.OP_DELETE)
          ∧ (select_regions (clear_error w)).state.autocommit = true
          ∧ (select_regions (clear_error w)).state.txn_id ≠ 0)) :
    (FetcherNode.open net rand false w).1 = Ret.code 0
    ∧ (FetcherNode.open net rand false w).2.net_calls = w.net_calls
    ∧ (FetcherNode.open net rand false w).2.conn.need_rollback_seq = w.conn.need_rollback_seq
    ∧ open_rets net rand w = [] := by
  obtain ⟨sc, _, _, sn, _, _⟩ := select_regions_frame (clear_error w)
  obtain ⟨_, _, pn, _, pm, _⟩ := push_cmd_to_cache_frame (select_regions (clear_error w))
  have hn : (push_cmd_to_cache (select_regions (clear_error w))).2.net_calls = w.net_calls := by
    rw [pn, sn]; rfl
  have hm : (push_cmd_to_cache (select_regions (clear_error w))).2.conn.need_rollback_seq
      = w.conn.need_rollback_seq := by
    rw [pm, sc]; rfl
  unfold FetcherNode.open open_rets
  simp only [Bool.false_eq_true, if_false, show (clear_error w).node.expr_open
    = w.node.expr_open from rfl, expr_open_ok hexpr]
  by_cases h1 : (send_region_ids_map (select_regions (clear_error w)).node._region_infos).length
      = 0
  · rw [if_pos h1, if_pos h1]
    split
    · exact ⟨rfl, hn, hm, rfl⟩
    · exact ⟨rfl, hn, hm, rfl⟩
  · rcases h with h | h
    · exact absurd h h1
    · rw [if_neg h1, if_neg h1, if_pos h, if_pos h]
      exact ⟨rfl, hn, hm, rfl⟩

/-- Otherwise `open` runs the dispatch and goes on with what follows the
barrier, unless a `send_request` does not return. -/
theorem open_dispatched (net : Nat → Reply) (rand : Nat → Nat) (w : World)
    (hexpr : ∀ r ∈ w.node.expr_open, 0 ≤ r)
    (h1 : ¬ (send_region_ids_map (select_regions (clear_error w)).node._region_infos).length = 0)
    (h2 : ¬ (((select_regions (clear_error w)).node._op_type = OpType.OP_INSERT
            ∨ (select_regions (clear_error w)).node._op_type = OpType.OP_UPDATE
            ∨ (select_regions (clear_error w)).node._op_type = OpType.OP_DELETE)
          ∧ (select_regions (clear_error w)).state.autocommit = true
          ∧ (select_regions (clear_error w)).state.txn_id ≠ 0)) :
    open_rets net rand w
      = dispatch_rets net rand
          (((send_region_ids_map (select_regions (clear_error w)).node._region_infos).map
            Prod.snd).flatten) (dispatch_start w)
    ∧ ((dispatch net rand
          (((send_region_ids_map (select_regions (clear_error w)).node._region_infos).map
            Prod.snd).flatten) (dispatch_start w)).1 = none →
        FetcherNode.open net rand false w
          = open_finish (dispatch net rand
              (((send_region_ids_map (select_regions (clear_error w)).node._region_infos).map
                Prod.snd).flatten) (dispatch_start w)).2) := by
  constructor
  · unfold open_rets
    rw [if_neg h1, if_neg h2]
  · intro hd
    unfold FetcherNode.open
    simp only [Bool.false_eq_true, if_false, show (clear_error w).node.expr_open
      = w.node.expr_open from rfl, expr_open_ok hexpr]
    rw [if_neg h1, if_neg h2]
    unfold dispatch_start at hd ⊢
    cases hdd : dispatch net rand
        (((send_region_ids_map (select_regions (clear_error w)).node._region_infos).map
          Prod.snd).flatten)
        (reset_affected_rows (decide_1pc (select_regions (clear_error w)))) with
    | mk r w5 =>
      rw [hdd] at hd
      simp only [] at hd
      subst hd
      rfl

theorem rows_between_self (net : Nat → Reply) (n : Nat) : rows_between net n n = 0 := by
  unfold rows_between
  simp

theorem success_rows_nonneg (net : Nat → Reply)
    (h : ∀ n res, net n = Reply.response res → res.errcode = ErrCode.SUCCESS →
      0 ≤ res.affected_rows) (n : Nat) : 0 ≤ success_rows (net n) := by
  unfold success_rows
  split
  · rename_i res hres
    split
    · rename_i hc
      exact h n res hres hc
    · exact le_refl _
  · exact le_refl _

theorem rows_between_nonneg (net : Nat → Reply)
    (h : ∀ n res, net n = Reply.response res → res.errcode = ErrCode.SUCCESS →
      0 ≤ res.affected_rows) (a b : Nat) : 0 ≤ rows_between net a b := by
  unfold rows_between
  apply List.sum_nonneg
  intro x hx
  obtain ⟨n, _, hn⟩ := List.mem_map.mp hx
  rw [← hn]
  exact success_rows_nonneg net h n

/-- What follows the barrier when no request thread has set `_error`. -/
theorem open_finish_ok (w5 : World) (herr : w5.node._error = false) :
    (open_finish w5).1 = Ret.code (wrap32 w5.node._affected_rows)
    ∧ (open_finish w5).2.net_calls = w5.net_calls
    ∧ (open_finish w5).2.conn.need_rollback_seq = w5.conn.need_rollback_seq
    ∧ (open_finish w5).2
        = (push_cmd_to_cache
            (if w5.node._op_type = OpType.OP_SELECT then drain_batches w5 else w5)).2 := by
  have hne : ¬ w5.node._error = true := by rw [herr]; decide
  obtain ⟨_, _, pn, _, pm, _⟩ := push_cmd_to_cache_frame
    (if w5.node._op_type = OpType.OP_SELECT then drain_batches w5 else w5)
  obtain ⟨pa, _⟩ := push_cmd_to_cache_node
    (if w5.node._op_type = OpType.OP_SELECT then drain_batches w5 else w5)
  have hd : (if w5.node._op_type = OpType.OP_SELECT then drain_batches w5 else w5).node._affected_rows
        = w5.node._affected_rows
      ∧ (if w5.node._op_type = OpType.OP_SELECT then drain_batches w5 else w5).net_calls
        = w5.net_calls
      ∧ (if w5.node._op_type = OpType.OP_SELECT then drain_batches w5 else w5).conn = w5.conn := by
    split
    · exact ⟨(drain_batches_node w5).1, (drain_batches_node w5).2.1, (drain_batches_frame w5).1⟩
    · exact ⟨rfl, rfl, rfl⟩
  unfold open_finish
  rw [if_neg hne]
  simp only []
  refine ⟨?_, ?_, ?_, trivial⟩
  · rw [pa, hd.1]
  · rw [pn, hd.2.1]
  · rw [pm, hd.2.2]

theorem wrap32_zero : wrap32 0 = 0 := by decide

/-- With the connection present and the sort expressions opened, when no
`send_request` of the dispatch fails, `open` returns the affected rows of the
`SUCCESS` responses received, as an `int` (0 for a SELECT), and leaves the
rollback marks as they are. -/
theorem open_success (net : Nat → Reply) (rand : Nat → Nat) (w : World)
    (hexpr : ∀ r ∈ w.node.expr_open, 0 ≤ r)
    (hok : ∀ r ∈ open_rets net rand w, ∃ c, r = Ret.code c ∧ 0 ≤ c) :
    (FetcherNode.open net rand false w).1
        = Ret.code (if w.node._op_type = OpType.OP_SELECT then 0
            else wrap32
              (rows_between net w.net_calls (FetcherNode.open net rand false w).2.net_calls))
    ∧ (FetcherNode.open net rand false w).2.conn.need_rollback_seq = w.conn.need_rollback_seq := by
  by_cases h1 : (send_region_ids_map (select_regions (clear_error w)).node._region_infos).length
      = 0
  · obtain ⟨e1, e2, e3, _⟩ := open_early net rand w hexpr (Or.inl h1)
    rw [e1, e2, e3, rows_between_self, wrap32_zero]
    simp
  · by_cases h2 : (((select_regions (clear_error w)).node._op_type = OpType.OP_INSERT
            ∨ (select_regions (clear_error w)).node._op_type = OpType.OP_UPDATE
            ∨ (select_regions (clear_error w)).node._op_type = OpType.OP_DELETE)
          ∧ (select_regions (clear_error w)).state.autocommit = true
          ∧ (select_regions (clear_error w)).state.txn_id ≠ 0)
    · obtain ⟨e1, e2, e3, _⟩ := open_early net rand w hexpr (Or.inr h2)
      rw [e1, e2, e3, rows_between_self, wrap32_zero]
      simp
    · obtain ⟨hrets, hopen⟩ := open_dispatched net rand w hexpr h1 h2
      obtain ⟨f1, f2, f3, f4, f5, _, _, _, _⟩ := dispatch_start_frame w
      rw [hrets] at hok
      obtain ⟨d1, d2⟩ := dispatch_succeeded net rand _ (dispatch_start w) f1 hok
      obtain ⟨tr, htr⟩ := dispatch_run net rand
        (((send_region_ids_map (select_regions (clear_error w)).node._region_infos).map
          Prod.snd).flatten) (dispatch_start w)
      have hst := dispatch_session_static net rand
        (((send_region_ids_map (select_regions (clear_error w)).node._region_infos).map
          Prod.snd).flatten) (dispatch_start w)
      have e_marks := congrArg SessionStatic.need_rollback_seq hst
      simp only [session_static_of] at e_marks
      obtain ⟨g1, g2, g3, _⟩ := open_finish_ok _ d2
      rw [hopen d1, g1, g2, g3, e_marks, f5]
      refine ⟨?_, rfl⟩
      by_cases hop : w.node._op_type = OpType.OP_SELECT
      · rw [if_pos hop, run_select_rows htr (by rw [f3]; exact hop), f4]
        exact congrArg Ret.code wrap32_zero
      · rw [if_neg hop, run_affected_rows htr (by rw [f3]; exact hop), f4, run_rows_between htr,
          f2]
        simp

theorem not_failed_iff (r : Ret) : r.failed = false ↔ ∃ c, r = Ret.code c ∧ 0 ≤ c := by
  cases r with
  | code c =>
    simp only [Ret.failed, decide_eq_false_iff_not, not_lt, Ret.code.injEq, exists_eq_left']
  | crash => simp [Ret.failed]
  | out_of_fuel => simp [Ret.failed]

/-! ## The batches of a SELECT -/

theorem answers_append (t1 t2 : List Attempt) : answers (t1 ++ t2) = answers t1 ++ answers t2 := by
  unfold answers
  rw [List.filterMap_append]

theorem attempt_effect_deposit (a : Attempt) (w : World)
    (hop : w.node._op_type = OpType.OP_SELECT) :
    (attempt_effect a w).node._start_key_sort = deposit_keys w.node._start_key_sort (answers [a])
    ∧ (attempt_effect a w).node._region_batch
        = deposit_batches w.node._region_batch (answers [a]) := by
  obtain ⟨info, rid, rt, req, reply⟩ := a
  cases reply with
  | init_failed => exact ⟨rfl, rfl⟩
  | rpc_failed => exact ⟨rfl, rfl⟩
  | response res =>
    by_cases hc : res.errcode = ErrCode.SUCCESS
    · simp [attempt_effect, answers, answer_of, hc, hop, deposit_keys, deposit_batches,
        deposit_batch, issue_rpc]
    · simp [attempt_effect, answers, answer_of, hc, deposit_keys, deposit_batches, issue_rpc]

theorem deposit_keys_append (m : List (List Nat × Int)) (l1 l2 : List Answer) :
    deposit_keys m (l1 ++ l2) = deposit_keys (deposit_keys m l1) l2 := by
  unfold deposit_keys
  rw [List.foldl_append]

theorem deposit_batches_append (m : List (Int × Option RowBatch)) (l1 l2 : List Answer) :
    deposit_batches m (l1 ++ l2) = deposit_batches (deposit_batches m l1) l2 := by
  unfold deposit_batches
  rw [List.foldl_append]

/-- For a SELECT, the two maps of the node hold, after a run, what the regions
that answered `SUCCESS` have deposited, in the order of their answers. -/
theorem run_deposits {net : Nat → Reply} {w w1 : World} {tr : List Attempt}
    (h : Run net w tr w1) (hop : w.node._op_type = OpType.OP_SELECT) :
    w1.node._start_key_sort = deposit_keys w.node._start_key_sort (answers tr)
    ∧ w1.node._region_batch = deposit_batches w.node._region_batch (answers tr) := by
  induction h with
  | refl => exact ⟨rfl, rfl⟩
  | quiet _ hq ih => exact ⟨hq.2.2.2.2.1.trans ih.1, hq.2.2.2.2.2.1.trans ih.2⟩
  | attempt a hrun _ _ _ ih =>
    obtain ⟨e1, e2⟩ := attempt_effect_deposit a _ ((run_op_type hrun).trans hop)
    rw [answers_append, deposit_keys_append, deposit_batches_append, e1, e2, ih.1, ih.2]
    exact ⟨rfl, rfl⟩

/-! ### The loop that hands the batches to the sorter -/

theorem batch_of_update_self (m : List (Int × Option RowBatch)) (k : Int) (id : Int) :
    batch_of (map_update int_lt none (fun b => b) m k) id = batch_of m id := by
  unfold batch_of
  rw [map_find_update]
  by_cases h : id = k
  · subst h
    rw [if_pos rfl]
    cases map_find m id with
    | none => rfl
    | some v => rfl
  · rw [if_neg h]

theorem drain_step_sorter (acc : World) (pair : List Nat × Int) :
    (drain_step acc pair).node.sorter
        = acc.node.sorter ++ (batch_of acc.node._region_batch pair.2).toList
    ∧ (∀ id, batch_of (drain_step acc pair).node._region_batch id
        = batch_of acc.node._region_batch id) := by
  have hb := batch_of_update_self acc.node._region_batch pair.2
  unfold drain_step
  simp only []
  have hself := hb pair.2
  unfold batch_of at hself
  cases hfind : map_find (map_update int_lt none (fun b => b) acc.node._region_batch pair.2)
      pair.2 with
  | none =>
    rw [hfind] at hself
    simp only [] at hself
    refine ⟨?_, hb⟩
    show acc.node.sorter = _
    unfold batch_of
    rw [← hself]
    simp
  | some v =>
    cases v with
    | none =>
      rw [hfind] at hself
      simp only [] at hself
      refine ⟨?_, hb⟩
      show acc.node.sorter = _
      unfold batch_of
      rw [← hself]
      simp
    | some batch =>
      rw [hfind] at hself
      simp only [] at hself
      by_cases hlen : batch.length ≠ 0
      · rw [if_pos hlen] at hself
        simp only [if_pos hlen]
        refine ⟨?_, hb⟩
        show acc.node.sorter ++ [batch] = _
        unfold batch_of
        rw [← hself]
        rfl
      · rw [if_neg hlen] at hself
        simp only [if_neg hlen]
        refine ⟨?_, hb⟩
        show acc.node.sorter = _
        unfold batch_of
        rw [← hself]
        simp

theorem drain_fold_sorter (l : List (List Nat × Int)) :
    ∀ acc : World, (l.foldl drain_step acc).node.sorter
      = acc.node.sorter ++ l.filterMap (fun p => batch_of acc.node._region_batch p.2) := by
  induction l with
  | nil => intro acc; simp
  | cons p rest ih =>
    intro acc
    obtain ⟨h1, h2⟩ := drain_step_sorter acc p
    rw [List.foldl_cons, ih, h1, List.filterMap_cons]
    have : (fun q : List Nat × Int => batch_of (drain_step acc p).node._region_batch q.2)
        = (fun q : List Nat × Int => batch_of acc.node._region_batch q.2) := by
      funext q
      exact h2 q.2
    rw [this]
    cases batch_of acc.node._region_batch p.2 with
    | none => simp
    | some b => simp

/-- The loop of lines 532-537 hands to the sorter, in the order of
`_start_key_sort`, the batches that are neither null nor empty. -/
theorem drain_batches_sorter (w : World) :
    (drain_batches w).node.sorter
      = w.node.sorter
        ++ w.node._start_key_sort.filterMap (fun p => batch_of w.node._region_batch p.2) :=
  drain_fold_sorter w.node._start_key_sort w

/-! ### Insertion into a map in key order -/

theorem map_find_none_of_not_mem {κ α : Type} [DecidableEq κ] (m : List (κ × α)) (k : κ)
    (h : k ∉ map_keys m) : map_find m k = none := by
  cases hf : map_find m k with
  | none => rfl
  | some v =>
    exact absurd ((mem_map_keys_iff m k).mpr (by rw [hf]; rfl)) h

theorem map_assign_fresh {κ α : Type} [DecidableEq κ] (lt : κ → κ → Bool) (m : List (κ × α))
    (k : κ) (v : α) (h : map_find m k = none) : map_assign lt m k v = map_put lt m k v := by
  unfold map_assign map_update
  rw [h]
  rfl

theorem map_put_perm {κ α : Type} (lt : κ → κ → Bool) (m : List (κ × α)) (k : κ) (v : α) :
    (map_put lt m k v).Perm ((k, v) :: m) := by
  induction m with
  | nil => exact List.Perm.refl _
  | cons p rest ih =>
    obtain ⟨k1, v1⟩ := p
    unfold map_put
    split
    · exact List.Perm.refl _
    · exact (List.Perm.cons _ ih).trans (List.Perm.swap _ _ _)

theorem map_put_map {κ α β : Type} (lt : κ → κ → Bool) (f : α → β) (m : List (κ × α)) (k : κ)
    (v : α) :
    map_put lt (m.map (fun p => (p.1, f p.2))) k (f v)
      = (map_put lt m k v).map (fun p => (p.1, f p.2)) := by
  induction m with
  | nil => rfl
  | cons p rest ih =>
    obtain ⟨k1, v1⟩ := p
    simp only [List.map_cons]
    unfold map_put
    split
    · rfl
    · rw [ih]
      rfl

/-- A key that is not yet in a map sorted by byte order goes to its place. -/
theorem map_put_sorted {α : Type} (m : List (List Nat × α)) (k : List Nat) (v : α)
    (hs : m.Pairwise (fun p q => p.1 < q.1)) (hk : ∀ p ∈ m, p.1 ≠ k) :
    (map_put bytes_lt m k v).Pairwise (fun p q => p.1 < q.1) := by
  induction m with
  | nil => exact List.pairwise_singleton _ _
  | cons p rest ih =>
    obtain ⟨k1, v1⟩ := p
    rw [List.pairwise_cons] at hs
    obtain ⟨h1, h2⟩ := hs
    unfold map_put
    split
    · rename_i hlt
      have hlt1 : k < k1 := by
        unfold bytes_lt at hlt
        exact of_decide_eq_true hlt
      rw [List.pairwise_cons]
      refine ⟨?_, List.pairwise_cons.mpr ⟨h1, h2⟩⟩
      intro q hq
      rcases List.mem_cons.mp hq with e | e
      · rw [e]; exact hlt1
      · exact lt_trans hlt1 (h1 q e)
    · rename_i hlt
      have hnlt : ¬ k < k1 := by
        unfold bytes_lt at hlt
        intro h
        exact hlt (decide_eq_true h)
      have hne : k1 ≠ k := hk (k1, v1) (List.mem_cons_self _ _)
      have hgt : k1 < k := by
        rcases lt_trichotomy k1 k with h | h | h
        · exact h
        · exact absurd h hne
        · exact absurd h hnlt
      rw [List.pairwise_cons]
      refine ⟨?_, ih h2 (fun q hq => hk q (List.mem_cons_of_mem _ hq))⟩
      intro q hq
      rcases List.mem_cons.mp ((map_put_perm bytes_lt rest k v).subset hq) with e | e
      · rw [e]; exact hgt
      · exact h1 q e

/-! ### The two maps after the deposits -/

/-- Answers with pairwise distinct start keys leave `_start_key_sort` sorted by
start key, with one entry per answer. -/
theorem deposit_keys_order :
    ∀ (l : List Answer) (acc : List (List Nat × Answer)),
      (∀ p ∈ acc, p.1 = p.2.start_key) → acc.Pairwise (fun p q => p.1 < q.1) →
      (acc.map Prod.fst ++ l.map Answer.start_key).Nodup →
      ∃ out : List (List Nat × Answer),
        deposit_keys (acc.map (fun p => (p.1, p.2.region_id))) l
          = out.map (fun p => (p.1, p.2.region_id))
        ∧ (∀ p ∈ out, p.1 = p.2.start_key) ∧ out.Pairwise (fun p q => p.1 < q.1)
        ∧ (out.map Prod.snd).Perm (acc.map Prod.snd ++ l) := by
  intro l
  induction l with
  | nil =>
    intro acc h1 h2 _
    exact ⟨acc, rfl, h1, h2, by simp⟩
  | cons a rest ih =>
    intro acc h1 h2 h3
    have hnd : (acc.map Prod.fst ++ a.start_key :: rest.map Answer.start_key).Nodup := h3
    have hfresh : a.start_key ∉ acc.map Prod.fst := by
      intro hmem
      rw [List.nodup_append] at hnd
      exact hnd.2.2 hmem (List.mem_cons_self _ _)
    have hkeys : map_keys (acc.map (fun p => (p.1, p.2.region_id))) = acc.map Prod.fst := by
      unfold map_keys
      rw [List.map_map]
      rfl
    have hstep : map_assign bytes_lt (acc.map (fun p => (p.1, p.2.region_id))) a.start_key
        a.region_id
        = (map_put bytes_lt acc a.start_key a).map (fun p => (p.1, p.2.region_id)) := by
      rw [map_assign_fresh _ _ _ _ (map_find_none_of_not_mem _ _ (by rw [hkeys]; exact hfresh))]
      exact map_put_map bytes_lt (fun x : Answer => x.region_id) acc a.start_key a
    have hperm := map_put_perm bytes_lt acc a.start_key a
    obtain ⟨out, o1, o2, o3, o4⟩ := ih (map_put bytes_lt acc a.start_key a)
      (by
        intro p hp
        rcases List.mem_cons.mp (hperm.subset hp) with e | e
        · rw [e]
        · exact h1 p e)
      (map_put_sorted acc a.start_key a h2 (by
        intro p hp e
        exact hfresh (e ▸ List.mem_map_of_mem Prod.fst hp)))
      (by
        have e1 : ((map_put bytes_lt acc a.start_key a).map Prod.fst
            ++ rest.map Answer.start_key).Perm
            (acc.map Prod.fst ++ a.start_key :: rest.map Answer.start_key) := by
          have := (hperm.map Prod.fst).append_right (rest.map Answer.start_key)
          refine this.trans ?_
          simp only [List.map_cons, List.cons_append]
          exact List.perm_middle.symm
        exact (e1.nodup_iff).mpr hnd)
    refine ⟨out, ?_, o2, o3, ?_⟩
    · show deposit_keys (map_assign bytes_lt _ a.start_key a.region_id) rest = _
      rw [hstep, o1]
    · refine o4.trans ?_
      have := (hperm.map Prod.snd).append_right rest
      refine this.trans ?_
      simp only [List.map_cons, List.cons_append]
      exact List.perm_middle.symm

theorem deposit_batches_other :
    ∀ (l : List Answer) (m : List (Int × Option RowBatch)) (id : Int),
      id ∉ l.map Answer.region_id →
      map_find (deposit_batches m l) id = map_find m id := by
  intro l
  induction l with
  | nil => intro m id _; rfl
  | cons a rest ih =>
    intro m id h
    have h1 : id ≠ a.region_id := fun e => h (by rw [e]; exact List.mem_cons_self _ _)
    have h2 : id ∉ rest.map Answer.region_id := fun e => h (List.mem_cons_of_mem _ e)
    show map_find (deposit_batches (map_assign int_lt m a.region_id (some a.batch)) rest) id = _
    rw [ih _ id h2, map_find_assign, if_neg h1]

/-- Answers with pairwise distinct region ids leave in `_region_batch` the
batch of each of them. -/
theorem deposit_batches_find :
    ∀ (l : List Answer) (m : List (Int × Option RowBatch)),
      (l.map Answer.region_id).Nodup →
      ∀ a ∈ l, map_find (deposit_batches m l) a.region_id = some (some a.batch) := by
  intro l
  induction l with
  | nil => intro m _ a ha; cases ha
  | cons x rest ih =>
    intro m hnd a ha
    rw [List.map_cons, List.nodup_cons] at hnd
    show map_find (deposit_batches (map_assign int_lt m x.region_id (some x.batch)) rest)
      a.region_id = _
    rcases List.mem_cons.mp ha with e | e
    · subst e
      rw [deposit_batches_other rest _ _ hnd.1, map_find_assign, if_pos rfl]
    · exact ih _ hnd.2 a e

theorem filterMap_nonempty (l : List Answer) :
    l.filterMap (fun a => if a.batch.length ≠ 0 then some a.batch else none)
      = (l.filter (fun a => decide (a.batch ≠ []))).map Answer.batch := by
  induction l with
  | nil => rfl
  | cons a rest ih =>
    by_cases h : a.batch = []
    · have e1 : (fun a : Answer => if a.batch.length ≠ 0 then some a.batch else none) a = none := by
        show (if a.batch.length ≠ 0 then some a.batch else none) = none
        rw [if_neg (by rw [h]; simp)]
      have e2 : ¬ (fun a : Answer => decide (a.batch ≠ [])) a = true := by
        show ¬ decide (a.batch ≠ []) = true
        simp [h]
      rw [List.filterMap_cons_none
          (f := fun a : Answer => if a.batch.length ≠ 0 then some a.batch else none) e1,
        List.filter_cons_of_neg (p := fun a : Answer => decide (a.batch ≠ [])) e2, ih]
    · have hlen : a.batch.length ≠ 0 := fun e => h (List.length_eq_zero.mp e)
      have e1 : (fun a : Answer => if a.batch.length ≠ 0 then some a.batch else none) a
          = some a.batch := by
        show (if a.batch.length ≠ 0 then some a.batch else none) = some a.batch
        rw [if_pos hlen]
      have e2 : (fun a : Answer => decide (a.batch ≠ [])) a = true := by
        show decide (a.batch ≠ []) = true
        simp [h]
      rw [List.filterMap_cons_some
          (f := fun a : Answer => if a.batch.length ≠ 0 then some a.batch else none) e1,
        List.filter_cons_of_pos (p := fun a : Answer => decide (a.batch ≠ [])) e2, ih,
        List.map_cons]

/-- What the loop over `_start_key_sort` hands to the sorter after answers with
pairwise distinct start keys and region ids: their batches that are not empty,
each once, in ascending order of the start keys. -/
theorem drained_answers (l : List Answer) (hk : (l.map Answer.start_key).Nodup)
    (hi : (l.map Answer.region_id).Nodup) :
    ∃ sorted : List Answer, sorted.Perm l
      ∧ sorted.Pairwise (fun a b => a.start_key < b.start_key)
      ∧ (deposit_keys [] l).filterMap (fun p => batch_of (deposit_batches [] l) p.2)
          = (sorted.filter (fun a => decide (a.batch ≠ []))).map Answer.batch := by
  obtain ⟨out, o1, o2, o3, o4⟩ := deposit_keys_order l [] (by intro p hp; cases hp)
    List.Pairwise.nil (by simpa using hk)
  have o1' : deposit_keys [] l = out.map (fun p => (p.1, p.2.region_id)) := o1
  have o4' : (out.map Prod.snd).Perm l := by simpa using o4
  refine ⟨out.map Prod.snd, o4', ?_, ?_⟩
  · rw [List.pairwise_map]
    refine List.Pairwise.imp_of_mem ?_ o3
    intro p q hp hq hlt
    rw [← o2 p hp, ← o2 q hq]
    exact hlt
  · rw [o1', List.filterMap_map, ← filterMap_nonempty, List.filterMap_map]
    apply List.filterMap_congr
    intro p hp
    have hmem : p.2 ∈ l := o4'.subset (List.mem_map_of_mem Prod.snd hp)
    show batch_of (deposit_batches [] l) p.2.region_id = _
    unfold batch_of
    rw [deposit_batches_find l [] hi p.2 hmem]
    rfl

/-! ## The answers of a dispatch and where their regions come from -/

theorem target_origin_mono {infos : List (Int × RegionInfo)} {t t1 : List Attempt} {a : Attempt}
    (hsub : ∀ b ∈ t, b ∈ t1) (h : TargetOrigin infos t a) : TargetOrigin infos t1 a := by
  rcases h with h | ⟨b, hb, res, r, h1, h2, h3, h4, h5⟩
  · exact Or.inl h
  · exact Or.inr ⟨b, hsub b hb, res, r, h1, h2, h3, h4, h5⟩

theorem target_origin_keys {m m1 : List (Int × RegionInfo)} {t : List Attempt} {a : Attempt}
    (hk : KeysSame m m1) (h : TargetOrigin m1 t a) : TargetOrigin m t a := by
  rcases h with ⟨info1, h1, h2⟩ | h
  · have e := hk a.region_id
    rw [h1] at e
    cases hm : map_find m a.region_id with
    | none =>
      rw [hm] at e
      cases e
    | some info =>
      rw [hm] at e
      have e2 : info1.start_key = info.start_key := by simpa using e
      exact Or.inl ⟨info, hm, h2.trans e2⟩
  · exact Or.inr h

theorem keys_same_trans {m m1 m2 : List (Int × RegionInfo)} (h1 : KeysSame m m1)
    (h2 : KeysSame m1 m2) : KeysSame m m2 :=
  fun rid => (h2 rid).trans (h1 rid)

/-- The request thread of one region: its attempts are made for that region,
under the start key the fragment has for it, or for regions a split has named;
the regions of the fragment keep their start keys. -/
theorem dispatch_region_traced (net : Nat → Reply) (rand : Nat → Nat) (region_id : Int)
    (w : World) :
    ∃ tr, Run net w tr (dispatch_region net rand region_id w).2
      ∧ (∀ a ∈ tr, TargetOrigin w.node._region_infos tr a)
      ∧ KeysSame w.node._region_infos
          (dispatch_region net rand region_id w).2.node._region_infos := by
  unfold dispatch_region
  split
  · exact ⟨[], Run.refl w, fun _ h => absurd h (List.not_mem_nil _), fun _ => rfl⟩
  · rename_i info hfind
    obtain ⟨⟨tr, htr, horig⟩, hkey⟩ := send_request_run net rand info
      (map_find w.node._insert_region_ids region_id) region_id w.state.log_id 0 w.state.seq_id w
    have hst := steps_static (send_request_steps net rand true info
      (map_find w.node._insert_region_ids region_id) region_id w.state.log_id 0 w.state.seq_id w
      (fun h => Bool.noConfusion h))
    have hinfos : (send_request net rand info (map_find w.node._insert_region_ids region_id)
        region_id w.state.log_id 0 w.state.seq_id w).2.2.node._region_infos
          = w.node._region_infos := congrArg Static.node_region_infos hst
    have horig2 : ∀ a ∈ tr, TargetOrigin w.node._region_infos tr a := by
      intro a ha
      rcases horig a ha with ⟨o1, o2⟩ | o
      · exact Or.inl ⟨info, by rw [o1]; exact hfind, o2⟩
      · exact Or.inr o
    have hks : KeysSame w.node._region_infos
        (map_assign int_lt (send_request net rand info
          (map_find w.node._insert_region_ids region_id) region_id w.state.log_id 0
          w.state.seq_id w).2.2.node._region_infos region_id
          (send_request net rand info (map_find w.node._insert_region_ids region_id)
            region_id w.state.log_id 0 w.state.seq_id w).2.1) := by
      intro rid
      rw [map_find_assign, hinfos]
      split
      · rename_i h
        rw [h, hfind]
        simp [hkey]
      · rfl
    refine ⟨tr, ?_, horig2, ?_⟩
    · simp only []
      split
      · split
        · exact Run.quiet htr ⟨rfl, rfl, rfl, rfl, rfl, rfl, rfl⟩
        · exact Run.quiet htr ⟨rfl, rfl, rfl, rfl, rfl, rfl, rfl⟩
      · exact Run.quiet htr ⟨rfl, rfl, rfl, rfl, rfl, rfl, rfl⟩
      · exact Run.quiet htr ⟨rfl, rfl, rfl, rfl, rfl, rfl, rfl⟩
    · simp only []
      split
      · split
        · exact hks
        · exact hks
      · exact hks
      · exact hks

/-- The attempts of the dispatch are made for regions of the fragment, under
the start keys the fragment has for them, or for regions a split has named. -/
theorem dispatch_traced (net : Nat → Reply) (rand : Nat → Nat) :
    ∀ (ids : List Int) (w : World), ∃ tr, Run net w tr (dispatch net rand ids w).2
      ∧ ∀ a ∈ tr, TargetOrigin w.node._region_infos tr a := by
  intro ids
  induction ids with
  | nil => intro w; exact ⟨[], Run.refl w, fun _ h => absurd h (List.not_mem_nil _)⟩
  | cons region_id rest ih =>
    intro w
    obtain ⟨t1, h1, o1, k1⟩ := dispatch_region_traced net rand region_id w
    rw [dispatch_cons]
    cases e : (dispatch_region net rand region_id w).1 with
    | some r => exact ⟨t1, h1, o1⟩
    | none =>
      obtain ⟨t2, h2, o2⟩ := ih (dispatch_region net rand region_id w).2
      refine ⟨t1 ++ t2, run_trans h1 h2, ?_⟩
      intro a ha
      rcases List.mem_append.mp ha with h | h
      · exact target_origin_mono (fun b hb => List.mem_append_left _ hb) (o1 a h)
      · exact target_origin_mono (fun b hb => List.mem_append_right _ hb)
          (target_origin_keys k1 (o2 a h))

/-! ### The answers recorded -/

theorem attempt_effect_answered (a : Attempt) (w : World)
    (hop : w.node._op_type = OpType.OP_SELECT) :
    (attempt_effect a w).answered = w.answered ++ answers [a] := by
  obtain ⟨info, rid, rt, req, reply⟩ := a
  cases reply with
  | init_failed => simp [attempt_effect, answers, answer_of, count_attempt]
  | rpc_failed => simp [attempt_effect, answers, answer_of, issue_rpc]
  | response res =>
    by_cases hc : res.errcode = ErrCode.SUCCESS
    · simp [attempt_effect, answers, answer_of, hc, hop, deposit_batch, issue_rpc]
    · simp [attempt_effect, answers, answer_of, hc, issue_rpc]

/-- For a SELECT, a run records the answers of the regions that answered
`SUCCESS`, in the order of their answers. -/
theorem run_answered {net : Nat → Reply} {w w1 : World} {tr : List Attempt}
    (h : Run net w tr w1) (hop : w.node._op_type = OpType.OP_SELECT) :
    w1.answered = w.answered ++ answers tr := by
  induction h with
  | refl => simp [answers]
  | quiet _ hq ih => exact hq.2.2.2.2.2.2.trans ih
  | attempt a hrun _ _ _ ih =>
    rw [attempt_effect_answered a _ ((run_op_type hrun).trans hop), ih, answers_append,
      List.append_assoc]

/-- The batches of the answers are the rows of the `SUCCESS` responses among
the replies, in order. -/
theorem answers_batches (tr : List Attempt) :
    (answers tr).map Answer.batch = (tr.map Attempt.reply).filterMap success_batch := by
  induction tr with
  | nil => rfl
  | cons a rest ih =>
    obtain ⟨info, rid, rt, req, reply⟩ := a
    have hcons : answers (⟨info, rid, rt, req, reply⟩ :: rest)
        = answers [⟨info, rid, rt, req, reply⟩] ++ answers rest := by
      rw [← answers_append]
      rfl
    rw [hcons, List.map_append, ih, List.map_cons, List.filterMap_cons]
    cases reply with
    | init_failed => simp [answers, answer_of, success_batch]
    | rpc_failed => simp [answers, answer_of, success_batch]
    | response res =>
      by_cases hc : res.errcode = ErrCode.SUCCESS
      · simp [answers, answer_of, success_batch, hc]
      · simp [answers, answer_of, success_batch, hc]

theorem push_cmd_to_cache_answered (w : World) :
    (push_cmd_to_cache w).2.answered = w.answered := by
  unfold push_cmd_to_cache
  split
  · rfl
  · split
    · rfl
    · cases h : cache_insert_records w with
      | none => rfl
      | some w1 =>
        simp only []
        unfold cache_insert_records at h
        split at h
        · split at h
          · split at h
            · cases h
            · cases h; rfl
          · cases h; rfl
        · cases h; rfl

theorem drain_step_answered (acc : World) (pair : List Nat × Int) :
    (drain_step acc pair).answered = acc.answered := by
  unfold drain_step
  simp only []
  split
  · split <;> rfl
  · rfl

theorem drain_batches_answered (w : World) : (drain_batches w).answered = w.answered := by
  unfold drain_batches
  generalize w.node._start_key_sort = l
  induction l generalizing w with
  | nil => rfl
  | cons p rest ih =>
    rw [List.foldl_cons]
    exact (ih (drain_step w p)).trans (drain_step_answered w p)

/-- For a SELECT the dispatch starts with the regions of the fragment and with
the answers recorded so far. -/
theorem dispatch_start_select (w : World) (hop : w.node._op_type = OpType.OP_SELECT) :
    (dispatch_start w).answered = w.answered
    ∧ (dispatch_start w).node._region_infos = w.node._region_infos := by
  have hsel : select_regions (clear_error w)
      = { clear_error w with node := { (clear_error w).node with sorter := [] } } := by
    unfold select_regions
    simp only []
    rw [if_neg]
    show ¬ (w.node._op_type = OpType.OP_ROLLBACK ∨ w.node._op_type = OpType.OP_PREPARE
      ∨ w.node._op_type = OpType.OP_COMMIT)
    rw [hop]
    decide
  have hdec : decide_1pc (select_regions (clear_error w)) = select_regions (clear_error w) := by
    unfold decide_1pc
    rw [if_neg]
    rintro ⟨h, _⟩
    rw [hsel] at h
    have : w.node._op_type = OpType.OP_PREPARE := h
    rw [hop] at this
    cases this
  unfold dispatch_start
  rw [hdec, hsel]
  exact ⟨rfl, rfl⟩

/-- An answer of a run is brought by one of its attempts, under the start key
and the id of the region the attempt is made for. -/
theorem answers_origin {tr : List Attempt} {a : Answer} (h : a ∈ answers tr) :
    ∃ t ∈ tr, a.start_key = t.info.start_key ∧ a.region_id = t.region_id := by
  unfold answers at h
  obtain ⟨t, ht, hat⟩ := List.mem_filterMap.mp h
  refine ⟨t, ht, ?_⟩
  unfold answer_of at hat
  split at hat
  · split at hat
    · cases hat
      exact ⟨rfl, rfl⟩
    · cases hat
  · cases hat

/-- The reply an attempt of a run meets is one the store gives during the
run. -/
theorem run_reply_index {net : Nat → Reply} {w w1 : World} {tr : List Attempt}
    (h : Run net w tr w1) {b : Attempt} (hb : b ∈ tr) :
    ∃ n, w.net_calls ≤ n ∧ n < w1.net_calls ∧ net n = b.reply := by
  have hr := run_replies h
  have hm : b.reply ∈ tr.map Attempt.reply := List.mem_map.mpr ⟨b, hb, rfl⟩
  rw [hr] at hm
  obtain ⟨n, hn, e⟩ := List.mem_map.mp hm
  rw [List.mem_range'_1] at hn
  refine ⟨n, hn.1, ?_, e⟩
  rw [run_net_calls h]
  exact hn.2

/-- A SELECT that targets no region returns with the answers recorded so far
and hands nothing to the sorter. -/
theorem open_early_select (net : Nat → Reply) (rand : Nat → Nat) (w : World)
    (hexpr : ∀ r ∈ w.node.expr_open, 0 ≤ r) (hop : w.node._op_type = OpType.OP_SELECT)
    (h1 : (send_region_ids_map (select_regions (clear_error w)).node._region_infos).length = 0) :
    (FetcherNode.open net rand false w).2.answered = w.answered
    ∧ (FetcherNode.open net rand false w).2.node.sorter = [] := by
  obtain ⟨_, _, _, _, so, _⟩ := select_regions_frame (clear_error w)
  have hsel : (select_regions (clear_error w)).node._op_type = OpType.OP_SELECT := by
    rw [so]; exact hop
  have hsorter : (select_regions (clear_error w)).node.sorter = [] := by
    unfold select_regions
    simp only []
    split <;> rfl
  have hans : (select_regions (clear_error w)).answered = w.answered := by
    unfold select_regions
    simp only []
    split <;> rfl
  unfold FetcherNode.open
  simp only [Bool.false_eq_true, if_false, show (clear_error w).node.expr_open
    = w.node.expr_open from rfl, expr_open_ok hexpr]
  rw [if_pos h1]
  have hnp : ¬ (push_cmd_to_cache (select_regions (clear_error w))).2.node._op_type
      = OpType.OP_PREPARE := by
    rw [(push_cmd_to_cache_frame _).2.2.2.1, hsel]
    decide
  simp only [if_neg hnp]
  rw [(push_cmd_to_cache_node _).2, hsorter, push_cmd_to_cache_answered, hans]
  exact ⟨rfl, rfl⟩

/-! ## C11 and C12: the latch of failures and the result of `open` -/

/-- C11, as stated, fails in its last part: no send_request of the dispatch
fails, and open still returns a negative value, which its caller reads as an
error. An UPDATE over two regions that report 1073741824 affected rows each
returns -2147483648, the sum 2147483648 reduced to the int that open returns;
an UPDATE whose region reports the count -1 returns -1. -/
theorem hard_failure_latch_counterexample :
    (∀ r ∈ open_rets ex_net_many_rows (fun _ => 0) ex_world_update_two, r.failed = false)
    ∧ (FetcherNode.open ex_net_many_rows (fun _ => 0) false ex_world_update_two).1
        = Ret.code (-2147483648)
    ∧ (∀ r ∈ open_rets ex_net_negative_rows (fun _ => 0)
          (ex_world OpType.OP_UPDATE false [(1, ex_r1)]), r.failed = false)
    ∧ (FetcherNode.open ex_net_negative_rows (fun _ => 0) false
          (ex_world OpType.OP_UPDATE false [(1, ex_r1)])).1 = Ret.code (-1) := by
  decide

/-- C11 (amended): with the connection present and the sort expressions opened,
if the send_request of any region returns a failure during the dispatch of
open, open returns -1; in that case, when the op is INSERT, UPDATE or DELETE,
state.seq_id is a member of need_rollback_seq afterwards, and when the op is of
any other type need_rollback_seq is unchanged. When no region fails,
need_rollback_seq is unchanged and open returns 0 for a SELECT and else the sum
of the affected rows reported with SUCCESS, reduced to the int it returns; that
value is not negative, so not an error, when no store reports a negative count
and the sum is at most 2147483647. -/
theorem hard_failure_latch (net : Nat → Reply) (rand : Nat → Nat) (w : World)
    (hexpr : ∀ r ∈ w.node.expr_open, 0 ≤ r) :
    ((∃ r ∈ open_rets net rand w, ∃ c, r = Ret.code c ∧ c < 0) →
      (FetcherNode.open net rand false w).1 = Ret.code (-1)
      ∧ (w.node._op_type = OpType.OP_INSERT ∨ w.node._op_type = OpType.OP_UPDATE
          ∨ w.node._op_type = OpType.OP_DELETE →
        w.state.seq_id ∈ (FetcherNode.open net rand false w).2.conn.need_rollback_seq)
      ∧ (¬ (w.node._op_type = OpType.OP_INSERT ∨ w.node._op_type = OpType.OP_UPDATE
          ∨ w.node._op_type = OpType.OP_DELETE) →
        (FetcherNode.open net rand false w).2.conn.need_rollback_seq
          = w.conn.need_rollback_seq))
    ∧ ((∀ r ∈ open_rets net rand w, r.failed = false) →
      (FetcherNode.open net rand false w).2.conn.need_rollback_seq = w.conn.need_rollback_seq
      ∧ (FetcherNode.open net rand false w).1
          = Ret.code (if w.node._op_type = OpType.OP_SELECT then 0
              else wrap32 (rows_between net w.net_calls
                (FetcherNode.open net rand false w).2.net_calls))
      ∧ ((∀ n res, net n = Reply.response res → res.errcode = ErrCode.SUCCESS →
              0 ≤ res.affected_rows) →
          rows_between net w.net_calls (FetcherNode.open net rand false w).2.net_calls
            ≤ 2147483647 →
          ∃ c, (FetcherNode.open net rand false w).1 = Ret.code c ∧ 0 ≤ c)) := by
  constructor
  · intro hfail
    by_cases h1 : (send_region_ids_map (select_regions (clear_error w)).node._region_infos).length
        = 0
    · obtain ⟨_, _, _, e⟩ := open_early net rand w hexpr (Or.inl h1)
      rw [e] at hfail
      obtain ⟨r, hr, _⟩ := hfail
      cases hr
    · by_cases h2 : (((select_regions (clear_error w)).node._op_type = OpType.OP_INSERT
            ∨ (select_regions (clear_error w)).node._op_type = OpType.OP_UPDATE
            ∨ (select_regions (clear_error w)).node._op_type = OpType.OP_DELETE)
          ∧ (select_regions (clear_error w)).state.autocommit = true
          ∧ (select_regions (clear_error w)).state.txn_id ≠ 0)
      · obtain ⟨_, _, _, e⟩ := open_early net rand w hexpr (Or.inr h2)
        rw [e] at hfail
        obtain ⟨r, hr, _⟩ := hfail
        cases hr
      · obtain ⟨hrets, hopen⟩ := open_dispatched net rand w hexpr h1 h2
        obtain ⟨_, _, f3, _, f5, f6, _, _, _⟩ := dispatch_start_frame w
        rw [hrets] at hfail
        obtain ⟨d1, d2⟩ := dispatch_failed net rand _ (dispatch_start w) hfail
        have hst := dispatch_session_static net rand
          (((send_region_ids_map (select_regions (clear_error w)).node._region_infos).map
            Prod.snd).flatten) (dispatch_start w)
        have e_marks := congrArg SessionStatic.need_rollback_seq hst
        have e_seq := congrArg SessionStatic.seq_id hst
        have e_op := congrArg SessionStatic.op_type hst
        simp only [session_static_of] at e_marks e_seq e_op
        rw [f5] at e_marks
        rw [f6] at e_seq
        rw [f3] at e_op
        rw [hopen d1]
        unfold open_finish
        rw [if_pos d2, e_op]
        split
        · rename_i hdml
          refine ⟨rfl, fun _ => ?_, fun h => absurd ?_ h⟩
          · show w.state.seq_id ∈ set_insert int_lt _ _
            rw [mem_set_insert, e_seq]
            exact Or.inl rfl
          · rcases hdml with h | h | h
            · exact Or.inl h
            · exact Or.inr (Or.inr h)
            · exact Or.inr (Or.inl h)
        · rename_i hdml
          refine ⟨rfl, fun h => absurd ?_ hdml, fun _ => e_marks⟩
          rcases h with h | h | h
          · exact Or.inl h
          · exact Or.inr (Or.inr h)
          · exact Or.inr (Or.inl h)
  · intro hok
    obtain ⟨e1, e2⟩ := open_success net rand w hexpr
      (fun r hr => (not_failed_iff r).mp (hok r hr))
    refine ⟨e2, e1, ?_⟩
    intro hpos hfit
    refine ⟨_, e1, ?_⟩
    split
    · exact le_refl _
    · have h0 := rows_between_nonneg net hpos w.net_calls
        (FetcherNode.open net rand false w).2.net_calls
      rw [wrap32_of_fits (by omega) hfit]
      exact h0

/-- The amended C11 at concrete inputs: an INSERT whose only region answers
with an error that is not retried makes open return -1 with the statement
marked for rollback; an INSERT whose region answers SUCCESS with one affected
row leaves the marks as they are and returns 1. -/
theorem hard_failure_latch_witness :
    ((FetcherNode.open ex_net_error (fun _ => 0) false
        (ex_world OpType.OP_INSERT false [(1, ex_r1)])).1 = Ret.code (-1)
      ∧ (ex_world OpType.OP_INSERT false [(1, ex_r1)]).state.seq_id
          ∈ (FetcherNode.open ex_net_error (fun _ => 0) false
              (ex_world OpType.OP_INSERT false [(1, ex_r1)])).2.conn.need_rollback_seq)
    ∧ (FetcherNode.open ex_net_ok (fun _ => 0) false
        (ex_world OpType.OP_INSERT false [(1, ex_r1)])).2.conn.need_rollback_seq
          = (ex_world OpType.OP_INSERT false [(1, ex_r1)]).conn.need_rollback_seq
    ∧ (FetcherNode.open ex_net_ok (fun _ => 0) false
        (ex_world OpType.OP_INSERT false [(1, ex_r1)])).1 = Ret.code 1
    ∧ ∃ c, (FetcherNode.open ex_net_ok (fun _ => 0) false
        (ex_world OpType.OP_INSERT false [(1, ex_r1)])).1 = Ret.code c ∧ 0 ≤ c :=
  ⟨⟨((hard_failure_latch ex_net_error (fun _ => 0)
        (ex_world OpType.OP_INSERT false [(1, ex_r1)]) (by decide)).1
        ⟨Ret.code (-1), by decide, -1, rfl, by decide⟩).1,
    ((hard_failure_latch ex_net_error (fun _ => 0)
        (ex_world OpType.OP_INSERT false [(1, ex_r1)]) (by decide)).1
        ⟨Ret.code (-1), by decide, -1, rfl, by decide⟩).2.1 (Or.inl rfl)⟩,
   ((hard_failure_latch ex_net_ok (fun _ => 0)
        (ex_world OpType.OP_INSERT false [(1, ex_r1)]) (by decide)).2 (by decide)).1,
   by decide,
   ((hard_failure_latch ex_net_ok (fun _ => 0)
        (ex_world OpType.OP_INSERT false [(1, ex_r1)]) (by decide)).2 (by decide)).2.2
      (fun n res hn _ => by
        have h : ex_ok = Reply.response res := hn
        unfold ex_ok at h
        cases h
        decide)
      (by decide)⟩

/-- C12, as stated, fails when the sum does not fit the int that open returns:
an UPDATE over two regions that report 1073741824 affected rows each, both with
SUCCESS, returns -2147483648, while the sum of the affected rows is
2147483648. -/
theorem open_result_counterexample :
    ex_world_update_two.node._op_type ≠ OpType.OP_SELECT
    ∧ (∀ r ∈ open_rets ex_net_many_rows (fun _ => 0) ex_world_update_two, r.failed = false)
    ∧ rows_between ex_net_many_rows ex_world_update_two.net_calls
        (FetcherNode.open ex_net_many_rows (fun _ => 0) false ex_world_update_two).2.net_calls
        = 2147483648
    ∧ (FetcherNode.open ex_net_many_rows (fun _ => 0) false ex_world_update_two).1
        = Ret.code (-2147483648)
    ∧ (FetcherNode.open ex_net_many_rows (fun _ => 0) false ex_world_update_two).1
        ≠ Ret.code (rows_between ex_net_many_rows ex_world_update_two.net_calls
            (FetcherNode.open ex_net_many_rows (fun _ => 0) false
              ex_world_update_two).2.net_calls) := by
  decide

/-- C12 (amended): with the connection present and the sort expressions opened,
when no send_request of the dispatch fails, open returns, for an op other than
SELECT, the sum of the affected_rows fields of all SUCCESS responses received
for this fragment, those of regions reached through split recursion included
(the responses among the replies to the attempts made between the entry of open
and its return), reduced to the 32-bit int that open returns: the sum itself
when it lies between -2147483648 and 2147483647. The sum starts from 0 for each
open call, whatever _affected_rows held before. For SELECT open returns 0. -/
theorem open_result (net : Nat → Reply) (rand : Nat → Nat) (w : World)
    (hexpr : ∀ r ∈ w.node.expr_open, 0 ≤ r)
    (hok : ∀ r ∈ open_rets net rand w, r.failed = false) :
    (w.node._op_type ≠ OpType.OP_SELECT →
      (FetcherNode.open net rand false w).1
          = Ret.code (wrap32 (rows_between net w.net_calls
              (FetcherNode.open net rand false w).2.net_calls))
        ∧ (-2147483648 ≤ rows_between net w.net_calls
              (FetcherNode.open net rand false w).2.net_calls →
            rows_between net w.net_calls (FetcherNode.open net rand false w).2.net_calls
              ≤ 2147483647 →
            (FetcherNode.open net rand false w).1
              = Ret.code (rows_between net w.net_calls
                  (FetcherNode.open net rand false w).2.net_calls)))
    ∧ (w.node._op_type = OpType.OP_SELECT →
      (FetcherNode.open net rand false w).1 = Ret.code 0) := by
  obtain ⟨e1, _⟩ := open_success net rand w hexpr
    (fun r hr => (not_failed_iff r).mp (hok r hr))
  constructor
  · intro hop
    rw [if_neg hop] at e1
    refine ⟨e1, fun h1 h2 => ?_⟩
    rw [wrap32_of_fits h1 h2] at e1
    exact e1
  · intro hop
    rw [e1, if_pos hop]

/-- The amended C12 at a concrete input: an INSERT whose region 1 has split in
two, each half reporting one affected row, returns 2, although _affected_rows
held 7 when open was entered. -/
theorem open_result_witness :
    (∀ r ∈ open_rets ex_net_split_once (fun _ => 0) ex_world_stale_rows, r.failed = false)
    ∧ ex_world_stale_rows.node._affected_rows = 7
    ∧ rows_between ex_net_split_once ex_world_stale_rows.net_calls
        (FetcherNode.open ex_net_split_once (fun _ => 0) false ex_world_stale_rows).2.net_calls = 2
    ∧ (FetcherNode.open ex_net_split_once (fun _ => 0) false ex_world_stale_rows).1
        = Ret.code (rows_between ex_net_split_once ex_world_stale_rows.net_calls
            (FetcherNode.open ex_net_split_once (fun _ => 0) false
              ex_world_stale_rows).2.net_calls) :=
  ⟨by decide, by decide, by decide,
   ((open_result ex_net_split_once (fun _ => 0) ex_world_stale_rows (by decide) (by decide)).1
     (by decide)).2 (by decide) (by decide)⟩

/-! ## C16: the batches handed to the sorter -/

/-- The dispatch leaves the batches handed to the sorter as they are. -/
theorem dispatch_sorter (net : Nat → Reply) (rand : Nat → Nat) (ids : List Int) (w : World) :
    (dispatch net rand ids w).2.node.sorter = w.node.sorter :=
  dispatch_rel net rand (fun a b => b.node.sorter = a.node.sorter)
    (fun _ => rfl) (fun _ _ _ h1 h2 => h2.trans h1)
    (fun _ _ h => congrArg Static.sorter (steps_static h))
    (fun _ _ => rfl) (fun _ => rfl) ids w

/-- The filter of lines 254-264 keeps the regions whose end key compares at
most equal to the end key of the region of the call. -/
theorem split_filter_eq (info : RegionInfo) (regions : List RegionInfo) :
    split_filter info regions
      = regions.filter (fun r => decide (end_key_compare r.end_key info.end_key ≤ 0)) := by
  unfold split_filter
  congr 1
  funext r
  by_cases h : end_key_compare r.end_key info.end_key > 0
  · simp [h]
  · simp [h, not_lt.mp h]

/-- The first call of the split loop is the call of its first pass; the
further calls are made if that call has not failed. -/
theorem split_calls_cons (self : SendFn) (res_leader : String) (records : Option (List String))
    (region_id : Int) (log_id : Nat) (retry_times start_seq_id : Int) (r : RegionInfo)
    (rest : List RegionInfo) (w : World) :
    ∃ c : SplitCall, c.region = r
      ∧ c.ret = (split_step self res_leader records region_id log_id retry_times start_seq_id r
          w).1
      ∧ c.exit = (split_step self res_leader records region_id log_id retry_times start_seq_id r
          w).2
      ∧ split_calls self res_leader records region_id log_id retry_times start_seq_id
          (r :: rest) w
        = c :: (if (split_step self res_leader records region_id log_id retry_times start_seq_id
              r w).1.failed then []
            else split_calls self res_leader records region_id log_id retry_times start_seq_id
              rest
              (split_step self res_leader records region_id log_id retry_times start_seq_id r
                w).2) := by
  by_cases h : r.region_id ≠ region_id
  · rw [split_calls, if_pos h, split_step_child _ _ _ _ _ _ _ _ _ h]
    exact ⟨⟨r, r, retry_times + 1, 1,
      (self r records r.region_id log_id (retry_times + 1) 1 (install_child r w)).1,
      (self r records r.region_id log_id (retry_times + 1) 1 (install_child r w)).2.2⟩,
      rfl, rfl, rfl, rfl⟩
  · rw [split_calls, if_neg h, split_step_parent _ _ _ _ _ _ _ _ _ (not_not.mp h)]
    exact ⟨⟨r, if res_leader ≠ "0.0.0.0:0" then { r with leader := res_leader } else r,
      retry_times + 1, start_seq_id,
      (self (if res_leader ≠ "0.0.0.0:0" then { r with leader := res_leader } else r) records
        (if res_leader ≠ "0.0.0.0:0" then { r with leader := res_leader } else r).region_id
        log_id (retry_times + 1) start_seq_id
        (narrow_parent region_id
          (if res_leader ≠ "0.0.0.0:0" then { r with leader := res_leader } else r) w)).1,
      (self (if res_leader ≠ "0.0.0.0:0" then { r with leader := res_leader } else r) records
        (if res_leader ≠ "0.0.0.0:0" then { r with leader := res_leader } else r).region_id
        log_id (retry_times + 1) start_seq_id
        (narrow_parent region_id
          (if res_leader ≠ "0.0.0.0:0" then { r with leader := res_leader } else r) w)).2.2⟩,
      rfl, rfl, rfl, rfl⟩

/-- The passes of the split loop take the regions in order, from the first. -/
theorem split_calls_in_order (self : SendFn) (res_leader : String) (records : Option (List String))
    (region_id : Int) (log_id : Nat) (retry_times start_seq_id : Int) (regions : List RegionInfo) :
    ∀ w : World,
      ((split_calls self res_leader records region_id log_id retry_times start_seq_id regions
        w).map SplitCall.region) <+: regions := by
  induction regions with
  | nil => intro w; exact List.prefix_refl _
  | cons r rest ih =>
    intro w
    obtain ⟨c, h1, _, _, h4⟩ := split_calls_cons self res_leader records region_id log_id
      retry_times start_seq_id r rest w
    rw [h4, List.map_cons, h1]
    split
    · exact (List.prefix_cons_inj r).mpr List.nil_prefix
    · exact (List.prefix_cons_inj r).mpr (ih _)

/-- Every call of the split loop but the last has succeeded. -/
theorem split_calls_dropLast (self : SendFn) (res_leader : String)
    (records : Option (List String)) (region_id : Int) (log_id : Nat)
    (retry_times start_seq_id : Int) (regions : List RegionInfo) :
    ∀ w : World, ∀ c ∈ (split_calls self res_leader records region_id log_id retry_times
        start_seq_id regions w).dropLast, c.ret.failed = false := by
  induction regions with
  | nil => intro w c hc; cases hc
  | cons r rest ih =>
    intro w c hc
    obtain ⟨c0, _, h2, _, h4⟩ := split_calls_cons self res_leader records region_id log_id
      retry_times start_seq_id r rest w
    rw [h4] at hc
    split at hc
    · cases hc
    · rename_i hf
      by_cases hnil : split_calls self res_leader records region_id log_id retry_times
          start_seq_id rest
          (split_step self res_leader records region_id log_id retry_times start_seq_id r w).2
          = []
      · rw [hnil] at hc
        cases hc
      · rw [List.dropLast_cons_of_ne_nil hnil] at hc
        rcases List.mem_cons.mp hc with h | h
        · rw [h, h2]
          simpa using hf
        · exact ih _ c h

/-- When every call of the split loop succeeds, the loop has made a call for
each region and returns 0 in the world its last call has left. -/
theorem split_loop_all_ok (self : SendFn) (res_leader : String) (records : Option (List String))
    (region_id : Int) (log_id : Nat) (retry_times start_seq_id : Int) (regions : List RegionInfo) :
    ∀ w : World,
      (∀ c ∈ split_calls self res_leader records region_id log_id retry_times start_seq_id
        regions w, c.ret.failed = false) →
      (split_calls self res_leader records region_id log_id retry_times start_seq_id regions
        w).map SplitCall.region = regions
      ∧ split_loop self res_leader records region_id log_id retry_times start_seq_id regions w
        = (Ret.code 0,
           (((split_calls self res_leader records region_id log_id retry_times start_seq_id
              regions w).getLast?).map SplitCall.exit).getD w) := by
  induction regions with
  | nil => intro w _; exact ⟨rfl, rfl⟩
  | cons r rest ih =>
    intro w hall
    obtain ⟨c0, h1, h2, h3, h4⟩ := split_calls_cons self res_leader records region_id log_id
      retry_times start_seq_id r rest w
    have hc0 : c0.ret.failed = false := hall c0 (by rw [h4]; exact List.mem_cons_self _ _)
    have hf : (split_step self res_leader records region_id log_id retry_times start_seq_id r
        w).1.failed = false := by rw [← h2]; exact hc0
    rw [h4, hf] at hall
    simp only [Bool.false_eq_true, if_false] at hall
    obtain ⟨i1, i2⟩ := ih _ (fun c hc => hall c (List.mem_cons_of_mem _ hc))
    rw [split_loop_cons, h4, hf]
    simp only [Bool.false_eq_true, if_false, List.map_cons]
    refine ⟨by rw [h1, i1], ?_⟩
    rw [i2]
    cases hl : split_calls self res_leader records region_id log_id retry_times start_seq_id
        rest (split_step self res_leader records region_id log_id retry_times start_seq_id r w).2
      with
    | nil => simp [h3]
    | cons c1 tl =>
      rw [List.getLast?_cons_cons]
      obtain ⟨x, hx⟩ : ∃ x, (c1 :: tl).getLast? = some x :=
        ⟨_, List.getLast?_eq_getLast _ (List.cons_ne_nil _ _)⟩
      rw [hx]
      rfl

/-- When the last call of the split loop has failed, the loop returns what
that call returned, in the world that call has left. -/
theorem split_loop_failed (self : SendFn) (res_leader : String) (records : Option (List String))
    (region_id : Int) (log_id : Nat) (retry_times start_seq_id : Int) (regions : List RegionInfo) :
    ∀ (w : World) (c : SplitCall),
      (split_calls self res_leader records region_id log_id retry_times start_seq_id regions
        w).getLast? = some c →
      c.ret.failed = true →
      split_loop self res_leader records region_id log_id retry_times start_seq_id regions w
        = (c.ret, c.exit) := by
  induction regions with
  | nil => intro w c hc; cases hc
  | cons r rest ih =>
    intro w c hc hfail
    obtain ⟨c0, _, h2, h3, h4⟩ := split_calls_cons self res_leader records region_id log_id
      retry_times start_seq_id r rest w
    rw [h4] at hc
    rw [split_loop_cons]
    split at hc
    · rename_i hf
      rw [if_pos hf]
      have hcc : c0 = c := by simpa using hc
      rw [← hcc, h2, h3]
    · rename_i hf
      rw [if_neg hf]
      cases hl : split_calls self res_leader records region_id log_id retry_times start_seq_id
          rest (split_step self res_leader records region_id log_id retry_times start_seq_id r w).2
        with
      | nil =>
        rw [hl] at hc
        have hcc : c0 = c := by simpa using hc
        rw [← hcc, h2] at hfail
        exact absurd hfail hf
      | cons c1 tl =>
        rw [hl, List.getLast?_cons_cons] at hc
        exact ih _ c (by rw [hl]; exact hc) hfail

/-- The split loop returns 0 exactly when it has made a call for every region
and every call has succeeded. -/
theorem split_loop_ok_iff (self : SendFn) (res_leader : String) (records : Option (List String))
    (region_id : Int) (log_id : Nat) (retry_times start_seq_id : Int) (regions : List RegionInfo)
    (w : World) :
    (split_loop self res_leader records region_id log_id retry_times start_seq_id regions w).1
        = Ret.code 0
      ↔ ((split_calls self res_leader records region_id log_id retry_times start_seq_id regions
            w).map SplitCall.region = regions
          ∧ ∀ c ∈ split_calls self res_leader records region_id log_id retry_times start_seq_id
              regions w, c.ret.failed = false) := by
  constructor
  · intro h0
    have hall : ∀ c ∈ split_calls self res_leader records region_id log_id retry_times
        start_seq_id regions w, c.ret.failed = false := by
      intro c hc
      cases hl : (split_calls self res_leader records region_id log_id retry_times start_seq_id
          regions w).getLast? with
      | none =>
        rw [List.getLast?_eq_none_iff.mp hl] at hc
        cases hc
      | some c1 =>
        have hc1 : c1.ret.failed = false := by
          cases hb : c1.ret.failed with
          | false => rfl
          | true =>
            have e := split_loop_failed self res_leader records region_id log_id retry_times
              start_seq_id regions w c1 hl hb
            rw [e] at h0
            simp only at h0
            rw [h0] at hb
            exact absurd hb (by decide)
        have happ := List.dropLast_append_getLast? c1 hl
        rw [← happ] at hc
        rcases List.mem_append.mp hc with h | h
        · exact split_calls_dropLast self res_leader records region_id log_id retry_times
            start_seq_id regions w c h
        · have : c = c1 := by simpa using h
          rw [this]; exact hc1
    exact ⟨(split_loop_all_ok self res_leader records region_id log_id retry_times start_seq_id
      regions w hall).1, hall⟩
  · rintro ⟨_, hall⟩
    rw [(split_loop_all_ok self res_leader records region_id log_id retry_times start_seq_id
      regions w hall).2]

/-- The calls of the split loop depend on the function called only through its
values at `retry_times + 1`. -/
theorem split_calls_congr (self1 self2 : SendFn) (res_leader : String)
    (records : Option (List String)) (region_id : Int) (log_id : Nat)
    (retry_times start_seq_id : Int)
    (h : ∀ info rid s w, self1 info records rid log_id (retry_times + 1) s w
      = self2 info records rid log_id (retry_times + 1) s w)
    (regions : List RegionInfo) :
    ∀ w : World,
      split_calls self1 res_leader records region_id log_id retry_times start_seq_id regions w
        = split_calls self2 res_leader records region_id log_id retry_times start_seq_id regions
            w := by
  induction regions with
  | nil => intro w; rfl
  | cons r rest ih =>
    intro w
    unfold split_calls
    simp only [h, ih]

/-- The start of the split branch tells the directory the kept regions. -/
theorem split_begin_schema_calls (regions : List RegionInfo) (w : World) :
    (split_begin regions w).schema_calls
      = w.schema_calls ++ [SchemaCall.update_regions regions] := by
  unfold split_begin schema_update_regions; simp only []; split <;> rfl

/-- An elementary change keeps the calls made to the directory so far. -/
theorem step_schema_calls_kept {b : Bool} {w w1 : World} (h : Step b w w1) :
    w.schema_calls <+: w1.schema_calls := by
  cases h with
  | draw => exact List.prefix_refl _
  | save region_id info =>
    unfold save_region_id; split <;> exact List.prefix_refl _
  | records => exact List.prefix_refl _
  | attempt => exact List.prefix_refl _
  | issue => exact List.prefix_refl _
  | adopt info region_id => exact List.prefix_append _ _
  | begin_split regions =>
    rw [split_begin_schema_calls]; exact List.prefix_append _ _
  | child r =>
    unfold install_child; split <;> exact List.prefix_refl _
  | parent region_id r =>
    unfold narrow_parent; split <;> exact List.prefix_refl _
  | mysql => exact List.prefix_refl _
  | affected => exact List.prefix_refl _
  | deposit => exact List.prefix_refl _

/-- A run of elementary changes keeps the calls made to the directory so
far. -/
theorem steps_schema_calls_kept {b : Bool} {w w1 : World} (h : Steps b w w1) :
    w.schema_calls <+: w1.schema_calls := by
  induction h with
  | refl => exact List.prefix_refl _
  | tail _ hstep ih => exact ih.trans (step_schema_calls_kept hstep)

/-- C21: on VERSION_OLD with at least 2 returned regions, send_request keeps
exactly the returned regions whose end key is at most the end key of the region
of the call under end_key_compare, in response order; it passes exactly those
to the update of the region directory, before any recursion; it recurses on
exactly those, one after another in response order, each recursion entered with
retry_times + 1 in the world the one before has left; it stops at the first
recursion that fails and returns what that recursion returned; and it returns
0 if and only if it has made a recursion for every kept region and every one
has succeeded. -/
theorem split_filter_serial_recursion (net : Nat → Reply) (rand : Nat → Nat)
    (info : RegionInfo) (records : Option (List String)) (region_id : Int) (log_id : Nat)
    (retry_times start_seq_id : Int) (w : World) (res : StoreRes)
    (herr : w.node._error = false) (hretry : retry_times < 5) (hpeers : info.peers ≠ [])
    (hnode : has_needed_insert_node w)
    (hnet : net w.net_calls = Reply.response res)
    (hcode : res.errcode = ErrCode.VERSION_OLD) (hregs : 2 ≤ res.regions.length) :
    ∃ (kept : List RegionInfo) (w0 : World) (calls : List SplitCall),
      kept = res.regions.filter (fun r => decide (end_key_compare r.end_key info.end_key ≤ 0))
      ∧ w0.schema_calls = w.schema_calls ++ [SchemaCall.update_regions kept]
      ∧ w0.net_calls = w.net_calls + 1
      ∧ (w.schema_calls ++ [SchemaCall.update_regions kept]) <+:
          (send_request net rand info records region_id log_id retry_times start_seq_id
            w).2.2.schema_calls
      ∧ calls = split_calls (send_request net rand) res.leader records region_id log_id
          retry_times (fix_start_seq_id w start_seq_id) kept w0
      ∧ (calls.map SplitCall.region) <+: kept
      ∧ (∀ c ∈ calls.dropLast, c.ret.failed = false)
      ∧ (∀ c, calls.getLast? = some c → c.ret.failed = true →
          (send_request net rand info records region_id log_id retry_times start_seq_id w).1
              = c.ret
            ∧ (send_request net rand info records region_id log_id retry_times start_seq_id
                w).2.2 = c.exit)
      ∧ ((∀ c ∈ calls, c.ret.failed = false) →
          calls.map SplitCall.region = kept
            ∧ (send_request net rand info records region_id log_id retry_times start_seq_id
                w).1 = Ret.code 0
            ∧ (send_request net rand info records region_id log_id retry_times start_seq_id
                w).2.2 = ((calls.getLast?).map SplitCall.exit).getD w0)
      ∧ ((send_request net rand info records region_id log_id retry_times start_seq_id w).1
            = Ret.code 0
          ↔ (calls.map SplitCall.region = kept ∧ ∀ c ∈ calls, c.ret.failed = false)) := by
  obtain ⟨info1, w4, rec0, hout, ⟨w1, hc⟩, _, hcalls4, _, _, hschema4, _⟩ :=
    send_request_first_attempt net rand info records region_id log_id retry_times
      start_seq_id w res herr hretry hpeers hnode hnet
  have hek : info1.end_key = info.end_key := by rw [choose_leader_info hc]
  have hfinal : send_request net rand info records region_id log_id retry_times start_seq_id w
      = ((split_loop (send_request_aux net rand (5 - retry_times).toNat) res.leader records
            region_id log_id retry_times (fix_start_seq_id w start_seq_id)
            (split_filter info res.regions)
            (split_begin (split_filter info res.regions) w4)).1,
          info1,
         (split_loop (send_request_aux net rand (5 - retry_times).toNat) res.leader records
            region_id log_id retry_times (fix_start_seq_id w start_seq_id)
            (split_filter info res.regions)
            (split_begin (split_filter info res.regions) w4)).2) := by
    rw [hout]
    unfold handle_response
    rw [hcode]
    simp only []
    unfold on_version_old
    simp only []
    rw [if_pos (by simpa using hregs), split_filter_end_key hek]
  have hcongr := split_calls_congr (send_request_aux net rand (5 - retry_times).toNat)
    (send_request net rand) res.leader records region_id log_id retry_times
    (fix_start_seq_id w start_seq_id)
    (fun i rid s v => send_request_aux_next net rand i records rid log_id retry_times s v hretry)
    (split_filter info res.regions) (split_begin (split_filter info res.regions) w4)
  have hsteps := split_loop_steps (send_request_aux_steps net rand true (5 - retry_times).toNat)
    res.leader records region_id log_id retry_times (fix_start_seq_id w start_seq_id)
    (split_filter info res.regions) (split_begin (split_filter info res.regions) w4)
  refine ⟨split_filter info res.regions, split_begin (split_filter info res.regions) w4, _,
    split_filter_eq info res.regions, ?_, ?_, ?_, rfl, ?_, ?_, ?_, ?_, ?_⟩
  · rw [split_begin_schema_calls, hschema4]
  · rw [split_begin_net_calls, hcalls4]
  · rw [hfinal]
    have := steps_schema_calls_kept hsteps
    rw [split_begin_schema_calls, hschema4] at this
    exact this
  · exact split_calls_in_order _ _ _ _ _ _ _ _ _
  · exact split_calls_dropLast _ _ _ _ _ _ _ _ _
  · intro c hl hf
    rw [← hcongr] at hl
    rw [hfinal, split_loop_failed _ _ _ _ _ _ _ _ _ c hl hf]
    exact ⟨rfl, rfl⟩
  · intro hall
    rw [← hcongr] at hall ⊢
    obtain ⟨e1, e2⟩ := split_loop_all_ok _ _ _ _ _ _ _ _ _ hall
    rw [hfinal, e2]
    exact ⟨e1, rfl, rfl⟩
  · rw [← hcongr, hfinal]
    exact split_loop_ok_iff _ _ _ _ _ _ _ _ _

/-- C21 at concrete inputs: region 1, which ends at key 9, answers an INSERT
with VERSION_OLD and three regions: the narrowed region 1 (up to 5), the new
region 2 (up to 9) and region 7 (up to 12). Region 7 is beyond the end key and
is dropped; the directory is told regions 1 and 2; the narrowed region 1 is
sent the request first and region 2 next, both succeed and the call returns 0.
When the narrowed region 1 answers with an error instead, region 2 is not sent
anything and the call returns -1. -/
theorem split_filter_serial_recursion_witness :
    ex_net_split_beyond (ex_world OpType.OP_INSERT false [(1, ex_r1)]).net_calls
        = Reply.response (ex_split_res [ex_region 1 2 [0] [5] "A", ex_region 2 2 [5] [9] "B",
            ex_region 7 1 [9] [12] "C"])
    ∧ (send_request ex_net_split_beyond (fun _ => 0) ex_r1 none 1 0 0 3
        (ex_world OpType.OP_INSERT false [(1, ex_r1)])).2.2.rpcs.map
          (fun rec => (rec.req.region_id, rec.retry_times)) = [(1, 0), (1, 1), (2, 1)]
    ∧ (send_request ex_net_split_then_error (fun _ => 0) ex_r1 none 1 0 0 3
        (ex_world OpType.OP_INSERT false [(1, ex_r1)])).1 = Ret.code (-1)
    ∧ (send_request ex_net_split_then_error (fun _ => 0) ex_r1 none 1 0 0 3
        (ex_world OpType.OP_INSERT false [(1, ex_r1)])).2.2.rpcs.map
          (fun rec => (rec.req.region_id, rec.retry_times)) = [(1, 0), (1, 1)]
    ∧ ∃ (w0 : World) (calls : List SplitCall),
        w0.schema_calls = [SchemaCall.update_regions
            [ex_region 1 2 [0] [5] "A", ex_region 2 2 [5] [9] "B"]]
        ∧ calls.map SplitCall.region = [ex_region 1 2 [0] [5] "A", ex_region 2 2 [5] [9] "B"]
        ∧ (∀ c ∈ calls, c.ret.failed = false)
        ∧ (send_request ex_net_split_beyond (fun _ => 0) ex_r1 none 1 0 0 3
            (ex_world OpType.OP_INSERT false [(1, ex_r1)])).1 = Ret.code 0 := by
  refine ⟨by decide, by decide, by decide, by decide, ?_⟩
  obtain ⟨kept, w0, calls, hk, hs, _, _, _, _, _, _, _, hiff⟩ :=
    split_filter_serial_recursion ex_net_split_beyond (fun _ => 0) ex_r1 none 1 0 0 3
      (ex_world OpType.OP_INSERT false [(1, ex_r1)])
      (ex_split_res [ex_region 1 2 [0] [5] "A", ex_region 2 2 [5] [9] "B",
        ex_region 7 1 [9] [12] "C"])
      (by decide) (by decide) (by decide) (by decide) (by decide) (by decide) (by decide)
  have hkept : kept = [ex_region 1 2 [0] [5] "A", ex_region 2 2 [5] [9] "B"] :=
    hk.trans (by decide)
  have h0 : (send_request ex_net_split_beyond (fun _ => 0) ex_r1 none 1 0 0 3
      (ex_world OpType.OP_INSERT false [(1, ex_r1)])).1 = Ret.code 0 := by decide
  obtain ⟨e1, e2⟩ := hiff.mp h0
  rw [hkept] at hs e1
  exact ⟨w0, calls, hs, e1, e2, h0⟩

/-! ## C22: the rotation of the leader on a failure that is retried -/

/-- The lambda of lines 77-90 on a region with peers: the draw is taken, the
leader becomes a peer other than the leader it replaces when there is one, and
stays when every peer is that leader; nothing else of the info changes. -/
theorem other_peer_to_leader_rotates (rand : Nat → Nat) (info : RegionInfo) (w : World)
    (h : info.peers ≠ []) :
    ∃ info2 : RegionInfo,
      other_peer_to_leader_func rand info w = some (info2, count_draw w)
      ∧ info2 = { info with leader := info2.leader }
      ∧ ((∃ p ∈ info.peers, p ≠ info.leader) →
          info2.leader ∈ info.peers ∧ info2.leader ≠ info.leader)
      ∧ ((∀ p ∈ info.peers, p = info.leader) → info2.leader = info.leader) := by
  have hlen : ¬ info.peers.length = 0 := fun h0 => h (List.length_eq_zero.mp h0)
  have hlt : rand w.rand_calls % info.peers.length < info.peers.length :=
    Nat.mod_lt _ (Nat.pos_of_ne_zero hlen)
  have hmem : info.peers.getD (rand w.rand_calls % info.peers.length) "" ∈ info.peers := by
    rw [List.getD_eq_getElem _ _ hlt]
    exact List.getElem_mem hlt
  unfold other_peer_to_leader_func rand_peer_func
  simp only [hlen, if_false]
  by_cases hp : info.peers.getD (rand w.rand_calls % info.peers.length) "" ≠ info.leader
  · rw [if_pos hp]
    exact ⟨_, rfl, rfl, fun _ => ⟨hmem, hp⟩, fun hall => absurd (hall _ hmem) hp⟩
  · rw [if_neg hp]
    cases hf : info.peers.find? (fun p => decide (p ≠ info.leader)) with
    | none =>
      refine ⟨info, rfl, rfl, ?_, fun _ => rfl⟩
      rintro ⟨p, hpm, hpne⟩
      have := List.find?_eq_none.mp hf p hpm
      simp only [ne_eq, decide_not, Bool.not_eq_true', decide_eq_false_iff_not, not_not] at this
      exact absurd this hpne
    | some p =>
      have h1 : p ≠ info.leader := by
        have := List.find?_some hf
        simpa using this
      have h2 : p ∈ info.peers := List.mem_of_find?_eq_some hf
      exact ⟨_, rfl, rfl, fun _ => ⟨h2, h1⟩, fun hall => absurd (hall _ h2) h1⟩

/-- The body of `send_request` reads `start_seq_id` only through the two
assignments of lines 117-124, so a value those assignments have produced is as
good as the value they were applied to. -/
theorem send_request_body_fix (net : Nat → Reply) (rand : Nat → Nat) (self : SendFn)
    (info : RegionInfo) (records : Option (List String)) (region_id : Int) (log_id : Nat)
    (retry_times start_seq_id : Int) (w v : World) (h : static_of w = static_of v) :
    send_request_body net rand self info records region_id log_id retry_times
        (fix_start_seq_id v start_seq_id) w
      = send_request_body net rand self info records region_id log_id retry_times
          start_seq_id w := by
  unfold send_request_body
  cases hc : choose_leader rand info w with
  | none => rfl
  | some p =>
    obtain ⟨info1, w1⟩ := p
    have static1 : static_of w1 = static_of w := choose_leader_static hc
    have e : fix_start_seq_id w1 (fix_start_seq_id v start_seq_id)
        = fix_start_seq_id w1 start_seq_id := by
      rw [fix_start_seq_id_static (static1.trans h), fix_start_seq_id_idem,
        ← fix_start_seq_id_static (static1.trans h)]
    simp only [e]

/-- A `send_request` entered with a `start_seq_id` that the assignments of
lines 117-124 have produced runs as the one entered with the value they were
applied to. -/
theorem send_request_fix (net : Nat → Reply) (rand : Nat → Nat)
    (info : RegionInfo) (records : Option (List String)) (region_id : Int) (log_id : Nat)
    (retry_times start_seq_id : Int) (w v : World) (h : static_of w = static_of v) :
    send_request net rand info records region_id log_id retry_times
        (fix_start_seq_id v start_seq_id) w
      = send_request net rand info records region_id log_id retry_times start_seq_id w := by
  rw [send_request_unfold, send_request_unfold]
  exact send_request_body_fix net rand _ info records region_id log_id retry_times start_seq_id
    w v h

/-- A `send_request` that is entered without error, with budget, for a region
with peers and with the INSERT node it needs, and whose first call fails in
transport, rotates the leader and goes on as the recursive call of line 213. -/
theorem send_request_first_attempt_failed (net : Nat → Reply) (rand : Nat → Nat)
    (info : RegionInfo) (records : Option (List String)) (region_id : Int) (log_id : Nat)
    (retry_times start_seq_id : Int) (w : World)
    (herr : w.node._error = false) (hretry : retry_times < 5) (hpeers : info.peers ≠ [])
    (hnode : has_needed_insert_node w)
    (hnet : net w.net_calls = Reply.rpc_failed) :
    ∃ (info1 : RegionInfo) (w4 : World) (rec : RpcRecord),
      send_request net rand info records region_id log_id retry_times start_seq_id w
        = on_region_not_exist rand (send_request_aux net rand (5 - retry_times).toNat) info1
            records region_id log_id retry_times (fix_start_seq_id w start_seq_id) w4
      ∧ (∃ w1, choose_leader rand info w = some (info1, w1))
      ∧ w4.rpcs = w.rpcs ++ [rec]
      ∧ static_of w4 = static_of w
      ∧ rec.retry_times = retry_times
      ∧ rec.addr = info1.leader
      ∧ rec.req.txn_info.start_seq_id = fix_start_seq_id w start_seq_id := by
  obtain ⟨info1, w1, hc⟩ := choose_leader_some rand info w hpeers
  obtain ⟨_, _, nd1, st1⟩ := choose_leader_conn hc
  obtain ⟨w3, hr, _⟩ := rewrite_insert_records_some records (save_region_id region_id info1 w1)
    (has_needed_insert_node_congr (by simp [nd1]) (by simp [st1]) hnode)
  have static1 : static_of w1 = static_of w := choose_leader_static hc
  have static3 : static_of w3 = static_of w := by
    rw [rewrite_insert_records_static hr, save_region_id_static, static1]
  have r3 : w3.rpcs = w.rpcs := by
    rw [rewrite_insert_records_rpcs hr, save_region_id_rpcs, choose_leader_rpcs hc]
  have n3 : w3.net_calls = w.net_calls := by
    rw [rewrite_insert_records_net_calls hr, save_region_id_net_calls, choose_leader_net_calls hc]
  refine ⟨info1, issue_rpc info1.leader
      (make_request w3 info1 region_id log_id (fix_start_seq_id w1 start_seq_id)) retry_times w3,
    ⟨info1.leader, make_request w3 info1 region_id log_id (fix_start_seq_id w1 start_seq_id),
      retry_times⟩, ?_, ⟨w1, hc⟩, ?_, ?_, rfl, rfl, ?_⟩
  · rw [send_request_unfold, ← fix_start_seq_id_static static1]
    unfold send_request_body on_region_not_exist
    simp only [herr, Bool.false_eq_true, if_false, ge_iff_le, not_le.mpr hretry, hc, hr, n3, hnet]
  · simp [r3]
  · rw [issue_rpc_static, static3]
  · show fix_start_seq_id w1 start_seq_id = _
    rw [fix_start_seq_id_static static1]

/-- C22: on a transport failure, and likewise on REGION_NOT_EXIST and
INTERNAL_ERROR, for every region info with a non-empty peer list and for every
value of the random draw, the rotation sets the leader guess to a member of
peers that differs from the previous leader (the address the failed call was
sent to) whenever such a peer exists, and leaves the leader unchanged when
every peer equals the previous leader; nothing else of the info changes. The
retry then runs with the rotated info, retry_times + 1 and the same
start_seq_id. -/
theorem leader_rotation (net : Nat → Reply) (rand : Nat → Nat)
    (info : RegionInfo) (records : Option (List String)) (region_id : Int) (log_id : Nat)
    (retry_times start_seq_id : Int) (w : World)
    (herr : w.node._error = false) (hretry : retry_times < 5) (hpeers : info.peers ≠ [])
    (hnode : has_needed_insert_node w)
    (hnet : net w.net_calls = Reply.rpc_failed
      ∨ ∃ res, net w.net_calls = Reply.response res
          ∧ (res.errcode = ErrCode.REGION_NOT_EXIST ∨ res.errcode = ErrCode.INTERNAL_ERROR)) :
    ∃ (info1 info2 : RegionInfo) (w4 : World) (rec : RpcRecord),
      (∃ w1, choose_leader rand info w = some (info1, w1))
      ∧ (info.leader ≠ "0.0.0.0:0" → info.leader ≠ "" → info1 = info)
      ∧ info1.peers = info.peers
      ∧ w4.rpcs = w.rpcs ++ [rec] ∧ rec.addr = info1.leader ∧ rec.retry_times = retry_times
      ∧ rec.req.txn_info.start_seq_id = fix_start_seq_id w start_seq_id
      ∧ other_peer_to_leader_func rand info1 w4 = some (info2, count_draw w4)
      ∧ info2 = { info1 with leader := info2.leader }
      ∧ ((∃ p ∈ info1.peers, p ≠ info1.leader) →
          info2.leader ∈ info1.peers ∧ info2.leader ≠ info1.leader)
      ∧ ((∀ p ∈ info1.peers, p = info1.leader) → info2.leader = info1.leader)
      ∧ send_request net rand info records region_id log_id retry_times start_seq_id w
          = send_request net rand info2 records region_id log_id (retry_times + 1) start_seq_id
              (count_draw w4)
      ∧ send_request net rand info records region_id log_id retry_times start_seq_id w
          = send_request net rand info2 records region_id log_id (retry_times + 1)
              (fix_start_seq_id w start_seq_id) (count_draw w4) := by
  -- the first call, up to the rotation
  have hfirst : ∃ (info1 : RegionInfo) (w4 : World) (rec : RpcRecord),
      send_request net rand info records region_id log_id retry_times start_seq_id w
        = on_region_not_exist rand (send_request_aux net rand (5 - retry_times).toNat) info1
            records region_id log_id retry_times (fix_start_seq_id w start_seq_id) w4
      ∧ (∃ w1, choose_leader rand info w = some (info1, w1))
      ∧ w4.rpcs = w.rpcs ++ [rec]
      ∧ static_of w4 = static_of w
      ∧ rec.retry_times = retry_times
      ∧ rec.addr = info1.leader
      ∧ rec.req.txn_info.start_seq_id = fix_start_seq_id w start_seq_id := by
    rcases hnet with hnet | ⟨res, hnet, hcode⟩
    · exact send_request_first_attempt_failed net rand info records region_id log_id
        retry_times start_seq_id w herr hretry hpeers hnode hnet
    · obtain ⟨info1, w4, rec, hout, hc, hrpcs4, _, hstatic4, _, _, _, _, _, a2, a3, a4, _⟩ :=
        send_request_first_attempt net rand info records region_id log_id retry_times
          start_seq_id w res herr hretry hpeers hnode hnet
      refine ⟨info1, w4, rec, ?_, hc, hrpcs4, hstatic4, a2, a3, a4⟩
      rw [hout]
      unfold handle_response
      rcases hcode with hcode | hcode <;> rw [hcode]
  obtain ⟨info1, w4, rec, hout, ⟨w1, hc⟩, hrpcs4, hstatic4, a2, a3, a4⟩ := hfirst
  have hinfo := choose_leader_info hc
  have hpeers1 : info1.peers = info.peers := by rw [hinfo]
  obtain ⟨info2, hrot, hshape, hdiff, hsame⟩ :=
    other_peer_to_leader_rotates rand info1 w4 (by rw [hpeers1]; exact hpeers)
  have hretry_eq : send_request net rand info records region_id log_id retry_times
      start_seq_id w
      = send_request net rand info2 records region_id log_id (retry_times + 1)
          (fix_start_seq_id w start_seq_id) (count_draw w4) := by
    rw [hout]
    unfold on_region_not_exist
    simp only [hrot]
    exact send_request_aux_next net rand info2 records region_id log_id retry_times _ _ hretry
  refine ⟨info1, info2, w4, rec, ⟨w1, hc⟩, ?_, hpeers1, hrpcs4, a3, a2, a4, hrot, hshape,
    hdiff, hsame, ?_, hretry_eq⟩
  · intro h1 h2
    have := @choose_leader_known rand info w h1 h2
    rw [hc] at this
    cases this
    rfl
  · rw [hretry_eq]
    exact send_request_fix net rand info2 records region_id log_id (retry_times + 1)
      start_seq_id (count_draw w4) w hstatic4

/-- C22 at concrete inputs: the first call for region 1, led by A with the
peers A, B and C, fails in transport; the draw 0 names A itself, so the
rotation takes the first other peer, B, and the retry goes to B with
retry_times 1 and the start_seq_id 3 of the failed call. After
REGION_NOT_EXIST with the draw 2 the retry goes to C. -/
theorem leader_rotation_witness :
    ex_net_failed_once (ex_world OpType.OP_INSERT false [(1, ex_r1)]).net_calls
        = Reply.rpc_failed
    ∧ (send_request ex_net_failed_once (fun _ => 0) ex_r1 none 1 0 0 3
        (ex_world OpType.OP_INSERT false [(1, ex_r1)])).2.2.rpcs.map
          (fun rec => (rec.addr, rec.retry_times, rec.req.txn_info.start_seq_id))
        = [("A", 0, 3), ("B", 1, 3)]
    ∧ (send_request ex_net_region_gone (fun _ => 2) ex_r1 none 1 0 0 3
        (ex_world OpType.OP_INSERT false [(1, ex_r1)])).2.2.rpcs.map
          (fun rec => (rec.addr, rec.retry_times, rec.req.txn_info.start_seq_id))
        = [("A", 0, 3), ("C", 1, 3)]
    ∧ ∃ (info2 : RegionInfo) (w4 : World),
        info2.leader ∈ ex_r1.peers ∧ info2.leader ≠ ex_r1.leader
        ∧ info2 = { ex_r1 with leader := info2.leader }
        ∧ send_request ex_net_failed_once (fun _ => 0) ex_r1 none 1 0 0 3
            (ex_world OpType.OP_INSERT false [(1, ex_r1)])
          = send_request ex_net_failed_once (fun _ => 0) info2 none 1 0 (0 + 1) 3
              (count_draw w4) := by
  refine ⟨by decide, by decide, by decide, ?_⟩
  obtain ⟨info1, info2, w4, rec, _, hknown, _, _, _, _, _, _, hshape, hdiff, _, hretry, _⟩ :=
    leader_rotation ex_net_failed_once (fun _ => 0) ex_r1 none 1 0 0 3
      (ex_world OpType.OP_INSERT false [(1, ex_r1)]) (by decide) (by decide) (by decide)
      (by decide) (Or.inl (by decide))
  have h1 : info1 = ex_r1 := hknown (by decide) (by decide)
  subst h1
  obtain ⟨d1, d2⟩ := hdiff ⟨"B", by decide, by decide⟩
  exact ⟨info2, w4, d1, d2, hshape, hretry⟩

end BaikalDB
